import Mathlib

/-!
# Amlogic SD/eMMC host controller driver (`drivers/amlogic/mmc/aml_sd_emmc.c`)

A shallow embedding of the command/descriptor pipeline, the transfer state
machine, the tuning engine, the clock/bus controller and the debug attribute of
the driver, and theorems about them. The sleep state machine of the CXD2837ER
demodulator driver (`drivers/amlogic/dvb_tv/cxd2837er.c`) is embedded in a
section of its own.

Conventions of the embedding.

* C structures are Lean structures whose fields keep the C names. The host
  (`struct amlsd_host`), its platform data (`struct amlsd_platform`), the
  file-level statics of the driver and the few fields of `struct mmc_host` the
  driver touches are gathered in one structure `Host`.
* Hardware registers that the driver overlays with bitfield structures are kept
  in decoded form; an assignment to a bitfield truncates to the width of the
  field. The headers declaring the bitfields are not part of the sources; the
  widths used are the ones the driver itself relies on through its masks
  (`clk_temp & 0x3f`, `bl_len & 0xf`, `bus_width & 0x3`, `gcfg & (1 << 2)`).
* Every assignment to a controller register is appended to `Host.writes`, and
  every call of `mmc_request_done` to `Host.done`.
* A failed `BUG_ON` or a NULL dereference sets `Host.oops` and ends the
  function at that point.
* Each handler (`aml_sd_emmc_request`, `aml_sd_emmc_irq`,
  `aml_sd_emmc_data_thread`, `aml_sd_emmc_timeout`) is one step on the host;
  the spin lock `mrq_lock` is not modelled.
* Left out of the state: the data buffers and their copies, the response words
  (`aml_sd_emmc_read_response`), logging, the pin and power hooks of the board
  (`xfer_pre`, `xfer_post`, `pwr_pre`, `pwr_on`, `pwr_off`), the signalling of
  SDIO interrupts and the pending state of delayed work.
* The tuning code hands its probes to `mmc_wait_for_req`; their request cycle
  goes through the MMC core and is not replayed on the host: the outcome of
  each probe, like the result of `kmalloc`, comes from an environment
  (`TuneEnv`). The `goto` loop of the tuning engine runs on fuel.
* Unsigned division is the division of `Nat`. A division by zero gives 0, as
  on the ARM targets of the driver (the `udiv` instruction of arm64; on 32-bit
  ARM the kernel's division helper reports the division and returns 0), and
  the function goes on.
* Build switches that a missing header defines are parameters (`BuildCfg`).
  The blocks under `CALIBRATION` and `CONFIG_MMC_AML_DEBUG` are left out, and
  `SD_EMMC_IRQ_EN_ALL_INIT` is taken as defined: the block under its `#ifndef`
  in `aml_sd_emmc_start_cmd` names variables the function does not declare.
-/

namespace AmlSdEmmc

/-! ## Constants of the kernel headers -/

def ENOMEDIUM : Int := 123
def ETIMEDOUT : Int := 110
def EILSEQ : Int := 84
def EINVAL : Int := 22

def MMC_STOP_TRANSMISSION : Nat := 12
def MMC_SEND_STATUS : Nat := 13
def MMC_READ_MULTIPLE_BLOCK : Nat := 18
def MMC_SEND_TUNING_BLOCK : Nat := 19
def MMC_SEND_TUNING_BLOCK_HS200 : Nat := 21
def MMC_SET_BLOCK_COUNT : Nat := 23
def MMC_WRITE_MULTIPLE_BLOCK : Nat := 25
def MMC_ERASE : Nat := 38

def MMC_RSP_PRESENT : Nat := 1
def MMC_RSP_136 : Nat := 2
def MMC_RSP_CRC : Nat := 4
def MMC_RSP_BUSY : Nat := 8

def MMC_DATA_WRITE : Nat := 256
def MMC_DATA_READ : Nat := 512

def MMC_BUS_WIDTH_1 : Nat := 0
def MMC_BUS_WIDTH_4 : Nat := 2
def MMC_BUS_WIDTH_8 : Nat := 3

def MMC_TIMING_UHS_DDR50 : Nat := 7
def MMC_TIMING_MMC_DDR52 : Nat := 8
def MMC_TIMING_MMC_HS400 : Nat := 10

def MMC_POWER_OFF : Nat := 0
def MMC_POWER_UP : Nat := 1
def MMC_POWER_ON : Nat := 2

def MMC_CS_DONTCARE : Nat := 0
def MMC_CS_HIGH : Nat := 1

/-- Clock source selectors: `0: Crystal 24MHz` (comment in
`aml_sd_emmc_reg_init`), the 1 GHz source is the next one. -/
def SD_EMMC_CLOCK_SRC_OSC : Nat := 0
def SD_EMMC_CLOCK_SRC_FCLK_DIV2 : Nat := 1

def SD_EMMC_IRQ_ALL : Nat := 0x3fff

/-- Retry count given to a command on the first timeout of an error episode
(a constant of the driver header). -/
def AML_TIMEOUT_RETRY_COUNTER : Nat := 2

/-- Test of a flag mask, the C expression `(flags & mask) != 0`. -/
def hasFlag (flags mask : Nat) : Bool := (flags &&& mask) != 0

/-- Conversion of an `int` to `unsigned int`: the value modulo 2^32. -/
def to_u32 (x : Int) : Nat := (x % 4294967296).toNat

/-- Conversion of an `unsigned int` to `int`: the two's complement reading. -/
def to_s32 (n : Nat) : Int :=
  if n % 4294967296 < 2147483648 then ((n % 4294967296 : Nat) : Int)
  else ((n % 4294967296 : Nat) : Int) - 4294967296

/-! ## Data model -/

/-- Values of `enum aml_mmc_waitfor`, the transfer state `host->xfer_step`. -/
inductive XferStep where
  | XFER_INIT
  | XFER_START
  | XFER_AFTER_START
  | XFER_IRQ_OCCUR
  | XFER_IRQ_TASKLET_CMD
  | XFER_IRQ_TASKLET_DATA
  | XFER_IRQ_TASKLET_BUSY
  | XFER_IRQ_UNKNOWN_IRQ
  | XFER_TIMER_TIMEOUT
  | XFER_TASKLET_CMD
  | XFER_TASKLET_DATA
  | XFER_FINISHED
deriving DecidableEq, Repr

/-- Values of `host->status` used by the driver. -/
inductive HostStatus where
  | HOST_INVALID
  | HOST_RSP_CRC_ERR
  | HOST_DAT_CRC_ERR
  | HOST_RSP_TIMEOUT_ERR
  | HOST_DAT_TIMEOUT_ERR
  | HOST_TASKLET_CMD
  | HOST_TASKLET_DATA
deriving DecidableEq, Repr

/-- Card type of a port, what `aml_card_type_mmc`, `aml_card_type_sd` and
`aml_card_type_sdio` test. -/
inductive CardType where
  | CARD_TYPE_UNKNOWN
  | CARD_TYPE_MMC
  | CARD_TYPE_SD
  | CARD_TYPE_SDIO
deriving DecidableEq, Repr

/-- Return values of the hard interrupt handler. -/
inductive IrqReturn where
  | IRQ_NONE
  | IRQ_HANDLED
  | IRQ_WAKE_THREAD
deriving DecidableEq, Repr

/-- Fields of `struct mmc_command` the driver reads or writes. -/
structure MmcCommand where
  opcode : Nat
  arg : Nat
  flags : Nat
  error : Int
  retries : Nat
deriving DecidableEq, Repr

/-- One scatter segment: its DMA address and length. -/
structure Scatter where
  dma_address : Nat
  length : Nat
deriving DecidableEq, Repr

/-- Fields of `struct mmc_data` the driver reads or writes. -/
structure MmcData where
  blksz : Nat
  blocks : Nat
  flags : Nat
  sg : List Scatter
  bytes_xfered : Nat
deriving DecidableEq, Repr

/-- A request: `mrq->cmd`, `mrq->data` (the same object as `mrq->cmd->data`)
and `mrq->stop`. -/
structure MmcRequest where
  cmd : MmcCommand
  data : Option MmcData
  stop : Option MmcCommand
deriving DecidableEq, Repr

/-- Decoded clock register (`struct sd_emmc_clock`): the divisor (6 bits), the
source selector (2 bits), the remaining bits, and the three phase fields
(2 bits each) that the debug attribute sets. -/
structure sd_emmc_clock where
  div : Nat
  src : Nat
  other : Nat
  core_phase : Nat := 0
  tx_phase : Nat := 0
  rx_phase : Nat := 0
deriving DecidableEq, Repr

/-- Decoded configuration register (`struct sd_emmc_config`). -/
structure sd_emmc_config where
  bus_width : Nat
  ddr : Bool
  bl_len : Nat
  chk_ds : Bool
  stop_clk : Bool
  other : Nat
deriving DecidableEq, Repr

/-- Decoded start register (`struct sd_emmc_start`). -/
structure sd_emmc_start where
  init : Bool
  busy : Bool
  addr : Nat
deriving DecidableEq, Repr

/-- Decoded adjust register (`struct sd_emmc_adjust`), the fields the tuning
engine programs, the remaining bits, and the two delay fields (4 bits each)
that the debug attribute sets. -/
structure sd_emmc_adjust where
  adj_delay : Nat
  adj_enable : Bool
  cali_enable : Bool
  cali_rise : Bool
  other : Nat
  cmd_delay : Nat := 0
  ds_delay : Nat := 0
deriving DecidableEq, Repr

/-- Decoded line-delay register (`struct sd_emmc_delay`): one delay of 4 bits
for each data line. -/
structure sd_emmc_delay where
  dat0 : Nat := 0
  dat1 : Nat := 0
  dat2 : Nat := 0
  dat3 : Nat := 0
  dat4 : Nat := 0
  dat5 : Nat := 0
  dat6 : Nat := 0
  dat7 : Nat := 0
deriving DecidableEq, Repr

/-- The register block `struct sd_emmc_regs`, as last written by the driver. -/
structure sd_emmc_regs where
  gclock : sd_emmc_clock
  gcfg : sd_emmc_config
  gstart : sd_emmc_start
  gstatus : Nat
  girq_en : Nat
  gadjust : sd_emmc_adjust
  gdelay : sd_emmc_delay := {}
deriving DecidableEq, Repr

/-- One assignment to a controller register. -/
inductive RegWrite where
  | gclock (v : sd_emmc_clock)
  | gcfg (v : sd_emmc_config)
  | gstart (v : sd_emmc_start)
  | gstatus (v : Nat)
  | girq_en (v : Nat)
  | gadjust (v : sd_emmc_adjust)
  | gdelay (v : sd_emmc_delay)
deriving DecidableEq, Repr

/-- One descriptor (`struct sd_emmc_desc_info`): the bitfields of its
`cmd_info` word (`struct cmd_cfg`) and its three other words. -/
structure sd_emmc_desc_info where
  length : Nat
  block_mode : Bool
  r1b : Bool
  end_of_chain : Bool
  timeout : Nat
  no_resp : Bool
  no_cmd : Bool
  data_io : Bool
  data_wr : Bool
  resp_nocrc : Bool
  resp_128 : Bool
  resp_num : Bool
  data_num : Bool
  cmd_index : Nat
  error : Bool
  owner : Bool
  cmd_arg : Nat
  data_addr : Nat
  resp_addr : Nat
deriving DecidableEq, Repr

/-- The descriptor `memset(desc_cur, 0, sizeof(struct sd_emmc_desc_info))`
leaves. -/
def desc_zero : sd_emmc_desc_info :=
  { length := 0, block_mode := false, r1b := false, end_of_chain := false,
    timeout := 0, no_resp := false, no_cmd := false, data_io := false,
    data_wr := false, resp_nocrc := false, resp_128 := false, resp_num := false,
    data_num := false, cmd_index := 0, error := false, owner := false,
    cmd_arg := 0, data_addr := 0, resp_addr := 0 }

/-- Build switches of the driver, and the descriptor index of the configuration
register `SD_EMMC_DESC_REG_CONF`. They are defined (or not) in a header that is
not part of the sources, so the embedding takes them as parameters. -/
structure BuildCfg where
  SD_EMMC_DESC_SET_REG : Bool
  SD_EMMC_MANUAL_CMD23 : Bool
  SD_EMMC_REQ_DMA_SGMAP : Bool
  SD_EMMC_DESC_REG_CONF : Nat
deriving DecidableEq, Repr

/-- The controller instance: `struct amlsd_host`, its `struct amlsd_platform`,
the statics of the file and the observable effects. -/
structure Host where
  /- struct amlsd_host -/
  mrq : Option MmcRequest
  xfer_step : XferStep
  xfer_step_prev : XferStep
  status : HostStatus
  cmd_is_stop : Bool
  init_flag : Bool
  is_gated : Bool
  is_tunning : Bool
  opcode : Nat
  arg : Nat
  sg_cnt : Nat
  dma_sts : Nat
  bn_dma_buf : Nat
  desc_dma_addr : Nat
  desc_buf : Nat → sd_emmc_desc_info
  regs : sd_emmc_regs
  /- struct amlsd_platform -/
  is_in : Bool
  card_type : CardType
  width : Nat
  clkc : sd_emmc_clock
  f_min : Nat
  f_max : Nat
  /- struct mmc_host -/
  actual_clock : Nat
  /- statics of the file -/
  sd_emmc_error_flag : Nat
  sd_emmc_err_bak : Nat
  timeout_cnt : Nat
  /- observable effects -/
  writes : List RegWrite
  done : List MmcRequest
  timeout_rearmed : Nat
  oops : Bool

/-- An idle host: the fields `aml_sd_emmc_init_host` sets at probe time
(`xfer_step`, `init_flag`, `is_gated`, `status`) and the divisor, source, bus
width and block length `aml_sd_emmc_reg_init` programs, for a port with the
given platform data; every other field and register bit is 0. -/
def host_boot (card_type : CardType) (is_in : Bool) (f_min f_max : Nat) : Host :=
  { mrq := none, xfer_step := XferStep.XFER_INIT, xfer_step_prev := XferStep.XFER_INIT,
    status := HostStatus.HOST_INVALID, cmd_is_stop := false, init_flag := true,
    is_gated := false, is_tunning := false, opcode := 0, arg := 0, sg_cnt := 0,
    dma_sts := 0, bn_dma_buf := 0, desc_dma_addr := 0, desc_buf := fun _ => desc_zero,
    regs := { gclock := { div := 60, src := 0, other := 0 },
              gcfg := { bus_width := 0, ddr := false, bl_len := 9, chk_ds := false,
                        stop_clk := false, other := 0 },
              gstart := { init := false, busy := false, addr := 0 },
              gstatus := 0, girq_en := 0,
              gadjust := { adj_delay := 0, adj_enable := false, cali_enable := false,
                           cali_rise := false, other := 0 } },
    is_in := is_in, card_type := card_type, width := 0,
    clkc := { div := 60, src := 0, other := 0 }, f_min := f_min, f_max := f_max,
    actual_clock := 0, sd_emmc_error_flag := 0, sd_emmc_err_bak := 0, timeout_cnt := 0,
    writes := [], done := [], timeout_rearmed := 0, oops := false }

/-! ## Clock/bus controller -/

/-- Assignment `sd_emmc_regs->gcfg = v`. -/
def write_gcfg (h : Host) (v : sd_emmc_config) : Host :=
  { h with regs := { h.regs with gcfg := v }, writes := h.writes ++ [RegWrite.gcfg v] }

/-- Assignment `sd_emmc_regs->gclock = v`. -/
def write_gclock (h : Host) (v : sd_emmc_clock) : Host :=
  { h with regs := { h.regs with gclock := v }, writes := h.writes ++ [RegWrite.gclock v] }

/-- The function `aml_sd_emmc_clk_switch_off`. -/
def aml_sd_emmc_clk_switch_off (h : Host) : Host :=
  if h.is_gated then h
  else
    let h1 := write_gcfg h { h.regs.gcfg with stop_clk := true }
    { h1 with is_gated := true }

/-- The function `aml_sd_emmc_clk_switch_on`. -/
def aml_sd_emmc_clk_switch_on (h : Host) (clk_div clk_src_sel : Nat) : Host :=
  let vcfg := h.regs.gcfg
  let h1 := write_gclock h { h.regs.gclock with div := clk_div % 64, src := clk_src_sel % 4 }
  let h2 := write_gcfg h1 { vcfg with stop_clk := false }
  { h2 with is_gated := false }

/-- The function `aml_sd_emmc_clk_switch`. -/
def aml_sd_emmc_clk_switch (h : Host) (clk_div clk_src_sel : Nat) : Host :=
  if !h.is_gated && h.regs.gclock.div == clk_div && h.regs.gclock.src == clk_src_sel then h
  else aml_sd_emmc_clk_switch_on (aml_sd_emmc_clk_switch_off h) clk_div clk_src_sel

/-- The function `aml_sd_emmc_set_clkc`. -/
def aml_sd_emmc_set_clkc (h : Host) : Host :=
  if !h.is_gated && h.clkc == h.regs.gclock then h
  else if h.is_gated then aml_sd_emmc_clk_switch h h.clkc.div h.clkc.src
  else write_gclock h h.clkc

/-- Source selection of `aml_sd_emmc_set_clk_rate`, from the requested clock. -/
def clk_src_sel_of (clk_ios : Nat) : Nat :=
  if clk_ios < 20000000 then SD_EMMC_CLOCK_SRC_OSC else SD_EMMC_CLOCK_SRC_FCLK_DIV2

/-- The `switch (clk_src_sel)` of `aml_sd_emmc_set_clk_rate`. -/
def clk_rate_of (clk_src_sel : Nat) : Nat :=
  if clk_src_sel = SD_EMMC_CLOCK_SRC_OSC then 24000000 else 1000000000

/-- The two clamping statements of `aml_sd_emmc_set_clk_rate`. -/
def clk_clamp (f_min f_max clk_ios : Nat) : Nat :=
  let c := if clk_ios > f_max then f_max else clk_ios
  if c < f_min then f_min else c

/-- The divisor `(clk_rate / clk_ios) + (!!(clk_rate % clk_ios))`. -/
def clk_div_of (clk_rate clk_ios : Nat) : Nat :=
  clk_rate / clk_ios + (if clk_rate % clk_ios != 0 then 1 else 0)

/-- The function `aml_sd_emmc_set_clk_rate`. -/
def aml_sd_emmc_set_clk_rate (h : Host) (clk_ios : Nat) : Host :=
  if clk_ios = 0 then aml_sd_emmc_clk_switch_off h
  else
    let clk_src_sel := clk_src_sel_of clk_ios
    let clk_ios := clk_clamp h.f_min h.f_max clk_ios
    let clk_rate := clk_rate_of clk_src_sel
    let clk_div := clk_div_of clk_rate clk_ios
    let h1 := aml_sd_emmc_clk_switch h clk_div clk_src_sel
    { h1 with clkc := h1.regs.gclock, actual_clock := clk_rate / clk_div }

/-- The function `aml_sd_emmc_set_timing`. The local `clk_div` is a `u8`. -/
def aml_sd_emmc_set_timing (h : Host) (timing : Nat) : Host :=
  let ctrl := h.regs.gcfg
  let clkc := h.regs.gclock
  if timing = MMC_TIMING_MMC_HS400 ∨ timing = MMC_TIMING_MMC_DDR52
      ∨ timing = MMC_TIMING_UHS_DDR50 then
    let ctrl := if timing = MMC_TIMING_MMC_HS400 then { ctrl with chk_ds := true } else ctrl
    let ctrl := { ctrl with ddr := true }
    let clk_div := clkc.div % 256
    let clk_div := if clk_div % 2 = 1 then (clk_div + 1) % 256 else clk_div
    let clkc := { clkc with div := (clk_div / 2) % 64 }
    let h1 := write_gclock h clkc
    let h2 := { h1 with clkc := h1.regs.gclock, actual_clock := 1000000000 / clk_div }
    write_gcfg h2 ctrl
  else
    write_gcfg h { ctrl with ddr := false }

/-- The function `aml_sd_emmc_set_bus_width`. -/
def aml_sd_emmc_set_bus_width (h : Host) (busw_ios : Nat) : Host :=
  let width :=
    if busw_ios = MMC_BUS_WIDTH_1 then 0
    else if busw_ios = MMC_BUS_WIDTH_4 then 1
    else if busw_ios = MMC_BUS_WIDTH_8 then 2
    else 0
  let h1 := { h with width := width }
  write_gcfg h1 { h.regs.gcfg with bus_width := width % 4 }

/-- The argument of `aml_sd_emmc_set_ios`. -/
structure MmcIos where
  power_mode : Nat
  clock : Nat
  bus_width : Nat
  timing : Nat
  chip_select : Nat
deriving DecidableEq, Repr

/-- The function `aml_sd_emmc_set_ios`. The power hooks of the board
(`pwr_pre`, `pwr_on`, `pwr_off`) and the chip-select helpers act on pins, not
on the controller, and leave the host as it is. -/
def aml_sd_emmc_set_ios (h : Host) (ios : MmcIos) : Host :=
  if !h.is_in then h
  else
    let h1 := aml_sd_emmc_set_clk_rate h ios.clock
    let h2 := aml_sd_emmc_set_bus_width h1 ios.bus_width
    aml_sd_emmc_set_timing h2 ios.timing

/-! ## Descriptor builder -/

/-- Loop of `log2i`, at most 32 rounds on a 32-bit value; `ret` is unsigned. -/
def log2i_loop : Nat → Nat → Nat → Nat
  | 0, _, ret => ret
  | fuel + 1, val, ret =>
    if val = 0 then ret else log2i_loop fuel (val / 2) ((ret + 1) % 4294967296)

/-- The function `log2i`: `ret` starts at `(unsigned)-1`. -/
def log2i (val : Nat) : Nat := log2i_loop 32 (val % 4294967296) 4294967295

/-- The descriptor buffer `host->desc_buf` together with the two cursors of
the builder: `cur` is the index of `desc_cur`, `cmd` the index of the entry
`des_cmd_cur` points into, `cnt` is `desc_cnt` (unsigned, 32 bits). -/
structure Chain where
  buf : Nat → sd_emmc_desc_info
  cur : Nat
  cmd : Nat
  cnt : Nat

/-- Assignments through `des_cmd_cur` or `desc_cur` to the entry at index `i`. -/
def Chain.modify (c : Chain) (i : Nat) (f : sd_emmc_desc_info → sd_emmc_desc_info) : Chain :=
  { c with buf := Function.update c.buf i (f (c.buf i)) }

/-- The statement `memset(desc_cur, 0, sizeof(struct sd_emmc_desc_info))`. -/
def Chain.memset (c : Chain) : Chain :=
  { c with buf := Function.update c.buf c.cur desc_zero }

/-- The statements `desc_cnt++; desc_cur++; memset(desc_cur, 0, ...)`. -/
def Chain.advance (c : Chain) : Chain :=
  Chain.memset { c with cur := c.cur + 1, cnt := (c.cnt + 1) % 4294967296 }

/-- Body of the `for_each_sg` loop of `aml_sd_emmc_pre_dma` for one segment.
The state is the chain (whose `cnt` is the local `desc_cnt` of the function)
and `host->dma_sts`. -/
def pre_dma_sg (data_rw block_mode : Bool) (bl_len bn_dma_buf : Nat)
    (st : Chain × Nat) (sg : Scatter) : Chain × Nat :=
  let c := st.1
  let dma_sts := st.2
  let data_len := if block_mode then sg.length >>> bl_len else sg.length
  let c1 := Chain.modify c c.cur (fun d =>
    let d := if c.cnt != 0 then { d with no_resp := true, no_cmd := true } else d
    { d with data_io := true, owner := true, timeout := 0xc, data_wr := data_rw,
             block_mode := block_mode, data_num := false, length := data_len % 512 })
  let unaligned := (sg.dma_address &&& 0x7) != 0
  let dma_sts := if unaligned then (dma_sts ||| 2) ||| 8 else dma_sts
  let c2 := Chain.modify c1 c1.cur (fun d =>
    { d with data_addr := if unaligned then bn_dma_buf else sg.dma_address })
  (Chain.advance c2, dma_sts)

/-- Result of `aml_sd_emmc_pre_dma`: the chain, `host->sg_cnt` (also the
return value) and `host->dma_sts`. -/
structure PreDma where
  chain : Chain
  sg_cnt : Nat
  dma_sts : Nat

/-- The function `aml_sd_emmc_pre_dma`, entered with `desc` at `c.cur`.
`dma_map_sg` maps every segment: `host->sg_cnt` is the number of segments. -/
def aml_sd_emmc_pre_dma (bn_dma_buf old_dma_sts : Nat) (data : MmcData) (c : Chain) : PreDma :=
  let data_rw := !hasFlag data.flags MMC_DATA_READ
  let sg_cnt := data.sg.length
  if sg_cnt = 0 then { chain := c, sg_cnt := sg_cnt, dma_sts := old_dma_sts }
  else
    let data_size := (data.blksz * data.blocks) % 4294967296
    let block_mode := decide (data.blocks > 1) || decide (data.blksz ≥ 512)
    let bl_len := if block_mode then log2i data.blksz % 256 else 0
    let dma_sts := if (data_size &&& 0x3) != 0 && decide (sg_cnt > 1) then 1 else 0
    let r := data.sg.foldl (pre_dma_sg data_rw block_mode bl_len bn_dma_buf)
      ({ c with cnt := 0 }, dma_sts)
    { chain := { r.1 with cnt := c.cnt, cmd := c.cmd }, sg_cnt := sg_cnt, dma_sts := r.2 }

/-- The local `block_mode` of `aml_sd_emmc_pre_dma`. -/
def pre_dma_block_mode (data : MmcData) : Bool :=
  decide (data.blocks > 1) || decide (data.blksz ≥ 512)

/-- The local `bl_len` of `aml_sd_emmc_pre_dma`, an `unsigned char`. -/
def pre_dma_bl_len (data : MmcData) : Nat :=
  if pre_dma_block_mode data then log2i data.blksz % 256 else 0

/-- The local `data_len` of `aml_sd_emmc_pre_dma` for one segment. -/
def pre_dma_data_len (data : MmcData) (sg : Scatter) : Nat :=
  if pre_dma_block_mode data then sg.length >>> pre_dma_bl_len data else sg.length

/-- What `aml_sd_emmc_start_cmd` computes besides the register writes: the
chain, the updated copy `vconf` of the configuration register, `conf_flag`,
and the two host fields `aml_sd_emmc_pre_dma` sets. -/
structure Built where
  chain : Chain
  vconf : sd_emmc_config
  conf_flag : Nat
  sg_cnt : Nat
  dma_sts : Nat

/-- The config-update entry of `aml_sd_emmc_start_cmd` (build switch
`SD_EMMC_DESC_SET_REG`). -/
def chain_conf_entry (cfg : BuildCfg) (vconf : sd_emmc_config) (c : Chain) : Chain :=
  let c1 := Chain.modify c c.cur (fun d =>
    { d with owner := true, end_of_chain := false, no_cmd := true, data_io := false,
             cmd_index := cfg.SD_EMMC_DESC_REG_CONF % 64,
             cmd_arg := ((vconf.bl_len &&& 0xf) <<< 4) ||| (vconf.bus_width &&& 0x3),
             data_addr := (0xf <<< 4) ||| 0x3 })
  Chain.advance c1

/-- The CMD23 entry of `aml_sd_emmc_start_cmd` (build switch
`SD_EMMC_MANUAL_CMD23`). -/
def chain_cmd23_entry (blocks : Nat) (c : Chain) : Chain :=
  let c1 := Chain.modify c c.cur (fun d =>
    { d with cmd_index := MMC_SET_BLOCK_COUNT, no_resp := false, r1b := false,
             resp_num := true, data_io := false, timeout := 0xc, owner := true,
             end_of_chain := false, cmd_arg := blocks % 4294967296, resp_addr := 0 })
  Chain.advance c1

/-- The command entry of `aml_sd_emmc_start_cmd`: index, response mode,
argument and timeout class. -/
def chain_cmd_entry (mrq : MmcRequest) (c : Chain) : Chain :=
  let c0 := { c with cmd := c.cur }
  Chain.modify c0 c0.cmd (fun d =>
    let d := { d with cmd_index := mrq.cmd.opcode % 64, error := false, owner := true,
                      end_of_chain := false }
    let d :=
      if hasFlag mrq.cmd.flags MMC_RSP_PRESENT then
        let d := { d with no_resp := false }
        let d := if hasFlag mrq.cmd.flags MMC_RSP_136 then { d with resp_128 := true } else d
        let d := { d with resp_num := true, resp_addr := 0 }
        let d := if hasFlag mrq.cmd.flags MMC_RSP_BUSY then { d with r1b := true } else d
        if !hasFlag mrq.cmd.flags MMC_RSP_CRC then { d with resp_nocrc := true } else d
      else { d with no_resp := true }
    { d with cmd_arg := mrq.cmd.arg % 4294967296,
             timeout := if mrq.data.isNone then 0xa else 0xc })

/-- Data fields of the command entry when the bounce buffer is used (build
switch `SD_EMMC_REQ_DMA_SGMAP` off). -/
def chain_data_inline (bn_dma_buf : Nat) (data : MmcData) (c : Chain) : Chain :=
  Chain.modify c c.cmd (fun d =>
    let d := { d with timeout := 0xc, data_io := true }
    let d :=
      if data.blocks > 1 then { d with block_mode := true, length := data.blocks % 512 }
      else { d with block_mode := false, length := data.blksz % 512 }
    let d :=
      if (data.blksz * data.blocks) % 4294967296 > 0 then
        { d with data_num := false, data_addr := bn_dma_buf - bn_dma_buf % 2 }
      else { d with data_num := true }
    { d with data_wr := hasFlag data.flags MMC_DATA_WRITE })

/-- Condition under which `aml_sd_emmc_start_cmd` appends a STOP entry. -/
def stop_appended (cfg : BuildCfg) (cmd_is_stop : Bool) (mrq : MmcRequest) : Bool :=
  !cfg.SD_EMMC_MANUAL_CMD23 && mrq.data.isSome
    && (mrq.cmd.opcode == MMC_WRITE_MULTIPLE_BLOCK || mrq.cmd.opcode == MMC_READ_MULTIPLE_BLOCK)
    && !cmd_is_stop && !hasFlag mrq.cmd.flags (1 <<< 30)

/-- The appended STOP entry of `aml_sd_emmc_start_cmd`. -/
def chain_stop_entry (c : Chain) : Chain :=
  let c1 := Chain.advance c
  let c2 := { c1 with cmd := c1.cur }
  Chain.modify c2 c2.cmd (fun d =>
    { d with cmd_index := MMC_STOP_TRANSMISSION, no_resp := false, r1b := true,
             resp_num := true, data_io := false, timeout := 0xc, owner := true,
             resp_addr := 0 })

/-- The two checks of `aml_sd_emmc_start_cmd` on the configuration register
(bus width, block length): the updated copy `vconf` and `conf_flag`. -/
def start_cmd_conf (h : Host) (vconf : sd_emmc_config) (mrq : MmcRequest) :
    sd_emmc_config × Nat :=
  /- check bus width -/
  let f0 := if vconf.bus_width != h.width then 1 else 0
  let vconf := if vconf.bus_width != h.width then { vconf with bus_width := h.width % 4 } else vconf
  /- check package size -/
  let f1 := match mrq.data with
    | some data => if vconf.bl_len != log2i data.blksz then 2 else 0
    | none => 0
  let vconf := match mrq.data with
    | some data =>
      if vconf.bl_len != log2i data.blksz then { vconf with bl_len := log2i data.blksz % 16 }
      else vconf
    | none => vconf
  (vconf, f0 ||| f1)

/-- The block `if (conf_flag)` of `aml_sd_emmc_start_cmd`, descriptor side. -/
def stage_conf (cfg : BuildCfg) (vconf : sd_emmc_config) (conf_flag : Nat) (c : Chain) : Chain :=
  if conf_flag != 0 && cfg.SD_EMMC_DESC_SET_REG then chain_conf_entry cfg vconf c else c

/-- The block under `SD_EMMC_MANUAL_CMD23` of `aml_sd_emmc_start_cmd`. Its test
names `MMC_WRITE_MULTIPLE_BLOCK` twice. -/
def stage_cmd23 (cfg : BuildCfg) (mrq : MmcRequest) (c : Chain) : Chain :=
  match mrq.data with
  | some data =>
    if cfg.SD_EMMC_MANUAL_CMD23 && (mrq.cmd.opcode == MMC_WRITE_MULTIPLE_BLOCK
        || mrq.cmd.opcode == MMC_WRITE_MULTIPLE_BLOCK) then chain_cmd23_entry data.blocks c
    else c
  | none => c

/-- The block `if (mrq->cmd->data) ... else ...` of `aml_sd_emmc_start_cmd`
up to the test for the STOP entry: the data entries. With
`SD_EMMC_REQ_DMA_SGMAP` the cursor moves by `sg_len - 1`, an unsigned value. -/
def stage_data (cfg : BuildCfg) (h : Host) (mrq : MmcRequest) (c : Chain) : PreDma :=
  match mrq.data with
  | some data =>
    if cfg.SD_EMMC_REQ_DMA_SGMAP then
      let p := aml_sd_emmc_pre_dma h.bn_dma_buf h.dma_sts data c
      { p with chain :=
          { p.chain with
              cnt := (c.cnt + (p.sg_cnt + 4294967295) % 4294967296) % 4294967296,
              cur := c.cur + (p.sg_cnt + 4294967295) % 4294967296 } }
    else { chain := chain_data_inline h.bn_dma_buf data c, sg_cnt := h.sg_cnt,
           dma_sts := h.dma_sts }
  | none =>
    { chain := Chain.modify c c.cmd (fun d => { d with data_io := false, timeout := 0xa }),
      sg_cnt := h.sg_cnt, dma_sts := h.dma_sts }

/-- The descriptor part of `aml_sd_emmc_start_cmd` from the first `memset`
through the data fields, before a STOP entry is appended. -/
def start_cmd_body (cfg : BuildCfg) (h : Host) (vconf : sd_emmc_config)
    (mrq : MmcRequest) : Built :=
  let c : Chain := Chain.memset { buf := h.desc_buf, cur := 0, cmd := 0, cnt := 0 }
  let c := { c with cnt := 1 }
  let vc := start_cmd_conf h vconf mrq
  let c := stage_conf cfg vc.1 vc.2 c
  let c := stage_cmd23 cfg mrq c
  let c := chain_cmd_entry mrq c
  let r := stage_data cfg h mrq c
  { chain := r.chain, vconf := vc.1, conf_flag := vc.2, sg_cnt := r.sg_cnt,
    dma_sts := r.dma_sts }

/-- The timeout classes of CMD13 and CMD38, set through `des_cmd_cur`. -/
def chain_timeouts (opcode : Nat) (c : Chain) : Chain :=
  let c := if opcode = MMC_SEND_STATUS then
      Chain.modify c c.cmd (fun d => { d with timeout := 0xb }) else c
  if opcode = MMC_ERASE then
      Chain.modify c c.cmd (fun d => { d with timeout := 0xf }) else c

/-- The end of the descriptor part of `aml_sd_emmc_start_cmd`: the timeout
classes of CMD13 and CMD38 and the statement that sets `end_of_chain` on the
entry `desc_cur` points to. -/
def chain_finish (opcode : Nat) (c : Chain) : Chain :=
  let c := chain_timeouts opcode c
  /- Set end_of_chain -/
  let c := { c with cmd := c.cur }
  Chain.modify c c.cmd (fun d => { d with end_of_chain := true })

/-- The descriptor part of `aml_sd_emmc_start_cmd`, from the first `memset` to
the statement that sets `end_of_chain`. -/
def start_cmd_build (cfg : BuildCfg) (h : Host) (vconf : sd_emmc_config)
    (mrq : MmcRequest) : Built :=
  let b := start_cmd_body cfg h vconf mrq
  let c := if stop_appended cfg h.cmd_is_stop mrq then chain_stop_entry b.chain else b.chain
  { b with chain := chain_finish mrq.cmd.opcode c }

/-- Assignment `sd_emmc_regs->gstart = v`. -/
def write_gstart (h : Host) (v : sd_emmc_start) : Host :=
  { h with regs := { h.regs with gstart := v }, writes := h.writes ++ [RegWrite.gstart v] }

/-- Assignment `sd_emmc_regs->gstatus = v`. -/
def write_gstatus (h : Host) (v : Nat) : Host :=
  { h with regs := { h.regs with gstatus := v }, writes := h.writes ++ [RegWrite.gstatus v] }

/-- The function `aml_sd_emmc_start_cmd`. The configuration register is read
into `vconf` on entry, before `aml_sd_emmc_set_clkc` runs. -/
def aml_sd_emmc_start_cmd (cfg : BuildCfg) (h : Host) (mrq : MmcRequest) : Host :=
  let vconf := h.regs.gcfg
  let h1 := write_gstart h { h.regs.gstart with busy := false }
  let h2 := aml_sd_emmc_set_clkc h1
  let b := start_cmd_build cfg h2 vconf mrq
  let h3 := { h2 with desc_buf := b.chain.buf, sg_cnt := b.sg_cnt, dma_sts := b.dma_sts }
  let h4 := if b.conf_flag != 0 && !cfg.SD_EMMC_DESC_SET_REG then write_gcfg h3 b.vconf else h3
  let h5 := write_gstatus h4 SD_EMMC_IRQ_ALL
  write_gstart h5 { init := false, busy := true, addr := (h5.desc_dma_addr / 4) % 1073741824 }

/-- Index in `host->desc_buf` of the last entry `aml_sd_emmc_start_cmd`
writes, the final value of `desc_cur`. -/
def start_cmd_last (cfg : BuildCfg) (h : Host) (mrq : MmcRequest) : Nat :=
  (start_cmd_build cfg (aml_sd_emmc_set_clkc (write_gstart h { h.regs.gstart with busy := false }))
    h.regs.gcfg mrq).chain.cur

/-- The entries of the descriptor buffer from the first one to index `last`. -/
def chain_entries (h : Host) (last : Nat) : List sd_emmc_desc_info :=
  (List.range (last + 1)).map h.desc_buf

/-! ## Transfer state machine and completion dispatcher -/

/-- The function `aml_sd_emmc_request_done`, called with the request object in
its current state: the transfer state is reset under the lock, then
`mmc_request_done` is called. -/
def aml_sd_emmc_request_done (h : Host) (mrq : MmcRequest) : Host :=
  { h with xfer_step := XferStep.XFER_FINISHED, mrq := none,
           status := HostStatus.HOST_INVALID, done := h.done ++ [mrq] }

/-- The request `aml_sd_emmc_stop` with its command `aml_sd_emmc_cmd`: opcode
`MMC_STOP_TRANSMISSION`, flags `MMC_RSP_SPI_R1B | MMC_RSP_R1B | MMC_CMD_AC`. -/
def aml_sd_emmc_stop : MmcRequest :=
  { cmd := { opcode := MMC_STOP_TRANSMISSION, arg := 0, flags := 1181, error := 0, retries := 0 },
    data := none, stop := none }

/-- The function `aml_sd_emmc_send_stop`. The static `sd_emmc_err_bak` is an
`unsigned int`. -/
def aml_sd_emmc_send_stop (cfg : BuildCfg) (h : Host) : Host :=
  match h.mrq with
  | none => { h with oops := true }
  | some mrq =>
    let h1 := { h with sd_emmc_err_bak := to_u32 mrq.cmd.error,
                       mrq := some { mrq with cmd := { mrq.cmd with error := 0 } },
                       cmd_is_stop := true }
    aml_sd_emmc_start_cmd cfg h1 aml_sd_emmc_stop

/-- The function `aml_sd_emmc_request`. `unsupported` is the result of
`aml_check_unsupport_cmd`, a helper outside this file. -/
def aml_sd_emmc_request (cfg : BuildCfg) (h : Host) (mrq : MmcRequest)
    (unsupported : Bool) : Host :=
  if unsupported then h
  else if !h.is_in || (!h.init_flag && h.card_type == CardType.CARD_TYPE_SD) then
    { h with done := h.done ++
        [{ mrq with cmd := { mrq.cmd with error := -ENOMEDIUM, retries := 0 } }] }
  else
    let h1 := if mrq.cmd.opcode = 0 then { h with init_flag := true } else h
    let h2 := { h1 with mrq := some mrq, xfer_step := XferStep.XFER_START,
                        opcode := mrq.cmd.opcode, arg := mrq.cmd.arg }
    let h3 := aml_sd_emmc_start_cmd cfg h2 mrq
    { h3 with xfer_step := XferStep.XFER_AFTER_START }

/-- What the interrupt handler reads from the hardware and from the MMC core:
the interrupt-enable and status registers, and whether an SDIO interrupt thread
exists and is not being aborted. -/
structure IrqIn where
  girq_en : Nat
  gstatus : Nat
  sdio_irq_thread : Bool
deriving DecidableEq, Repr

/-- Status bits of `struct sd_emmc_status`, from bit 0: `rxd_err` (8 bits),
`txd_err`, `desc_err`, `resp_err`, `resp_timeout`, `desc_timeout`,
`end_of_chain`, `desc_irq`, `irq_sdio`. -/
def ista_rxd_err (vstat : Nat) : Bool := (vstat &&& 0xff) != 0
def ista_txd_err (vstat : Nat) : Bool := vstat.testBit 8
def ista_resp_err (vstat : Nat) : Bool := vstat.testBit 10
def ista_resp_timeout (vstat : Nat) : Bool := vstat.testBit 11
def ista_desc_timeout (vstat : Nat) : Bool := vstat.testBit 12
def ista_end_of_chain (vstat : Nat) : Bool := vstat.testBit 13
def ista_desc_irq (vstat : Nat) : Bool := vstat.testBit 14
def ista_irq_sdio (vstat : Nat) : Bool := vstat.testBit 15

/-- The classes the interrupt handler sorts a status word into. -/
inductive IrqClass where
  | dat_crc
  | rsp_crc
  | rsp_timeout
  | dat_timeout
  | done
  | unknown
deriving DecidableEq, Repr

/-- The `if` chain of `aml_sd_emmc_irq` over the status bits. -/
def irq_classify (vstat : Nat) : IrqClass :=
  if ista_rxd_err vstat || ista_txd_err vstat then IrqClass.dat_crc
  else if ista_resp_err vstat then IrqClass.rsp_crc
  else if ista_resp_timeout vstat then IrqClass.rsp_timeout
  else if ista_desc_timeout vstat then IrqClass.dat_timeout
  else if ista_end_of_chain vstat || ista_desc_irq vstat then IrqClass.done
  else IrqClass.unknown

/-- Assignment `mrq->cmd->error = e` through `host->mrq`; a NULL `mrq` oopses. -/
def set_cmd_error (h : Host) (e : Int) : Host :=
  match h.mrq with
  | none => { h with oops := true }
  | some mrq => { h with mrq := some { mrq with cmd := { mrq.cmd with error := e } } }

/-- The branches of the `if` chain of `aml_sd_emmc_irq`: `host->status` and
`mrq->cmd->error`, or `host->xfer_step` for an unknown interrupt. -/
def irq_apply (h : Host) (vstat : Nat) : Host :=
  match irq_classify vstat with
  | IrqClass.dat_crc =>
    set_cmd_error { h with status := HostStatus.HOST_DAT_CRC_ERR } (-EILSEQ)
  | IrqClass.rsp_crc =>
    set_cmd_error { h with status := HostStatus.HOST_RSP_CRC_ERR } (-EILSEQ)
  | IrqClass.rsp_timeout =>
    set_cmd_error { h with status := HostStatus.HOST_RSP_TIMEOUT_ERR } (-ETIMEDOUT)
  | IrqClass.dat_timeout =>
    set_cmd_error { h with status := HostStatus.HOST_DAT_TIMEOUT_ERR } (-ETIMEDOUT)
  | IrqClass.done =>
    match h.mrq with
    | none => { h with oops := true }
    | some mrq =>
      let st := if mrq.data.isSome then HostStatus.HOST_TASKLET_DATA
                else HostStatus.HOST_TASKLET_CMD
      set_cmd_error { h with status := st } 0
  | IrqClass.unknown => { h with xfer_step := XferStep.XFER_IRQ_UNKNOWN_IRQ }

/-- Whether `aml_sd_emmc_irq` returns before taking the lock: the SDIO gate
and the test of the low 14 status bits. -/
def irq_early_return (i : IrqIn) : Bool :=
  let virqc := i.girq_en &&& 0xffff
  let vstat := i.gstatus &&& 0xffff
  if ista_irq_sdio virqc && ista_irq_sdio vstat then
    i.sdio_irq_thread && (vstat &&& 0x3fff) == 0
  else (vstat &&& 0x3fff) == 0

/-- The function `aml_sd_emmc_irq`. -/
def aml_sd_emmc_irq (h : Host) (i : IrqIn) : Host × IrqReturn :=
  let virqc := i.girq_en &&& 0xffff
  let vstat := i.gstatus &&& 0xffff
  if irq_early_return i then (h, IrqReturn.IRQ_HANDLED)
  else if h.mrq.isNone && !ista_irq_sdio virqc then (h, IrqReturn.IRQ_HANDLED)
  else
    let h1 := if h.mrq.isSome then
        { h with xfer_step := if h.cmd_is_stop then XferStep.XFER_IRQ_TASKLET_BUSY
                              else XferStep.XFER_IRQ_OCCUR }
      else h
    let h2 := write_gstatus h1 (i.gstatus &&& 0xffff)
    let h3 := irq_apply h2 vstat
    if h3.xfer_step != XferStep.XFER_IRQ_UNKNOWN_IRQ then (h3, IrqReturn.IRQ_WAKE_THREAD)
    else (h3, IrqReturn.IRQ_HANDLED)

/-- The test of the error branch of `aml_sd_emmc_data_thread` that sends a STOP
instead of completing the request. -/
def thread_sends_stop (h : Host) (mrq : MmcRequest) : Bool :=
  mrq.stop.isSome && h.card_type == CardType.CARD_TYPE_MMC && h.is_in
    && mrq.cmd.opcode != MMC_SEND_TUNING_BLOCK
    && mrq.cmd.opcode != MMC_SEND_TUNING_BLOCK_HS200

/-- The function `aml_sd_emmc_data_thread` (`aml_sd_emmc_data_tasklet` with the
build switch `SD_EMMC_DATA_TASKLET`). -/
def aml_sd_emmc_data_thread (cfg : BuildCfg) (h : Host) : Host :=
  if h.xfer_step = XferStep.XFER_FINISHED ∨ h.xfer_step = XferStep.XFER_TIMER_TIMEOUT then h
  else
    match h.mrq with
    | none => { h with oops := true }
    | some mrq =>
      if h.cmd_is_stop then
        let h1 := { h with cmd_is_stop := false }
        aml_sd_emmc_request_done h1
          { mrq with cmd := { mrq.cmd with error := to_s32 h.sd_emmc_err_bak } }
      else
        match h.status with
        | HostStatus.HOST_TASKLET_DATA | HostStatus.HOST_TASKLET_CMD =>
          let h1 := { h with sd_emmc_error_flag := 0 }
          match mrq.data with
          | some data =>
            if mrq.cmd.opcode ≠ 0 then
              let xfer_bytes := (data.blksz * data.blocks) % 4294967296
              let h2 := { h1 with xfer_step := XferStep.XFER_TASKLET_DATA }
              aml_sd_emmc_request_done h2
                { mrq with data := some { data with bytes_xfered := xfer_bytes },
                           cmd := { mrq.cmd with error := 0 } }
            else
              let h2 := { h1 with xfer_step := XferStep.XFER_TASKLET_CMD }
              aml_sd_emmc_request_done h2 { mrq with cmd := { mrq.cmd with error := 0 } }
          | none =>
            let h2 := { h1 with xfer_step := XferStep.XFER_TASKLET_CMD }
            aml_sd_emmc_request_done h2 { mrq with cmd := { mrq.cmd with error := 0 } }
        | HostStatus.HOST_RSP_TIMEOUT_ERR | HostStatus.HOST_DAT_TIMEOUT_ERR
        | HostStatus.HOST_RSP_CRC_ERR | HostStatus.HOST_DAT_CRC_ERR =>
          if mrq.stop.isSome && h.card_type == CardType.CARD_TYPE_MMC && h.is_in
              && mrq.cmd.opcode != MMC_SEND_TUNING_BLOCK
              && mrq.cmd.opcode != MMC_SEND_TUNING_BLOCK_HS200 then
            aml_sd_emmc_send_stop cfg h
          else aml_sd_emmc_request_done h mrq
        | HostStatus.HOST_INVALID => h

/-- Whether the forced timeout is the first error of an episode on a managed
card: bit 3 of `sd_emmc_error_flag` clear, data present, medium present. -/
def timeout_first (h : Host) (mrq : MmcRequest) : Bool :=
  h.sd_emmc_error_flag &&& 8 == 0 && mrq.data.isSome && h.is_in

/-- The command after the forced timeout: `error = -ETIMEDOUT` and the retry
policy (none for a card that is not eMMC/MMC, `AML_TIMEOUT_RETRY_COUNTER` on
the first error of an episode). -/
def timeout_cmd (h : Host) (mrq : MmcRequest) : MmcCommand :=
  let cmd := { mrq.cmd with error := -ETIMEDOUT }
  if h.card_type != CardType.CARD_TYPE_MMC then { cmd with retries := 0 }
  else if timeout_first h mrq then { cmd with retries := AML_TIMEOUT_RETRY_COUNTER }
  else cmd

/-- The static `sd_emmc_error_flag` after the forced timeout. -/
def timeout_flag (h : Host) (mrq : MmcRequest) : Nat :=
  let flag :=
    if h.card_type != CardType.CARD_TYPE_MMC then 0
    else if timeout_first h mrq then h.sd_emmc_error_flag ||| 8
    else h.sd_emmc_error_flag
  if flag != 0 && (timeout_cmd h mrq).retries == 0 then flag ||| 1073741824 else flag

/-- The test of `aml_sd_emmc_timeout` that sends a STOP instead of completing
the request. -/
def timeout_sends_stop (h : Host) (mrq : MmcRequest) : Bool :=
  mrq.stop.isSome && h.card_type == CardType.CARD_TYPE_MMC && !h.cmd_is_stop
    && mrq.cmd.opcode != MMC_SEND_TUNING_BLOCK
    && mrq.cmd.opcode != MMC_SEND_TUNING_BLOCK_HS200

/-- The part of `aml_sd_emmc_timeout` after the label `timeout_handle`. -/
def timeout_handle (cfg : BuildCfg) (h : Host) (mrq : MmcRequest) : Host :=
  let mrq1 := { mrq with cmd := timeout_cmd h mrq }
  let h2 := { h with timeout_cnt := 0, xfer_step_prev := h.xfer_step,
                     xfer_step := XferStep.XFER_TIMER_TIMEOUT,
                     sd_emmc_error_flag := timeout_flag h mrq, mrq := some mrq1 }
  if mrq1.stop.isSome && h2.card_type == CardType.CARD_TYPE_MMC && !h2.cmd_is_stop
      && mrq1.cmd.opcode != MMC_SEND_TUNING_BLOCK
      && mrq1.cmd.opcode != MMC_SEND_TUNING_BLOCK_HS200 then
    aml_sd_emmc_send_stop cfg h2
  else
    aml_sd_emmc_request_done { h2 with cmd_is_stop := false } mrq1

/-- The function `aml_sd_emmc_timeout`, the watchdog. Its counter
`timeout_cnt` is a static of the function; `timeout_rearmed` counts the calls
of `schedule_delayed_work(&host->timeout, 50)`. -/
def aml_sd_emmc_timeout (cfg : BuildCfg) (h : Host) : Host :=
  match h.mrq with
  | none => { h with oops := true }
  | some mrq =>
    if h.xfer_step = XferStep.XFER_FINISHED then h
    else if h.xfer_step = XferStep.XFER_IRQ_TASKLET_DATA
        ∨ h.xfer_step = XferStep.XFER_IRQ_TASKLET_CMD then
      let h1 := { h with timeout_rearmed := h.timeout_rearmed + 1,
                         timeout_cnt := h.timeout_cnt + 1 }
      if h1.timeout_cnt > 30 then timeout_handle cfg h1 mrq else h1
    else timeout_handle cfg h mrq

/-- The events that drive the controller after a request has been accepted. -/
inductive Event where
  | irq (i : IrqIn)
  | thread
  | watchdog
deriving DecidableEq, Repr

/-- One event applied to the host. -/
def step (cfg : BuildCfg) (h : Host) (ev : Event) : Host :=
  match ev with
  | Event.irq i => (aml_sd_emmc_irq h i).1
  | Event.thread => aml_sd_emmc_data_thread cfg h
  | Event.watchdog => aml_sd_emmc_timeout cfg h

/-- A sequence of events applied to the host, in order. -/
def run (cfg : BuildCfg) (h : Host) (evs : List Event) : Host :=
  evs.foldl (step cfg) h

/-! ## Tuning engine -/

/-- The window variables of `aml_sd_emmc_execute_tuning_`. -/
structure TuneWin where
  wrap_win_start : Int
  wrap_win_size : Int
  best_win_start : Int
  best_win_size : Int
  curr_win_start : Int
  curr_win_size : Int
deriving DecidableEq, Repr

/-- Initial values of the window variables. -/
def tune_init : TuneWin :=
  { wrap_win_start := -1, wrap_win_size := 0, best_win_start := -1, best_win_size := 0,
    curr_win_start := -1, curr_win_size := 0 }

/-- Window bookkeeping of one round of the sweep, for the delay `adj_delay`;
`pass` is the outcome of `nmatch == ntries`. -/
def tune_step (w : TuneWin) (adj_delay : Nat) (pass : Bool) : TuneWin :=
  if pass then
    let w := if adj_delay = 0 then { w with wrap_win_start := (adj_delay : Int) } else w
    let w := if w.wrap_win_start ≥ 0 then { w with wrap_win_size := w.wrap_win_size + 1 } else w
    let w := if w.curr_win_start < 0 then { w with curr_win_start := (adj_delay : Int) } else w
    { w with curr_win_size := w.curr_win_size + 1 }
  else if w.curr_win_start ≥ 0 then
    let w :=
      if w.best_win_start < 0 then
        { w with best_win_start := w.curr_win_start, best_win_size := w.curr_win_size }
      else if w.best_win_size < w.curr_win_size then
        { w with best_win_start := w.curr_win_start, best_win_size := w.curr_win_size }
      else w
    { w with wrap_win_start := -1, curr_win_start := -1, curr_win_size := 0 }
  else w

/-- The sweep `for (adj_delay = 0; adj_delay < clk_div; adj_delay++)` started
from `w`: the window variables after the delays below `clk_div`; `pass d`
is the sample of delay `d`. -/
def tune_loop (w : TuneWin) (pass : Nat → Bool) : Nat → TuneWin
  | 0 => w
  | k + 1 => tune_step (tune_loop w pass k) k (pass k)

/-- The block after the sweep that closes a window still open. -/
def tune_close (w : TuneWin) : TuneWin :=
  if w.curr_win_start ≥ 0 then
    let w :=
      if w.best_win_start < 0 then
        { w with best_win_start := w.curr_win_start, best_win_size := w.curr_win_size }
      else if w.wrap_win_size > 0 then
        if w.curr_win_size + w.wrap_win_size > w.best_win_size then
          { w with best_win_start := w.curr_win_start,
                   best_win_size := w.curr_win_size + w.wrap_win_size }
        else w
      else if w.best_win_size < w.curr_win_size then
        { w with best_win_start := w.curr_win_start, best_win_size := w.curr_win_size }
      else w
    { w with curr_win_start := -1, curr_win_size := 0 }
  else w

/-- Window selection of one sweep from the initial window variables. -/
def tune_select (pass : Nat → Bool) (clk_div : Nat) : TuneWin :=
  tune_close (tune_loop tune_init pass clk_div)

/-- The value of `adj_delay_find`: an `int` expression stored into a `u32`,
then reduced modulo `clk_div`. -/
def adj_delay_find (best_win_start best_win_size : Int) (clk_div : Nat) : Nat :=
  if best_win_size = (clk_div : Int) then 0
  else
    (((best_win_start + Int.tdiv (best_win_size - 1) 2) % 4294967296).toNat) % clk_div

/-- Programming of the adjust register at the end of
`aml_sd_emmc_execute_tuning_`; `adjust` is the local copy of the register the
function keeps. The field `adj_delay` has 6 bits, as the divisor has. -/
def tune_program (h : Host) (adjust : sd_emmc_adjust) (w : TuneWin) (clk_div : Nat) : Host :=
  let v := { adjust with adj_delay := adj_delay_find w.best_win_start w.best_win_size clk_div % 64,
                         adj_enable := true, cali_enable := false, cali_rise := false }
  { h with regs := { h.regs with gadjust := v }, writes := h.writes ++ [RegWrite.gadjust v],
           is_tunning := false }

/-! ## Tuning entry point and engine -/

def ENOMEM : Int := 12

/-- The bits `MMC_RSP_R1 | MMC_CMD_ADTC` of the probe command and
`MMC_RSP_R1B | MMC_CMD_AC` of its stop command. -/
def MMC_RSP_R1_ADTC : Nat := 53
def MMC_RSP_R1B_AC : Nat := 29

/-- The argument `struct aml_tuning_data`: the expected block and its size. -/
structure aml_tuning_data where
  blk_pattern : List Nat
  blksz : Nat
deriving DecidableEq, Repr

/-- What the tuning code takes from outside this file: the two tuning block
patterns (arrays declared elsewhere, `sizeof` is their length), the result of
`kmalloc` in each sweep (the address of the block, or none), and the outcome of
each probe handed to `mmc_wait_for_req`, by sweep, delay and try: none when
`cmd.error` or `data.error` is set, otherwise the block that was read. -/
structure TuneEnv where
  tuning_blk_pattern_4bit : List Nat
  tuning_blk_pattern_8bit : List Nat
  kmalloc : Nat → Nat → Option Nat
  wait_for_req : Nat → Nat → Nat → MmcRequest → Option (List Nat)

/-- The probe request one try of the sweep builds. -/
def tune_probe (ddr : Bool) (opcode blksz blk_test : Nat) : MmcRequest :=
  { cmd := { opcode := if ddr then 17 else opcode, arg := 0, flags := MMC_RSP_R1_ADTC,
             error := 0, retries := 0 },
    stop := some { opcode := MMC_STOP_TRANSMISSION, arg := 0, flags := MMC_RSP_R1B_AC,
                   error := 0, retries := 0 },
    data := some { blksz := blksz, blocks := 1, flags := MMC_DATA_READ,
                   sg := [{ dma_address := blk_test, length := blksz }], bytes_xfered := 0 } }

/-- The loop `for (n = 0, nmatch = 0; n < ntries; n++)` of one delay, with
`left` tries to go: the final `nmatch` and the number of probes issued. A try
that fails or reads a block different from the pattern ends the loop. -/
def tune_tries (probe : Nat → Option (List Nat)) (ddr : Bool) (blk_pattern : List Nat)
    (blksz : Nat) : Nat → Nat → Nat → Nat × Nat
  | 0, n, nmatch => (nmatch, n)
  | left + 1, n, nmatch =>
    match probe n with
    | some blk_test =>
      if ddr || blk_pattern.take blksz == blk_test.take blksz then
        tune_tries probe ddr blk_pattern blksz left (n + 1) (nmatch + 1)
      else (nmatch, n + 1)
    | none => (nmatch, n + 1)

/-- The state of `aml_sd_emmc_execute_tuning_` during a sweep: the host, the
window variables, the local copy `adjust` of the adjust register, and the
number of probes handed to `mmc_wait_for_req` so far. -/
structure TuneState where
  host : Host
  win : TuneWin
  adjust : sd_emmc_adjust
  probes : Nat

/-- Outcome of the samples of one delay: `nmatch == ntries`, with
`ntries = 10`. -/
def tune_sample (env : TuneEnv) (ddr : Bool) (opcode : Nat) (blk_pattern : List Nat)
    (blksz blk_test sweep adj_delay : Nat) : Nat × Nat :=
  tune_tries
    (fun n => env.wait_for_req sweep adj_delay n (tune_probe ddr opcode blksz blk_test))
    ddr blk_pattern blksz 10 0 0

/-- One round of the loop over `adj_delay`: the adjust register is programmed
with the delay, the probes are run and the window variables updated. The
request cycle of a probe goes through the MMC core and is not replayed on the
host. -/
def tune_delay (env : TuneEnv) (ddr : Bool) (opcode : Nat) (blk_pattern : List Nat)
    (blksz blk_test sweep : Nat) (s : TuneState) (adj_delay : Nat) : TuneState :=
  let adjust := { s.adjust with adj_delay := adj_delay % 64, adj_enable := true,
                                cali_enable := false, cali_rise := false }
  let h1 := { s.host with regs := { s.host.regs with gadjust := adjust },
                          writes := s.host.writes ++ [RegWrite.gadjust adjust] }
  let r := tune_sample env ddr opcode blk_pattern blksz blk_test sweep adj_delay
  { host := h1, win := tune_step s.win adj_delay (r.1 == 10), adjust := adjust,
    probes := s.probes + r.2 }

/-- The loop `for (adj_delay = 0; adj_delay < clk_div; adj_delay++)`: the
state after the delays below the bound. -/
def tune_sweep (env : TuneEnv) (ddr : Bool) (opcode : Nat) (blk_pattern : List Nat)
    (blksz blk_test sweep : Nat) (s : TuneState) : Nat → TuneState
  | 0 => s
  | k + 1 =>
    tune_delay env ddr opcode blk_pattern blksz blk_test sweep
      (tune_sweep env ddr opcode blk_pattern blksz blk_test sweep s k) k

/-- What a call of the tuning code leaves: the host, the value returned and
the number of probes handed to `mmc_wait_for_req`. -/
structure TuneOut where
  host : Host
  ret : Int
  probes : Nat

/-- Head of a sweep, from the label `tunning` to `kmalloc`: the clock derived
from the divisor is stored in `actual_clock`. -/
def tune_clock (h : Host) : Host :=
  let clock := 1000000000 / h.regs.gclock.div
  { h with actual_clock := if h.regs.gcfg.ddr then clock / 2 else clock }

/-- The local `blksz` of a sweep: 512 in DDR mode. -/
def tune_blksz (h : Host) (blksz : Nat) : Nat :=
  if h.regs.gcfg.ddr then 512 else blksz

/-- One sweep after `kmalloc` has succeeded: `is_tunning` is set and the loop
over the delays below the divisor runs. -/
def tune_one_sweep (env : TuneEnv) (opcode : Nat) (blk_pattern : List Nat)
    (sweep blksz blk_test : Nat) (s : TuneState) : TuneState :=
  tune_sweep env s.host.regs.gcfg.ddr opcode blk_pattern blksz blk_test sweep
    { s with host := { s.host with is_tunning := true } } s.host.regs.gclock.div

/-- The branch `best_win_size <= 0`: the divisor field is raised by one, the
clock register written and copied to `pdata->clkc`. `clkc` is the clock
register as read at the head of the sweep. -/
def tune_restart (clkc : sd_emmc_clock) (s : TuneState) : TuneState :=
  let h3 := write_gclock s.host { clkc with div := (clkc.div + 1) % 64 }
  { s with host := { h3 with clkc := h3.regs.gclock }, win := tune_close s.win }

/-- The end of the function when a window was found: the delay is programmed
and 0 returned. -/
def tune_finish (clk_div : Nat) (s : TuneState) : TuneOut :=
  { host := tune_program s.host s.adjust (tune_close s.win) clk_div, ret := 0,
    probes := s.probes }

/-- The function `aml_sd_emmc_execute_tuning_` from the label `tunning`: one
sweep, then the choice of the delay, or another sweep with the divisor raised
by one when no window was found. `fuel` bounds the number of sweeps, `sweep`
counts them, `blksz` is the local of that name. With the divisor at 0 the
clock computed at the head of the sweep is 0 and the loop over the delays is
empty. -/
def tune_rounds (env : TuneEnv) (opcode : Nat) (blk_pattern : List Nat) :
    Nat → Nat → Nat → TuneState → Option TuneOut
  | 0, _, _, _ => none
  | fuel + 1, sweep, blksz, s =>
    match env.kmalloc sweep (tune_blksz s.host blksz) with
    | none => some { host := tune_clock s.host, ret := -ENOMEM, probes := s.probes }
    | some blk_test =>
      let s2 := tune_one_sweep env opcode blk_pattern sweep (tune_blksz s.host blksz) blk_test
        { s with host := tune_clock s.host }
      if (tune_close s2.win).best_win_size ≤ 0 then
        tune_rounds env opcode blk_pattern fuel (sweep + 1) (tune_blksz s.host blksz)
          (tune_restart s.host.regs.gclock s2)
      else some (tune_finish s.host.regs.gclock.div s2)

/-- The adjust register with every bit clear. -/
def adjust_zero : sd_emmc_adjust :=
  { adj_delay := 0, adj_enable := false, cali_enable := false, cali_rise := false, other := 0 }

/-- The function `aml_sd_emmc_execute_tuning_`: the adjust register is read
into the local `adjust` and cleared, the window variables are initialised, and
the sweeps run. -/
def aml_sd_emmc_execute_tuning_ (env : TuneEnv) (h : Host) (opcode : Nat)
    (tuning_data : aml_tuning_data) (fuel : Nat) : Option TuneOut :=
  let adjust := h.regs.gadjust
  let h1 := { h with regs := { h.regs with gadjust := adjust_zero },
                     writes := h.writes ++ [RegWrite.gadjust adjust_zero] }
  tune_rounds env opcode tuning_data.blk_pattern fuel 0 tuning_data.blksz
    { host := h1, win := tune_init, adjust := adjust, probes := 0 }

/-- The function `aml_sd_emmc_execute_tuning`; `ios` is `mmc->ios`. -/
def aml_sd_emmc_execute_tuning (env : TuneEnv) (h : Host) (ios : MmcIos) (opcode : Nat)
    (fuel : Nat) : Option TuneOut :=
  if opcode = MMC_SEND_TUNING_BLOCK_HS200 then
    if ios.bus_width = MMC_BUS_WIDTH_8 then
      aml_sd_emmc_execute_tuning_ env h opcode
        { blk_pattern := env.tuning_blk_pattern_8bit,
          blksz := env.tuning_blk_pattern_8bit.length } fuel
    else if ios.bus_width = MMC_BUS_WIDTH_4 then
      aml_sd_emmc_execute_tuning_ env h opcode
        { blk_pattern := env.tuning_blk_pattern_4bit,
          blksz := env.tuning_blk_pattern_4bit.length } fuel
    else some { host := h, ret := -EINVAL, probes := 0 }
  else if opcode = MMC_SEND_TUNING_BLOCK then
    aml_sd_emmc_execute_tuning_ env h opcode
      { blk_pattern := env.tuning_blk_pattern_4bit,
        blksz := env.tuning_blk_pattern_4bit.length } fuel
  else some { host := h, ret := -EINVAL, probes := 0 }

/-! ## Windows of passing delays -/

/-- The delays `a, a+1, ..., a+l-1` all pass. -/
def lin_run (pass : Nat → Bool) (a l : Nat) : Prop :=
  ∀ j, a ≤ j → j < a + l → pass j = true

/-- A run of `len` consecutive passing delays that starts at `start` in the
circular delay space of `clk_div` delays: the delay after `clk_div - 1` is 0. -/
def circ_run (pass : Nat → Bool) (clk_div start len : Nat) : Prop :=
  ∀ i, i < len → pass ((start + i) % clk_div) = true

instance (pass : Nat → Bool) (clk_div start len : Nat) :
    Decidable (circ_run pass clk_div start len) := by
  unfold circ_run
  infer_instance

/-- Invariant of the sweep after the delays below `k`: the open window is the
trailing run `[c, k)`, the best window is a longest run among those closed
before `c`, and the wrap window is the leading run `[0, p)`. -/
def TuneInv (pass : Nat → Bool) (k : Nat) (w : TuneWin) : Prop :=
  ∃ c p : Nat, c ≤ k ∧ p ≤ k
    ∧ lin_run pass c (k - c) ∧ (0 < c → pass (c - 1) = false)
    ∧ (c < k → w.curr_win_start = (c : Int) ∧ w.curr_win_size = ((k - c : Nat) : Int))
    ∧ (c = k → w.curr_win_start = -1 ∧ w.curr_win_size = 0)
    ∧ ((w.best_win_start = -1 ∧ w.best_win_size = 0 ∧ ∀ j, j < c → pass j = false)
        ∨ ∃ b z : Nat, w.best_win_start = (b : Int) ∧ w.best_win_size = (z : Int)
            ∧ 0 < z ∧ b + z ≤ c ∧ lin_run pass b z)
    ∧ (∀ a l, a + l ≤ c → lin_run pass a l → (l : Int) ≤ w.best_win_size)
    ∧ w.wrap_win_size = (p : Int) ∧ lin_run pass 0 p ∧ (p < k → pass p = false)
    ∧ (p = k → 0 < k → w.wrap_win_start = 0) ∧ (p < k ∨ k = 0 → w.wrap_win_start = -1)

/-! ## Predicates on descriptor chains -/

/-- A descriptor that issues CMD12. -/
def is_stop_desc (d : sd_emmc_desc_info) : Prop :=
  d.cmd_index = MMC_STOP_TRANSMISSION ∧ d.no_cmd = false

instance (d : sd_emmc_desc_info) : Decidable (is_stop_desc d) := by
  unfold is_stop_desc
  infer_instance

/-- A descriptor without the end-of-chain mark and, when `strict` is set, that
does not issue CMD12. -/
def desc_ok (strict : Bool) (d : sd_emmc_desc_info) : Prop :=
  d.end_of_chain = false ∧ (strict = true → ¬ is_stop_desc d)

/-- Every entry of the chain up to the cursor satisfies `P`. -/
def chain_all (P : sd_emmc_desc_info → Prop) (c : Chain) : Prop :=
  ∀ i, i ≤ c.cur → P (c.buf i)

/-- A data request is well formed for the scatter-gather build when its
scatter list has at least one segment (and a length that fits `sg_len`). -/
def sg_ok (cfg : BuildCfg) (mrq : MmcRequest) : Prop :=
  cfg.SD_EMMC_REQ_DMA_SGMAP = true →
    ∀ d, mrq.data = some d → d.sg ≠ [] ∧ d.sg.length < 4294967296

/-- The host on which `aml_sd_emmc_start_cmd` builds the chain: after the
write of `gstart` and `aml_sd_emmc_set_clkc`. -/
def start_cmd_host (h : Host) : Host :=
  aml_sd_emmc_set_clkc (write_gstart h { h.regs.gstart with busy := false })

/-! ## Life of an accepted request -/

/-- A request without the fields the driver writes into it (`cmd->error`,
`cmd->retries`, `data->bytes_xfered`): what identifies it. -/
def req_id (m : MmcRequest) : MmcRequest :=
  { m with cmd := { m.cmd with error := 0, retries := 0 },
           data := m.data.map (fun d => { d with bytes_xfered := 0 }) }

/-- The request `r` is in flight: the host holds it, `mmc_request_done` has not
been called since the log of callbacks was `D`, and the transfer state is one
of those an in-flight request can have. -/
def InFlight (D : List MmcRequest) (r : MmcRequest) (h : Host) : Prop :=
  ∃ m, h.mrq = some m ∧ req_id m = req_id r ∧ h.done = D
    ∧ (h.xfer_step = XferStep.XFER_AFTER_START ∨ h.xfer_step = XferStep.XFER_IRQ_OCCUR
        ∨ h.xfer_step = XferStep.XFER_IRQ_TASKLET_BUSY
        ∨ h.xfer_step = XferStep.XFER_IRQ_UNKNOWN_IRQ
        ∨ h.xfer_step = XferStep.XFER_TIMER_TIMEOUT)

/-- The request `r` has been completed: the host holds no request and
`mmc_request_done` has been called once, for `r`, since the log was `D`. -/
def Completed (D : List MmcRequest) (r : MmcRequest) (h : Host) : Prop :=
  ∃ m, h.mrq = none ∧ req_id m = req_id r ∧ h.done = D ++ [m]

/-! ## Single live request -/

/-- The invariant of the transfer state machine as the specification states it:
`host->mrq` is not NULL exactly when the transfer state is neither `XFER_INIT`
nor `XFER_FINISHED`. -/
def single_live_request (h : Host) : Prop :=
  h.mrq.isSome = true
    ↔ (h.xfer_step ≠ XferStep.XFER_INIT ∧ h.xfer_step ≠ XferStep.XFER_FINISHED)

instance (h : Host) : Decidable (single_live_request h) := by
  unfold single_live_request
  infer_instance

/-- The entry points that move the transfer state machine. -/
inductive HostOp where
  | request (mrq : MmcRequest) (unsupported : Bool)
  | irq (i : IrqIn)
  | thread
  | timeout
  | request_done (mrq : MmcRequest)
deriving DecidableEq, Repr

/-- One entry point applied to the host. -/
def host_op (cfg : BuildCfg) (h : Host) (op : HostOp) : Host :=
  match op with
  | HostOp.request mrq unsupported => aml_sd_emmc_request cfg h mrq unsupported
  | HostOp.irq i => (aml_sd_emmc_irq h i).1
  | HostOp.thread => aml_sd_emmc_data_thread cfg h
  | HostOp.timeout => aml_sd_emmc_timeout cfg h
  | HostOp.request_done mrq => aml_sd_emmc_request_done h mrq

/-- An interrupt can reach the status tests of `aml_sd_emmc_irq` while the host
holds no request: it passes the entry tests and the SDIO interrupt is
enabled. -/
def irq_reaches_null_request (h : Host) (i : IrqIn) : Bool :=
  h.mrq.isNone && !irq_early_return i && ista_irq_sdio (i.girq_en &&& 0xffff)

/-- The dispatcher does not return at its entry test when it finds a request
and no synthesized STOP in flight: the transfer state is then neither
`XFER_FINISHED` nor `XFER_TIMER_TIMEOUT`. -/
def dispatch_ready (h : Host) : Prop :=
  ∀ m, h.mrq = some m → h.cmd_is_stop = false →
    h.xfer_step ≠ XferStep.XFER_FINISHED ∧ h.xfer_step ≠ XferStep.XFER_TIMER_TIMEOUT

/-! ## Gating around clock changes -/

/-- The bracket the specification asks for, checked on a log of register writes
replayed from the given clock and configuration registers: every write of the
clock register that changes the divisor or the source finds `stop_clk` set in
the configuration register. -/
def clk_writes_gated : sd_emmc_clock → sd_emmc_config → List RegWrite → Bool
  | _, _, [] => true
  | clk, conf, RegWrite.gclock v :: ws =>
    (conf.stop_clk || (v.div == clk.div && v.src == clk.src)) && clk_writes_gated v conf ws
  | clk, _, RegWrite.gcfg v :: ws => clk_writes_gated clk v ws
  | clk, conf, RegWrite.gstart _ :: ws => clk_writes_gated clk conf ws
  | clk, conf, RegWrite.gstatus _ :: ws => clk_writes_gated clk conf ws
  | clk, conf, RegWrite.girq_en _ :: ws => clk_writes_gated clk conf ws
  | clk, conf, RegWrite.gadjust _ :: ws => clk_writes_gated clk conf ws
  | clk, conf, RegWrite.gdelay _ :: ws => clk_writes_gated clk conf ws

/-! ## Concrete hosts and requests used to evaluate the embedding -/

/-- A build with scatter-gather descriptors and driver-issued STOP. -/
def cfg_sgmap : BuildCfg :=
  { SD_EMMC_DESC_SET_REG := false, SD_EMMC_MANUAL_CMD23 := false,
    SD_EMMC_REQ_DMA_SGMAP := true, SD_EMMC_DESC_REG_CONF := 0 }

/-- An idle eMMC port with the card present, 400 kHz to 200 MHz. -/
def host_emmc : Host := host_boot CardType.CARD_TYPE_MMC true 400000 200000000

/-- An idle SD port whose card is absent. -/
def host_sd_empty : Host := host_boot CardType.CARD_TYPE_SD false 400000 50000000

/-- The command SEND_STATUS (CMD13), response R1, no data. -/
def req_cmd13 : MmcRequest :=
  { cmd := { opcode := 13, arg := 65536, flags := 21, error := 0, retries := 3 },
    data := none, stop := none }

/-- The command WRITE_MULTIPLE_BLOCK (CMD25) with one block of 512 bytes in one
scatter segment, and a stop command. -/
def req_write1 : MmcRequest :=
  { cmd := { opcode := 25, arg := 2048, flags := 181, error := 0, retries := 3 },
    data := some { blksz := 512, blocks := 1, flags := MMC_DATA_WRITE,
                   sg := [{ dma_address := 0x1000, length := 512 }], bytes_xfered := 0 },
    stop := some { opcode := 12, arg := 0, flags := 29, error := 0, retries := 0 } }

/-- The command READ_MULTIPLE_BLOCK (CMD18) with 8 blocks of 512 bytes in two
scatter segments, and a stop command. -/
def req_read8 : MmcRequest :=
  { cmd := { opcode := 18, arg := 4096, flags := 181, error := 0, retries := 3 },
    data := some { blksz := 512, blocks := 8, flags := MMC_DATA_READ,
                   sg := [{ dma_address := 0x1000, length := 2048 },
                          { dma_address := 0x3000, length := 2048 }], bytes_xfered := 0 },
    stop := some { opcode := 12, arg := 0, flags := 29, error := 0, retries := 0 } }

/-- The eMMC port after it has accepted `req_cmd13`. -/
def host_emmc_cmd13 : Host := aml_sd_emmc_request cfg_sgmap host_emmc req_cmd13 false

/-- An interrupt that reports end of chain, with the SDIO interrupt disabled. -/
def irq_end_of_chain : IrqIn :=
  { girq_en := 0x3fff, gstatus := 0x2000, sdio_irq_thread := false }

/-- Samples of the sweep `[pass, pass, fail, pass, pass, pass, fail]`. -/
def samples7 (d : Nat) : Bool := [true, true, false, true, true, true, false].getD d false

/-- An ios value: power on, 25 MHz, 4-bit bus, legacy timing. -/
def ios_25mhz : MmcIos :=
  { power_mode := MMC_POWER_ON, clock := 25000000, bus_width := MMC_BUS_WIDTH_4,
    timing := 0, chip_select := MMC_CS_DONTCARE }

/-- An ios value: clock off, 8-bit bus, DDR52 timing. -/
def ios_ddr_off : MmcIos :=
  { power_mode := MMC_POWER_ON, clock := 0, bus_width := MMC_BUS_WIDTH_8,
    timing := MMC_TIMING_MMC_DDR52, chip_select := MMC_CS_DONTCARE }

/-- An interrupt that reports a CRC error on the received data, with the SDIO
interrupt disabled. -/
def irq_rxd_err : IrqIn :=
  { girq_en := 0x3fff, gstatus := 0x1, sdio_irq_thread := false }

/-- The eMMC port after it has accepted the 8-block read. -/
def host_emmc_read8 : Host := aml_sd_emmc_request cfg_sgmap host_emmc req_read8 false

/-- The eMMC port after the 8-block read has failed with a data CRC error and
the dispatcher has sent the synthesized STOP. -/
def host_emmc_stop_sent : Host :=
  run cfg_sgmap host_emmc_read8 [Event.irq irq_rxd_err, Event.thread]

/-- The eMMC port after the synthesized STOP of `host_emmc_stop_sent` has ended
without error. -/
def host_emmc_stop_ended : Host :=
  run cfg_sgmap host_emmc_stop_sent [Event.irq irq_end_of_chain]

/-- A small environment for the tuning code: patterns of 4 and 8 bytes, every
allocation succeeds, and a probe reads the 4-byte pattern at the delays from 2
on and fails at the delays 0 and 1. -/
def env_small : TuneEnv :=
  { tuning_blk_pattern_4bit := [0xff, 0x0f, 0xff, 0x00],
    tuning_blk_pattern_8bit := [0xff, 0xff, 0x00, 0xff, 0xff, 0xff, 0x00, 0x00],
    kmalloc := fun _ _ => some 0x2000,
    wait_for_req := fun _ adj_delay _ _ =>
      if adj_delay ≥ 2 then some [0xff, 0x0f, 0xff, 0x00] else none }

/-- The idle eMMC port with the clock register at divisor 4 of the 1 GHz
source. -/
def host_emmc_div4 : Host :=
  { host_emmc with
      regs := { host_emmc.regs with gclock := { div := 4, src := 1, other := 0 } },
      clkc := { div := 4, src := 1, other := 0 } }

/-- An ios value: power on, 200 MHz, 1-bit bus, HS200 timing. -/
def ios_hs200_1bit : MmcIos :=
  { power_mode := MMC_POWER_ON, clock := 200000000, bus_width := MMC_BUS_WIDTH_1,
    timing := 9, chip_select := MMC_CS_DONTCARE }

/-- An idle SDIO port with the card present. -/
def host_sdio : Host := host_boot CardType.CARD_TYPE_SDIO true 400000 50000000

/-- An interrupt with the SDIO interrupt enabled whose status has only the
descriptor-error bit (bit 9) set. -/
def irq_sdio_desc_err : IrqIn :=
  { girq_en := 0xbfff, gstatus := 0x200, sdio_irq_thread := true }

/-- The idle eMMC port whose platform copy `pdata->clkc` of the clock register
asks for divisor 4 of the 1 GHz source, while the register holds divisor 60 of
the crystal. -/
def host_emmc_clkc4 : Host :=
  { host_emmc with clkc := { div := 4, src := 1, other := 0 } }

/-- The data of the 8-block read `req_read8`. -/
def data_read8 : MmcData :=
  { blksz := 512, blocks := 8, flags := MMC_DATA_READ,
    sg := [{ dma_address := 0x1000, length := 2048 }, { dma_address := 0x3000, length := 2048 }],
    bytes_xfered := 0 }

/-- A blank descriptor buffer with the cursor on its first entry. -/
def chain_blank : Chain := { buf := fun _ => desc_zero, cur := 0, cmd := 0, cnt := 1 }

/-- The eMMC port after the 8-block read has failed with a data CRC error, before
the dispatcher runs. -/
def host_emmc_read8_crc : Host := run cfg_sgmap host_emmc_read8 [Event.irq irq_rxd_err]


/-- The eMMC host with the odd divisor 5 in the clock register. -/
def host_emmc_div5 : Host :=
  { host_emmc with
      regs := { host_emmc.regs with gclock := { div := 5, src := 1, other := 0 } },
      clkc := { div := 5, src := 1, other := 0 } }


/-- An interrupt whose status has only the descriptor-error bit (bit 9) set,
with the SDIO interrupt disabled. -/
def irq_desc_err : IrqIn :=
  { girq_en := 0x3fff, gstatus := 0x200, sdio_irq_thread := false }


/-- The SDIO port after it has accepted `req_cmd13`. -/
def host_sdio_cmd13 : Host := aml_sd_emmc_request cfg_sgmap host_sdio req_cmd13 false


/-! ## Restarts of the tuning sweep -/

/-- The number of stores to the clock register in a log of register writes. -/
def gclock_writes : List RegWrite → Nat
  | [] => 0
  | RegWrite.gclock _ :: ws => gclock_writes ws + 1
  | _ :: ws => gclock_writes ws

/-- The pass/fail sample of one delay of a sweep: whether all 10 tries
matched. -/
def tune_pass (env : TuneEnv) (ddr : Bool) (opcode : Nat) (blk_pattern : List Nat)
    (blksz blk_test sweep adj_delay : Nat) : Bool :=
  (tune_sample env ddr opcode blk_pattern blksz blk_test sweep adj_delay).1 == 10

/-- A tuning environment in which every allocation succeeds and every probe
fails. -/
def env_fail : TuneEnv :=
  { tuning_blk_pattern_4bit := [0xff, 0x0f, 0xff, 0x00],
    tuning_blk_pattern_8bit := [0xff, 0xff, 0x00, 0xff, 0xff, 0xff, 0x00, 0x00],
    kmalloc := fun _ _ => some 0x2000,
    wait_for_req := fun _ _ _ _ => none }


/-- A tuning environment in which every allocation succeeds and a probe reads
the 4-byte pattern at every delay but 1 and 2, where it fails: the passing
delays of a sweep over 4 delays are 3 and 0, a window across the wraparound. -/
def env_wrap : TuneEnv :=
  { tuning_blk_pattern_4bit := [0xff, 0x0f, 0xff, 0x00],
    tuning_blk_pattern_8bit := [0xff, 0xff, 0x00, 0xff, 0xff, 0xff, 0x00, 0x00],
    kmalloc := fun _ _ => some 0x2000,
    wait_for_req := fun _ adj_delay _ _ =>
      if adj_delay = 1 ∨ adj_delay = 2 then none else some [0xff, 0x0f, 0xff, 0x00] }


/-- An interrupt with the SDIO interrupt enabled that reports end of chain. -/
def irq_sdio_end_of_chain : IrqIn :=
  { girq_en := 0xbfff, gstatus := 0x2000, sdio_irq_thread := true }

/-- The SDIO port after the watchdog has completed `req_cmd13` by force. -/
def host_sdio_timed_out : Host := aml_sd_emmc_timeout cfg_sgmap host_sdio_cmd13


/-! ## Debug attribute of the eMMC port -/

/-- The formats `emmc_debug` hands to `sscanf`: `"clock %d"`, `"co_phase %d"`,
`"line_dly %d"`, `"rx_phase %d"` and `"tx_phase %d"`. -/
inductive DebugFmt where
  | clock
  | co_phase
  | line_dly
  | rx_phase
  | tx_phase
deriving DecidableEq, Repr

/-- What `emmc_debug` takes from outside this file: the result of `sscanf` on
the buffer for each format (the value it returns, stored in the `unsigned int`
`ret`, and the value it stores in `t[0]`, none when the conversion fails), and
the contents of the locals `ret` and `t[0]`, which the function does not
initialise. -/
structure DebugEnv where
  sscanf : List Char → DebugFmt → Nat × Option Nat
  ret : Nat
  t0 : Nat

/-- What a call of `emmc_debug` leaves: the host and the value returned. -/
structure DebugOut where
  host : Host
  ret : Int

/-- The locals of `emmc_debug` after its `switch`: `ret` and the local copies
of the clock, line-delay and adjust registers. -/
structure DebugLocals where
  ret : Nat
  vclkc : sd_emmc_clock
  line_delay : sd_emmc_delay
  adjust : sd_emmc_adjust

/-- The `switch (buf[0])` of `emmc_debug`. A buffer that ends early reads as
its terminating 0. -/
def emmc_debug_switch (env : DebugEnv) (h : Host) (buf : List Char) : DebugLocals :=
  let l : DebugLocals :=
    { ret := env.ret, vclkc := h.regs.gclock, line_delay := h.regs.gdelay,
      adjust := h.regs.gadjust }
  let clk_rate := 1000000000
  if buf.getD 0 (Char.ofNat 0) = 'c' then
    if buf.getD 1 (Char.ofNat 0) = 'l' then
      let r := env.sscanf buf DebugFmt.clock
      let t0 := r.2.getD env.t0
      let div := if t0 < 50 then t0 else clk_rate / t0 + (if clk_rate % t0 != 0 then 1 else 0)
      { l with ret := r.1, vclkc := { l.vclkc with div := div % 64 } }
    else if buf.getD 1 (Char.ofNat 0) = 'o' then
      let r := env.sscanf buf DebugFmt.co_phase
      let t0 := r.2.getD env.t0
      { l with ret := r.1, vclkc := { l.vclkc with core_phase := t0 % 4 } }
    else l
  else if buf.getD 0 (Char.ofNat 0) = 'l' then
    let r := env.sscanf buf DebugFmt.line_dly
    let t0 := r.2.getD env.t0
    { l with ret := r.1,
             line_delay := { dat0 := t0 % 16, dat1 := t0 % 16, dat2 := t0 % 16, dat3 := t0 % 16,
                             dat4 := t0 % 16, dat5 := t0 % 16, dat6 := t0 % 16, dat7 := t0 % 16 },
             adjust := { l.adjust with cmd_delay := t0 % 16, ds_delay := t0 % 16 } }
  else if buf.getD 0 (Char.ofNat 0) = 'r' then
    let r := env.sscanf buf DebugFmt.rx_phase
    let t0 := r.2.getD env.t0
    { l with ret := r.1, vclkc := { l.vclkc with rx_phase := t0 % 4 } }
  else if buf.getD 0 (Char.ofNat 0) = 't' then
    let r := env.sscanf buf DebugFmt.tx_phase
    let t0 := r.2.getD env.t0
    { l with ret := r.1, vclkc := { l.vclkc with tx_phase := t0 % 4 } }
  else l

/-- The block of `emmc_debug` that stores a changed clock word: the clock
register, `pdata->clkc` and `actual_clock`. -/
def emmc_debug_store_clock (h : Host) (vclkc : sd_emmc_clock) : Host :=
  if vclkc ≠ h.regs.gclock then
    let h1 := write_gclock h vclkc
    let clock := 1000000000 / vclkc.div
    { h1 with clkc := h1.regs.gclock,
              actual_clock := if h1.regs.gcfg.ddr then clock / 2 else clock }
  else h

/-- The block of `emmc_debug` that stores a changed line delay: the line-delay
register, then the adjust register. -/
def emmc_debug_store_delay (h : Host) (line_delay : sd_emmc_delay)
    (adjust : sd_emmc_adjust) : Host :=
  if line_delay ≠ h.regs.gdelay then
    { h with regs := { h.regs with gdelay := line_delay, gadjust := adjust },
             writes := h.writes ++ [RegWrite.gdelay line_delay, RegWrite.gadjust adjust] }
  else h

/-- The two storing blocks of `emmc_debug`, in order. -/
def emmc_debug_store (h : Host) (l : DebugLocals) : Host :=
  emmc_debug_store_delay (emmc_debug_store_clock h l.vclkc) l.line_delay l.adjust

/-- The function `emmc_debug`, the store of the debug attribute; `h` is the
host `host_emmc` points to. -/
def emmc_debug (env : DebugEnv) (h : Host) (buf : List Char) (count : Nat) : DebugOut :=
  let l := emmc_debug_switch env h buf
  let h1 := emmc_debug_store h l
  if l.ret ≠ 1 ∨ l.ret ≠ 2 then { host := h1, ret := -EINVAL }
  else { host := h1, ret := (count : Int) }

/-- An environment in which `sscanf` finds the number 50000000 behind the
keyword `clock` and nothing for the other formats. -/
def env_clock_50mhz : DebugEnv :=
  { sscanf := fun _ f => if f = DebugFmt.clock then (1, some 50000000) else (0, none),
    ret := 0, t0 := 0 }


/-! ## Demodulator driver (`drivers/amlogic/dvb_tv/cxd2837er.c`)

The state machine of the CXD2837ER demodulator. The messages handed to
`i2c_transfer` are appended to `cxd2837er_priv.msgs`; the result of each
transfer and the byte a read brings back come from an environment (`I2cEnv`).
Delays (`usleep_range`) and logging are left out. -/

def E2BIG : Int := 7
def EIO : Int := 5

/-- Values of `enum fe_delivery_system` in `linux/dvb/frontend.h`. -/
def SYS_DVBC_ANNEX_A : Nat := 1
def SYS_DVBT : Nat := 3
def SYS_DVBT2 : Nat := 16

def I2C_SLVX : Nat := 0
def I2C_SLVT : Nat := 1

def MAX_WRITE_REGSIZE : Nat := 16

/-- The states of the demodulator (`enum cxd2837er_state`). -/
inductive cxd2837er_state where
  | STATE_SHUTDOWN
  | STATE_SLEEP_TC
  | STATE_ACTIVE_TC
deriving DecidableEq, Repr

/-- One message handed to `i2c_transfer`: the slave it goes to (`I2C_SLVX` or
`I2C_SLVT`), the flag `I2C_M_RD`, the bytes written and the length. -/
structure i2c_msg where
  addr : Nat
  rd : Bool
  buf : List Nat
  len : Nat
deriving DecidableEq, Repr

/-- The fields of `struct cxd2837er_priv` the state machine uses, and the
messages handed to `i2c_transfer` so far. -/
structure cxd2837er_priv where
  state : cxd2837er_state
  system : Nat
  msgs : List i2c_msg
deriving DecidableEq, Repr

/-- The I2C bus: the value `i2c_transfer` returns for a message, given the
messages before it, and the byte a read message brings back. -/
structure I2cEnv where
  i2c_transfer : List i2c_msg → i2c_msg → Int
  rdata : List i2c_msg → Nat

/-- One call of `i2c_transfer` with one message and the handling of its result
that `cxd2837er_write_regs` and `cxd2837er_read_regs` share: a count other
than 1 becomes `-EIO`, and 0 stands for success. -/
def cxd2837er_transfer (env : I2cEnv) (priv : cxd2837er_priv) (msg : i2c_msg) :
    cxd2837er_priv × Int :=
  let ret := env.i2c_transfer priv.msgs msg
  let ret := if ret ≥ 0 ∧ ret ≠ 1 then - EIO else ret
  ({ priv with msgs := priv.msgs ++ [msg] }, if ret < 0 then ret else 0)

/-- The function `cxd2837er_write_regs`. -/
def cxd2837er_write_regs (env : I2cEnv) (priv : cxd2837er_priv) (addr reg : Nat)
    (data : List Nat) : cxd2837er_priv × Int :=
  if data.length + 1 ≥ MAX_WRITE_REGSIZE + 1 then (priv, -E2BIG)
  else
    cxd2837er_transfer env priv
      { addr := addr, rd := false, buf := reg :: data, len := data.length + 1 }

/-- The function `cxd2837er_write_reg`. -/
def cxd2837er_write_reg (env : I2cEnv) (priv : cxd2837er_priv) (addr reg val : Nat) :
    cxd2837er_priv × Int :=
  cxd2837er_write_regs env priv addr reg [val]

/-- The function `cxd2837er_read_reg` (`cxd2837er_read_regs` with length 1):
the host, the result and the byte read. -/
def cxd2837er_read_reg (env : I2cEnv) (priv : cxd2837er_priv) (addr reg : Nat) :
    cxd2837er_priv × Int × Nat :=
  let r1 := cxd2837er_transfer env priv { addr := addr, rd := false, buf := [reg], len := 1 }
  if r1.2 < 0 then (r1.1, r1.2, 0)
  else
    let r2 := cxd2837er_transfer env r1.1 { addr := addr, rd := true, buf := [], len := 1 }
    if r2.2 < 0 then (r2.1, r2.2, 0)
    else (r2.1, 0, env.rdata r1.1.msgs % 256)

/-- The function `cxd2837er_set_reg_bits`. -/
def cxd2837er_set_reg_bits (env : I2cEnv) (priv : cxd2837er_priv) (addr reg data mask : Nat) :
    cxd2837er_priv × Int :=
  if mask ≠ 0xff then
    let r := cxd2837er_read_reg env priv addr reg
    if r.2.1 ≠ 0 then (r.1, r.2.1)
    else
      cxd2837er_write_reg env r.1 addr reg ((data &&& mask) ||| (r.2.2 &&& (mask ^^^ 0xff)))
  else cxd2837er_write_reg env priv addr reg data

/-- The function `cxd2837er_sleep_tc_to_shutdown`. -/
def cxd2837er_sleep_tc_to_shutdown (env : I2cEnv) (priv : cxd2837er_priv) :
    cxd2837er_priv × Int :=
  if priv.state ≠ cxd2837er_state.STATE_SLEEP_TC then (priv, -EINVAL)
  else
    let p := (cxd2837er_write_reg env priv I2C_SLVX 0x00 0x00).1
    let p := (cxd2837er_write_reg env p I2C_SLVX 0x15 0x01).1
    let p := (cxd2837er_write_reg env p I2C_SLVX 0x17 0x01).1
    ({ p with state := cxd2837er_state.STATE_SHUTDOWN }, 0)

/-- The register writes the three functions `cxd2837er_active_*_to_sleep_tc`
end with: ADC, RF level monitor and demodulator clock off. -/
def cxd2837er_adc_off (env : I2cEnv) (priv : cxd2837er_priv) : cxd2837er_priv :=
  let p := (cxd2837er_write_reg env priv I2C_SLVX 0x00 0x00).1
  let p := (cxd2837er_write_reg env p I2C_SLVX 0x18 0x01).1
  let p := (cxd2837er_write_reg env p I2C_SLVT 0x00 0x00).1
  let p := (cxd2837er_write_reg env p I2C_SLVT 0x43 0x0a).1
  let p := (cxd2837er_write_reg env p I2C_SLVT 0x41 0x0a).1
  let p := (cxd2837er_write_reg env p I2C_SLVT 0x30 0x00).1
  let p := (cxd2837er_write_reg env p I2C_SLVT 0x2f 0x00).1
  (cxd2837er_write_reg env p I2C_SLVT 0x2c 0x00).1

/-- The register writes the three functions `cxd2837er_active_*_to_sleep_tc`
start with: TS output off, Hi-Z settings on. -/
def cxd2837er_ts_off (env : I2cEnv) (priv : cxd2837er_priv) : cxd2837er_priv :=
  let p := (cxd2837er_write_reg env priv I2C_SLVT 0x00 0x00).1
  let p := (cxd2837er_write_reg env p I2C_SLVT 0xc3 0x01).1
  let p := (cxd2837er_write_reg env p I2C_SLVT 0x80 0x3f).1
  (cxd2837er_write_reg env p I2C_SLVT 0x81 0xff).1

/-- The function `cxd2837er_active_t_to_sleep_tc`. -/
def cxd2837er_active_t_to_sleep_tc (env : I2cEnv) (priv : cxd2837er_priv) :
    cxd2837er_priv × Int :=
  if priv.state ≠ cxd2837er_state.STATE_ACTIVE_TC then (priv, -EINVAL)
  else
    let p := cxd2837er_ts_off env priv
    let p := cxd2837er_adc_off env p
    ({ p with state := cxd2837er_state.STATE_SLEEP_TC }, 0)

/-- The function `cxd2837er_active_t2_to_sleep_tc`. -/
def cxd2837er_active_t2_to_sleep_tc (env : I2cEnv) (priv : cxd2837er_priv) :
    cxd2837er_priv × Int :=
  if priv.state ≠ cxd2837er_state.STATE_ACTIVE_TC then (priv, -EINVAL)
  else
    let p := cxd2837er_ts_off env priv
    let p := (cxd2837er_write_reg env p I2C_SLVT 0x00 0x13).1
    let p := (cxd2837er_write_reg env p I2C_SLVT 0x83 0x40).1
    let p := (cxd2837er_write_reg env p I2C_SLVT 0x86 0x21).1
    let p := (cxd2837er_set_reg_bits env p I2C_SLVT 0x9e 0x09 0x0f).1
    let p := (cxd2837er_write_reg env p I2C_SLVT 0x9f 0xfb).1
    let p := (cxd2837er_write_reg env p I2C_SLVT 0x00 0x2a).1
    let p := (cxd2837er_set_reg_bits env p I2C_SLVT 0x38 0x00 0x0f).1
    let p := (cxd2837er_write_reg env p I2C_SLVT 0x00 0x2b).1
    let p := (cxd2837er_set_reg_bits env p I2C_SLVT 0x11 0x00 0x3f).1
    let p := cxd2837er_adc_off env p
    ({ p with state := cxd2837er_state.STATE_SLEEP_TC }, 0)

/-- The function `cxd2837er_active_c_to_sleep_tc`. -/
def cxd2837er_active_c_to_sleep_tc (env : I2cEnv) (priv : cxd2837er_priv) :
    cxd2837er_priv × Int :=
  if priv.state ≠ cxd2837er_state.STATE_ACTIVE_TC then (priv, -EINVAL)
  else
    let p := cxd2837er_ts_off env priv
    let p := (cxd2837er_write_reg env p I2C_SLVT 0x00 0x11).1
    let p := (cxd2837er_set_reg_bits env p I2C_SLVT 0xa3 0x00 0x1f).1
    let p := cxd2837er_adc_off env p
    ({ p with state := cxd2837er_state.STATE_SLEEP_TC }, 0)

/-- The function `cxd2837er_shutdown_to_sleep_tc`. -/
def cxd2837er_shutdown_to_sleep_tc (env : I2cEnv) (priv : cxd2837er_priv) :
    cxd2837er_priv × Int :=
  if priv.state ≠ cxd2837er_state.STATE_SHUTDOWN then (priv, -EINVAL)
  else
    let p := (cxd2837er_write_reg env priv I2C_SLVX 0x00 0x00).1
    let p := (cxd2837er_write_reg env p I2C_SLVX 0x02 0x00).1
    let p := (cxd2837er_write_reg env p I2C_SLVX 0x00 0x00).1
    let p := (cxd2837er_write_reg env p I2C_SLVX 0x10 0x01).1
    let p := (cxd2837er_write_regs env p I2C_SLVX 0x13 [0x00, 0x00]).1
    let p := (cxd2837er_write_reg env p I2C_SLVX 0x10 0x00).1
    let p := (cxd2837er_write_reg env p I2C_SLVT 0x00 0x00).1
    let p := (cxd2837er_write_reg env p I2C_SLVT 0x43 0x0a).1
    let p := (cxd2837er_write_reg env p I2C_SLVT 0x41 0x0a).1
    ({ p with state := cxd2837er_state.STATE_SLEEP_TC }, 0)

/-- The function `cxd2837er_sleep_tc`. -/
def cxd2837er_sleep_tc (env : I2cEnv) (priv : cxd2837er_priv) : cxd2837er_priv × Int :=
  let p :=
    if priv.state = cxd2837er_state.STATE_ACTIVE_TC then
      if priv.system = SYS_DVBT then (cxd2837er_active_t_to_sleep_tc env priv).1
      else if priv.system = SYS_DVBT2 then (cxd2837er_active_t2_to_sleep_tc env priv).1
      else if priv.system = SYS_DVBC_ANNEX_A then (cxd2837er_active_c_to_sleep_tc env priv).1
      else priv
    else priv
  if p.state ≠ cxd2837er_state.STATE_SLEEP_TC then (p, -EINVAL)
  else ((cxd2837er_sleep_tc_to_shutdown env p).1, 0)

/-- A bus on which every transfer succeeds and every read brings back 0. -/
def i2c_ok : I2cEnv :=
  { i2c_transfer := fun _ _ => 1, rdata := fun _ => 0 }

/-- The demodulator active on a DVB-T2 channel, no message sent yet. -/
def priv_active_t2 : cxd2837er_priv :=
  { state := cxd2837er_state.STATE_ACTIVE_TC, system := SYS_DVBT2, msgs := [] }

/-- An idle SD port whose platform data gives `f_min` 300 kHz. -/
def host_sd_300khz : Host := host_boot CardType.CARD_TYPE_SD true 300000 50000000


/-! ## Theorems -/

/-- C1. Admission guard of `aml_sd_emmc_request`: a request submitted while the
medium is absent, or while `init_flag` is 0 on an SD port, is completed inside
the call: `mmc_request_done` is called exactly once more, with the request
carrying `error = -ENOMEDIUM` and `retries = 0`, and `host->mrq`,
`host->xfer_step`, the registers, the log of register writes, the gating flag
and the descriptor buffer are left as they were. -/
theorem request_rejected_at_admission (cfg : BuildCfg) (h : Host) (mrq : MmcRequest)
    (hrej : h.is_in = false ∨ (h.init_flag = false ∧ h.card_type = CardType.CARD_TYPE_SD)) :
    (aml_sd_emmc_request cfg h mrq false).done
        = h.done ++ [{ mrq with cmd := { mrq.cmd with error := -ENOMEDIUM, retries := 0 } }]
      ∧ (aml_sd_emmc_request cfg h mrq false).mrq = h.mrq
      ∧ (aml_sd_emmc_request cfg h mrq false).xfer_step = h.xfer_step
      ∧ (aml_sd_emmc_request cfg h mrq false).regs = h.regs
      ∧ (aml_sd_emmc_request cfg h mrq false).writes = h.writes
      ∧ (aml_sd_emmc_request cfg h mrq false).is_gated = h.is_gated
      ∧ (aml_sd_emmc_request cfg h mrq false).desc_buf = h.desc_buf := by
  have hc : (!h.is_in || (!h.init_flag && h.card_type == CardType.CARD_TYPE_SD)) = true := by
    rcases hrej with h1 | ⟨h1, h2⟩
    · simp [h1]
    · simp [h1, h2]
  simp [aml_sd_emmc_request, hc]

/-- C1, evaluated: CMD13 submitted to an SD port without a card. -/
theorem request_rejected_at_admission_witness :
    host_sd_empty.is_in = false
      ∧ (aml_sd_emmc_request cfg_sgmap host_sd_empty req_cmd13 false).done
          = [{ cmd := { opcode := 13, arg := 65536, flags := 21, error := -123, retries := 0 },
               data := none, stop := none }]
      ∧ (aml_sd_emmc_request cfg_sgmap host_sd_empty req_cmd13 false).writes = [] :=
  ⟨rfl, (request_rejected_at_admission cfg_sgmap host_sd_empty req_cmd13 (Or.inl rfl)).1,
    (request_rejected_at_admission cfg_sgmap host_sd_empty req_cmd13 (Or.inl rfl)).2.2.2.2.1⟩

/-- First component of a conditional pair whose branches share it. -/
theorem ite_pair_fst {α β : Type} (c : Prop) [Decidable c] (a : α) (x y : β) :
    (if c then (a, x) else (a, y)).1 = a := by
  split <;> rfl

/-- C5, counterexample. With the status word 0 (and the SDIO interrupt not
enabled) the handler returns before any classification: a live request keeps
`xfer_step = XFER_AFTER_START` instead of `XFER_IRQ_UNKNOWN_IRQ`, and
`host->status`, `cmd->error` and the registers are untouched, although no higher
rule of the chain matches the word. -/
theorem irq_status_zero_not_classified :
    irq_classify 0 = IrqClass.unknown
      ∧ host_emmc_cmd13.mrq = some req_cmd13
      ∧ (aml_sd_emmc_irq host_emmc_cmd13
          { girq_en := 0x3fff, gstatus := 0, sdio_irq_thread := false }).1.xfer_step
          = XferStep.XFER_AFTER_START
      ∧ (aml_sd_emmc_irq host_emmc_cmd13
          { girq_en := 0x3fff, gstatus := 0, sdio_irq_thread := false }).1.status
          = HostStatus.HOST_INVALID
      ∧ (aml_sd_emmc_irq host_emmc_cmd13
          { girq_en := 0x3fff, gstatus := 0, sdio_irq_thread := false }).2
          = IrqReturn.IRQ_HANDLED := by
  refine ⟨by decide, rfl, rfl, rfl, rfl⟩

/-- C5, amended. For every interrupt that passes the entry gate of
`aml_sd_emmc_irq` (`irq_early_return` false) and every live request, exactly
one classification is chosen, by the first matching rule in the order data CRC,
response CRC, response timeout, data timeout, end of chain or descriptor
interrupt, unknown; a lower rule never overrides a higher one. -/
theorem irq_classification_priority (h : Host) (i : IrqIn) (m : MmcRequest)
    (hm : h.mrq = some m) (hgate : irq_early_return i = false) :
    let v := i.gstatus &&& 0xffff
    let r := (aml_sd_emmc_irq h i).1
    let pending := if h.cmd_is_stop then XferStep.XFER_IRQ_TASKLET_BUSY
                   else XferStep.XFER_IRQ_OCCUR
    (ista_rxd_err v = true ∨ ista_txd_err v = true →
        r.status = HostStatus.HOST_DAT_CRC_ERR
        ∧ r.mrq = some { m with cmd := { m.cmd with error := -EILSEQ } }
        ∧ r.xfer_step = pending)
    ∧ (ista_rxd_err v = false → ista_txd_err v = false → ista_resp_err v = true →
        r.status = HostStatus.HOST_RSP_CRC_ERR
        ∧ r.mrq = some { m with cmd := { m.cmd with error := -EILSEQ } }
        ∧ r.xfer_step = pending)
    ∧ (ista_rxd_err v = false → ista_txd_err v = false → ista_resp_err v = false →
        ista_resp_timeout v = true →
        r.status = HostStatus.HOST_RSP_TIMEOUT_ERR
        ∧ r.mrq = some { m with cmd := { m.cmd with error := -ETIMEDOUT } }
        ∧ r.xfer_step = pending)
    ∧ (ista_rxd_err v = false → ista_txd_err v = false → ista_resp_err v = false →
        ista_resp_timeout v = false → ista_desc_timeout v = true →
        r.status = HostStatus.HOST_DAT_TIMEOUT_ERR
        ∧ r.mrq = some { m with cmd := { m.cmd with error := -ETIMEDOUT } }
        ∧ r.xfer_step = pending)
    ∧ (ista_rxd_err v = false → ista_txd_err v = false → ista_resp_err v = false →
        ista_resp_timeout v = false → ista_desc_timeout v = false →
        (ista_end_of_chain v = true ∨ ista_desc_irq v = true) →
        r.status = (if m.data.isSome then HostStatus.HOST_TASKLET_DATA
                    else HostStatus.HOST_TASKLET_CMD)
        ∧ r.mrq = some { m with cmd := { m.cmd with error := 0 } }
        ∧ r.xfer_step = pending)
    ∧ (ista_rxd_err v = false → ista_txd_err v = false → ista_resp_err v = false →
        ista_resp_timeout v = false → ista_desc_timeout v = false →
        ista_end_of_chain v = false → ista_desc_irq v = false →
        r.status = h.status ∧ r.mrq = some m
        ∧ r.xfer_step = XferStep.XFER_IRQ_UNKNOWN_IRQ) := by
  intro v r pending
  have hr : r = irq_apply (write_gstatus { h with xfer_step := pending } (i.gstatus &&& 0xffff)) v := by
    simp only [r, aml_sd_emmc_irq, hgate, hm, Option.isNone_some, Option.isSome_some,
      Bool.false_and, if_true, Bool.false_eq_true, if_false, ite_pair_fst]
  refine ⟨?_, ?_, ?_, ?_, ?_, ?_⟩
  · intro h1
    have hc : irq_classify v = IrqClass.dat_crc := by
      rcases h1 with h1 | h1 <;> simp [irq_classify, h1]
    simp [hr, irq_apply, hc, set_cmd_error, write_gstatus, hm]
  · intro h1 h2 h3
    have hc : irq_classify v = IrqClass.rsp_crc := by simp [irq_classify, h1, h2, h3]
    simp [hr, irq_apply, hc, set_cmd_error, write_gstatus, hm]
  · intro h1 h2 h3 h4
    have hc : irq_classify v = IrqClass.rsp_timeout := by simp [irq_classify, h1, h2, h3, h4]
    simp [hr, irq_apply, hc, set_cmd_error, write_gstatus, hm]
  · intro h1 h2 h3 h4 h5
    have hc : irq_classify v = IrqClass.dat_timeout := by
      simp [irq_classify, h1, h2, h3, h4, h5]
    simp [hr, irq_apply, hc, set_cmd_error, write_gstatus, hm]
  · intro h1 h2 h3 h4 h5 h6
    have hc : irq_classify v = IrqClass.done := by
      rcases h6 with h6 | h6 <;> simp [irq_classify, h1, h2, h3, h4, h5, h6]
    simp [hr, irq_apply, hc, set_cmd_error, write_gstatus, hm]
  · intro h1 h2 h3 h4 h5 h6 h7
    have hc : irq_classify v = IrqClass.unknown := by
      simp [irq_classify, h1, h2, h3, h4, h5, h6, h7]
    simp [hr, irq_apply, hc, write_gstatus, hm]

/-- C5, amended, evaluated: a status word with both a data CRC error and the
end-of-chain bit is classified as a data CRC error. -/
theorem irq_classification_priority_witness :
    host_emmc_cmd13.mrq = some req_cmd13
      ∧ irq_early_return { girq_en := 0x3fff, gstatus := 0x2001, sdio_irq_thread := false } = false
      ∧ (aml_sd_emmc_irq host_emmc_cmd13
          { girq_en := 0x3fff, gstatus := 0x2001, sdio_irq_thread := false }).1.status
          = HostStatus.HOST_DAT_CRC_ERR :=
  ⟨rfl, by decide,
    ((irq_classification_priority host_emmc_cmd13
      { girq_en := 0x3fff, gstatus := 0x2001, sdio_irq_thread := false } req_cmd13 rfl
      (by decide)).1 (Or.inl (by decide))).1⟩

/-- C7. Chosen tuning delay: for a best window `(best_win_start, best_win_size)`
of positive size inside a phase range of `clk_div` delays, the delay programmed
into the field `adj_delay` is 0 when the window spans the whole range, and
`(best_win_start + (best_win_size - 1) / 2) mod clk_div` otherwise. -/
theorem tuning_delay_is_window_midpoint (h : Host) (adjust : sd_emmc_adjust) (w : TuneWin)
    (start size clk_div : Nat)
    (hstart : w.best_win_start = (start : Int)) (hsize : w.best_win_size = (size : Int))
    (hpos : 0 < size) (hs : start < clk_div) (hz : size ≤ clk_div) (hdiv : clk_div ≤ 63) :
    (tune_program h adjust w clk_div).regs.gadjust.adj_delay
      = (if size = clk_div then 0 else (start + (size - 1) / 2) % clk_div) := by
  have hfind : adj_delay_find w.best_win_start w.best_win_size clk_div
      = (if size = clk_div then 0 else (start + (size - 1) / 2) % clk_div) := by
    unfold adj_delay_find
    rw [hstart, hsize]
    by_cases he : size = clk_div
    · simp [he]
    · have he2 : ¬ ((size : Int) = (clk_div : Int)) := by exact_mod_cast he
      rw [if_neg he2, if_neg he]
      have h1 : ((size : Int) - 1) = ((size - 1 : Nat) : Int) := by omega
      have h2 : Int.tdiv ((size - 1 : Nat) : Int) 2 = (((size - 1) / 2 : Nat) : Int) := by
        rw [Int.tdiv_eq_ediv (by omega) (by omega)]
        norm_cast
      rw [h1, h2]
      have h3 : ((start : Int) + (((size - 1) / 2 : Nat) : Int)) % 4294967296
          = ((start + (size - 1) / 2 : Nat) : Int) := by
        have : start + (size - 1) / 2 < 4294967296 := by omega
        omega
      rw [h3, Int.toNat_ofNat]
  have hlt : (if size = clk_div then 0 else (start + (size - 1) / 2) % clk_div) < 64 := by
    split
    · omega
    · have := Nat.mod_lt (start + (size - 1) / 2) (show 0 < clk_div by omega)
      omega
  simp only [tune_program, hfind]
  exact Nat.mod_eq_of_lt hlt

/-- C7, evaluated: best window start 3, size 3, phase range 7 gives delay 4. -/
theorem tuning_delay_is_window_midpoint_witness :
    (tune_program host_emmc host_emmc.regs.gadjust (tune_select samples7 7) 7).regs.gadjust.adj_delay
      = 4 :=
  tuning_delay_is_window_midpoint host_emmc host_emmc.regs.gadjust (tune_select samples7 7)
    3 3 7 (by decide) (by decide) (by decide) (by decide) (by decide) (by decide)

/-- Ceiling division as the driver computes it. -/
theorem clk_div_of_eq_ceil (rate t : Nat) (ht : 0 < t) :
    clk_div_of rate t = (rate + t - 1) / t := by
  unfold clk_div_of
  have hdm := Nat.div_add_mod rate t
  have hml := Nat.mod_lt rate ht
  by_cases hr : rate % t = 0
  · simp only [hr, bne_self_eq_false, Bool.false_eq_true, if_false, Nat.add_zero]
    have hrt : rate = t * (rate / t) := by omega
    symm
    apply Nat.div_eq_of_lt_le
    · calc rate / t * t = t * (rate / t) := Nat.mul_comm _ _
        _ ≤ rate + t - 1 := by omega
    · calc rate + t - 1 < t * (rate / t) + t := by omega
        _ = (rate / t + 1) * t := by ring
  · have hb : (rate % t != 0) = true := by simp [hr]
    simp only [hb, if_true]
    symm
    apply Nat.div_eq_of_lt_le
    · calc (rate / t + 1) * t = t * (rate / t) + t := by ring
        _ ≤ rate + t - 1 := by omega
    · calc rate + t - 1 < t * (rate / t) + t + t := by omega
        _ = (rate / t + 1 + 1) * t := by ring

/-- The two inequalities that characterise a ceiling quotient. -/
theorem ceil_div_bounds (rate t : Nat) (hr : 0 < rate) (ht : 0 < t) :
    rate ≤ (rate + t - 1) / t * t ∧ ((rate + t - 1) / t - 1) * t < rate := by
  have hdm := Nat.div_add_mod (rate + t - 1) t
  have hml := Nat.mod_lt (rate + t - 1) ht
  have hc : (rate + t - 1) / t * t = t * ((rate + t - 1) / t) := Nat.mul_comm _ _
  have h1 : rate ≤ (rate + t - 1) / t * t := by omega
  have hdpos : 0 < (rate + t - 1) / t := by
    rcases Nat.eq_zero_or_pos ((rate + t - 1) / t) with h0 | h0
    · rw [h0] at h1
      omega
    · exact h0
  refine ⟨h1, ?_⟩
  have e : ((rate + t - 1) / t - 1) * t + t = (rate + t - 1) / t * t := by
    have : ((rate + t - 1) / t - 1) * t + t = ((rate + t - 1) / t - 1 + 1) * t := by ring
    rw [this, Nat.sub_add_cancel hdpos]
  omega

/-- The two clamping statements compute the clamp into `[f_min, f_max]`. -/
theorem clk_clamp_eq (f_min f_max clk_ios : Nat) :
    clk_clamp f_min f_max clk_ios = max f_min (min clk_ios f_max) := by
  simp only [clk_clamp]
  by_cases h1 : clk_ios > f_max
  · rw [if_pos h1, Nat.min_eq_right (by omega)]
    by_cases h2 : f_max < f_min
    · rw [if_pos h2, Nat.max_eq_left (by omega)]
    · rw [if_neg h2, Nat.max_eq_right (by omega)]
  · rw [if_neg h1, Nat.min_eq_left (by omega)]
    by_cases h2 : clk_ios < f_min
    · rw [if_pos h2, Nat.max_eq_left (by omega)]
    · rw [if_neg h2, Nat.max_eq_right (by omega)]

/-- C8. Clock divisor of `aml_sd_emmc_set_clk_rate`: for a requested clock
`clk_ios > 0`, with the 24 MHz source below 20 MHz and the 1 GHz source
otherwise, and the target `t` the requested clock clamped into
`[f_min, f_max]`, `t > 0`, the divisor handed to `aml_sd_emmc_clk_switch` is
`ceil(rate / t)` (the least `d` with `rate ≤ d * t`), and `actual_clock` is
`rate / divisor`. -/
theorem set_clk_rate_ceiling_divisor (h : Host) (clk_ios : Nat) (hpos : 0 < clk_ios)
    (ht : 0 < max h.f_min (min clk_ios h.f_max)) :
    let rate := if clk_ios < 20000000 then 24000000 else 1000000000
    let src := if clk_ios < 20000000 then SD_EMMC_CLOCK_SRC_OSC else SD_EMMC_CLOCK_SRC_FCLK_DIV2
    let t := max h.f_min (min clk_ios h.f_max)
    let d := (rate + t - 1) / t
    rate ≤ d * t ∧ (d - 1) * t < rate
      ∧ (aml_sd_emmc_set_clk_rate h clk_ios).regs = (aml_sd_emmc_clk_switch h d src).regs
      ∧ (aml_sd_emmc_set_clk_rate h clk_ios).writes = (aml_sd_emmc_clk_switch h d src).writes
      ∧ (aml_sd_emmc_set_clk_rate h clk_ios).is_gated = (aml_sd_emmc_clk_switch h d src).is_gated
      ∧ (aml_sd_emmc_set_clk_rate h clk_ios).clkc = (aml_sd_emmc_clk_switch h d src).regs.gclock
      ∧ (aml_sd_emmc_set_clk_rate h clk_ios).actual_clock = rate / d := by
  intro rate src t d
  have hclamp : clk_clamp h.f_min h.f_max clk_ios = t := clk_clamp_eq _ _ _
  have hsrc : clk_src_sel_of clk_ios = src := rfl
  have hrate : clk_rate_of src = rate := by
    simp only [clk_rate_of, src, rate, SD_EMMC_CLOCK_SRC_OSC, SD_EMMC_CLOCK_SRC_FCLK_DIV2]
    by_cases h1 : clk_ios < 20000000 <;> simp [h1]
  have hd : clk_div_of rate t = d := clk_div_of_eq_ceil rate t ht
  have hrpos : 0 < rate := by
    simp only [rate]
    split <;> omega
  have hne : clk_ios ≠ 0 := by omega
  refine ⟨(ceil_div_bounds rate t hrpos ht).1, (ceil_div_bounds rate t hrpos ht).2, ?_⟩
  simp [aml_sd_emmc_set_clk_rate, if_neg hne, hclamp, hsrc, hrate, hd]

/-- C8, evaluated: 25 MHz gives divisor 40 and 25,000,000 Hz; 30 MHz gives
divisor 34 and 29,411,764 Hz. -/
theorem set_clk_rate_ceiling_divisor_witness :
    ((1000000000 + 25000000 - 1) / 25000000 = 40
      ∧ (aml_sd_emmc_set_clk_rate host_emmc 25000000).actual_clock = 25000000)
    ∧ ((1000000000 + 30000000 - 1) / 30000000 = 34
      ∧ (aml_sd_emmc_set_clk_rate host_emmc 30000000).actual_clock = 29411764) :=
  ⟨⟨by decide,
     (set_clk_rate_ceiling_divisor host_emmc 25000000 (by decide) (by decide)).2.2.2.2.2.2⟩,
   ⟨by decide,
     (set_clk_rate_ceiling_divisor host_emmc 30000000 (by decide) (by decide)).2.2.2.2.2.2⟩⟩

/-- C9, counterexample. On an eMMC port with the card present, a second
`aml_sd_emmc_set_ios` with the same values (25 MHz, 4-bit bus, legacy timing)
writes the configuration register twice more; and with the clock off and a
DDR timing the second call halves the divisor again (60, 30, 15). -/
theorem set_ios_second_call_writes :
    host_emmc.is_in = true
      ∧ (aml_sd_emmc_set_ios (aml_sd_emmc_set_ios host_emmc ios_25mhz) ios_25mhz).writes
          = (aml_sd_emmc_set_ios host_emmc ios_25mhz).writes
            ++ [RegWrite.gcfg (aml_sd_emmc_set_ios host_emmc ios_25mhz).regs.gcfg,
                RegWrite.gcfg (aml_sd_emmc_set_ios host_emmc ios_25mhz).regs.gcfg]
      ∧ (aml_sd_emmc_set_ios host_emmc ios_ddr_off).regs.gclock.div = 30
      ∧ (aml_sd_emmc_set_ios (aml_sd_emmc_set_ios host_emmc ios_ddr_off)
          ios_ddr_off).regs.gclock.div = 15 := by
  refine ⟨rfl, by decide, by decide, by decide⟩

/-- C10. Idempotent write of `aml_sd_emmc_clk_switch`: when the clock is not
gated and the divisor and source fields of the clock register equal the
requested ones, the call changes nothing (no register write; `is_gated`,
`gclock` and `gcfg` are unchanged); in every other case it gates the clock off
(a write of `gcfg` with `stop_clk = 1` unless the clock is already gated), then
writes the divisor and the source into `gclock`, then ungates with a write of
`gcfg` with `stop_clk = 0`. -/
theorem clk_switch_idempotent_write (h : Host) (clk_div clk_src_sel : Nat) :
    (h.is_gated = false ∧ h.regs.gclock.div = clk_div ∧ h.regs.gclock.src = clk_src_sel →
        aml_sd_emmc_clk_switch h clk_div clk_src_sel = h)
    ∧ (¬ (h.is_gated = false ∧ h.regs.gclock.div = clk_div ∧ h.regs.gclock.src = clk_src_sel) →
        (aml_sd_emmc_clk_switch_off h).is_gated = true
        ∧ (h.is_gated = true → aml_sd_emmc_clk_switch_off h = h)
        ∧ (h.is_gated = false →
            (aml_sd_emmc_clk_switch_off h).writes
              = h.writes ++ [RegWrite.gcfg { h.regs.gcfg with stop_clk := true }]
            ∧ (aml_sd_emmc_clk_switch_off h).regs.gcfg.stop_clk = true)
        ∧ aml_sd_emmc_clk_switch h clk_div clk_src_sel
            = aml_sd_emmc_clk_switch_on (aml_sd_emmc_clk_switch_off h) clk_div clk_src_sel
        ∧ (aml_sd_emmc_clk_switch h clk_div clk_src_sel).writes
            = (aml_sd_emmc_clk_switch_off h).writes
              ++ [RegWrite.gclock { h.regs.gclock with div := clk_div % 64,
                                                        src := clk_src_sel % 4 },
                  RegWrite.gcfg { (aml_sd_emmc_clk_switch_off h).regs.gcfg with
                                    stop_clk := false }]
        ∧ (aml_sd_emmc_clk_switch h clk_div clk_src_sel).regs.gclock
            = { h.regs.gclock with div := clk_div % 64, src := clk_src_sel % 4 }
        ∧ (aml_sd_emmc_clk_switch h clk_div clk_src_sel).regs.gcfg
            = { h.regs.gcfg with stop_clk := false }
        ∧ (aml_sd_emmc_clk_switch h clk_div clk_src_sel).is_gated = false) := by
  constructor
  · rintro ⟨h1, h2, h3⟩
    simp [aml_sd_emmc_clk_switch, h1, h2, h3]
  · intro hn
    have hc : (!h.is_gated && h.regs.gclock.div == clk_div && h.regs.gclock.src == clk_src_sel)
        = false := by
      by_contra hc
      simp only [Bool.not_eq_false, Bool.and_eq_true, Bool.not_eq_eq_eq_not, Bool.not_true,
        beq_iff_eq] at hc
      exact hn ⟨hc.1.1, hc.1.2, hc.2⟩
    have hsw : aml_sd_emmc_clk_switch h clk_div clk_src_sel
        = aml_sd_emmc_clk_switch_on (aml_sd_emmc_clk_switch_off h) clk_div clk_src_sel := by
      simp [aml_sd_emmc_clk_switch, hc]
    rw [hsw]
    cases hg : h.is_gated <;>
      simp [aml_sd_emmc_clk_switch_on, aml_sd_emmc_clk_switch_off, write_gcfg, write_gclock, hg]

/-- C10, evaluated on the idle port (divisor 60, source 0, not gated): the same
pair writes nothing, the pair (40, 1) gates, programs and ungates. -/
theorem clk_switch_idempotent_write_witness :
    (aml_sd_emmc_clk_switch host_emmc 60 0).writes = []
      ∧ (aml_sd_emmc_clk_switch host_emmc 40 1).writes
          = [RegWrite.gcfg { host_emmc.regs.gcfg with stop_clk := true },
             RegWrite.gclock { div := 40, src := 1, other := 0 },
             RegWrite.gcfg { host_emmc.regs.gcfg with stop_clk := false }] :=
  ⟨congrArg Host.writes ((clk_switch_idempotent_write host_emmc 60 0).1 ⟨rfl, rfl, rfl⟩),
   ((clk_switch_idempotent_write host_emmc 40 1).2 (by decide)).2.2.2.2.1⟩

/-- For a timing that is not one of the three DDR modes
`aml_sd_emmc_set_timing` only stores the configuration register, with
`ddr = 0`. -/
theorem set_timing_sdr (h : Host) (timing : Nat)
    (hsdr : timing ≠ MMC_TIMING_MMC_HS400 ∧ timing ≠ MMC_TIMING_MMC_DDR52
      ∧ timing ≠ MMC_TIMING_UHS_DDR50) :
    aml_sd_emmc_set_timing h timing = write_gcfg h { h.regs.gcfg with ddr := false } := by
  simp [aml_sd_emmc_set_timing, hsdr.1, hsdr.2.1, hsdr.2.2]

/-- C9, amended. With the card present and a timing that is not a DDR mode, a
second `aml_sd_emmc_set_ios` with identical values leaves the registers, the
gating flag, `pdata->clkc`, `pdata->width` and `actual_clock` as the first call
left them. It is not free of register writes: `aml_sd_emmc_set_bus_width` and
`aml_sd_emmc_set_timing` store the (unchanged) configuration register on every
call; when the clock is 0 or the divisor fits the 6-bit field these two stores
are the only writes of the second call. -/
theorem set_ios_second_call_keeps_registers (h : Host) (ios : MmcIos) (hin : h.is_in = true)
    (hsdr : ios.timing ≠ MMC_TIMING_MMC_HS400 ∧ ios.timing ≠ MMC_TIMING_MMC_DDR52
      ∧ ios.timing ≠ MMC_TIMING_UHS_DDR50) :
    (aml_sd_emmc_set_ios (aml_sd_emmc_set_ios h ios) ios).regs
        = (aml_sd_emmc_set_ios h ios).regs
      ∧ (aml_sd_emmc_set_ios (aml_sd_emmc_set_ios h ios) ios).is_gated
        = (aml_sd_emmc_set_ios h ios).is_gated
      ∧ (aml_sd_emmc_set_ios (aml_sd_emmc_set_ios h ios) ios).clkc
        = (aml_sd_emmc_set_ios h ios).clkc
      ∧ (aml_sd_emmc_set_ios (aml_sd_emmc_set_ios h ios) ios).width
        = (aml_sd_emmc_set_ios h ios).width
      ∧ (aml_sd_emmc_set_ios (aml_sd_emmc_set_ios h ios) ios).actual_clock
        = (aml_sd_emmc_set_ios h ios).actual_clock
      ∧ (ios.clock = 0
          ∨ clk_div_of (clk_rate_of (clk_src_sel_of ios.clock))
              (clk_clamp h.f_min h.f_max ios.clock) < 64 →
          (aml_sd_emmc_set_ios (aml_sd_emmc_set_ios h ios) ios).writes
            = (aml_sd_emmc_set_ios h ios).writes
              ++ [RegWrite.gcfg (aml_sd_emmc_set_ios h ios).regs.gcfg,
                  RegWrite.gcfg (aml_sd_emmc_set_ios h ios).regs.gcfg]) := by
  have hsrc : clk_src_sel_of ios.clock % 4 = clk_src_sel_of ios.clock := by
    unfold clk_src_sel_of SD_EMMC_CLOCK_SRC_OSC SD_EMMC_CLOCK_SRC_FCLK_DIV2
    split <;> rfl
  by_cases hc : ios.clock = 0
  · cases hg : h.is_gated <;>
      simp [aml_sd_emmc_set_ios, hin, set_timing_sdr _ _ hsdr, aml_sd_emmc_set_bus_width,
        aml_sd_emmc_set_clk_rate, hc, aml_sd_emmc_clk_switch_off, write_gcfg, hg]
  · generalize hS : clk_src_sel_of ios.clock = S at hsrc ⊢
    generalize hD : clk_div_of (clk_rate_of S) (clk_clamp h.f_min h.f_max ios.clock) = D
    by_cases hsame : (!h.is_gated && h.regs.gclock.div == D && h.regs.gclock.src == S) = true
    · have hsame2 := hsame
      simp only [Bool.and_eq_true, Bool.not_eq_eq_eq_not, Bool.not_true, beq_iff_eq] at hsame2
      simp [aml_sd_emmc_set_ios, hin, set_timing_sdr _ _ hsdr, aml_sd_emmc_set_bus_width,
        aml_sd_emmc_set_clk_rate, hc, aml_sd_emmc_clk_switch, write_gcfg, hD, hS, hsame,
        hsame2.1.1, hsame2.1.2, hsame2.2]
    · have hne : h.is_gated = false → ¬ (h.regs.gclock.div = D ∧ h.regs.gclock.src = S) := by
        intro hg hds
        apply hsame
        simp [hg, hds.1, hds.2]
      by_cases hfit : D < 64
      · have hmod : D % 64 = D := Nat.mod_eq_of_lt hfit
        cases hg : h.is_gated
        · simp [aml_sd_emmc_set_ios, hin, set_timing_sdr _ _ hsdr, aml_sd_emmc_set_bus_width,
            aml_sd_emmc_set_clk_rate, hc, aml_sd_emmc_clk_switch, aml_sd_emmc_clk_switch_on,
            aml_sd_emmc_clk_switch_off, write_gcfg, write_gclock, hD, hS, hmod, hsrc, hg,
            hne hg]
        · simp [aml_sd_emmc_set_ios, hin, set_timing_sdr _ _ hsdr, aml_sd_emmc_set_bus_width,
            aml_sd_emmc_set_clk_rate, hc, aml_sd_emmc_clk_switch, aml_sd_emmc_clk_switch_on,
            aml_sd_emmc_clk_switch_off, write_gcfg, write_gclock, hD, hS, hmod, hsrc, hg]
      · have hne2 : ¬ (D % 64 = D) := by
          have := Nat.mod_lt D (show 0 < 64 by decide)
          omega
        cases hg : h.is_gated
        · simp [aml_sd_emmc_set_ios, hin, set_timing_sdr _ _ hsdr, aml_sd_emmc_set_bus_width,
            aml_sd_emmc_set_clk_rate, hc, aml_sd_emmc_clk_switch, aml_sd_emmc_clk_switch_on,
            aml_sd_emmc_clk_switch_off, write_gcfg, write_gclock, hD, hS, hne2, hsrc, hg,
            hne hg, hfit]
        · simp [aml_sd_emmc_set_ios, hin, set_timing_sdr _ _ hsdr, aml_sd_emmc_set_bus_width,
            aml_sd_emmc_set_clk_rate, hc, aml_sd_emmc_clk_switch, aml_sd_emmc_clk_switch_on,
            aml_sd_emmc_clk_switch_off, write_gcfg, write_gclock, hD, hS, hne2, hsrc, hg,
            hfit]

/-- C9, amended, evaluated on the eMMC port at 25 MHz, 4-bit bus. -/
theorem set_ios_second_call_keeps_registers_witness :
    host_emmc.is_in = true
      ∧ (aml_sd_emmc_set_ios (aml_sd_emmc_set_ios host_emmc ios_25mhz) ios_25mhz).regs
          = (aml_sd_emmc_set_ios host_emmc ios_25mhz).regs :=
  ⟨rfl, (set_ios_second_call_keeps_registers host_emmc ios_25mhz rfl (by decide)).1⟩

/-- The window variables after a passing sample. -/
theorem tune_step_pass (w : TuneWin) (k : Nat) :
    tune_step w k true =
      { wrap_win_start := if k = 0 then 0 else w.wrap_win_start,
        wrap_win_size := if (if k = 0 then 0 else w.wrap_win_start) ≥ 0
                         then w.wrap_win_size + 1 else w.wrap_win_size,
        best_win_start := w.best_win_start,
        best_win_size := w.best_win_size,
        curr_win_start := if w.curr_win_start < 0 then (k : Int) else w.curr_win_start,
        curr_win_size := w.curr_win_size + 1 } := by
  unfold tune_step
  by_cases hk : k = 0 <;> by_cases hw : w.wrap_win_start ≥ 0 <;>
    by_cases hc : w.curr_win_start < 0 <;> simp [hk, hw, hc]

/-- The window variables after a failing sample. -/
theorem tune_step_fail (w : TuneWin) (k : Nat) :
    tune_step w k false =
      if w.curr_win_start ≥ 0 then
        { wrap_win_start := -1,
          wrap_win_size := w.wrap_win_size,
          best_win_start := if w.best_win_start < 0 ∨ w.best_win_size < w.curr_win_size
                            then w.curr_win_start else w.best_win_start,
          best_win_size := if w.best_win_start < 0 ∨ w.best_win_size < w.curr_win_size
                           then w.curr_win_size else w.best_win_size,
          curr_win_start := -1,
          curr_win_size := 0 }
      else w := by
  unfold tune_step
  by_cases hc : w.curr_win_start ≥ 0 <;> by_cases hb : w.best_win_start < 0 <;>
    by_cases hz : w.best_win_size < w.curr_win_size <;> simp [hc, hb, hz]

/-- The invariant holds before the sweep. -/
theorem tune_inv_init (pass : Nat → Bool) : TuneInv pass 0 tune_init := by
  refine ⟨0, 0, le_refl _, le_refl _, ?_, ?_, ?_, ?_, ?_, ?_, rfl, ?_, ?_, ?_, ?_⟩
  · intro j h1 h2
    omega
  · intro h
    omega
  · intro h
    omega
  · intro _
    exact ⟨rfl, rfl⟩
  · left
    refine ⟨rfl, rfl, ?_⟩
    intro j hj
    omega
  · intro a l hal _
    have : l = 0 := by omega
    subst this
    simp [tune_init]
  · intro j h1 h2
    omega
  · intro h
    omega
  · intro h1 h2
    omega
  · intro _
    rfl

/-- The invariant is kept by a failing sample. -/
theorem tune_inv_step_fail (pass : Nat → Bool) (k : Nat) (w : TuneWin)
    (hinv : TuneInv pass k w) (hs : pass k = false) :
    TuneInv pass (k + 1) (tune_step w k false) := by
  obtain ⟨c, p, hck, hpk, hrun, hcf, hcur1, hcur2, hbest, hmax, hwsz, hwrun, hwf, hws1, hws2⟩ :=
    hinv
  have hwf2 : p < k + 1 → pass p = false := by
    intro _
    by_cases h : p < k
    · exact hwf h
    · have : p = k := by omega
      rw [this]
      exact hs
  have hlast : ∀ a l, 0 < l → a + l ≤ k + 1 → lin_run pass a l → a + l ≤ k := by
    intro a l hl hal hrun2
    by_contra hcon
    have h1 : pass k = true := hrun2 k (by omega) (by omega)
    rw [hs] at h1
    exact Bool.noConfusion h1
  rw [tune_step_fail]
  by_cases hc : c < k
  · obtain ⟨e1, e2⟩ := hcur1 hc
    have hge : w.curr_win_start ≥ 0 := by omega
    rw [if_pos hge]
    have hold : w.best_win_start < 0 → w.best_win_size = 0 := by
      intro hneg
      rcases hbest with ⟨_, b2, _⟩ | ⟨b, z, b1, _, _, _, _⟩
      · exact b2
      · omega
    have hB1 : w.best_win_size ≤
        (if w.best_win_start < 0 ∨ w.best_win_size < w.curr_win_size
          then w.curr_win_size else w.best_win_size) := by
      by_cases hb : w.best_win_start < 0 ∨ w.best_win_size < w.curr_win_size
      · rw [if_pos hb]
        rcases hb with hb | hb
        · have := hold hb
          omega
        · omega
      · rw [if_neg hb]
    have hB2 : ((k - c : Nat) : Int) ≤
        (if w.best_win_start < 0 ∨ w.best_win_size < w.curr_win_size
          then w.curr_win_size else w.best_win_size) := by
      by_cases hb : w.best_win_start < 0 ∨ w.best_win_size < w.curr_win_size
      · rw [if_pos hb]
        omega
      · rw [if_neg hb]
        have : ¬ (w.best_win_size < w.curr_win_size) := fun h => hb (Or.inr h)
        omega
    refine ⟨k + 1, p, le_refl _, by omega, ?_, ?_, ?_, ?_, ?_, ?_, hwsz, hwrun, hwf2, ?_, ?_⟩
    · intro j h1 h2
      omega
    · intro _
      simpa using hs
    · intro h
      omega
    · intro _
      exact ⟨rfl, rfl⟩
    · right
      by_cases hb : w.best_win_start < 0 ∨ w.best_win_size < w.curr_win_size
      · refine ⟨c, k - c, ?_, ?_, by omega, by omega, hrun⟩
        · simp only [if_pos hb]
          exact e1
        · simp only [if_pos hb]
          exact e2
      · rcases hbest with ⟨b1, _, _⟩ | ⟨b, z, b1, b2, b3, b4, b5⟩
        · exfalso
          apply hb
          left
          omega
        · refine ⟨b, z, ?_, ?_, b3, by omega, b5⟩
          · simp only [if_neg hb]
            exact b1
          · simp only [if_neg hb]
            exact b2
    · intro a l hal hl
      show (l : Int) ≤ (if w.best_win_start < 0 ∨ w.best_win_size < w.curr_win_size
          then w.curr_win_size else w.best_win_size)
      rcases Nat.eq_zero_or_pos l with h0 | hpos
      · subst h0
        have : (0 : Int) ≤ ((k - c : Nat) : Int) := by omega
        simp only [Nat.cast_zero]
        omega
      · have hk := hlast a l hpos hal hl
        by_cases hin : a + l ≤ c
        · have := hmax a l hin hl
          omega
        · have hac : c ≤ a := by
            by_contra hcon
            have hcpos : 0 < c := by omega
            have h1 : pass (c - 1) = true := hl (c - 1) (by omega) (by omega)
            rw [hcf hcpos] at h1
            exact Bool.noConfusion h1
          have : l ≤ k - c := by omega
          have : (l : Int) ≤ ((k - c : Nat) : Int) := by exact_mod_cast this
          omega
    · intro h
      omega
    · intro _
      rfl
  · have hck2 : c = k := by omega
    obtain ⟨e1, e2⟩ := hcur2 hck2
    have hlt : ¬ (w.curr_win_start ≥ 0) := by omega
    rw [if_neg hlt]
    refine ⟨k + 1, p, le_refl _, by omega, ?_, ?_, ?_, ?_, ?_, ?_, hwsz, hwrun, hwf2, ?_, ?_⟩
    · intro j h1 h2
      omega
    · intro _
      simpa using hs
    · intro h
      omega
    · intro _
      exact ⟨e1, e2⟩
    · rcases hbest with ⟨b1, b2, b3⟩ | ⟨b, z, b1, b2, b3, b4, b5⟩
      · left
        refine ⟨b1, b2, ?_⟩
        intro j hj
        by_cases hjk : j < k
        · exact b3 j (by omega)
        · have : j = k := by omega
          rw [this]
          exact hs
      · right
        exact ⟨b, z, b1, b2, b3, by omega, b5⟩
    · intro a l hal hl
      rcases Nat.eq_zero_or_pos l with h0 | hpos
      · subst h0
        rcases hbest with ⟨_, b2, _⟩ | ⟨b, z, _, b2, b3, _, _⟩
        · simp [b2]
        · simp only [Nat.cast_zero]
          omega
      · have hk := hlast a l hpos hal hl
        exact hmax a l (by omega) hl
    · intro h
      omega
    · intro _
      by_cases hpk2 : p < k ∨ k = 0
      · exact hws2 hpk2
      · exfalso
        have hp : p = k := by omega
        have hkpos : 0 < k := by omega
        have h1 : pass (k - 1) = true := hwrun (k - 1) (by omega) (by omega)
        have h2 : pass (c - 1) = false := hcf (by omega)
        rw [hck2, h1] at h2
        exact Bool.noConfusion h2

/-- The invariant is kept by a passing sample. -/
theorem tune_inv_step_pass (pass : Nat → Bool) (k : Nat) (w : TuneWin)
    (hinv : TuneInv pass k w) (hs : pass k = true) :
    TuneInv pass (k + 1) (tune_step w k true) := by
  obtain ⟨c, p, hck, hpk, hrun, hcf, hcur1, hcur2, hbest, hmax, hwsz, hwrun, hwf, hws1, hws2⟩ :=
    hinv
  rw [tune_step_pass]
  have hrun2 : lin_run pass c (k + 1 - c) := by
    intro j h1 h2
    by_cases hj : j < k
    · exact hrun j h1 (by omega)
    · have : j = k := by omega
      rw [this]
      exact hs
  have hcs : (if w.curr_win_start < 0 then (k : Int) else w.curr_win_start) = (c : Int) := by
    by_cases hc : c < k
    · obtain ⟨e1, _⟩ := hcur1 hc
      rw [if_neg (by omega), e1]
    · obtain ⟨e1, _⟩ := hcur2 (by omega)
      rw [if_pos (by omega)]
      have : c = k := by omega
      rw [this]
  have hcz : w.curr_win_size + 1 = ((k + 1 - c : Nat) : Int) := by
    by_cases hc : c < k
    · obtain ⟨_, e2⟩ := hcur1 hc
      omega
    · obtain ⟨_, e2⟩ := hcur2 (by omega)
      omega
  by_cases hp : p = k
  · have hws : (if k = 0 then (0 : Int) else w.wrap_win_start) = 0 := by
      by_cases hk : k = 0
      · rw [if_pos hk]
      · rw [if_neg hk]
        exact hws1 hp (by omega)
    refine ⟨c, k + 1, by omega, le_refl _, hrun2, hcf, ?_, ?_, hbest, hmax, ?_, ?_, ?_, ?_, ?_⟩
    · intro _
      exact ⟨hcs, hcz⟩
    · intro h
      omega
    · show (if (if k = 0 then (0 : Int) else w.wrap_win_start) ≥ 0
          then w.wrap_win_size + 1 else w.wrap_win_size) = ((k + 1 : Nat) : Int)
      rw [hws, if_pos (le_refl _), hwsz, hp]
      push_cast
      rfl
    · intro j h1 h2
      by_cases hj : j < k
      · exact hwrun j h1 (by omega)
      · have : j = k := by omega
        rw [this]
        exact hs
    · intro h
      omega
    · intro _ _
      exact hws
    · intro h
      omega
  · have hplt : p < k := by omega
    have hws : (if k = 0 then (0 : Int) else w.wrap_win_start) = -1 := by
      rw [if_neg (by omega)]
      exact hws2 (Or.inl hplt)
    refine ⟨c, p, by omega, by omega, hrun2, hcf, ?_, ?_, hbest, hmax, ?_, hwrun, ?_, ?_, ?_⟩
    · intro _
      exact ⟨hcs, hcz⟩
    · intro h
      omega
    · show (if (if k = 0 then (0 : Int) else w.wrap_win_start) ≥ 0
          then w.wrap_win_size + 1 else w.wrap_win_size) = (p : Int)
      rw [hws, if_neg (by decide), hwsz]
    · intro _
      exact hwf hplt
    · intro h
      omega
    · intro _
      exact hws

/-- The invariant holds after every prefix of the sweep. -/
theorem tune_inv_loop (pass : Nat → Bool) (k : Nat) :
    TuneInv pass k (tune_loop tune_init pass k) := by
  induction k with
  | zero => exact tune_inv_init pass
  | succ k ih =>
    show TuneInv pass (k + 1) (tune_step (tune_loop tune_init pass k) k (pass k))
    cases hs : pass k
    · exact tune_inv_step_fail pass k _ ih hs
    · exact tune_inv_step_pass pass k _ ih hs

/-- A run that does not reach past the last delay is a circular run. -/
theorem circ_of_lin (pass : Nat → Bool) (n s l : Nat) (hsl : s + l ≤ n)
    (hrun : lin_run pass s l) : circ_run pass n s l := by
  intro i hi
  rw [Nat.mod_eq_of_lt (by omega)]
  exact hrun (s + i) (by omega) (by omega)

/-- A circular run that does not reach past the last delay is a run. -/
theorem lin_of_circ (pass : Nat → Bool) (n s l : Nat) (hsl : s + l ≤ n)
    (hrun : circ_run pass n s l) : lin_run pass s l := by
  intro j h1 h2
  have := hrun (j - s) (by omega)
  rw [Nat.mod_eq_of_lt (by omega)] at this
  have e : s + (j - s) = j := by omega
  rw [e] at this
  exact this

/-- A circular run stops before the next failing delay. -/
theorem circ_bound_by_fail (pass : Nat → Bool) (n s l f : Nat) (hs : s < n) (hf : f < n)
    (hfail : pass f = false) (hrun : circ_run pass n s l) :
    l ≤ (if s ≤ f then f - s else f + n - s) := by
  by_contra hcon
  by_cases hsf : s ≤ f
  · rw [if_pos hsf] at hcon
    have h1 := hrun (f - s) (by omega)
    have e : s + (f - s) = f := by omega
    rw [e, Nat.mod_eq_of_lt hf, hfail] at h1
    exact Bool.noConfusion h1
  · rw [if_neg hsf] at hcon
    have h1 := hrun (f + n - s) (by omega)
    have e : s + (f + n - s) = f + n := by omega
    rw [e, Nat.add_mod_right, Nat.mod_eq_of_lt hf, hfail] at h1
    exact Bool.noConfusion h1

/-- A longest circular run that is shorter than the range starts right after a
failing delay. -/
theorem circ_left_max (pass : Nat → Bool) (n start size : Nat) (hn : 0 < n)
    (hrun : circ_run pass n start size) (hlt : size < n)
    (hmax : ∀ s l, s < n → l ≤ n → circ_run pass n s l → l ≤ size) :
    pass ((start + n - 1) % n) = false := by
  cases hp : pass ((start + n - 1) % n)
  · rfl
  · exfalso
    have hrun2 : circ_run pass n ((start + n - 1) % n) (size + 1) := by
      intro i hi
      rcases Nat.eq_zero_or_pos i with h0 | hpos
      · subst h0
        rw [Nat.add_zero, Nat.mod_mod]
        exact hp
      · rw [Nat.mod_add_mod]
        have e : start + n - 1 + i = start + (i - 1) + n := by omega
        rw [e, Nat.add_mod_right]
        exact hrun (i - 1) (by omega)
    have := hmax ((start + n - 1) % n) (size + 1) (Nat.mod_lt _ hn) (by omega) hrun2
    omega

/-- The sweep reads the samples of the delays below `clk_div` only. -/
theorem tune_loop_congr (w : TuneWin) (pass pass2 : Nat → Bool) (k : Nat)
    (h : ∀ d, d < k → pass2 d = pass d) : tune_loop w pass2 k = tune_loop w pass k := by
  induction k with
  | zero => rfl
  | succ k ih =>
    show tune_step (tune_loop w pass2 k) k (pass2 k) = tune_step (tune_loop w pass k) k (pass k)
    rw [ih (fun d hd => h d (by omega)), h k (by omega)]

/-- After the closing block the best window is a longest circular run. -/
theorem tune_close_spec (pass : Nat → Bool) (n : Nat) (w : TuneWin) (hn : 0 < n)
    (hinv : TuneInv pass n w) (hpass : ∃ d, d < n ∧ pass d = true) :
    ∃ start size : Nat,
      (tune_close w).best_win_start = (start : Int)
      ∧ (tune_close w).best_win_size = (size : Int)
      ∧ start < n ∧ 0 < size ∧ size ≤ n
      ∧ circ_run pass n start size
      ∧ (∀ s l, s < n → l ≤ n → circ_run pass n s l → l ≤ size) := by
  obtain ⟨c, p, hck, hpk, hrun, hcf, hcur1, hcur2, hbest, hmax, hwsz, hwrun, hwf, hws1, hws2⟩ :=
    hinv
  -- a circular run that starts before `c` lies among the closed windows
  have hclosed : ∀ s l, 0 < c → s < c → s < n → circ_run pass n s l →
      (l : Int) ≤ w.best_win_size := by
    intro s l hcpos hsc hs hr
    have hb := circ_bound_by_fail pass n s l (c - 1) hs (by omega) (hcf hcpos) hr
    rw [if_pos (by omega)] at hb
    exact hmax s l (by omega) (lin_of_circ pass n s l (by omega) hr)
  -- a circular run that starts at or after `c` stops before a failing delay below `c`
  have hopen : ∀ s l f, f < c → c ≤ s → s < n → pass f = false → circ_run pass n s l →
      l ≤ f + n - s := by
    intro s l f hfc hcs hs hfail hr
    have hb := circ_bound_by_fail pass n s l f hs (by omega) hfail hr
    rw [if_neg (by omega)] at hb
    exact hb
  by_cases hc : c < n
  · obtain ⟨e1, e2⟩ := hcur1 hc
    have hge : w.curr_win_start ≥ 0 := by omega
    have hrunc : circ_run pass n c (n - c) := circ_of_lin pass n c (n - c) (by omega) hrun
    rcases hbest with ⟨b1, b2, b3⟩ | ⟨b, z, b1, b2, b3, b4, b5⟩
    · -- no window was closed before `c`
      have hlt : w.best_win_start < 0 := by omega
      refine ⟨c, n - c, ?_, ?_, hc, by omega, by omega, hrunc, ?_⟩
      · simp only [tune_close, if_pos hge, if_pos hlt]
        exact e1
      · simp only [tune_close, if_pos hge, if_pos hlt]
        exact e2
      · intro s l hs hl hr
        rcases Nat.eq_zero_or_pos l with h0 | hpos
        · omega
        · have h1 := hr 0 hpos
          rw [Nat.add_zero, Nat.mod_eq_of_lt hs] at h1
          have hcs : c ≤ s := by
            by_contra hcon
            rw [b3 s (by omega)] at h1
            exact Bool.noConfusion h1
          rcases Nat.eq_zero_or_pos c with hc0 | hcpos
          · omega
          · have := hopen s l 0 hcpos hcs hs (b3 0 hcpos) hr
            omega
    · have hcpos : 0 < c := by omega
      have hnlt : ¬ (w.best_win_start < 0) := by omega
      have hbrun : circ_run pass n b z := circ_of_lin pass n b z (by omega) b5
      have hpc : p < c := by
        by_contra hcon
        have h1 : pass (c - 1) = true := hwrun (c - 1) (by omega) (by omega)
        rw [hcf hcpos] at h1
        exact Bool.noConfusion h1
      have hpfail : pass p = false := hwf (by omega)
      by_cases hp : 0 < p
      · have hwpos : w.wrap_win_size > 0 := by omega
        have hmerged : circ_run pass n c (n - c + p) := by
          intro i hi
          by_cases hin : i < n - c
          · rw [Nat.mod_eq_of_lt (by omega)]
            exact hrun (c + i) (by omega) (by omega)
          · have e : c + i = (i - (n - c)) + n := by omega
            rw [e, Nat.add_mod_right, Nat.mod_eq_of_lt (by omega)]
            exact hwrun _ (by omega) (by omega)
        by_cases hm : w.curr_win_size + w.wrap_win_size > w.best_win_size
        · refine ⟨c, n - c + p, ?_, ?_, hc, by omega, by omega, hmerged, ?_⟩
          · simp only [tune_close, if_pos hge, if_neg hnlt, if_pos hwpos, if_pos hm]
            exact e1
          · simp only [tune_close, if_pos hge, if_neg hnlt, if_pos hwpos, if_pos hm]
            rw [e2, hwsz]
            push_cast
            rfl
          · intro s l hs hl hr
            by_cases hsc : s < c
            · have := hclosed s l hcpos hsc hs hr
              omega
            · have := hopen s l p hpc (by omega) hs hpfail hr
              omega
        · refine ⟨b, z, ?_, ?_, by omega, b3, by omega, hbrun, ?_⟩
          · simp only [tune_close, if_pos hge, if_neg hnlt, if_pos hwpos, if_neg hm]
            exact b1
          · simp only [tune_close, if_pos hge, if_neg hnlt, if_pos hwpos, if_neg hm]
            exact b2
          · intro s l hs hl hr
            by_cases hsc : s < c
            · have := hclosed s l hcpos hsc hs hr
              omega
            · have := hopen s l p hpc (by omega) hs hpfail hr
              omega
      · have hp0 : p = 0 := by omega
        have hwz : ¬ (w.wrap_win_size > 0) := by omega
        rw [hp0] at hpfail
        by_cases hm : w.best_win_size < w.curr_win_size
        · refine ⟨c, n - c, ?_, ?_, hc, by omega, by omega, hrunc, ?_⟩
          · simp only [tune_close, if_pos hge, if_neg hnlt, if_neg hwz, if_pos hm]
            exact e1
          · simp only [tune_close, if_pos hge, if_neg hnlt, if_neg hwz, if_pos hm]
            exact e2
          · intro s l hs hl hr
            by_cases hsc : s < c
            · have := hclosed s l hcpos hsc hs hr
              omega
            · have := hopen s l 0 hcpos (by omega) hs hpfail hr
              omega
        · refine ⟨b, z, ?_, ?_, by omega, b3, by omega, hbrun, ?_⟩
          · simp only [tune_close, if_pos hge, if_neg hnlt, if_neg hwz, if_neg hm]
            exact b1
          · simp only [tune_close, if_pos hge, if_neg hnlt, if_neg hwz, if_neg hm]
            exact b2
          · intro s l hs hl hr
            by_cases hsc : s < c
            · have := hclosed s l hcpos hsc hs hr
              omega
            · have := hopen s l 0 hcpos (by omega) hs hpfail hr
              omega
  · have hcn : c = n := by omega
    obtain ⟨e1, e2⟩ := hcur2 hcn
    have hnge : ¬ (w.curr_win_start ≥ 0) := by omega
    have hclose : tune_close w = w := by
      simp only [tune_close, if_neg hnge]
    rw [hclose]
    rcases hbest with ⟨b1, b2, b3⟩ | ⟨b, z, b1, b2, b3, b4, b5⟩
    · exfalso
      obtain ⟨d, hd, hdp⟩ := hpass
      rw [b3 d (by omega)] at hdp
      exact Bool.noConfusion hdp
    · refine ⟨b, z, b1, b2, by omega, b3, by omega,
        circ_of_lin pass n b z (by omega) b5, ?_⟩
      intro s l hs hl hr
      have := hclosed s l (by omega) (by omega) hs hr
      omega

/-- C6. Window selection of the tuning sweep: for every pass/fail sample vector
over the delays below `clk_div` with at least one pass, the best window after
the sweep is a run of consecutive passing delays in the circular delay space,
no circular run of passing delays is longer, the run starts right after a
failing delay (unless it spans the whole range), and the result depends on the
samples of the delays below `clk_div` only. -/
theorem tuning_selects_widest_circular_window (pass : Nat → Bool) (clk_div : Nat)
    (hpass : ∃ d, d < clk_div ∧ pass d = true) :
    ∃ start size : Nat,
      (tune_select pass clk_div).best_win_start = (start : Int)
      ∧ (tune_select pass clk_div).best_win_size = (size : Int)
      ∧ start < clk_div ∧ 0 < size ∧ size ≤ clk_div
      ∧ circ_run pass clk_div start size
      ∧ (∀ s l, s < clk_div → l ≤ clk_div → circ_run pass clk_div s l → l ≤ size)
      ∧ (size < clk_div → pass ((start + clk_div - 1) % clk_div) = false)
      ∧ (∀ pass2 : Nat → Bool, (∀ d, d < clk_div → pass2 d = pass d) →
          tune_select pass2 clk_div = tune_select pass clk_div) := by
  have hn : 0 < clk_div := by
    obtain ⟨d, hd, _⟩ := hpass
    omega
  obtain ⟨start, size, h1, h2, h3, h4, h5, h6, h7⟩ :=
    tune_close_spec pass clk_div (tune_loop tune_init pass clk_div) hn
      (tune_inv_loop pass clk_div) hpass
  refine ⟨start, size, h1, h2, h3, h4, h5, h6, h7, ?_, ?_⟩
  · intro hlt
    exact circ_left_max pass clk_div start size hn h6 hlt h7
  · intro pass2 hsame
    unfold tune_select
    rw [tune_loop_congr tune_init pass pass2 clk_div hsame]

/-- C6, evaluated: the samples `[pass, pass, fail, pass, pass, pass, fail]` give
the best window start 3, size 3, and no circular run of passes is longer than
3. -/
theorem tuning_selects_widest_circular_window_witness :
    (∃ d, d < 7 ∧ samples7 d = true)
      ∧ (tune_select samples7 7).best_win_start = 3
      ∧ (tune_select samples7 7).best_win_size = 3
      ∧ (∀ s l, s < 7 → l ≤ 7 → circ_run samples7 7 s l → l ≤ 3) := by
  have hp : ∃ d, d < 7 ∧ samples7 d = true := ⟨0, by decide, by decide⟩
  obtain ⟨start, size, _, h2, _, _, _, _, h7, _, _⟩ :=
    tuning_selects_widest_circular_window samples7 7 hp
  have hz : (tune_select samples7 7).best_win_size = 3 := by decide
  have hsize : size = 3 := by
    rw [hz] at h2
    exact_mod_cast h2.symm
  rw [hsize] at h7
  exact ⟨hp, by decide, hz, h7⟩

/-! ### Descriptor chain -/

/-- The zeroed descriptor has no end-of-chain mark and issues no CMD12. -/
theorem desc_ok_zero (strict : Bool) : desc_ok strict desc_zero := by
  refine ⟨rfl, ?_⟩
  intro _ hstop
  exact absurd hstop.1 (by decide)

/-- Assignments through a cursor keep a property that the assignment keeps. -/
theorem chain_all_modify (P : sd_emmc_desc_info → Prop) (c : Chain) (i : Nat)
    (f : sd_emmc_desc_info → sd_emmc_desc_info) (hc : chain_all P c)
    (hf : ∀ d, P d → P (f d)) : chain_all P (Chain.modify c i f) := by
  intro j hj
  show P (Function.update c.buf i (f (c.buf i)) j)
  by_cases hji : j = i
  · subst hji
    rw [Function.update_same]
    exact hf _ (hc j hj)
  · rw [Function.update_noteq hji]
    exact hc j hj

/-- Moving to a fresh zeroed entry keeps a property of the zeroed entry. -/
theorem chain_all_advance (P : sd_emmc_desc_info → Prop) (c : Chain) (hc : chain_all P c)
    (hz : P desc_zero) : chain_all P (Chain.advance c) := by
  intro j hj
  show P (Function.update c.buf (c.cur + 1) desc_zero j)
  have hj2 : j ≤ c.cur + 1 := hj
  by_cases h : j = c.cur + 1
  · rw [h, Function.update_same]
    exact hz
  · rw [Function.update_noteq h]
    exact hc j (by omega)

/-- A property of the chain up to the cursor holds up to any earlier cursor. -/
theorem chain_all_of_le (P : sd_emmc_desc_info → Prop) (c c2 : Chain) (hb : c2.buf = c.buf)
    (hle : c2.cur ≤ c.cur) (hc : chain_all P c) : chain_all P c2 := by
  intro j hj
  rw [hb]
  exact hc j (by omega)

/-- The position of the cursor after `Chain.advance`. -/
theorem chain_advance_cur (c : Chain) : (Chain.advance c).cur = c.cur + 1 := rfl

/-- Assignments through a cursor do not move it. -/
theorem chain_modify_cur (c : Chain) (i : Nat) (f : sd_emmc_desc_info → sd_emmc_desc_info) :
    (Chain.modify c i f).cur = c.cur := rfl

/-- One round of the scatter loop keeps the entries unmarked and moves the
cursor by one. -/
theorem pre_dma_sg_ok (strict data_rw block_mode : Bool) (bl_len bn_dma_buf : Nat)
    (st : Chain × Nat) (sg : Scatter) (h : chain_all (desc_ok strict) st.1) :
    chain_all (desc_ok strict) (pre_dma_sg data_rw block_mode bl_len bn_dma_buf st sg).1
      ∧ (pre_dma_sg data_rw block_mode bl_len bn_dma_buf st sg).1.cur = st.1.cur + 1 := by
  constructor
  · unfold pre_dma_sg
    apply chain_all_advance _ _ _ (desc_ok_zero strict)
    apply chain_all_modify
    · apply chain_all_modify _ _ _ _ h
      intro d hd
      by_cases hcnt : (st.1.cnt != 0) = true
      · simp only [hcnt, if_true]
        refine ⟨hd.1, ?_⟩
        intro _ hstop
        exact Bool.noConfusion hstop.2
      · simp only [hcnt, Bool.false_eq_true, if_false]
        exact hd
    · intro d hd
      exact hd
  · rfl

/-- The scatter loop keeps the entries unmarked and moves the cursor by the
number of segments. -/
theorem pre_dma_fold_ok (strict data_rw block_mode : Bool) (bl_len bn_dma_buf : Nat)
    (sgs : List Scatter) (st : Chain × Nat) (h : chain_all (desc_ok strict) st.1) :
    chain_all (desc_ok strict) (sgs.foldl (pre_dma_sg data_rw block_mode bl_len bn_dma_buf) st).1
      ∧ (sgs.foldl (pre_dma_sg data_rw block_mode bl_len bn_dma_buf) st).1.cur
          = st.1.cur + sgs.length := by
  induction sgs generalizing st with
  | nil => exact ⟨h, rfl⟩
  | cons sg rest ih =>
    have h1 := pre_dma_sg_ok strict data_rw block_mode bl_len bn_dma_buf st sg h
    have h2 := ih (pre_dma_sg data_rw block_mode bl_len bn_dma_buf st sg) h1.1
    refine ⟨h2.1, ?_⟩
    rw [List.foldl_cons, h2.2, h1.2, List.length_cons]
    omega

/-- The config-update entry keeps the entries unmarked. -/
theorem stage_conf_ok (strict : Bool) (cfg : BuildCfg) (vconf : sd_emmc_config)
    (conf_flag : Nat) (c : Chain) (h : chain_all (desc_ok strict) c) :
    chain_all (desc_ok strict) (stage_conf cfg vconf conf_flag c) := by
  unfold stage_conf
  split
  · unfold chain_conf_entry
    apply chain_all_advance _ _ _ (desc_ok_zero strict)
    apply chain_all_modify _ _ _ _ h
    intro d _
    refine ⟨rfl, ?_⟩
    intro _ hstop
    exact Bool.noConfusion hstop.2
  · exact h

/-- The CMD23 entry keeps the entries unmarked. -/
theorem stage_cmd23_ok (strict : Bool) (cfg : BuildCfg) (mrq : MmcRequest) (c : Chain)
    (h : chain_all (desc_ok strict) c) :
    chain_all (desc_ok strict) (stage_cmd23 cfg mrq c) := by
  unfold stage_cmd23
  split
  · split
    · unfold chain_cmd23_entry
      apply chain_all_advance _ _ _ (desc_ok_zero strict)
      apply chain_all_modify _ _ _ _ h
      intro d _
      refine ⟨rfl, ?_⟩
      intro _ hstop
      have h1 : MMC_SET_BLOCK_COUNT = MMC_STOP_TRANSMISSION := hstop.1
      exact absurd h1 (by decide)
    · exact h
  · exact h

/-- The command entry is unmarked, and issues CMD12 only for a request whose
own opcode is CMD12. -/
theorem chain_cmd_entry_ok (strict : Bool) (mrq : MmcRequest) (c : Chain)
    (hop : strict = true → mrq.cmd.opcode % 64 ≠ MMC_STOP_TRANSMISSION)
    (h : chain_all (desc_ok strict) c) :
    chain_all (desc_ok strict) (chain_cmd_entry mrq c) := by
  unfold chain_cmd_entry
  apply chain_all_modify
  · exact h
  · intro d _
    constructor
    · dsimp only
      split <;> (try split) <;> (try split) <;> (try split) <;> rfl
    · intro hs hstop
      apply hop hs
      have := hstop.1
      dsimp only at this
      revert this
      split <;> (try split) <;> (try split) <;> (try split) <;> exact id

/-- The cursor after the command entry. -/
theorem chain_cmd_entry_cur (mrq : MmcRequest) (c : Chain) :
    (chain_cmd_entry mrq c).cur = c.cur := rfl

/-- With a non-empty scatter list `aml_sd_emmc_pre_dma` keeps the entries
unmarked, moves its cursor by the number of segments and returns that number. -/
theorem pre_dma_ok (strict : Bool) (bn_dma_buf old_dma_sts : Nat) (data : MmcData) (c : Chain)
    (hne : data.sg ≠ []) (hc : chain_all (desc_ok strict) c) :
    chain_all (desc_ok strict) (aml_sd_emmc_pre_dma bn_dma_buf old_dma_sts data c).chain
      ∧ (aml_sd_emmc_pre_dma bn_dma_buf old_dma_sts data c).chain.cur = c.cur + data.sg.length
      ∧ (aml_sd_emmc_pre_dma bn_dma_buf old_dma_sts data c).sg_cnt = data.sg.length := by
  have hpos : 0 < data.sg.length := List.length_pos.mpr hne
  have hz : ¬ (data.sg.length = 0) := by omega
  unfold aml_sd_emmc_pre_dma
  simp only [if_neg hz]
  have hc0 : chain_all (desc_ok strict) ({ c with cnt := 0 } : Chain) := fun j hj => hc j hj
  refine ⟨?_, ?_, trivial⟩
  · intro j hj
    exact (pre_dma_fold_ok strict _ _ _ _ data.sg (_, _) hc0).1 j hj
  · exact (pre_dma_fold_ok strict _ _ _ _ data.sg (_, _) hc0).2

/-- The data entries keep the entries unmarked. -/
theorem stage_data_ok (strict : Bool) (cfg : BuildCfg) (h : Host) (mrq : MmcRequest)
    (c : Chain) (hsg : sg_ok cfg mrq) (hc : chain_all (desc_ok strict) c) :
    chain_all (desc_ok strict) (stage_data cfg h mrq c).chain := by
  unfold stage_data
  split
  · rename_i data hd
    split
    · rename_i hmap
      obtain ⟨hne, hlen⟩ := hsg hmap data hd
      have hpos : 0 < data.sg.length := List.length_pos.mpr hne
      obtain ⟨h1, h2, h3⟩ := pre_dma_ok strict h.bn_dma_buf h.dma_sts data c hne hc
      intro j hj
      apply h1 j
      rw [h2]
      have hj2 : j ≤ c.cur
          + ((aml_sd_emmc_pre_dma h.bn_dma_buf h.dma_sts data c).sg_cnt + 4294967295)
            % 4294967296 := hj
      rw [h3] at hj2
      omega
    · unfold chain_data_inline
      apply chain_all_modify _ _ _ _ hc
      intro d hd2
      constructor
      · dsimp only
        split <;> (try split) <;> exact hd2.1
      · intro hs hstop
        apply hd2.2 hs
        constructor
        · have := hstop.1
          dsimp only at this
          revert this
          split <;> (try split) <;> exact id
        · have := hstop.2
          dsimp only at this
          revert this
          split <;> (try split) <;> exact id
  · apply chain_all_modify _ _ _ _ hc
    intro d hd2
    exact hd2

/-- The entries before a STOP entry is appended are unmarked, and none issues
CMD12 unless the request itself is CMD12. -/
theorem start_cmd_body_ok (strict : Bool) (cfg : BuildCfg) (h : Host) (vconf : sd_emmc_config)
    (mrq : MmcRequest) (hsg : sg_ok cfg mrq)
    (hop : strict = true → mrq.cmd.opcode % 64 ≠ MMC_STOP_TRANSMISSION) :
    chain_all (desc_ok strict) (start_cmd_body cfg h vconf mrq).chain := by
  unfold start_cmd_body
  apply stage_data_ok strict cfg h mrq _ hsg
  apply chain_cmd_entry_ok strict mrq _ hop
  apply stage_cmd23_ok
  apply stage_conf_ok
  intro j hj
  have hj0 : j = 0 := Nat.le_zero.mp hj
  subst hj0
  show desc_ok strict (Function.update h.desc_buf 0 desc_zero 0)
  rw [Function.update_same]
  exact desc_ok_zero strict

/-- An assignment that keeps `end_of_chain` keeps it in every entry. -/
theorem modify_eoc_keep (c : Chain) (i j : Nat) (f : sd_emmc_desc_info → sd_emmc_desc_info)
    (hf : ∀ d, (f d).end_of_chain = d.end_of_chain) :
    ((Chain.modify c i f).buf j).end_of_chain = (c.buf j).end_of_chain := by
  show (Function.update c.buf i (f (c.buf i)) j).end_of_chain = _
  by_cases h : j = i
  · subst h
    rw [Function.update_same]
    exact hf _
  · rw [Function.update_noteq h]

/-- An assignment that keeps the command index and `no_cmd` keeps the CMD12
entries. -/
theorem modify_stop_keep (c : Chain) (i j : Nat) (f : sd_emmc_desc_info → sd_emmc_desc_info)
    (hf : ∀ d, (f d).cmd_index = d.cmd_index ∧ (f d).no_cmd = d.no_cmd) :
    is_stop_desc ((Chain.modify c i f).buf j) ↔ is_stop_desc (c.buf j) := by
  show is_stop_desc (Function.update c.buf i (f (c.buf i)) j) ↔ _
  by_cases h : j = i
  · subst h
    rw [Function.update_same]
    unfold is_stop_desc
    rw [(hf _).1, (hf _).2]
  · rw [Function.update_noteq h]

/-- The timeout classes do not move the cursor. -/
theorem chain_timeouts_cur (opcode : Nat) (c : Chain) : (chain_timeouts opcode c).cur = c.cur := by
  unfold chain_timeouts
  split <;> split <;> rfl

/-- The timeout classes keep every `end_of_chain`. -/
theorem chain_timeouts_eoc (opcode : Nat) (c : Chain) (j : Nat) :
    ((chain_timeouts opcode c).buf j).end_of_chain = (c.buf j).end_of_chain := by
  unfold chain_timeouts
  split
  · split
    · dsimp only
      rw [modify_eoc_keep _ _ _ _ (by intro _; rfl), modify_eoc_keep _ _ _ _ (by intro _; rfl)]
    · dsimp only
      rw [modify_eoc_keep _ _ _ _ (by intro _; rfl)]
  · split
    · dsimp only
      rw [modify_eoc_keep _ _ _ _ (by intro _; rfl)]
    · rfl

/-- The timeout classes keep the CMD12 entries. -/
theorem chain_timeouts_stop (opcode : Nat) (c : Chain) (j : Nat) :
    is_stop_desc ((chain_timeouts opcode c).buf j) ↔ is_stop_desc (c.buf j) := by
  unfold chain_timeouts
  split
  · split
    · dsimp only
      rw [modify_stop_keep _ _ _ _ (by intro _; exact ⟨rfl, rfl⟩),
        modify_stop_keep _ _ _ _ (by intro _; exact ⟨rfl, rfl⟩)]
    · dsimp only
      rw [modify_stop_keep _ _ _ _ (by intro _; exact ⟨rfl, rfl⟩)]
  · split
    · dsimp only
      rw [modify_stop_keep _ _ _ _ (by intro _; exact ⟨rfl, rfl⟩)]
    · exact Iff.rfl

/-- The final statements of the builder do not move the cursor. -/
theorem chain_finish_cur (opcode : Nat) (c : Chain) : (chain_finish opcode c).cur = c.cur := by
  unfold chain_finish
  exact chain_timeouts_cur opcode c

/-- The final statements of the builder set `end_of_chain` on the entry under
the cursor and on no other entry. -/
theorem chain_finish_eoc (opcode : Nat) (c : Chain) (i : Nat) :
    ((chain_finish opcode c).buf i).end_of_chain
      = (if i = c.cur then true else (c.buf i).end_of_chain) := by
  unfold chain_finish
  show (Function.update (chain_timeouts opcode c).buf (chain_timeouts opcode c).cur _ i).end_of_chain
    = _
  rw [chain_timeouts_cur]
  by_cases hi : i = c.cur
  · rw [hi, Function.update_same, if_pos rfl]
  · rw [Function.update_noteq hi, if_neg hi, chain_timeouts_eoc]

/-- The final statements of the builder change no command index and no
`no_cmd` flag. -/
theorem chain_finish_stop (opcode : Nat) (c : Chain) (i : Nat) :
    is_stop_desc ((chain_finish opcode c).buf i) ↔ is_stop_desc (c.buf i) := by
  unfold chain_finish
  dsimp only
  rw [modify_stop_keep _ _ _ _ (by intro _; exact ⟨rfl, rfl⟩)]
  exact chain_timeouts_stop opcode c i

/-- The descriptor buffer `aml_sd_emmc_start_cmd` leaves is the one its
descriptor part builds. -/
theorem start_cmd_desc_buf (cfg : BuildCfg) (h : Host) (mrq : MmcRequest) :
    (aml_sd_emmc_start_cmd cfg h mrq).desc_buf
      = (start_cmd_build cfg (start_cmd_host h) h.regs.gcfg mrq).chain.buf := by
  unfold aml_sd_emmc_start_cmd start_cmd_host
  dsimp only
  split <;> rfl

/-- The last entry `aml_sd_emmc_start_cmd` writes, in terms of the builder. -/
theorem start_cmd_last_eq (cfg : BuildCfg) (h : Host) (mrq : MmcRequest) :
    start_cmd_last cfg h mrq
      = (start_cmd_build cfg (start_cmd_host h) h.regs.gcfg mrq).chain.cur := rfl

/-- Gating the clock off touches the registers, the write log and the gating
flag only. -/
theorem clk_switch_off_frame (h : Host) :
    ∃ r w g, aml_sd_emmc_clk_switch_off h = { h with regs := r, writes := w, is_gated := g } := by
  unfold aml_sd_emmc_clk_switch_off
  split
  · exact ⟨h.regs, h.writes, h.is_gated, rfl⟩
  · exact ⟨_, _, _, rfl⟩

/-- Gating the clock on touches the registers, the write log and the gating
flag only. -/
theorem clk_switch_on_frame (h : Host) (clk_div clk_src_sel : Nat) :
    ∃ r w g, aml_sd_emmc_clk_switch_on h clk_div clk_src_sel
      = { h with regs := r, writes := w, is_gated := g } :=
  ⟨_, _, _, rfl⟩

/-- The clock switch touches the registers, the write log and the gating flag
only. -/
theorem clk_switch_frame (h : Host) (clk_div clk_src_sel : Nat) :
    ∃ r w g, aml_sd_emmc_clk_switch h clk_div clk_src_sel
      = { h with regs := r, writes := w, is_gated := g } := by
  unfold aml_sd_emmc_clk_switch
  split
  · exact ⟨h.regs, h.writes, h.is_gated, rfl⟩
  · obtain ⟨r, w, g, e⟩ := clk_switch_off_frame h
    rw [e]
    exact ⟨_, _, _, rfl⟩

/-- The function `aml_sd_emmc_set_clkc` touches the registers, the write log and the gating
flag only. -/
theorem set_clkc_frame (h : Host) :
    ∃ r w g, aml_sd_emmc_set_clkc h = { h with regs := r, writes := w, is_gated := g } := by
  unfold aml_sd_emmc_set_clkc
  split
  · exact ⟨h.regs, h.writes, h.is_gated, rfl⟩
  · split
    · exact clk_switch_frame h _ _
    · exact ⟨_, _, h.is_gated, rfl⟩

/-- The head of `aml_sd_emmc_start_cmd` touches the registers, the write log
and the gating flag only. -/
theorem start_cmd_host_frame (h : Host) :
    ∃ r w g, start_cmd_host h = { h with regs := r, writes := w, is_gated := g } := by
  unfold start_cmd_host
  obtain ⟨r, w, g, e⟩ := set_clkc_frame (write_gstart h { h.regs.gstart with busy := false })
  rw [e]
  exact ⟨_, _, _, rfl⟩

/-- The clock update at the head of `aml_sd_emmc_start_cmd` leaves
`cmd_is_stop` as it is. -/
theorem start_cmd_host_cmd_is_stop (h : Host) :
    (start_cmd_host h).cmd_is_stop = h.cmd_is_stop := by
  obtain ⟨r, w, g, e⟩ := start_cmd_host_frame h
  rw [e]

/-- The function `aml_sd_emmc_start_cmd` touches the registers, the write log, the gating
flag, the descriptor buffer and the two scatter fields only. -/
theorem start_cmd_frame (cfg : BuildCfg) (h : Host) (mrq : MmcRequest) :
    ∃ r w g b n d, aml_sd_emmc_start_cmd cfg h mrq
      = { h with regs := r, writes := w, is_gated := g, desc_buf := b, sg_cnt := n,
                 dma_sts := d } := by
  have e0 : aml_sd_emmc_start_cmd cfg h mrq =
      (let b := start_cmd_build cfg (start_cmd_host h) h.regs.gcfg mrq
       let h3 := { start_cmd_host h with desc_buf := b.chain.buf, sg_cnt := b.sg_cnt,
                                         dma_sts := b.dma_sts }
       let h4 := if b.conf_flag != 0 && !cfg.SD_EMMC_DESC_SET_REG then write_gcfg h3 b.vconf
                 else h3
       let h5 := write_gstatus h4 SD_EMMC_IRQ_ALL
       write_gstart h5 { init := false, busy := true,
                         addr := (h5.desc_dma_addr / 4) % 1073741824 }) := rfl
  rw [e0]
  obtain ⟨r, w, g, e⟩ := start_cmd_host_frame h
  rw [e]
  dsimp only
  split
  · exact ⟨_, _, _, _, _, _, rfl⟩
  · exact ⟨_, _, _, _, _, _, rfl⟩

/-- The appended STOP entry leaves the earlier entries as they are. -/
theorem chain_stop_entry_buf (c : Chain) (i : Nat) (hi : i ≤ c.cur) :
    (chain_stop_entry c).buf i = c.buf i := by
  unfold chain_stop_entry Chain.modify Chain.advance Chain.memset
  dsimp only
  rw [Function.update_noteq (by omega), Function.update_noteq (by omega)]

/-- The appended STOP entry: CMD12 with busy check, no data, no end-of-chain
mark yet. -/
theorem chain_stop_entry_last (c : Chain) :
    (chain_stop_entry c).cur = c.cur + 1
      ∧ ((chain_stop_entry c).buf (c.cur + 1)).cmd_index = MMC_STOP_TRANSMISSION
      ∧ ((chain_stop_entry c).buf (c.cur + 1)).no_cmd = false
      ∧ ((chain_stop_entry c).buf (c.cur + 1)).r1b = true
      ∧ ((chain_stop_entry c).buf (c.cur + 1)).data_io = false
      ∧ ((chain_stop_entry c).buf (c.cur + 1)).end_of_chain = false := by
  unfold chain_stop_entry Chain.modify Chain.advance Chain.memset
  dsimp only
  simp [Function.update_same, desc_zero]

/-- C3. End-of-chain invariant of the descriptor builder: for every build and
every request (with or without data, config-update entry, CMD23 entry or
appended STOP entry; a data request of the scatter-gather build has at least
one scatter segment), among the entries `aml_sd_emmc_start_cmd` writes, from
the first entry of the buffer to the last one written, exactly the last one has
`end_of_chain = 1`. -/
theorem start_cmd_end_of_chain_last (cfg : BuildCfg) (h : Host) (mrq : MmcRequest)
    (hsg : sg_ok cfg mrq) (i : Nat) (hi : i ≤ start_cmd_last cfg h mrq) :
    ((aml_sd_emmc_start_cmd cfg h mrq).desc_buf i).end_of_chain = true
      ↔ i = start_cmd_last cfg h mrq := by
  rw [start_cmd_desc_buf, start_cmd_last_eq] at *
  unfold start_cmd_build at *
  dsimp only at *
  rw [chain_finish_cur] at *
  rw [chain_finish_eoc]
  have hbody := start_cmd_body_ok false cfg (start_cmd_host h) h.regs.gcfg mrq hsg
    (fun hf => Bool.noConfusion hf)
  by_cases hst : stop_appended cfg (start_cmd_host h).cmd_is_stop mrq = true
  · simp only [hst, if_true] at hi ⊢
    rw [(chain_stop_entry_last _).1] at hi ⊢
    by_cases hlast : i = (start_cmd_body cfg (start_cmd_host h) h.regs.gcfg mrq).chain.cur + 1
    · simp [hlast]
    · simp only [if_neg hlast]
      rw [chain_stop_entry_buf _ _ (by omega), (hbody i (by omega)).1]
      simp [hlast]
  · simp only [hst, Bool.false_eq_true, if_false] at hi ⊢
    by_cases hlast : i = (start_cmd_body cfg (start_cmd_host h) h.regs.gcfg mrq).chain.cur
    · simp [hlast]
    · simp only [if_neg hlast]
      rw [(hbody i hi).1]
      simp [hlast]

/-- The 8-block read has a well-formed scatter list. -/
theorem sg_ok_read8 : sg_ok cfg_sgmap req_read8 := by
  intro _ d hd
  have hd2 : d = { blksz := 512, blocks := 8, flags := MMC_DATA_READ,
                   sg := [{ dma_address := 0x1000, length := 2048 },
                          { dma_address := 0x3000, length := 2048 }], bytes_xfered := 0 } :=
    (Option.some.inj hd).symm
  subst hd2
  exact ⟨by decide, by decide⟩

/-- C3, evaluated: an 8-block read in two scatter segments gives three entries
(command with the first segment, second segment, STOP); only the third has
`end_of_chain = 1`. -/
theorem start_cmd_end_of_chain_last_witness :
    start_cmd_last cfg_sgmap host_emmc req_read8 = 2
      ∧ ((aml_sd_emmc_start_cmd cfg_sgmap host_emmc req_read8).desc_buf 2).end_of_chain = true
      ∧ ¬ ((aml_sd_emmc_start_cmd cfg_sgmap host_emmc req_read8).desc_buf 1).end_of_chain = true
      ∧ ¬ ((aml_sd_emmc_start_cmd cfg_sgmap host_emmc req_read8).desc_buf 0).end_of_chain
          = true :=
  ⟨by decide,
   (start_cmd_end_of_chain_last cfg_sgmap host_emmc req_read8 sg_ok_read8 2 (by decide)).mpr
     (by decide),
   fun h => absurd
     ((start_cmd_end_of_chain_last cfg_sgmap host_emmc req_read8 sg_ok_read8 1 (by decide)).mp h)
     (by decide),
   fun h => absurd
     ((start_cmd_end_of_chain_last cfg_sgmap host_emmc req_read8 sg_ok_read8 0 (by decide)).mp h)
     (by decide)⟩

/-- C4, counterexample. A WRITE_MULTIPLE_BLOCK request with block count 1,
built while no synthesized STOP is in flight, gets a STOP descriptor: the chain
has two entries and the second one issues CMD12. -/
theorem single_block_request_has_stop :
    (∃ d, req_write1.data = some d ∧ d.blocks = 1)
      ∧ host_emmc.cmd_is_stop = false
      ∧ start_cmd_last cfg_sgmap host_emmc req_write1 = 1
      ∧ is_stop_desc ((aml_sd_emmc_start_cmd cfg_sgmap host_emmc req_write1).desc_buf 1) := by
  refine ⟨⟨_, rfl, rfl⟩, rfl, by decide, by decide⟩

/-- C4, amended. For every request with a data phase whose own opcode is not
CMD12, an entry of the chain built by `aml_sd_emmc_start_cmd` issues CMD12
exactly when it is the last entry and the opcode is READ_MULTIPLE_BLOCK or
WRITE_MULTIPLE_BLOCK and the driver issues the stop (no manual CMD23 build,
`cmd_is_stop = 0`, command flag bit 30 clear); the block count does not enter
the test. -/
theorem stop_entry_iff_multiblock_opcode (cfg : BuildCfg) (h : Host) (mrq : MmcRequest)
    (hdata : mrq.data.isSome = true) (hsg : sg_ok cfg mrq)
    (hop : mrq.cmd.opcode % 64 ≠ MMC_STOP_TRANSMISSION) (i : Nat)
    (hi : i ≤ start_cmd_last cfg h mrq) :
    is_stop_desc ((aml_sd_emmc_start_cmd cfg h mrq).desc_buf i)
      ↔ (i = start_cmd_last cfg h mrq
          ∧ cfg.SD_EMMC_MANUAL_CMD23 = false
          ∧ (mrq.cmd.opcode = MMC_READ_MULTIPLE_BLOCK
              ∨ mrq.cmd.opcode = MMC_WRITE_MULTIPLE_BLOCK)
          ∧ h.cmd_is_stop = false
          ∧ hasFlag mrq.cmd.flags (1 <<< 30) = false) := by
  have hcond : stop_appended cfg (start_cmd_host h).cmd_is_stop mrq = true
      ↔ (cfg.SD_EMMC_MANUAL_CMD23 = false
          ∧ (mrq.cmd.opcode = MMC_READ_MULTIPLE_BLOCK
              ∨ mrq.cmd.opcode = MMC_WRITE_MULTIPLE_BLOCK)
          ∧ h.cmd_is_stop = false
          ∧ hasFlag mrq.cmd.flags (1 <<< 30) = false) := by
    rw [start_cmd_host_cmd_is_stop]
    unfold stop_appended
    simp only [hdata, Bool.and_true, Bool.and_eq_true, Bool.not_eq_true', Bool.or_eq_true,
      beq_iff_eq]
    constructor
    · rintro ⟨⟨⟨h1, h2⟩, h3⟩, h4⟩
      exact ⟨h1, h2.symm, h3, h4⟩
    · rintro ⟨h1, h2, h3, h4⟩
      exact ⟨⟨⟨h1, h2.symm⟩, h3⟩, h4⟩
  rw [start_cmd_desc_buf, start_cmd_last_eq] at *
  unfold start_cmd_build at *
  dsimp only at *
  rw [chain_finish_cur] at *
  rw [chain_finish_stop]
  have hbody := start_cmd_body_ok true cfg (start_cmd_host h) h.regs.gcfg mrq hsg (fun _ => hop)
  by_cases hst : stop_appended cfg (start_cmd_host h).cmd_is_stop mrq = true
  · have hc := hcond.mp hst
    simp only [hst, if_true] at hi ⊢
    rw [(chain_stop_entry_last _).1] at hi ⊢
    by_cases hlast : i = (start_cmd_body cfg (start_cmd_host h) h.regs.gcfg mrq).chain.cur + 1
    · constructor
      · intro _
        exact ⟨hlast, hc⟩
      · intro _
        rw [hlast]
        exact ⟨(chain_stop_entry_last _).2.1, (chain_stop_entry_last _).2.2.1⟩
    · constructor
      · intro hs
        rw [chain_stop_entry_buf _ _ (by omega)] at hs
        exact absurd hs ((hbody i (by omega)).2 rfl)
      · intro hh
        exact absurd hh.1 hlast
  · simp only [hst, Bool.false_eq_true, if_false] at hi ⊢
    constructor
    · intro hs
      exact absurd hs ((hbody i hi).2 rfl)
    · intro hh
      exact absurd (hcond.mpr hh.2) hst

/-- C4, amended, evaluated: the chain of the 8-block read ends in a CMD12
entry. -/
theorem stop_entry_iff_multiblock_opcode_witness :
    req_read8.data.isSome = true
      ∧ is_stop_desc ((aml_sd_emmc_start_cmd cfg_sgmap host_emmc req_read8).desc_buf 2) :=
  ⟨rfl,
   (stop_entry_iff_multiblock_opcode cfg_sgmap host_emmc req_read8 rfl sg_ok_read8 (by decide) 2
     (by decide)).mpr ⟨by decide, rfl, Or.inl rfl, rfl, by decide⟩⟩

/-! ### Completion callback -/

/-- Writing `cmd->error` does not change which request it is. -/
theorem req_id_error (m : MmcRequest) (e : Int) :
    req_id { m with cmd := { m.cmd with error := e } } = req_id m := rfl

/-- An accepted request is in flight when `aml_sd_emmc_request` returns. -/
theorem request_accepted_in_flight (cfg : BuildCfg) (h : Host) (mrq : MmcRequest)
    (hacc : h.is_in = true ∧ (h.init_flag = true ∨ h.card_type ≠ CardType.CARD_TYPE_SD)) :
    InFlight h.done mrq (aml_sd_emmc_request cfg h mrq false) := by
  have hg : (!h.is_in || (!h.init_flag && h.card_type == CardType.CARD_TYPE_SD)) = false := by
    rcases hacc with ⟨h1, h2 | h2⟩
    · simp [h1, h2]
    · simp [h1, h2]
  unfold aml_sd_emmc_request
  simp only [Bool.false_eq_true, if_false, hg]
  obtain ⟨r, w, g, b, n, d, e⟩ := start_cmd_frame cfg
    { (if mrq.cmd.opcode = 0 then { h with init_flag := true } else h) with
        mrq := some mrq, xfer_step := XferStep.XFER_START, opcode := mrq.cmd.opcode,
        arg := mrq.cmd.arg } mrq
  rw [e]
  refine ⟨mrq, rfl, rfl, ?_, Or.inl rfl⟩
  dsimp only
  split <;> rfl

/-- The function `aml_sd_emmc_request_done` completes the request it is given. -/
theorem request_done_completed (D : List MmcRequest) (r m : MmcRequest) (h : Host)
    (hd : h.done = D) (hid : req_id m = req_id r) :
    Completed D r (aml_sd_emmc_request_done h m) :=
  ⟨m, rfl, hid, by simp [aml_sd_emmc_request_done, hd]⟩

/-- The function `aml_sd_emmc_send_stop` keeps the request in flight and raises
`cmd_is_stop`. -/
theorem send_stop_in_flight (cfg : BuildCfg) (D : List MmcRequest) (r : MmcRequest) (h : Host)
    (hf : InFlight D r h) :
    InFlight D r (aml_sd_emmc_send_stop cfg h)
      ∧ (aml_sd_emmc_send_stop cfg h).cmd_is_stop = true := by
  obtain ⟨m, hm, hid, hd, hx⟩ := hf
  unfold aml_sd_emmc_send_stop
  simp only [hm]
  obtain ⟨rg, w, g, b, n, d, e⟩ := start_cmd_frame cfg
    { h with sd_emmc_err_bak := to_u32 m.cmd.error,
             mrq := some { m with cmd := { m.cmd with error := 0 } },
             cmd_is_stop := true } aml_sd_emmc_stop
  rw [e]
  exact ⟨⟨_, rfl, hid, hd, hx⟩, rfl⟩

/-- Writing `cmd->error` through `host->mrq` keeps a live request in flight. -/
theorem set_cmd_error_in_flight (D : List MmcRequest) (r : MmcRequest) (h : Host) (e : Int)
    (hf : InFlight D r h) : InFlight D r (set_cmd_error h e) := by
  obtain ⟨m, hm, hid, hd, hx⟩ := hf
  refine ⟨{ m with cmd := { m.cmd with error := e } }, by simp [set_cmd_error, hm],
    (req_id_error m e).trans hid, by simp [set_cmd_error, hm, hd],
    by simpa [set_cmd_error, hm] using hx⟩

/-- Latching a status keeps a live request in flight. -/
theorem set_status_in_flight (D : List MmcRequest) (r : MmcRequest) (h : Host) (st : HostStatus)
    (hf : InFlight D r h) : InFlight D r { h with status := st } := by
  obtain ⟨m, hm, hid, hd, hx⟩ := hf
  exact ⟨m, hm, hid, hd, hx⟩

/-- The classification step of the interrupt handler keeps a live request in
flight. -/
theorem irq_apply_in_flight (D : List MmcRequest) (r : MmcRequest) (h : Host) (v : Nat)
    (hf : InFlight D r h) : InFlight D r (irq_apply h v) := by
  have hf0 := hf
  obtain ⟨m, hm, hid, hd, hx⟩ := hf
  unfold irq_apply
  split
  · exact set_cmd_error_in_flight D r _ _ (set_status_in_flight D r h _ hf0)
  · exact set_cmd_error_in_flight D r _ _ (set_status_in_flight D r h _ hf0)
  · exact set_cmd_error_in_flight D r _ _ (set_status_in_flight D r h _ hf0)
  · exact set_cmd_error_in_flight D r _ _ (set_status_in_flight D r h _ hf0)
  · simp only [hm]
    exact set_cmd_error_in_flight D r _ _ ⟨m, rfl, hid, hd, hx⟩
  · exact ⟨m, hm, hid, hd, Or.inr (Or.inr (Or.inr (Or.inl rfl)))⟩

/-- The interrupt handler keeps a live request in flight. -/
theorem irq_in_flight (D : List MmcRequest) (r : MmcRequest) (h : Host) (i : IrqIn)
    (hf : InFlight D r h) : InFlight D r (aml_sd_emmc_irq h i).1 := by
  have hf0 := hf
  obtain ⟨m, hm, hid, hd, hx⟩ := hf
  unfold aml_sd_emmc_irq
  by_cases he : irq_early_return i = true
  · simp only [he, if_true]
    exact hf0
  · simp only [he, hm, Option.isNone_some, Option.isSome_some, Bool.false_and, if_true,
      Bool.false_eq_true, if_false, ite_pair_fst]
    apply irq_apply_in_flight
    refine ⟨m, rfl, hid, hd, ?_⟩
    show (if h.cmd_is_stop = true then XferStep.XFER_IRQ_TASKLET_BUSY
      else XferStep.XFER_IRQ_OCCUR) = _ ∨ _
    split
    · exact Or.inr (Or.inr (Or.inl rfl))
    · exact Or.inr (Or.inl rfl)

/-- Recording the transferred bytes does not change which request it is. -/
theorem req_id_bytes (m : MmcRequest) (data : MmcData) (n : Nat) (e : Int)
    (hdata : m.data = some data) :
    req_id { m with data := some { data with bytes_xfered := n },
                    cmd := { m.cmd with error := e } } = req_id m := by
  unfold req_id
  simp [hdata]

/-- The deferred dispatch keeps a live request in flight or completes it. -/
theorem thread_in_flight (cfg : BuildCfg) (D : List MmcRequest) (r : MmcRequest) (h : Host)
    (hf : InFlight D r h) :
    InFlight D r (aml_sd_emmc_data_thread cfg h)
      ∨ Completed D r (aml_sd_emmc_data_thread cfg h) := by
  have hf0 := hf
  obtain ⟨m, hm, hid, hd, hx⟩ := hf
  unfold aml_sd_emmc_data_thread
  split
  · exact Or.inl hf0
  · split
    · rename_i hnone
      rw [hm] at hnone
      exact Option.noConfusion hnone
    · rename_i m2 hsome
      have hm2 : m2 = m := by
        rw [hm] at hsome
        exact (Option.some.inj hsome).symm
      subst hm2
      split
      · exact Or.inr (request_done_completed D r _ _ hd ((req_id_error _ _).trans hid))
      · split
        · split
          · rename_i data hdata
            split
            · exact Or.inr (request_done_completed D r _ _ hd
                ((req_id_bytes _ data _ _ hdata).trans hid))
            · exact Or.inr (request_done_completed D r _ _ hd ((req_id_error _ _).trans hid))
          · exact Or.inr (request_done_completed D r _ _ hd ((req_id_error _ _).trans hid))
        · split
          · rename_i data hdata
            split
            · exact Or.inr (request_done_completed D r _ _ hd
                ((req_id_bytes _ data _ _ hdata).trans hid))
            · exact Or.inr (request_done_completed D r _ _ hd ((req_id_error _ _).trans hid))
          · exact Or.inr (request_done_completed D r _ _ hd ((req_id_error _ _).trans hid))
        · split
          · exact Or.inl (send_stop_in_flight cfg D r h hf0).1
          · exact Or.inr (request_done_completed D r _ _ hd hid)
        · split
          · exact Or.inl (send_stop_in_flight cfg D r h hf0).1
          · exact Or.inr (request_done_completed D r _ _ hd hid)
        · split
          · exact Or.inl (send_stop_in_flight cfg D r h hf0).1
          · exact Or.inr (request_done_completed D r _ _ hd hid)
        · split
          · exact Or.inl (send_stop_in_flight cfg D r h hf0).1
          · exact Or.inr (request_done_completed D r _ _ hd hid)
        · exact Or.inl hf0

/-- Replacing the command by one with the same opcode, argument and flags does
not change which request it is. -/
theorem req_id_cmd (m : MmcRequest) (c : MmcCommand) (h1 : c.opcode = m.cmd.opcode)
    (h2 : c.arg = m.cmd.arg) (h3 : c.flags = m.cmd.flags) :
    req_id { m with cmd := c } = req_id m := by
  unfold req_id
  simp [h1, h2, h3]

/-- The forced timeout leaves opcode, argument and flags of the command. -/
theorem timeout_cmd_same (h : Host) (m : MmcRequest) :
    (timeout_cmd h m).opcode = m.cmd.opcode ∧ (timeout_cmd h m).arg = m.cmd.arg
      ∧ (timeout_cmd h m).flags = m.cmd.flags := by
  unfold timeout_cmd
  dsimp only
  split
  · exact ⟨rfl, rfl, rfl⟩
  · split
    · exact ⟨rfl, rfl, rfl⟩
    · exact ⟨rfl, rfl, rfl⟩

/-- The forced timeout completes the request, or sends the synthesized STOP and
keeps the request in flight with `cmd_is_stop` raised; with `cmd_is_stop`
already raised it completes the request. -/
theorem timeout_handle_step (cfg : BuildCfg) (D : List MmcRequest) (r : MmcRequest) (h : Host)
    (m : MmcRequest) (hid : req_id m = req_id r) (hd : h.done = D) :
    (Completed D r (timeout_handle cfg h m)
      ∨ (InFlight D r (timeout_handle cfg h m) ∧ (timeout_handle cfg h m).cmd_is_stop = true))
    ∧ (h.cmd_is_stop = true → Completed D r (timeout_handle cfg h m)) := by
  have hsame := timeout_cmd_same h m
  have hreq : req_id { m with cmd := timeout_cmd h m } = req_id r :=
    (req_id_cmd m _ hsame.1 hsame.2.1 hsame.2.2).trans hid
  unfold timeout_handle
  dsimp only
  constructor
  · split
    · right
      apply send_stop_in_flight
      exact ⟨_, rfl, hreq, hd, Or.inr (Or.inr (Or.inr (Or.inr rfl)))⟩
    · left
      exact request_done_completed D r _ _ hd hreq
  · intro hstop
    rw [if_neg]
    · exact request_done_completed D r _ _ hd hreq
    · simp [hstop]

/-- The watchdog completes a live request, or sends the synthesized STOP and
keeps the request in flight with `cmd_is_stop` raised; with `cmd_is_stop`
already raised it completes the request. -/
theorem watchdog_in_flight (cfg : BuildCfg) (D : List MmcRequest) (r : MmcRequest) (h : Host)
    (hf : InFlight D r h) :
    (Completed D r (aml_sd_emmc_timeout cfg h)
      ∨ (InFlight D r (aml_sd_emmc_timeout cfg h)
          ∧ (aml_sd_emmc_timeout cfg h).cmd_is_stop = true))
    ∧ (h.cmd_is_stop = true → Completed D r (aml_sd_emmc_timeout cfg h)) := by
  obtain ⟨m, hm, hid, hd, hx⟩ := hf
  have h1 : ¬ (h.xfer_step = XferStep.XFER_FINISHED) := by
    intro hc
    rw [hc] at hx
    simp at hx
  have h2 : ¬ (h.xfer_step = XferStep.XFER_IRQ_TASKLET_DATA
      ∨ h.xfer_step = XferStep.XFER_IRQ_TASKLET_CMD) := by
    intro hc
    rcases hc with hc | hc <;>
      · rw [hc] at hx
        simp at hx
  unfold aml_sd_emmc_timeout
  split
  · rename_i hnone
    rw [hm] at hnone
    exact Option.noConfusion hnone
  · rename_i m2 hsome
    have hm2 : m2 = m := by
      rw [hm] at hsome
      exact (Option.some.inj hsome).symm
    subst hm2
    rw [if_neg h1, if_neg h2]
    exact timeout_handle_step cfg D r h _ hid hd

/-- Once the request is completed the interrupt handler calls no callback. -/
theorem irq_completed (D : List MmcRequest) (r : MmcRequest) (h : Host) (i : IrqIn)
    (hc : Completed D r h) : Completed D r (aml_sd_emmc_irq h i).1 := by
  have hc0 := hc
  obtain ⟨m, hm, hid, hd⟩ := hc
  unfold aml_sd_emmc_irq
  by_cases he : irq_early_return i = true
  · simp only [he, if_true]
    exact hc0
  · by_cases hs : ista_irq_sdio (i.girq_en &&& 0xffff) = true
    · simp only [he, hm, hs, Option.isNone_none, Option.isSome_none, Bool.not_true,
        Bool.and_false, Bool.false_eq_true, if_false, ite_pair_fst]
      unfold irq_apply
      split <;>
        exact ⟨m, by simp [set_cmd_error, write_gstatus, hm], hid,
          by simp [set_cmd_error, write_gstatus, hm, hd]⟩
    · simp only [he, hm, hs, Option.isNone_none, Bool.not_false, Bool.and_true,
        Bool.false_eq_true, if_false, if_true]
      exact hc0

/-- Once the request is completed the deferred dispatch calls no callback. -/
theorem thread_completed (cfg : BuildCfg) (D : List MmcRequest) (r : MmcRequest) (h : Host)
    (hc : Completed D r h) : Completed D r (aml_sd_emmc_data_thread cfg h) := by
  have hc0 := hc
  obtain ⟨m, hm, hid, hd⟩ := hc
  unfold aml_sd_emmc_data_thread
  split
  · exact hc0
  · simp only [hm]
    exact ⟨m, rfl, hid, hd⟩

/-- Once the request is completed the watchdog calls no callback. -/
theorem watchdog_completed (cfg : BuildCfg) (D : List MmcRequest) (r : MmcRequest) (h : Host)
    (hc : Completed D r h) : Completed D r (aml_sd_emmc_timeout cfg h) := by
  obtain ⟨m, hm, hid, hd⟩ := hc
  unfold aml_sd_emmc_timeout
  simp only [hm]
  exact ⟨m, rfl, hid, hd⟩

/-- One event keeps the request in flight or completed. -/
theorem step_life (cfg : BuildCfg) (D : List MmcRequest) (r : MmcRequest) (h : Host) (ev : Event)
    (hl : InFlight D r h ∨ Completed D r h) :
    InFlight D r (step cfg h ev) ∨ Completed D r (step cfg h ev) := by
  rcases hl with hf | hc
  · cases ev with
    | irq i => exact Or.inl (irq_in_flight D r h i hf)
    | thread => exact thread_in_flight cfg D r h hf
    | watchdog =>
      rcases (watchdog_in_flight cfg D r h hf).1 with h1 | h1
      · exact Or.inr h1
      · exact Or.inl h1.1
  · cases ev with
    | irq i => exact Or.inr (irq_completed D r h i hc)
    | thread => exact Or.inr (thread_completed cfg D r h hc)
    | watchdog => exact Or.inr (watchdog_completed cfg D r h hc)

/-- A sequence of events keeps the request in flight or completed. -/
theorem run_life (cfg : BuildCfg) (D : List MmcRequest) (r : MmcRequest) (evs : List Event)
    (h : Host) (hl : InFlight D r h ∨ Completed D r h) :
    InFlight D r (run cfg h evs) ∨ Completed D r (run cfg h evs) := by
  induction evs generalizing h with
  | nil => exact hl
  | cons ev rest ih => exact ih (step cfg h ev) (step_life cfg D r h ev hl)

/-- A completed request stays completed. -/
theorem run_completed (cfg : BuildCfg) (D : List MmcRequest) (r : MmcRequest) (evs : List Event)
    (h : Host) (hc : Completed D r h) : Completed D r (run cfg h evs) := by
  induction evs generalizing h with
  | nil => exact hc
  | cons ev rest ih =>
    apply ih (step cfg h ev)
    rcases step_life cfg D r h ev (Or.inr hc) with h1 | h1
    · cases ev with
      | irq i => exact irq_completed D r h i hc
      | thread => exact thread_completed cfg D r h hc
      | watchdog => exact watchdog_completed cfg D r h hc
    · exact h1

/-- With no request held, an event calls no callback and takes no request. -/
theorem step_released (cfg : BuildCfg) (h : Host) (ev : Event) (hm : h.mrq = none) :
    (step cfg h ev).done = h.done ∧ (step cfg h ev).mrq = none := by
  cases ev with
  | irq i =>
    show (aml_sd_emmc_irq h i).1.done = h.done ∧ (aml_sd_emmc_irq h i).1.mrq = none
    unfold aml_sd_emmc_irq
    by_cases he : irq_early_return i = true
    · simp only [he, if_true]
      exact ⟨trivial, hm⟩
    · by_cases hs : ista_irq_sdio (i.girq_en &&& 0xffff) = true
      · simp only [he, hm, hs, Option.isNone_none, Option.isSome_none, Bool.not_true,
          Bool.and_false, Bool.false_eq_true, if_false, ite_pair_fst]
        unfold irq_apply
        split <;> simp [set_cmd_error, write_gstatus, hm]
      · simp only [he, hm, hs, Option.isNone_none, Bool.not_false, Bool.and_true,
          Bool.false_eq_true, if_false, if_true]
        exact ⟨trivial, trivial⟩
  | thread =>
    show (aml_sd_emmc_data_thread cfg h).done = h.done
      ∧ (aml_sd_emmc_data_thread cfg h).mrq = none
    unfold aml_sd_emmc_data_thread
    split
    · exact ⟨rfl, hm⟩
    · simp only [hm]
      exact ⟨trivial, trivial⟩
  | watchdog =>
    show (aml_sd_emmc_timeout cfg h).done = h.done ∧ (aml_sd_emmc_timeout cfg h).mrq = none
    unfold aml_sd_emmc_timeout
    simp only [hm]
    exact ⟨trivial, trivial⟩

/-- Once the host has released the request no sequence of events adds a
callback. -/
theorem run_done_released (cfg : BuildCfg) (evs : List Event) (h : Host) (hm : h.mrq = none) :
    (run cfg h evs).done = h.done := by
  induction evs generalizing h with
  | nil => rfl
  | cons ev rest ih =>
    have hs := step_released cfg h ev hm
    show (run cfg (step cfg h ev) rest).done = h.done
    rw [ih (step cfg h ev) hs.2, hs.1]

/-- Running two sequences one after the other. -/
theorem run_append (cfg : BuildCfg) (h : Host) (e1 e2 : List Event) :
    run cfg h (e1 ++ e2) = run cfg (run cfg h e1) e2 := by
  unfold run
  rw [List.foldl_append]

/-! ### Watchdog -/

/-- The function `aml_sd_emmc_send_stop` on a host that holds a request: the error is saved
in `sd_emmc_err_bak`, `cmd->error` is cleared, `cmd_is_stop` is set, and the
rest of the change is that of `aml_sd_emmc_start_cmd`. -/
theorem send_stop_frame (cfg : BuildCfg) (h : Host) (m : MmcRequest) (hm : h.mrq = some m) :
    ∃ r w g b n d, aml_sd_emmc_send_stop cfg h
      = { h with sd_emmc_err_bak := to_u32 m.cmd.error,
                 mrq := some { m with cmd := { m.cmd with error := 0 } },
                 cmd_is_stop := true, regs := r, writes := w, is_gated := g, desc_buf := b,
                 sg_cnt := n, dma_sts := d } := by
  unfold aml_sd_emmc_send_stop
  simp only [hm]
  obtain ⟨rg, w, g, b, n, d, e⟩ := start_cmd_frame cfg
    { h with sd_emmc_err_bak := to_u32 m.cmd.error,
             mrq := some { m with cmd := { m.cmd with error := 0 } },
             cmd_is_stop := true } aml_sd_emmc_stop
  rw [e]
  exact ⟨_, _, _, _, _, _, rfl⟩

/-- A firing of the watchdog while the dispatch is pending and the counter is
below 30 re-arms the watchdog, counts and returns. -/
theorem watchdog_pending_rearm (cfg : BuildCfg) (h : Host) (m : MmcRequest)
    (hm : h.mrq = some m)
    (hstep : h.xfer_step = XferStep.XFER_IRQ_TASKLET_DATA
      ∨ h.xfer_step = XferStep.XFER_IRQ_TASKLET_CMD)
    (hlt : h.timeout_cnt < 30) :
    aml_sd_emmc_timeout cfg h
      = { h with timeout_rearmed := h.timeout_rearmed + 1, timeout_cnt := h.timeout_cnt + 1 } := by
  unfold aml_sd_emmc_timeout
  simp only [hm]
  have hnf : h.xfer_step ≠ XferStep.XFER_FINISHED := by
    rcases hstep with e | e <;> rw [e] <;> decide
  rw [if_neg hnf, if_pos hstep]
  exact if_neg (by show ¬ h.timeout_cnt + 1 > 30; omega)

/-- A firing of the watchdog while the dispatch is pending and the counter has
reached 30 goes on to the forced timeout. -/
theorem watchdog_pending_fire (cfg : BuildCfg) (h : Host) (m : MmcRequest)
    (hm : h.mrq = some m)
    (hstep : h.xfer_step = XferStep.XFER_IRQ_TASKLET_DATA
      ∨ h.xfer_step = XferStep.XFER_IRQ_TASKLET_CMD)
    (hge : 30 ≤ h.timeout_cnt) :
    aml_sd_emmc_timeout cfg h
      = timeout_handle cfg
          { h with timeout_rearmed := h.timeout_rearmed + 1, timeout_cnt := h.timeout_cnt + 1 }
          m := by
  unfold aml_sd_emmc_timeout
  simp only [hm]
  have hnf : h.xfer_step ≠ XferStep.XFER_FINISHED := by
    rcases hstep with e | e <;> rw [e] <;> decide
  rw [if_neg hnf, if_pos hstep]
  exact if_pos (by show h.timeout_cnt + 1 > 30; omega)

/-- One more event at the end of a run. -/
theorem run_snoc (cfg : BuildCfg) (h : Host) (evs : List Event) (ev : Event) :
    run cfg h (evs ++ [ev]) = step cfg (run cfg h evs) ev := by
  unfold run
  rw [List.foldl_append]
  rfl

/-- While the dispatch is pending, the first 30 firings of the watchdog only
count and re-arm. -/
theorem watchdog_pending_run (cfg : BuildCfg) (h : Host) (m : MmcRequest)
    (hm : h.mrq = some m)
    (hstep : h.xfer_step = XferStep.XFER_IRQ_TASKLET_DATA
      ∨ h.xfer_step = XferStep.XFER_IRQ_TASKLET_CMD)
    (k : Nat) (hk : h.timeout_cnt + k ≤ 30) :
    run cfg h (List.replicate k Event.watchdog)
      = { h with timeout_cnt := h.timeout_cnt + k, timeout_rearmed := h.timeout_rearmed + k } := by
  induction k with
  | zero => rfl
  | succ k ih =>
    rw [List.replicate_succ', run_snoc, ih (by omega)]
    have hlt : h.timeout_cnt + k < 30 := by omega
    exact (watchdog_pending_rearm cfg
      { h with timeout_cnt := h.timeout_cnt + k, timeout_rearmed := h.timeout_rearmed + k }
      m hm hstep hlt).trans rfl

/-- The forced timeout sets `cmd->error = -ETIMEDOUT`. -/
theorem timeout_cmd_error (h : Host) (m : MmcRequest) :
    (timeout_cmd h m).error = -ETIMEDOUT := by
  unfold timeout_cmd
  dsimp only
  split
  · rfl
  · split
    · rfl
    · rfl

/-- The forced timeout, when its test for a STOP holds: the synthesized STOP is
sent from the state `XFER_TIMER_TIMEOUT`. -/
theorem timeout_handle_stop (cfg : BuildCfg) (h : Host) (m : MmcRequest)
    (hc : timeout_sends_stop h m = true) :
    timeout_handle cfg h m
      = aml_sd_emmc_send_stop cfg
          { h with timeout_cnt := 0, xfer_step_prev := h.xfer_step,
                   xfer_step := XferStep.XFER_TIMER_TIMEOUT,
                   sd_emmc_error_flag := timeout_flag h m,
                   mrq := some { m with cmd := timeout_cmd h m } } := by
  unfold timeout_handle
  dsimp only
  rw [if_pos]
  rw [(timeout_cmd_same h m).1]
  exact hc

/-- The forced timeout, when its test for a STOP fails: the request is
completed. -/
theorem timeout_handle_done (cfg : BuildCfg) (h : Host) (m : MmcRequest)
    (hc : timeout_sends_stop h m = false) :
    timeout_handle cfg h m
      = aml_sd_emmc_request_done
          { h with timeout_cnt := 0, xfer_step_prev := h.xfer_step,
                   xfer_step := XferStep.XFER_TIMER_TIMEOUT,
                   sd_emmc_error_flag := timeout_flag h m,
                   mrq := some { m with cmd := timeout_cmd h m }, cmd_is_stop := false }
          { m with cmd := timeout_cmd h m } := by
  unfold timeout_handle
  dsimp only
  rw [if_neg]
  rw [(timeout_cmd_same h m).1]
  intro hh
  have h2 : timeout_sends_stop h m = true := hh
  rw [hc] at h2
  exact Bool.noConfusion h2

/-- Fields of the host after the forced timeout has sent the synthesized
STOP. -/
theorem timeout_handle_stop_fields (cfg : BuildCfg) (h : Host) (m : MmcRequest)
    (hc : timeout_sends_stop h m = true) :
    (timeout_handle cfg h m).timeout_cnt = 0
      ∧ (timeout_handle cfg h m).xfer_step_prev = h.xfer_step
      ∧ (timeout_handle cfg h m).xfer_step = XferStep.XFER_TIMER_TIMEOUT
      ∧ (timeout_handle cfg h m).cmd_is_stop = true
      ∧ (timeout_handle cfg h m).sd_emmc_err_bak = to_u32 (-ETIMEDOUT)
      ∧ (timeout_handle cfg h m).mrq = some { m with cmd := { timeout_cmd h m with error := 0 } }
      ∧ (timeout_handle cfg h m).done = h.done := by
  rw [timeout_handle_stop cfg h m hc]
  obtain ⟨r, w, g, b, n, d, e⟩ := send_stop_frame cfg
    { h with timeout_cnt := 0, xfer_step_prev := h.xfer_step,
             xfer_step := XferStep.XFER_TIMER_TIMEOUT,
             sd_emmc_error_flag := timeout_flag h m,
             mrq := some { m with cmd := timeout_cmd h m } }
    { m with cmd := timeout_cmd h m } rfl
  rw [e]
  refine ⟨rfl, rfl, rfl, rfl, ?_, rfl, rfl⟩
  show to_u32 (timeout_cmd h m).error = to_u32 (-ETIMEDOUT)
  rw [timeout_cmd_error]

/-- Fields of the host after the forced timeout has completed the request. -/
theorem timeout_handle_done_fields (cfg : BuildCfg) (h : Host) (m : MmcRequest)
    (hc : timeout_sends_stop h m = false) :
    (timeout_handle cfg h m).timeout_cnt = 0
      ∧ (timeout_handle cfg h m).xfer_step_prev = h.xfer_step
      ∧ (timeout_handle cfg h m).done = h.done ++ [{ m with cmd := timeout_cmd h m }]
      ∧ (timeout_cmd h m).error = -ETIMEDOUT
      ∧ (timeout_handle cfg h m).mrq = none
      ∧ (timeout_handle cfg h m).xfer_step = XferStep.XFER_FINISHED
      ∧ (timeout_handle cfg h m).cmd_is_stop = false := by
  rw [timeout_handle_done cfg h m hc]
  exact ⟨rfl, rfl, rfl, timeout_cmd_error h m, rfl, rfl, rfl⟩

/-! ### Completion dispatcher -/

/-- C12, counterexample. The 8-block read fails with a data CRC error, the
dispatcher sends the synthesized STOP and the STOP ends without error: the
latched status is `HOST_TASKLET_DATA`, the request has a data phase and a
non-zero opcode, and the dispatcher completes it with `cmd->error = -EILSEQ`
and without writing `bytes_xfered` (0, not 512 * 8). -/
theorem stop_completion_keeps_error_and_byte_count :
    host_emmc_stop_ended.status = HostStatus.HOST_TASKLET_DATA
      ∧ host_emmc_stop_ended.mrq.map (fun m => (m.cmd.opcode, m.data.isSome)) = some (18, true)
      ∧ (aml_sd_emmc_data_thread cfg_sgmap host_emmc_stop_ended).done.map
          (fun m => (m.cmd.error, m.data.map (fun d => (d.blksz, d.blocks, d.bytes_xfered))))
          = [(-EILSEQ, some (512, 8, 0))] := by
  refine ⟨by decide, by decide, by decide⟩

/-- C12, amended. Byte count on successful completion in
`aml_sd_emmc_data_thread`: when the dispatch runs for a request with no
synthesized STOP in flight (`cmd_is_stop = 0`) and the latched status is
`HOST_TASKLET_DATA` or `HOST_TASKLET_CMD`, then a request without data phase is
completed from the state `XFER_TASKLET_CMD` with `cmd->error = 0` and no
`bytes_xfered` written, and a request with a data phase and a non-zero opcode is
completed from the state `XFER_TASKLET_DATA` with `cmd->error = 0` and
`data->bytes_xfered = blksz * blocks` (the product of two `unsigned int`). -/
theorem data_thread_success_byte_count (cfg : BuildCfg) (h : Host) (m : MmcRequest)
    (hm : h.mrq = some m) (hns : h.cmd_is_stop = false)
    (hst : h.status = HostStatus.HOST_TASKLET_DATA ∨ h.status = HostStatus.HOST_TASKLET_CMD)
    (hx : h.xfer_step ≠ XferStep.XFER_FINISHED ∧ h.xfer_step ≠ XferStep.XFER_TIMER_TIMEOUT) :
    (m.data = none →
      aml_sd_emmc_data_thread cfg h
          = aml_sd_emmc_request_done
              { h with sd_emmc_error_flag := 0, xfer_step := XferStep.XFER_TASKLET_CMD }
              { m with cmd := { m.cmd with error := 0 } }
        ∧ (aml_sd_emmc_data_thread cfg h).done
            = h.done ++ [{ m with cmd := { m.cmd with error := 0 } }])
    ∧ (∀ d, m.data = some d → m.cmd.opcode ≠ 0 →
      aml_sd_emmc_data_thread cfg h
          = aml_sd_emmc_request_done
              { h with sd_emmc_error_flag := 0, xfer_step := XferStep.XFER_TASKLET_DATA }
              { m with data := some { d with bytes_xfered
                                        := (d.blksz * d.blocks) % 4294967296 },
                       cmd := { m.cmd with error := 0 } }
        ∧ (aml_sd_emmc_data_thread cfg h).done
            = h.done ++ [{ m with data := some { d with bytes_xfered
                                                  := (d.blksz * d.blocks) % 4294967296 },
                                  cmd := { m.cmd with error := 0 } }]
        ∧ (d.blksz * d.blocks < 4294967296 →
            (d.blksz * d.blocks) % 4294967296 = d.blksz * d.blocks)) := by
  have hgate : ¬ (h.xfer_step = XferStep.XFER_FINISHED
      ∨ h.xfer_step = XferStep.XFER_TIMER_TIMEOUT) := fun hh => hh.elim hx.1 hx.2
  constructor
  · intro hd
    have e : aml_sd_emmc_data_thread cfg h
        = aml_sd_emmc_request_done
            { h with sd_emmc_error_flag := 0, xfer_step := XferStep.XFER_TASKLET_CMD }
            { m with cmd := { m.cmd with error := 0 } } := by
      unfold aml_sd_emmc_data_thread
      rw [if_neg hgate]
      rcases hst with hs | hs <;> simp only [hm, hns, hs, hd] <;> rfl
    exact ⟨e, by rw [e]; rfl⟩
  · intro d hd hop
    have e : aml_sd_emmc_data_thread cfg h
        = aml_sd_emmc_request_done
            { h with sd_emmc_error_flag := 0, xfer_step := XferStep.XFER_TASKLET_DATA }
            { m with data := some { d with bytes_xfered := (d.blksz * d.blocks) % 4294967296 },
                     cmd := { m.cmd with error := 0 } } := by
      unfold aml_sd_emmc_data_thread
      rw [if_neg hgate]
      rcases hst with hs | hs <;> simp only [hm, hns, hs, hd, if_pos hop] <;> rfl
    exact ⟨e, by rw [e]; rfl, fun hlt => Nat.mod_eq_of_lt hlt⟩

/-- C12, amended, evaluated: after the interrupt that reports end of chain, the
dispatcher completes the 8-block read with `bytes_xfered = 4096` and
`cmd->error = 0`. -/
theorem data_thread_success_byte_count_witness :
    (aml_sd_emmc_data_thread cfg_sgmap
        (run cfg_sgmap host_emmc_read8 [Event.irq irq_end_of_chain])).done.map
      (fun m => (m.cmd.error, m.data.map (fun d => d.bytes_xfered))) = [(0, some 4096)] := by
  have hm : (run cfg_sgmap host_emmc_read8 [Event.irq irq_end_of_chain]).mrq
      = some req_read8 := by decide
  have key := (data_thread_success_byte_count cfg_sgmap
    (run cfg_sgmap host_emmc_read8 [Event.irq irq_end_of_chain]) req_read8 hm (by decide)
    (Or.inl (by decide)) ⟨by decide, by decide⟩).2 _ rfl (by decide)
  rw [key.2.1]
  decide

/-- An `int` survives the conversion to `unsigned int` and back. -/
theorem to_s32_to_u32 (e : Int) (hlo : -2147483648 ≤ e) (hhi : e < 2147483648) :
    to_s32 (to_u32 e) = e := by
  unfold to_s32 to_u32
  have h1 : 0 ≤ e % 4294967296 := Int.emod_nonneg e (by decide)
  have h2 : e % 4294967296 < 4294967296 := Int.emod_lt_of_pos e (by decide)
  have h3 : ((e % 4294967296).toNat : Int) = e % 4294967296 := Int.toNat_of_nonneg h1
  split <;> omega

/-- The interrupt handler on a host that holds a request, for an interrupt that
passes the entry tests: it writes the status register and the latched status,
`cmd->error` and `xfer_step`, and leaves `xfer_step` at the state it set on
entry or at `XFER_IRQ_UNKNOWN_IRQ`. -/
theorem irq_frame_live (h : Host) (m : MmcRequest) (i : IrqIn) (hm : h.mrq = some m)
    (hi : irq_early_return i = false) :
    ∃ e st x r w, (aml_sd_emmc_irq h i).1
        = { h with mrq := some { m with cmd := { m.cmd with error := e } }, status := st,
                   xfer_step := x, regs := r, writes := w }
      ∧ (x = (if h.cmd_is_stop then XferStep.XFER_IRQ_TASKLET_BUSY else XferStep.XFER_IRQ_OCCUR)
          ∨ x = XferStep.XFER_IRQ_UNKNOWN_IRQ) := by
  unfold aml_sd_emmc_irq
  simp only [hi, Bool.false_eq_true, if_false, hm, Option.isNone_some, Bool.false_and,
    Option.isSome_some, if_true, ite_pair_fst]
  unfold irq_apply
  cases irq_classify (i.gstatus &&& 0xffff) with
  | dat_crc => exact ⟨_, _, _, _, _, rfl, Or.inl rfl⟩
  | rsp_crc => exact ⟨_, _, _, _, _, rfl, Or.inl rfl⟩
  | rsp_timeout => exact ⟨_, _, _, _, _, rfl, Or.inl rfl⟩
  | dat_timeout => exact ⟨_, _, _, _, _, rfl, Or.inl rfl⟩
  | done => exact ⟨_, _, _, _, _, rfl, Or.inl rfl⟩
  | unknown => exact ⟨m.cmd.error, h.status, _, _, _, rfl, Or.inr rfl⟩

/-- C13. Error code round trip across the synthesized STOP: when
`aml_sd_emmc_send_stop` is called for a request whose `cmd->error` is `e`, it
saves `e`, sets `cmd->error` to 0 and `cmd_is_stop` to 1; then, for every
interrupt of the STOP command that passes the entry tests of
`aml_sd_emmc_irq` (whatever status it reports), the dispatch in
`aml_sd_emmc_data_thread` clears `cmd_is_stop`, and completes the original
request with `cmd->error = e` again: the callback gets the request exactly as
it was before the STOP, and `aml_sd_emmc_stop` is never passed to it. -/
theorem stop_round_trip_restores_error (cfg : BuildCfg) (h : Host) (m : MmcRequest) (i : IrqIn)
    (hm : h.mrq = some m)
    (he : -2147483648 ≤ m.cmd.error ∧ m.cmd.error < 2147483648)
    (hi : irq_early_return i = false) :
    (aml_sd_emmc_send_stop cfg h).cmd_is_stop = true
      ∧ (aml_sd_emmc_send_stop cfg h).mrq = some { m with cmd := { m.cmd with error := 0 } }
      ∧ to_s32 (aml_sd_emmc_send_stop cfg h).sd_emmc_err_bak = m.cmd.error
      ∧ (aml_sd_emmc_data_thread cfg
          (aml_sd_emmc_irq (aml_sd_emmc_send_stop cfg h) i).1).cmd_is_stop = false
      ∧ (aml_sd_emmc_data_thread cfg
          (aml_sd_emmc_irq (aml_sd_emmc_send_stop cfg h) i).1).done = h.done ++ [m]
      ∧ (aml_sd_emmc_data_thread cfg
          (aml_sd_emmc_irq (aml_sd_emmc_send_stop cfg h) i).1).mrq = none
      ∧ (aml_sd_emmc_data_thread cfg
          (aml_sd_emmc_irq (aml_sd_emmc_send_stop cfg h) i).1).xfer_step
          = XferStep.XFER_FINISHED := by
  obtain ⟨r, w, g, b, n, d, e1⟩ := send_stop_frame cfg h m hm
  have hrt := to_s32_to_u32 m.cmd.error he.1 he.2
  rw [e1]
  refine ⟨rfl, rfl, hrt, ?_⟩
  obtain ⟨e, st, x, r2, w2, e2, hx⟩ := irq_frame_live
    { h with sd_emmc_err_bak := to_u32 m.cmd.error,
             mrq := some { m with cmd := { m.cmd with error := 0 } },
             cmd_is_stop := true, regs := r, writes := w, is_gated := g, desc_buf := b,
             sg_cnt := n, dma_sts := d }
    { m with cmd := { m.cmd with error := 0 } } i rfl hi
  rw [e2]
  have hgate : ¬ (x = XferStep.XFER_FINISHED ∨ x = XferStep.XFER_TIMER_TIMEOUT) := by
    rcases hx with hx | hx
    · have hx2 : x = XferStep.XFER_IRQ_TASKLET_BUSY := hx
      rw [hx2]
      decide
    · rw [hx]
      decide
  unfold aml_sd_emmc_data_thread
  dsimp only
  rw [if_neg hgate]
  simp only [if_true]
  refine ⟨rfl, ?_, rfl, rfl⟩
  show h.done ++ [{ m with cmd := { m.cmd with error := to_s32 (to_u32 m.cmd.error) } }]
    = h.done ++ [m]
  rw [hrt]

/-- C13, evaluated: the 8-block read that failed with a data CRC error is
completed with `-EILSEQ` after its synthesized STOP has ended, here without
error. -/
theorem stop_round_trip_restores_error_witness :
    (aml_sd_emmc_data_thread cfg_sgmap
      (aml_sd_emmc_irq
        (aml_sd_emmc_send_stop cfg_sgmap
          (run cfg_sgmap host_emmc_read8 [Event.irq irq_rxd_err])) irq_end_of_chain).1).done
      = [{ req_read8 with cmd := { req_read8.cmd with error := -EILSEQ } }] :=
  (stop_round_trip_restores_error cfg_sgmap
    (run cfg_sgmap host_emmc_read8 [Event.irq irq_rxd_err])
    { req_read8 with cmd := { req_read8.cmd with error := -EILSEQ } } irq_end_of_chain
    (by decide) ⟨by decide, by decide⟩ (by decide)).2.2.2.2.1

/-! ### Tuning entry point -/

/-- The sweep only appends to the log of register writes. -/
theorem tune_sweep_writes (env : TuneEnv) (ddr : Bool) (opcode : Nat) (blk_pattern : List Nat)
    (blksz blk_test sweep : Nat) (s : TuneState) (k : Nat) :
    ∃ ws, (tune_sweep env ddr opcode blk_pattern blksz blk_test sweep s k).host.writes
      = s.host.writes ++ ws := by
  induction k with
  | zero => exact ⟨[], (List.append_nil _).symm⟩
  | succ k ih =>
    obtain ⟨ws, e⟩ := ih
    have e2 : (tune_sweep env ddr opcode blk_pattern blksz blk_test sweep s (k + 1)).host.writes
        = (tune_sweep env ddr opcode blk_pattern blksz blk_test sweep s k).host.writes
          ++ [RegWrite.gadjust
              { (tune_sweep env ddr opcode blk_pattern blksz blk_test sweep s k).adjust with
                  adj_delay := k % 64, adj_enable := true, cali_enable := false,
                  cali_rise := false }] := rfl
    rw [e2, e, List.append_assoc]
    exact ⟨_, rfl⟩

/-- One sweep only appends to the log of register writes. -/
theorem tune_one_sweep_writes (env : TuneEnv) (opcode : Nat) (blk_pattern : List Nat)
    (sweep blksz blk_test : Nat) (s : TuneState) :
    ∃ ws, (tune_one_sweep env opcode blk_pattern sweep blksz blk_test s).host.writes
      = s.host.writes ++ ws := by
  unfold tune_one_sweep
  exact tune_sweep_writes env _ opcode blk_pattern blksz blk_test sweep _ _

/-- The restart of the sweep appends one write of the clock register. -/
theorem tune_restart_writes (clkc : sd_emmc_clock) (s : TuneState) :
    ∃ v, (tune_restart clkc s).host.writes = s.host.writes ++ [RegWrite.gclock v] :=
  ⟨_, rfl⟩

/-- The end of the tuning appends one write of the adjust register. -/
theorem tune_finish_writes (clk_div : Nat) (s : TuneState) :
    ∃ v, (tune_finish clk_div s).host.writes = s.host.writes ++ [RegWrite.gadjust v] :=
  ⟨_, rfl⟩

/-- The sweeps only append to the log of register writes, and a value they
return is 0 or `-ENOMEM`. -/
theorem tune_rounds_out (env : TuneEnv) (opcode : Nat) (blk_pattern : List Nat) (fuel : Nat) :
    ∀ (sweep blksz : Nat) (s : TuneState) (out : TuneOut),
      tune_rounds env opcode blk_pattern fuel sweep blksz s = some out →
        (∃ ws, out.host.writes = s.host.writes ++ ws)
          ∧ (out.ret = 0 ∨ out.ret = -ENOMEM) := by
  induction fuel with
  | zero =>
    intro sweep blksz s out hout
    exact Option.noConfusion hout
  | succ fuel ih =>
    intro sweep blksz s out hout
    unfold tune_rounds at hout
    · cases hk : env.kmalloc sweep (tune_blksz s.host blksz) with
      | none =>
        simp only [hk] at hout
        rw [← Option.some.inj hout]
        exact ⟨⟨[], (List.append_nil _).symm⟩, Or.inr rfl⟩
      | some blk_test =>
        simp only [hk] at hout
        obtain ⟨ws, e⟩ := tune_one_sweep_writes env opcode blk_pattern sweep
          (tune_blksz s.host blksz) blk_test { s with host := tune_clock s.host }
        have e0 : (tune_clock s.host).writes = s.host.writes := rfl
        by_cases hb : (tune_close (tune_one_sweep env opcode blk_pattern sweep
            (tune_blksz s.host blksz) blk_test
            { s with host := tune_clock s.host }).win).best_win_size ≤ 0
        · rw [if_pos hb] at hout
          obtain ⟨⟨ws2, e2⟩, hret⟩ := ih _ _ _ _ hout
          obtain ⟨v, e3⟩ := tune_restart_writes s.host.regs.gclock
            (tune_one_sweep env opcode blk_pattern sweep (tune_blksz s.host blksz) blk_test
              { s with host := tune_clock s.host })
          refine ⟨⟨ws ++ [RegWrite.gclock v] ++ ws2, ?_⟩, hret⟩
          rw [e2, e3, e]
          simp only [List.append_assoc]
          rfl
        · rw [if_neg hb] at hout
          rw [← Option.some.inj hout]
          obtain ⟨v, e3⟩ := tune_finish_writes s.host.regs.gclock.div
            (tune_one_sweep env opcode blk_pattern sweep (tune_blksz s.host blksz) blk_test
              { s with host := tune_clock s.host })
          refine ⟨⟨ws ++ [RegWrite.gadjust v], ?_⟩, Or.inl rfl⟩
          rw [e3, e, List.append_assoc]
          rfl

/-- The tuning engine starts by clearing the adjust register, and a value it
returns is 0 or `-ENOMEM`. -/
theorem execute_tuning_engine_out (env : TuneEnv) (h : Host) (opcode : Nat)
    (tuning_data : aml_tuning_data) (fuel : Nat) (out : TuneOut)
    (hout : aml_sd_emmc_execute_tuning_ env h opcode tuning_data fuel = some out) :
    (∃ ws, out.host.writes = h.writes ++ RegWrite.gadjust adjust_zero :: ws)
      ∧ out.ret ≠ -EINVAL := by
  unfold aml_sd_emmc_execute_tuning_ at hout
  obtain ⟨⟨ws, e⟩, hret⟩ := tune_rounds_out env opcode _ fuel _ _ _ out hout
  refine ⟨⟨ws, ?_⟩, ?_⟩
  · rw [e]
    show (h.writes ++ [_]) ++ ws = _
    rw [List.append_assoc]
    rfl
  · rcases hret with hr | hr <;> rw [hr] <;> decide

/-- C14. The function `aml_sd_emmc_execute_tuning` returns `-EINVAL` without running the
tuning engine exactly for unsupported probes. For every opcode and bus width:
if the opcode is neither `MMC_SEND_TUNING_BLOCK` nor
`MMC_SEND_TUNING_BLOCK_HS200`, or it is `MMC_SEND_TUNING_BLOCK_HS200` and the
bus is neither 4 nor 8 bits wide, the function returns `-EINVAL` with the host
untouched (no register write) and no probe handed to `mmc_wait_for_req`;
for HS200 on an 8-bit bus it is the tuning engine run with the 8-bit pattern,
and in the other accepted cases the engine run with the 4-bit pattern, whose
result it returns; the engine clears the adjust register first and never
returns `-EINVAL`. -/
theorem execute_tuning_rejects_unsupported (env : TuneEnv) (h : Host) (ios : MmcIos)
    (opcode fuel : Nat) :
    (((opcode ≠ MMC_SEND_TUNING_BLOCK ∧ opcode ≠ MMC_SEND_TUNING_BLOCK_HS200)
        ∨ (opcode = MMC_SEND_TUNING_BLOCK_HS200 ∧ ios.bus_width ≠ MMC_BUS_WIDTH_4
            ∧ ios.bus_width ≠ MMC_BUS_WIDTH_8)) →
      aml_sd_emmc_execute_tuning env h ios opcode fuel
        = some { host := h, ret := -EINVAL, probes := 0 })
    ∧ (opcode = MMC_SEND_TUNING_BLOCK_HS200 ∧ ios.bus_width = MMC_BUS_WIDTH_8 →
      aml_sd_emmc_execute_tuning env h ios opcode fuel
        = aml_sd_emmc_execute_tuning_ env h opcode
            { blk_pattern := env.tuning_blk_pattern_8bit,
              blksz := env.tuning_blk_pattern_8bit.length } fuel)
    ∧ ((opcode = MMC_SEND_TUNING_BLOCK_HS200 ∧ ios.bus_width = MMC_BUS_WIDTH_4)
        ∨ opcode = MMC_SEND_TUNING_BLOCK →
      aml_sd_emmc_execute_tuning env h ios opcode fuel
        = aml_sd_emmc_execute_tuning_ env h opcode
            { blk_pattern := env.tuning_blk_pattern_4bit,
              blksz := env.tuning_blk_pattern_4bit.length } fuel)
    ∧ (∀ out, aml_sd_emmc_execute_tuning env h ios opcode fuel = some out →
      (out.ret = -EINVAL
        ↔ ((opcode ≠ MMC_SEND_TUNING_BLOCK ∧ opcode ≠ MMC_SEND_TUNING_BLOCK_HS200)
            ∨ (opcode = MMC_SEND_TUNING_BLOCK_HS200 ∧ ios.bus_width ≠ MMC_BUS_WIDTH_4
                ∧ ios.bus_width ≠ MMC_BUS_WIDTH_8)))
      ∧ (out.ret ≠ -EINVAL →
          ∃ ws, out.host.writes = h.writes ++ RegWrite.gadjust adjust_zero :: ws)) := by
  have hrej : ((opcode ≠ MMC_SEND_TUNING_BLOCK ∧ opcode ≠ MMC_SEND_TUNING_BLOCK_HS200)
        ∨ (opcode = MMC_SEND_TUNING_BLOCK_HS200 ∧ ios.bus_width ≠ MMC_BUS_WIDTH_4
            ∧ ios.bus_width ≠ MMC_BUS_WIDTH_8)) →
      aml_sd_emmc_execute_tuning env h ios opcode fuel
        = some { host := h, ret := -EINVAL, probes := 0 } := by
    intro hr
    unfold aml_sd_emmc_execute_tuning
    rcases hr with ⟨h1, h2⟩ | ⟨h1, h2, h3⟩
    · rw [if_neg h2, if_neg h1]
    · rw [if_pos h1, if_neg h3, if_neg h2]
  have h8 : opcode = MMC_SEND_TUNING_BLOCK_HS200 ∧ ios.bus_width = MMC_BUS_WIDTH_8 →
      aml_sd_emmc_execute_tuning env h ios opcode fuel
        = aml_sd_emmc_execute_tuning_ env h opcode
            { blk_pattern := env.tuning_blk_pattern_8bit,
              blksz := env.tuning_blk_pattern_8bit.length } fuel := by
    rintro ⟨h1, h2⟩
    unfold aml_sd_emmc_execute_tuning
    rw [if_pos h1, if_pos h2]
  have h4 : (opcode = MMC_SEND_TUNING_BLOCK_HS200 ∧ ios.bus_width = MMC_BUS_WIDTH_4)
        ∨ opcode = MMC_SEND_TUNING_BLOCK →
      aml_sd_emmc_execute_tuning env h ios opcode fuel
        = aml_sd_emmc_execute_tuning_ env h opcode
            { blk_pattern := env.tuning_blk_pattern_4bit,
              blksz := env.tuning_blk_pattern_4bit.length } fuel := by
    intro hh
    unfold aml_sd_emmc_execute_tuning
    rcases hh with ⟨h1, h2⟩ | h1
    · have h3 : ios.bus_width ≠ MMC_BUS_WIDTH_8 := by rw [h2]; decide
      rw [if_pos h1, if_neg h3, if_pos h2]
    · have h3 : opcode ≠ MMC_SEND_TUNING_BLOCK_HS200 := by rw [h1]; decide
      rw [if_neg h3, if_pos h1]
  refine ⟨hrej, h8, h4, ?_⟩
  intro out hout
  by_cases hr : ((opcode ≠ MMC_SEND_TUNING_BLOCK ∧ opcode ≠ MMC_SEND_TUNING_BLOCK_HS200)
        ∨ (opcode = MMC_SEND_TUNING_BLOCK_HS200 ∧ ios.bus_width ≠ MMC_BUS_WIDTH_4
            ∧ ios.bus_width ≠ MMC_BUS_WIDTH_8))
  · rw [hrej hr] at hout
    rw [← Option.some.inj hout]
    exact ⟨⟨fun _ => hr, fun _ => rfl⟩, fun hne => absurd rfl hne⟩
  · have hacc : (opcode = MMC_SEND_TUNING_BLOCK_HS200 ∧ ios.bus_width = MMC_BUS_WIDTH_8)
        ∨ (opcode = MMC_SEND_TUNING_BLOCK_HS200 ∧ ios.bus_width = MMC_BUS_WIDTH_4)
        ∨ opcode = MMC_SEND_TUNING_BLOCK := by
      by_cases h1 : opcode = MMC_SEND_TUNING_BLOCK
      · exact Or.inr (Or.inr h1)
      · by_cases h2 : opcode = MMC_SEND_TUNING_BLOCK_HS200
        · by_cases h3 : ios.bus_width = MMC_BUS_WIDTH_8
          · exact Or.inl ⟨h2, h3⟩
          · by_cases h5 : ios.bus_width = MMC_BUS_WIDTH_4
            · exact Or.inr (Or.inl ⟨h2, h5⟩)
            · exact absurd (Or.inr ⟨h2, h5, h3⟩) hr
        · exact absurd (Or.inl ⟨h1, h2⟩) hr
    have heng : (∃ ws, out.host.writes = h.writes ++ RegWrite.gadjust adjust_zero :: ws)
        ∧ out.ret ≠ -EINVAL := by
      rcases hacc with h1 | h1
      · rw [h8 h1] at hout
        exact execute_tuning_engine_out env h opcode _ fuel out hout
      · rw [h4 h1] at hout
        exact execute_tuning_engine_out env h opcode _ fuel out hout
    exact ⟨⟨fun he => absurd he heng.2, fun hh => absurd hh hr⟩, fun _ => heng.1⟩

/-- C14, evaluated: HS200 tuning on a 1-bit bus is refused with `-EINVAL` and
the host untouched; the SD tuning opcode runs the engine, which ends with 0
after one sweep of 4 delays: 22 probes, and the delay 2 is programmed. -/
theorem execute_tuning_rejects_unsupported_witness :
    aml_sd_emmc_execute_tuning env_small host_emmc ios_hs200_1bit MMC_SEND_TUNING_BLOCK_HS200 1
        = some { host := host_emmc, ret := -EINVAL, probes := 0 }
      ∧ (aml_sd_emmc_execute_tuning env_small host_emmc_div4 ios_25mhz MMC_SEND_TUNING_BLOCK
          1).map (fun out => (out.ret, out.probes, out.host.regs.gadjust.adj_delay))
          = some (0, 22, 2) :=
  ⟨(execute_tuning_rejects_unsupported env_small host_emmc ios_hs200_1bit
      MMC_SEND_TUNING_BLOCK_HS200 1).1 (Or.inr ⟨rfl, by decide, by decide⟩),
   by
    rw [(execute_tuning_rejects_unsupported env_small host_emmc_div4 ios_25mhz
      MMC_SEND_TUNING_BLOCK 1).2.2.1 (Or.inr rfl)]
    decide⟩

/-! ### STOP entry of the descriptor builder -/

/-- An assignment that keeps a projection of the descriptor keeps it in every
entry. -/
theorem modify_proj_keep {α : Type} (P : sd_emmc_desc_info → α) (c : Chain) (i j : Nat)
    (f : sd_emmc_desc_info → sd_emmc_desc_info) (hf : ∀ d, P (f d) = P d) :
    P ((Chain.modify c i f).buf j) = P (c.buf j) := by
  show P (Function.update c.buf i (f (c.buf i)) j) = _
  by_cases h : j = i
  · subst h
    rw [Function.update_same]
    exact hf _
  · rw [Function.update_noteq h]

/-- An assignment to one entry leaves the other entries. -/
theorem modify_buf_other (c : Chain) (i j : Nat) (f : sd_emmc_desc_info → sd_emmc_desc_info)
    (h : j ≠ i) : (Chain.modify c i f).buf j = c.buf j := by
  show Function.update c.buf i (f (c.buf i)) j = _
  rw [Function.update_noteq h]

/-- The final statements of the builder change only `timeout` and
`end_of_chain`. -/
theorem chain_finish_proj {α : Type} (P : sd_emmc_desc_info → α)
    (hto : ∀ d t, P { d with timeout := t } = P d)
    (heoc : ∀ d, P { d with end_of_chain := true } = P d) (opcode : Nat) (c : Chain) (i : Nat) :
    P ((chain_finish opcode c).buf i) = P (c.buf i) := by
  have ht : P ((chain_timeouts opcode c).buf i) = P (c.buf i) := by
    unfold chain_timeouts
    split
    · split
      · dsimp only
        rw [modify_proj_keep P _ _ _ _ (by intro d; exact hto d _),
          modify_proj_keep P _ _ _ _ (by intro d; exact hto d _)]
      · dsimp only
        rw [modify_proj_keep P _ _ _ _ (by intro d; exact hto d _)]
    · split
      · dsimp only
        rw [modify_proj_keep P _ _ _ _ (by intro d; exact hto d _)]
      · rfl
  unfold chain_finish
  dsimp only
  rw [modify_proj_keep P _ _ _ _ (by intro d; exact heoc d)]
  exact ht

/-- The command entry: its index is the opcode, `no_cmd` is left as it was, and
no other entry is touched. -/
theorem chain_cmd_entry_fields (mrq : MmcRequest) (c : Chain) :
    ((chain_cmd_entry mrq c).buf c.cur).cmd_index = mrq.cmd.opcode % 64
      ∧ ((chain_cmd_entry mrq c).buf c.cur).no_cmd = (c.buf c.cur).no_cmd
      ∧ (chain_cmd_entry mrq c).cmd = c.cur
      ∧ ∀ j, j ≠ c.cur → (chain_cmd_entry mrq c).buf j = c.buf j := by
  unfold chain_cmd_entry Chain.modify
  dsimp only
  refine ⟨?_, ?_, rfl, ?_⟩
  · rw [Function.update_same]
    split <;> (try split) <;> (try split) <;> (try split) <;> rfl
  · rw [Function.update_same]
    split <;> (try split) <;> (try split) <;> (try split) <;> rfl
  · intro j hj
    rw [Function.update_noteq hj]

/-- The chain before the command entry of a request without data: the first
entry of the buffer, or the entry after the config-update entry; it is blank,
and the config-update entry neither issues CMD12 nor is marked. -/
theorem stage_conf_blank (cfg : BuildCfg) (vconf : sd_emmc_config) (conf_flag : Nat)
    (buf : Nat → sd_emmc_desc_info) :
    (stage_conf cfg vconf conf_flag
        { (Chain.memset { buf := buf, cur := 0, cmd := 0, cnt := 0 }) with cnt := 1 }).cur ≤ 1
      ∧ (stage_conf cfg vconf conf_flag
          { (Chain.memset { buf := buf, cur := 0, cmd := 0, cnt := 0 }) with cnt := 1 }).buf
          (stage_conf cfg vconf conf_flag
            { (Chain.memset { buf := buf, cur := 0, cmd := 0, cnt := 0 }) with cnt := 1 }).cur
          = desc_zero
      ∧ chain_all (desc_ok true) (stage_conf cfg vconf conf_flag
          { (Chain.memset { buf := buf, cur := 0, cmd := 0, cnt := 0 }) with cnt := 1 }) := by
  have h0 : chain_all (desc_ok true)
      { (Chain.memset { buf := buf, cur := 0, cmd := 0, cnt := 0 }) with cnt := 1 } := by
    intro j hj
    have hj0 : j = 0 := Nat.le_zero.mp hj
    subst hj0
    show desc_ok true (Function.update buf 0 desc_zero 0)
    rw [Function.update_same]
    exact desc_ok_zero true
  refine ⟨?_, ?_, stage_conf_ok true cfg vconf conf_flag _ h0⟩
  · unfold stage_conf
    split
    · exact Nat.le_refl 1
    · exact Nat.zero_le 1
  · unfold stage_conf
    split
    · simp only [chain_conf_entry, Chain.advance, Chain.memset, Chain.modify,
        Function.update_same]
    · simp only [Chain.memset, Function.update_same]

/-- The chain of a request without data before the final statements of the
builder: the command entry follows the config-update entry, if there is one,
and is the last entry. -/
theorem start_cmd_body_nodata (cfg : BuildCfg) (h : Host) (vconf : sd_emmc_config)
    (mrq : MmcRequest) (hd : mrq.data = none) :
    (start_cmd_body cfg h vconf mrq).chain.cur ≤ 1
      ∧ ((start_cmd_body cfg h vconf mrq).chain.buf
          (start_cmd_body cfg h vconf mrq).chain.cur).cmd_index = mrq.cmd.opcode % 64
      ∧ ((start_cmd_body cfg h vconf mrq).chain.buf
          (start_cmd_body cfg h vconf mrq).chain.cur).no_cmd = false
      ∧ ∀ i, i < (start_cmd_body cfg h vconf mrq).chain.cur →
          desc_ok true ((start_cmd_body cfg h vconf mrq).chain.buf i) := by
  obtain ⟨hc1, hc2, hc3⟩ := stage_conf_blank cfg (start_cmd_conf h vconf mrq).1
    (start_cmd_conf h vconf mrq).2 h.desc_buf
  have e23 : ∀ c, stage_cmd23 cfg mrq c = c := by
    intro c
    unfold stage_cmd23
    rw [hd]
  have esd : ∀ c, (stage_data cfg h mrq c).chain
      = Chain.modify c c.cmd (fun d => { d with data_io := false, timeout := 0xa }) := by
    intro c
    unfold stage_data
    rw [hd]
  have ebody : (start_cmd_body cfg h vconf mrq).chain
      = Chain.modify
          (chain_cmd_entry mrq (stage_conf cfg (start_cmd_conf h vconf mrq).1
            (start_cmd_conf h vconf mrq).2
            { (Chain.memset { buf := h.desc_buf, cur := 0, cmd := 0, cnt := 0 }) with cnt := 1 }))
          (stage_conf cfg (start_cmd_conf h vconf mrq).1 (start_cmd_conf h vconf mrq).2
            { (Chain.memset { buf := h.desc_buf, cur := 0, cmd := 0, cnt := 0 })
                with cnt := 1 }).cur
          (fun d => { d with data_io := false, timeout := 0xa }) := by
    unfold start_cmd_body
    dsimp only
    rw [esd, e23]
    rfl
  obtain ⟨hf1, hf2, _, hf4⟩ := chain_cmd_entry_fields mrq
    (stage_conf cfg (start_cmd_conf h vconf mrq).1 (start_cmd_conf h vconf mrq).2
      { (Chain.memset { buf := h.desc_buf, cur := 0, cmd := 0, cnt := 0 }) with cnt := 1 })
  rw [ebody]
  refine ⟨hc1, ?_, ?_, ?_⟩
  · exact (modify_proj_keep (fun d => d.cmd_index) _ _ _ _ (by intro d; rfl)).trans hf1
  · refine (modify_proj_keep (fun d => d.no_cmd) _ _ _ _ (by intro d; rfl)).trans ?_
    refine hf2.trans ?_
    rw [hc2]
    rfl
  · intro i hi
    have hi2 : i < (stage_conf cfg (start_cmd_conf h vconf mrq).1 (start_cmd_conf h vconf mrq).2
      { (Chain.memset { buf := h.desc_buf, cur := 0, cmd := 0, cnt := 0 })
          with cnt := 1 }).cur := hi
    rw [modify_buf_other _ _ _ _ (by omega), hf4 i (by omega)]
    exact hc3 i (by omega)

/-- The chain built for the request `aml_sd_emmc_stop`: at most two entries, the
last one is the command entry of CMD12 and carries the end-of-chain mark, and
the entry before it, if any, neither issues CMD12 nor carries the mark. -/
theorem stop_request_chain (cfg : BuildCfg) (h : Host) (vconf : sd_emmc_config) :
    (start_cmd_build cfg h vconf aml_sd_emmc_stop).chain.cur ≤ 1
      ∧ is_stop_desc ((start_cmd_build cfg h vconf aml_sd_emmc_stop).chain.buf
          (start_cmd_build cfg h vconf aml_sd_emmc_stop).chain.cur)
      ∧ ((start_cmd_build cfg h vconf aml_sd_emmc_stop).chain.buf
          (start_cmd_build cfg h vconf aml_sd_emmc_stop).chain.cur).end_of_chain = true
      ∧ ∀ i, i < (start_cmd_build cfg h vconf aml_sd_emmc_stop).chain.cur →
          ¬ is_stop_desc ((start_cmd_build cfg h vconf aml_sd_emmc_stop).chain.buf i)
            ∧ ((start_cmd_build cfg h vconf aml_sd_emmc_stop).chain.buf i).end_of_chain
                = false := by
  have hna : stop_appended cfg h.cmd_is_stop aml_sd_emmc_stop = false := by
    simp [stop_appended, aml_sd_emmc_stop]
  obtain ⟨hb1, hb2, hb3, hb4⟩ := start_cmd_body_nodata cfg h vconf aml_sd_emmc_stop rfl
  unfold start_cmd_build
  dsimp only
  rw [hna]
  simp only [Bool.false_eq_true, if_false]
  rw [chain_finish_cur]
  have hstop : ∀ i, is_stop_desc ((chain_finish aml_sd_emmc_stop.cmd.opcode
      (start_cmd_body cfg h vconf aml_sd_emmc_stop).chain).buf i)
        ↔ is_stop_desc ((start_cmd_body cfg h vconf aml_sd_emmc_stop).chain.buf i) :=
    fun i => chain_finish_stop _ _ i
  have heoc := chain_finish_eoc aml_sd_emmc_stop.cmd.opcode
    (start_cmd_body cfg h vconf aml_sd_emmc_stop).chain
  refine ⟨hb1, (hstop _).mpr ⟨hb2, hb3⟩, ?_, ?_⟩
  · rw [heoc, if_pos rfl]
  · intro i hi
    refine ⟨fun hs => (hb4 i hi).2 rfl ((hstop i).mp hs), ?_⟩
    rw [heoc, if_neg (by omega)]
    exact (hb4 i hi).1

/-- C15. STOP recursion guard of the descriptor builder. In the build where the
driver issues the stop itself (no `SD_EMMC_MANUAL_CMD23`): for every request
with opcode READ_MULTIPLE_BLOCK or WRITE_MULTIPLE_BLOCK that has data (in the
scatter-gather build at least one scatter segment) and is built while
`cmd_is_stop = 0` with command flag bit 30 clear, the chain
`aml_sd_emmc_start_cmd` builds ends in one entry after the data entries with
`cmd_index = MMC_STOP_TRANSMISSION`, `r1b = 1`, `data_io = 0`, and no earlier
entry issues CMD12. In every build, the chain `aml_sd_emmc_send_stop` builds
for the request `aml_sd_emmc_stop` gets no appended entry: up to its
end-of-chain mark it has at most two entries, and its only CMD12 entry is the
command entry, which is the marked one. -/
theorem stop_entry_guarded_against_recursion (cfg : BuildCfg) (h : Host) (mrq m : MmcRequest) :
    (cfg.SD_EMMC_MANUAL_CMD23 = false →
      (mrq.cmd.opcode = MMC_READ_MULTIPLE_BLOCK ∨ mrq.cmd.opcode = MMC_WRITE_MULTIPLE_BLOCK) →
      mrq.data.isSome = true → sg_ok cfg mrq → h.cmd_is_stop = false →
      hasFlag mrq.cmd.flags (1 <<< 30) = false →
        start_cmd_last cfg h mrq
            = (start_cmd_body cfg (start_cmd_host h) h.regs.gcfg mrq).chain.cur + 1
          ∧ ((aml_sd_emmc_start_cmd cfg h mrq).desc_buf (start_cmd_last cfg h mrq)).cmd_index
              = MMC_STOP_TRANSMISSION
          ∧ ((aml_sd_emmc_start_cmd cfg h mrq).desc_buf (start_cmd_last cfg h mrq)).no_cmd = false
          ∧ ((aml_sd_emmc_start_cmd cfg h mrq).desc_buf (start_cmd_last cfg h mrq)).r1b = true
          ∧ ((aml_sd_emmc_start_cmd cfg h mrq).desc_buf (start_cmd_last cfg h mrq)).data_io = false
          ∧ ∀ i, i < start_cmd_last cfg h mrq →
              ¬ is_stop_desc ((aml_sd_emmc_start_cmd cfg h mrq).desc_buf i))
    ∧ (h.mrq = some m →
        stop_appended cfg (aml_sd_emmc_send_stop cfg h).cmd_is_stop aml_sd_emmc_stop = false
          ∧ ∃ last, last ≤ 1
              ∧ is_stop_desc ((aml_sd_emmc_send_stop cfg h).desc_buf last)
              ∧ ((aml_sd_emmc_send_stop cfg h).desc_buf last).end_of_chain = true
              ∧ ∀ i, i < last →
                  ¬ is_stop_desc ((aml_sd_emmc_send_stop cfg h).desc_buf i)
                    ∧ ((aml_sd_emmc_send_stop cfg h).desc_buf i).end_of_chain = false) := by
  constructor
  · intro hcfg hopc hdata hsg hns hfl
    have hop : mrq.cmd.opcode % 64 ≠ MMC_STOP_TRANSMISSION := by
      rcases hopc with e | e <;> rw [e] <;> decide
    have hst : stop_appended cfg (start_cmd_host h).cmd_is_stop mrq = true := by
      rw [start_cmd_host_cmd_is_stop]
      unfold stop_appended
      rw [hcfg, hdata, hns, hfl]
      rcases hopc with e | e <;> rw [e] <;> decide
    have hbody := start_cmd_body_ok true cfg (start_cmd_host h) h.regs.gcfg mrq hsg (fun _ => hop)
    obtain ⟨s1, s2, s3, s4, s5, _⟩ :=
      chain_stop_entry_last (start_cmd_body cfg (start_cmd_host h) h.regs.gcfg mrq).chain
    have hlast : start_cmd_last cfg h mrq
        = (start_cmd_body cfg (start_cmd_host h) h.regs.gcfg mrq).chain.cur + 1 := by
      rw [start_cmd_last_eq]
      unfold start_cmd_build
      dsimp only
      rw [chain_finish_cur, hst, if_pos rfl, s1]
    have hbuf : (aml_sd_emmc_start_cmd cfg h mrq).desc_buf
        = (chain_finish mrq.cmd.opcode
            (chain_stop_entry
              (start_cmd_body cfg (start_cmd_host h) h.regs.gcfg mrq).chain)).buf := by
      rw [start_cmd_desc_buf]
      unfold start_cmd_build
      dsimp only
      rw [hst, if_pos rfl]
    rw [hlast, hbuf]
    refine ⟨rfl, ?_, ?_, ?_, ?_, ?_⟩
    · exact (chain_finish_proj (fun d => d.cmd_index) (by intro d t; rfl) (by intro d; rfl)
        _ _ _).trans s2
    · exact (chain_finish_proj (fun d => d.no_cmd) (by intro d t; rfl) (by intro d; rfl)
        _ _ _).trans s3
    · exact (chain_finish_proj (fun d => d.r1b) (by intro d t; rfl) (by intro d; rfl)
        _ _ _).trans s4
    · exact (chain_finish_proj (fun d => d.data_io) (by intro d t; rfl) (by intro d; rfl)
        _ _ _).trans s5
    · intro i hi hs
      rw [chain_finish_stop, chain_stop_entry_buf _ _ (by omega)] at hs
      exact (hbody i (by omega)).2 rfl hs
  · intro hm
    have hbuf : (aml_sd_emmc_send_stop cfg h).desc_buf
        = (start_cmd_build cfg
            (start_cmd_host
              { h with sd_emmc_err_bak := to_u32 m.cmd.error,
                       mrq := some { m with cmd := { m.cmd with error := 0 } },
                       cmd_is_stop := true })
            h.regs.gcfg aml_sd_emmc_stop).chain.buf := by
      unfold aml_sd_emmc_send_stop
      simp only [hm]
      rw [start_cmd_desc_buf]
    refine ⟨by simp [stop_appended, aml_sd_emmc_stop], ?_⟩
    rw [hbuf]
    exact ⟨_, stop_request_chain cfg _ h.regs.gcfg⟩

/-- C15, evaluated: the chain of the 8-block read has its only CMD12 entry at
index 2, after the two data entries; the chain of the synthesized STOP sent
after that read has failed is the single entry of CMD12. -/
theorem stop_entry_guarded_against_recursion_witness :
    (start_cmd_last cfg_sgmap host_emmc req_read8 = 2
      ∧ ((aml_sd_emmc_start_cmd cfg_sgmap host_emmc req_read8).desc_buf 2).cmd_index
          = MMC_STOP_TRANSMISSION
      ∧ ¬ is_stop_desc ((aml_sd_emmc_start_cmd cfg_sgmap host_emmc req_read8).desc_buf 1))
    ∧ stop_appended cfg_sgmap
        (aml_sd_emmc_send_stop cfg_sgmap
          (run cfg_sgmap host_emmc_read8 [Event.irq irq_rxd_err])).cmd_is_stop
        aml_sd_emmc_stop = false :=
  ⟨⟨by decide,
    ((stop_entry_guarded_against_recursion cfg_sgmap host_emmc req_read8 req_read8).1 rfl
      (Or.inl rfl) rfl sg_ok_read8 rfl (by decide)).2.1,
    ((stop_entry_guarded_against_recursion cfg_sgmap host_emmc req_read8 req_read8).1 rfl
      (Or.inl rfl) rfl sg_ok_read8 rfl (by decide)).2.2.2.2.2 1 (by decide)⟩,
   ((stop_entry_guarded_against_recursion cfg_sgmap
      (run cfg_sgmap host_emmc_read8 [Event.irq irq_rxd_err]) req_read8
      { req_read8 with cmd := { req_read8.cmd with error := -EILSEQ } }).2 (by decide)).1⟩

/-! ### Single live request -/

/-- C16, at the failing input. An idle SDIO port (`xfer_step = XFER_INIT`,
`host->mrq = NULL`, the invariant holds) takes an interrupt with the SDIO
interrupt enabled and only the descriptor-error status bit set: the handler
passes its test `!mrq && !irqc->irq_sdio`, sorts the status as unknown and
leaves `xfer_step = XFER_IRQ_UNKNOWN_IRQ` with `host->mrq` still NULL. The same
happens when that interrupt arrives late, after the watchdog has completed the
request `req_cmd13`. -/
theorem irq_without_request_leaves_unknown_irq_state :
    host_sdio.mrq = none ∧ host_sdio.xfer_step = XferStep.XFER_INIT
      ∧ single_live_request host_sdio
      ∧ (host_op cfg_sgmap host_sdio (HostOp.irq irq_sdio_desc_err)).mrq = none
      ∧ (host_op cfg_sgmap host_sdio (HostOp.irq irq_sdio_desc_err)).xfer_step
          = XferStep.XFER_IRQ_UNKNOWN_IRQ
      ∧ (host_op cfg_sgmap host_sdio (HostOp.irq irq_sdio_desc_err)).oops = false
      ∧ ¬ single_live_request (host_op cfg_sgmap host_sdio (HostOp.irq irq_sdio_desc_err))
      ∧ ¬ single_live_request
          (host_op cfg_sgmap
            (host_op cfg_sgmap
              (host_op cfg_sgmap host_sdio (HostOp.request req_cmd13 false)) HostOp.timeout)
            (HostOp.irq irq_sdio_desc_err)) := by
  refine ⟨rfl, rfl, by decide, by decide, by decide, by decide, by decide, by decide⟩

/-- A host that holds a request in a state other than `XFER_INIT` and
`XFER_FINISHED` satisfies the invariant. -/
theorem single_live_of_some (h : Host) (m : MmcRequest) (hm : h.mrq = some m)
    (hx : h.xfer_step ≠ XferStep.XFER_INIT ∧ h.xfer_step ≠ XferStep.XFER_FINISHED) :
    single_live_request h := by
  unfold single_live_request
  rw [hm]
  exact ⟨fun _ => hx, fun _ => rfl⟩

/-- The function `aml_sd_emmc_request_done` leaves `XFER_FINISHED`, no request and
`HOST_INVALID`. -/
theorem request_done_state (h : Host) (m : MmcRequest) :
    (aml_sd_emmc_request_done h m).xfer_step = XferStep.XFER_FINISHED
      ∧ (aml_sd_emmc_request_done h m).mrq = none
      ∧ (aml_sd_emmc_request_done h m).status = HostStatus.HOST_INVALID
      ∧ single_live_request (aml_sd_emmc_request_done h m) := by
  refine ⟨rfl, rfl, rfl, ?_⟩
  unfold single_live_request
  constructor
  · intro hh
    exact Bool.noConfusion hh
  · intro hh
    exact absurd rfl hh.2

/-- The synthesized STOP keeps the invariant of a host that holds a request. -/
theorem send_stop_single_live (cfg : BuildCfg) (h : Host) (m : MmcRequest) (hm : h.mrq = some m)
    (hx : h.xfer_step ≠ XferStep.XFER_INIT ∧ h.xfer_step ≠ XferStep.XFER_FINISHED) :
    single_live_request (aml_sd_emmc_send_stop cfg h) := by
  obtain ⟨r, w, g, b, n, d, e⟩ := send_stop_frame cfg h m hm
  rw [e]
  exact single_live_of_some _ _ rfl hx

/-- The invariant depends on `host->mrq` and `host->xfer_step` only. -/
theorem single_live_frame (h h2 : Host) (e1 : h2.mrq = h.mrq) (e2 : h2.xfer_step = h.xfer_step)
    (hinv : single_live_request h) : single_live_request h2 := by
  unfold single_live_request at hinv ⊢
  rw [e1, e2]
  exact hinv

/-- Every entry point keeps the invariant `single_live_request`, except an
interrupt that reaches the status tests while the host holds no request. -/
theorem single_live_request_kept (cfg : BuildCfg) (h : Host) (op : HostOp)
    (hinv : single_live_request h)
    (hirq : ∀ i, op = HostOp.irq i → irq_reaches_null_request h i = false) :
    single_live_request (host_op cfg h op) := by
  cases op with
  | request mrq unsupported =>
    show single_live_request (aml_sd_emmc_request cfg h mrq unsupported)
    unfold aml_sd_emmc_request
    split
    · exact hinv
    · split
      · exact hinv
      · dsimp only
        obtain ⟨r, w, g, b, n, d, e⟩ := start_cmd_frame cfg
          { (if mrq.cmd.opcode = 0 then { h with init_flag := true } else h) with
              mrq := some mrq, xfer_step := XferStep.XFER_START,
              opcode := mrq.cmd.opcode, arg := mrq.cmd.arg } mrq
        rw [e]
        exact single_live_of_some _ mrq rfl
          ⟨fun hh => absurd (show XferStep.XFER_AFTER_START = XferStep.XFER_INIT from hh)
              (by decide),
           fun hh => absurd (show XferStep.XFER_AFTER_START = XferStep.XFER_FINISHED from hh)
              (by decide)⟩
  | irq i =>
    show single_live_request (aml_sd_emmc_irq h i).1
    have hi := hirq i rfl
    by_cases he : irq_early_return i = true
    · unfold aml_sd_emmc_irq
      simp only [he, if_true]
      exact hinv
    · have he2 : irq_early_return i = false := by simpa using he
      rcases Option.eq_none_or_eq_some h.mrq with hm | ⟨m, hm⟩
      · unfold irq_reaches_null_request at hi
        rw [hm, he2] at hi
        have hs : ista_irq_sdio (i.girq_en &&& 0xffff) = false := by simpa using hi
        have e : (aml_sd_emmc_irq h i).1 = h := by
          unfold aml_sd_emmc_irq
          simp only [he2, Bool.false_eq_true, if_false, hm, Option.isNone_none, hs,
            Bool.not_false, Bool.and_self, if_true]
        rw [e]
        exact hinv
      · obtain ⟨e, st, x, r, w, e2, hx⟩ := irq_frame_live h m i hm he2
        rw [e2]
        apply single_live_of_some _ _ rfl
        show x ≠ XferStep.XFER_INIT ∧ x ≠ XferStep.XFER_FINISHED
        rcases hx with hx | hx
        · rw [hx]
          split <;> exact ⟨by decide, by decide⟩
        · rw [hx]
          exact ⟨by decide, by decide⟩
  | thread =>
    show single_live_request (aml_sd_emmc_data_thread cfg h)
    unfold aml_sd_emmc_data_thread
    split
    · exact hinv
    · rcases Option.eq_none_or_eq_some h.mrq with hm | ⟨m, hm⟩
      · simp only [hm]
        exact single_live_frame h _ hm.symm rfl hinv
      · have hx : h.xfer_step ≠ XferStep.XFER_INIT ∧ h.xfer_step ≠ XferStep.XFER_FINISHED :=
          hinv.mp (by rw [hm]; rfl)
        simp only [hm]
        split
        · exact (request_done_state _ _).2.2.2
        · split <;> (try split) <;> (try split) <;>
            first
            | exact (request_done_state _ _).2.2.2
            | exact send_stop_single_live cfg h m hm hx
            | exact hinv
  | timeout =>
    show single_live_request (aml_sd_emmc_timeout cfg h)
    unfold aml_sd_emmc_timeout
    rcases Option.eq_none_or_eq_some h.mrq with hm | ⟨m, hm⟩
    · simp only [hm]
      exact single_live_frame h _ hm.symm rfl hinv
    · have hth : ∀ h2 : Host, single_live_request (timeout_handle cfg h2 m) := by
        intro h2
        unfold timeout_handle
        dsimp only
        split
        · exact send_stop_single_live cfg _ _ rfl
            ⟨fun hh => absurd (show XferStep.XFER_TIMER_TIMEOUT = XferStep.XFER_INIT from hh)
                (by decide),
             fun hh => absurd (show XferStep.XFER_TIMER_TIMEOUT = XferStep.XFER_FINISHED from hh)
                (by decide)⟩
        · exact (request_done_state _ _).2.2.2
      simp only [hm]
      split
      · exact hinv
      · split
        · split
          · exact hth _
          · exact single_live_frame h _ hm.symm rfl hinv
        · exact hth _
  | request_done mrq => exact (request_done_state h mrq).2.2.2

/-! ### Gating around clock changes -/

/-- C17, counterexample. On the idle eMMC port the clock is not gated. With
`pdata->clkc` different from the clock register, `aml_sd_emmc_set_clkc` writes
the clock register directly: one write, a new divisor and source, `stop_clk`
and `is_gated` untouched. In DDR52 timing `aml_sd_emmc_set_timing` halves the
divisor from 60 to 30 with a direct write of the clock register as well. -/
theorem clock_written_while_ungated :
    host_emmc.is_gated = false ∧ host_emmc.regs.gcfg.stop_clk = false
      ∧ (aml_sd_emmc_set_clkc host_emmc_clkc4).writes
          = [RegWrite.gclock { div := 4, src := 1, other := 0 }]
      ∧ (aml_sd_emmc_set_clkc host_emmc_clkc4).is_gated = false
      ∧ clk_writes_gated host_emmc_clkc4.regs.gclock host_emmc_clkc4.regs.gcfg
          (aml_sd_emmc_set_clkc host_emmc_clkc4).writes = false
      ∧ (aml_sd_emmc_set_timing host_emmc MMC_TIMING_MMC_DDR52).writes
          = [RegWrite.gclock { div := 30, src := 0, other := 0 },
             RegWrite.gcfg { host_emmc.regs.gcfg with ddr := true }]
      ∧ (aml_sd_emmc_set_timing host_emmc MMC_TIMING_MMC_DDR52).is_gated = false
      ∧ clk_writes_gated host_emmc.regs.gclock host_emmc.regs.gcfg
          (aml_sd_emmc_set_timing host_emmc MMC_TIMING_MMC_DDR52).writes = false := by
  refine ⟨rfl, rfl, by decide, by decide, by decide, by decide, by decide, by decide⟩

/-- The clock switch either returns at once or gates the clock off (unless it
is gated already), writes the clock register and gates the clock on. -/
theorem clk_switch_trace (h : Host) (clk_div clk_src_sel : Nat) :
    aml_sd_emmc_clk_switch h clk_div clk_src_sel = h
      ∨ ((aml_sd_emmc_clk_switch h clk_div clk_src_sel).writes
          = h.writes
            ++ ((if h.is_gated then [] else [RegWrite.gcfg { h.regs.gcfg with stop_clk := true }])
              ++ [RegWrite.gclock { h.regs.gclock with div := clk_div % 64,
                                                        src := clk_src_sel % 4 },
                  RegWrite.gcfg { h.regs.gcfg with stop_clk := false }])
        ∧ (aml_sd_emmc_clk_switch h clk_div clk_src_sel).is_gated = false
        ∧ (aml_sd_emmc_clk_switch h clk_div clk_src_sel).regs.gcfg.stop_clk = false) := by
  unfold aml_sd_emmc_clk_switch
  split
  · exact Or.inl rfl
  · right
    cases hg : h.is_gated <;>
      simp [aml_sd_emmc_clk_switch_on, aml_sd_emmc_clk_switch_off, write_gcfg, write_gclock, hg]

/-- The writes of the clock switch satisfy the bracket, when the gating flag of
a gated host agrees with `stop_clk`. -/
theorem clk_switch_bracket (h : Host) (clk_div clk_src_sel : Nat)
    (hcons : h.is_gated = true → h.regs.gcfg.stop_clk = true) :
    ∃ ws, (aml_sd_emmc_clk_switch h clk_div clk_src_sel).writes = h.writes ++ ws
      ∧ clk_writes_gated h.regs.gclock h.regs.gcfg ws = true
      ∧ (ws ≠ [] → (aml_sd_emmc_clk_switch h clk_div clk_src_sel).is_gated = false
          ∧ (aml_sd_emmc_clk_switch h clk_div clk_src_sel).regs.gcfg.stop_clk = false
          ∧ ws.getLast? = some (RegWrite.gcfg { h.regs.gcfg with stop_clk := false })) := by
  rcases clk_switch_trace h clk_div clk_src_sel with e | ⟨e1, e2, e3⟩
  · refine ⟨[], ?_, rfl, fun hne => absurd rfl hne⟩
    rw [e, List.append_nil]
  · refine ⟨_, e1, ?_, fun _ => ⟨e2, e3, ?_⟩⟩
    · cases hg : h.is_gated
      · simp [clk_writes_gated]
      · simp [clk_writes_gated, hcons hg]
    · cases hg : h.is_gated <;> simp

/-- C17, amended. Gating around clock changes, on a host whose gating flag,
when set, agrees with `stop_clk`. `aml_sd_emmc_clk_switch` brackets its write
of the clock register: the write finds `stop_clk = 1`, and the call ends with a
write of the configuration register with `stop_clk = 0` and `is_gated = false`.
`aml_sd_emmc_set_clkc` does the same when it is entered with the clock gated;
entered with the clock ungated it writes nothing if `pdata->clkc` equals the
clock register and otherwise writes the clock register directly, leaving the
gate alone. `aml_sd_emmc_set_timing` writes the clock register directly in the
three DDR timings, leaving the gate alone, and does not write it in the other
timings. -/
theorem clock_change_bracketed_by_switch (h : Host) (clk_div clk_src_sel timing : Nat)
    (hcons : h.is_gated = true → h.regs.gcfg.stop_clk = true) :
    (∃ ws, (aml_sd_emmc_clk_switch h clk_div clk_src_sel).writes = h.writes ++ ws
      ∧ clk_writes_gated h.regs.gclock h.regs.gcfg ws = true
      ∧ (ws ≠ [] → (aml_sd_emmc_clk_switch h clk_div clk_src_sel).is_gated = false
          ∧ (aml_sd_emmc_clk_switch h clk_div clk_src_sel).regs.gcfg.stop_clk = false
          ∧ ws.getLast? = some (RegWrite.gcfg { h.regs.gcfg with stop_clk := false })))
    ∧ (h.is_gated = true →
        ∃ ws, (aml_sd_emmc_set_clkc h).writes = h.writes ++ ws
          ∧ clk_writes_gated h.regs.gclock h.regs.gcfg ws = true
          ∧ (ws ≠ [] → (aml_sd_emmc_set_clkc h).is_gated = false
              ∧ (aml_sd_emmc_set_clkc h).regs.gcfg.stop_clk = false
              ∧ ws.getLast? = some (RegWrite.gcfg { h.regs.gcfg with stop_clk := false })))
    ∧ (h.is_gated = false → h.clkc = h.regs.gclock → aml_sd_emmc_set_clkc h = h)
    ∧ (h.is_gated = false → h.clkc ≠ h.regs.gclock →
        (aml_sd_emmc_set_clkc h).writes = h.writes ++ [RegWrite.gclock h.clkc]
          ∧ (aml_sd_emmc_set_clkc h).is_gated = false
          ∧ (aml_sd_emmc_set_clkc h).regs.gcfg = h.regs.gcfg)
    ∧ (timing = MMC_TIMING_MMC_HS400 ∨ timing = MMC_TIMING_MMC_DDR52
          ∨ timing = MMC_TIMING_UHS_DDR50 →
        (∃ v c, (aml_sd_emmc_set_timing h timing).writes
              = h.writes ++ [RegWrite.gclock v, RegWrite.gcfg c]
            ∧ c.stop_clk = h.regs.gcfg.stop_clk)
          ∧ (aml_sd_emmc_set_timing h timing).is_gated = h.is_gated)
    ∧ (¬ (timing = MMC_TIMING_MMC_HS400 ∨ timing = MMC_TIMING_MMC_DDR52
          ∨ timing = MMC_TIMING_UHS_DDR50) →
        (aml_sd_emmc_set_timing h timing).writes
            = h.writes ++ [RegWrite.gcfg { h.regs.gcfg with ddr := false }]
          ∧ (aml_sd_emmc_set_timing h timing).is_gated = h.is_gated) := by
  refine ⟨clk_switch_bracket h clk_div clk_src_sel hcons, ?_, ?_, ?_, ?_, ?_⟩
  · intro hg
    have e : aml_sd_emmc_set_clkc h = aml_sd_emmc_clk_switch h h.clkc.div h.clkc.src := by
      unfold aml_sd_emmc_set_clkc
      simp [hg]
    rw [e]
    exact clk_switch_bracket h _ _ hcons
  · intro hg he
    unfold aml_sd_emmc_set_clkc
    simp [hg, he]
  · intro hg hne
    have e : aml_sd_emmc_set_clkc h = write_gclock h h.clkc := by
      unfold aml_sd_emmc_set_clkc
      simp [hg, hne]
    rw [e]
    exact ⟨rfl, hg, rfl⟩
  · intro ht
    unfold aml_sd_emmc_set_timing
    dsimp only
    rw [if_pos ht]
    refine ⟨⟨{ h.regs.gclock with
                div := ((if h.regs.gclock.div % 256 % 2 = 1 then (h.regs.gclock.div % 256 + 1) % 256
                         else h.regs.gclock.div % 256) / 2) % 64 },
             { (if timing = MMC_TIMING_MMC_HS400 then { h.regs.gcfg with chk_ds := true }
                else h.regs.gcfg) with ddr := true }, ?_, ?_⟩, rfl⟩
    · show (h.writes ++ [_]) ++ [_] = h.writes ++ [_, _]
      rw [List.append_assoc]
      rfl
    · show (if timing = MMC_TIMING_MMC_HS400 then { h.regs.gcfg with chk_ds := true }
          else h.regs.gcfg).stop_clk = h.regs.gcfg.stop_clk
      split <;> rfl
  · intro ht
    unfold aml_sd_emmc_set_timing
    dsimp only
    rw [if_neg ht]
    exact ⟨rfl, rfl⟩

/-- C17, amended, evaluated on the idle eMMC port: a change of divisor and
source through `aml_sd_emmc_clk_switch` is three writes (gate off, clock, gate
on), and `aml_sd_emmc_set_clkc` with the clock ungated is one direct write. -/
theorem clock_change_bracketed_by_switch_witness :
    (∃ ws, (aml_sd_emmc_clk_switch host_emmc 40 1).writes = host_emmc.writes ++ ws
      ∧ clk_writes_gated host_emmc.regs.gclock host_emmc.regs.gcfg ws = true
      ∧ (ws ≠ [] → (aml_sd_emmc_clk_switch host_emmc 40 1).is_gated = false
          ∧ (aml_sd_emmc_clk_switch host_emmc 40 1).regs.gcfg.stop_clk = false
          ∧ ws.getLast? = some (RegWrite.gcfg { host_emmc.regs.gcfg with stop_clk := false })))
      ∧ (aml_sd_emmc_clk_switch host_emmc 40 1).writes.length = 3
      ∧ (aml_sd_emmc_set_clkc host_emmc_clkc4).writes
          = host_emmc_clkc4.writes ++ [RegWrite.gclock host_emmc_clkc4.clkc] :=
  ⟨(clock_change_bracketed_by_switch host_emmc 40 1 0 (fun hg => Bool.noConfusion hg)).1,
   by decide,
   ((clock_change_bracketed_by_switch host_emmc_clkc4 40 1 0
      (fun hg => Bool.noConfusion hg)).2.2.2.1 rfl (by decide)).1⟩

/-! ### Malformed scatter segments -/

/-- The function `aml_sd_emmc_start_cmd` always ends with the write of the start register
that hands the chain to the hardware, and raises no fault. -/
theorem start_cmd_hands_over (cfg : BuildCfg) (h : Host) (mrq : MmcRequest) :
    (aml_sd_emmc_start_cmd cfg h mrq).writes.getLast?
        = some (RegWrite.gstart { init := false, busy := true,
                                  addr := (h.desc_dma_addr / 4) % 1073741824 })
      ∧ (aml_sd_emmc_start_cmd cfg h mrq).regs.gstart
          = { init := false, busy := true, addr := (h.desc_dma_addr / 4) % 1073741824 }
      ∧ (aml_sd_emmc_start_cmd cfg h mrq).oops = h.oops := by
  have e0 : aml_sd_emmc_start_cmd cfg h mrq =
      (let b := start_cmd_build cfg (start_cmd_host h) h.regs.gcfg mrq
       let h3 := { start_cmd_host h with desc_buf := b.chain.buf, sg_cnt := b.sg_cnt,
                                         dma_sts := b.dma_sts }
       let h4 := if b.conf_flag != 0 && !cfg.SD_EMMC_DESC_SET_REG then write_gcfg h3 b.vconf
                 else h3
       let h5 := write_gstatus h4 SD_EMMC_IRQ_ALL
       write_gstart h5 { init := false, busy := true,
                         addr := (h5.desc_dma_addr / 4) % 1073741824 }) := rfl
  rw [e0]
  obtain ⟨r, w, g, e⟩ := start_cmd_host_frame h
  rw [e]
  dsimp only
  split <;> simp [write_gstart, write_gstatus, write_gcfg]

/-- The loop of `log2i` on a positive value below `2 ^ fuel`: it adds to `ret`
one more than the exponent `k` of the highest power of two not above the
value. -/
theorem log2i_loop_spec (fuel : Nat) :
    ∀ val ret, 1 ≤ val → val < 2 ^ fuel →
      ∃ k, log2i_loop fuel val ret = (ret + 1 + k) % 4294967296
        ∧ 2 ^ k ≤ val ∧ val < 2 ^ (k + 1) ∧ k < fuel := by
  induction fuel with
  | zero =>
    intro val ret h1 h2
    simp at h2
    omega
  | succ fuel ih =>
    intro val ret h1 h2
    have hne : ¬ val = 0 := by omega
    have hstep : log2i_loop (fuel + 1) val ret
        = log2i_loop fuel (val / 2) ((ret + 1) % 4294967296) := by
      rw [log2i_loop, if_neg hne]
    rw [hstep]
    by_cases hv : val = 1
    · subst hv
      refine ⟨0, ?_, by simp, by simp, Nat.succ_pos _⟩
      cases fuel with
      | zero => simp [log2i_loop]
      | succ f => simp [log2i_loop]
    · have h3 : 1 ≤ val / 2 := by omega
      have h4 : val / 2 < 2 ^ fuel := by
        rw [Nat.pow_succ] at h2
        omega
      obtain ⟨k, e, hk1, hk2, hk3⟩ := ih (val / 2) ((ret + 1) % 4294967296) h3 h4
      refine ⟨k + 1, ?_, ?_, ?_, Nat.succ_lt_succ hk3⟩
      · rw [e]
        omega
      · rw [Nat.pow_succ]
        omega
      · rw [Nat.pow_succ] at hk2 ⊢
        omega

/-- The function `log2i` on a positive 32-bit value is the floor of the binary
logarithm. -/
theorem log2i_floor (val : Nat) (h1 : 1 ≤ val) (h2 : val < 4294967296) :
    2 ^ log2i val ≤ val ∧ val < 2 ^ (log2i val + 1) ∧ log2i val < 32 := by
  obtain ⟨k, e, hk1, hk2, hk3⟩ := log2i_loop_spec 32 val 4294967295 h1 (by
    have : (2 : Nat) ^ 32 = 4294967296 := by norm_num
    omega)
  have e2 : log2i val = k := by
    unfold log2i
    rw [Nat.mod_eq_of_lt h2, e]
    omega
  rw [e2]
  exact ⟨hk1, hk2, hk3⟩

/-- The function `log2i` on a power of two below 2^32 is the exponent. -/
theorem log2i_pow (k : Nat) (hk : k < 32) : log2i (2 ^ k) = k := by
  have hlt : 2 ^ k < 4294967296 := by
    have : (2 : Nat) ^ 32 = 4294967296 := by norm_num
    rw [← this]
    exact Nat.pow_lt_pow_right (by decide) hk
  obtain ⟨h1, h2, _⟩ := log2i_floor (2 ^ k) (Nat.one_le_two_pow) hlt
  have a : log2i (2 ^ k) ≤ k := (Nat.pow_le_pow_iff_right (by decide)).mp h1
  have b : k < log2i (2 ^ k) + 1 := (Nat.pow_lt_pow_iff_right (by decide)).mp h2
  omega

/-- One round of the scatter loop: the cursor moves by one, the earlier entries
are left, and the entry of the segment gets the block-mode flag and the
per-descriptor length, cut to the 9 bits of the field. -/
theorem pre_dma_sg_entry (data_rw block_mode : Bool) (bl_len bn_dma_buf : Nat)
    (st : Chain × Nat) (sg : Scatter) :
    (pre_dma_sg data_rw block_mode bl_len bn_dma_buf st sg).1.cur = st.1.cur + 1
      ∧ (∀ i, i < st.1.cur →
          (pre_dma_sg data_rw block_mode bl_len bn_dma_buf st sg).1.buf i = st.1.buf i)
      ∧ ((pre_dma_sg data_rw block_mode bl_len bn_dma_buf st sg).1.buf st.1.cur).block_mode
          = block_mode
      ∧ ((pre_dma_sg data_rw block_mode bl_len bn_dma_buf st sg).1.buf st.1.cur).length
          = (if block_mode then sg.length >>> bl_len else sg.length) % 512 := by
  unfold pre_dma_sg Chain.advance Chain.memset Chain.modify
  dsimp only
  refine ⟨rfl, ?_, ?_, ?_⟩
  · intro i hi
    rw [Function.update_noteq (by omega), Function.update_noteq (by omega),
      Function.update_noteq (by omega)]
  · rw [Function.update_noteq (by omega)]
    simp only [Function.update_same]
  · rw [Function.update_noteq (by omega)]
    simp only [Function.update_same]

/-- The scatter loop: the entry of the segment with index `j` is the one `j`
places after the cursor at entry. -/
theorem pre_dma_fold_entries (data_rw block_mode : Bool) (bl_len bn_dma_buf : Nat)
    (sgs : List Scatter) :
    ∀ st : Chain × Nat,
      (∀ i, i < st.1.cur →
        (sgs.foldl (pre_dma_sg data_rw block_mode bl_len bn_dma_buf) st).1.buf i = st.1.buf i)
      ∧ ∀ j (hj : j < sgs.length),
        ((sgs.foldl (pre_dma_sg data_rw block_mode bl_len bn_dma_buf) st).1.buf
            (st.1.cur + j)).block_mode = block_mode
          ∧ ((sgs.foldl (pre_dma_sg data_rw block_mode bl_len bn_dma_buf) st).1.buf
              (st.1.cur + j)).length
              = (if block_mode then sgs[j].length >>> bl_len else sgs[j].length) % 512 := by
  induction sgs with
  | nil =>
    intro st
    exact ⟨fun _ _ => rfl, fun j hj => absurd hj (Nat.not_lt_zero j)⟩
  | cons sg rest ih =>
    intro st
    obtain ⟨s1, s2, s3, s4⟩ := pre_dma_sg_entry data_rw block_mode bl_len bn_dma_buf st sg
    obtain ⟨r1, r2⟩ := ih (pre_dma_sg data_rw block_mode bl_len bn_dma_buf st sg)
    rw [List.foldl_cons]
    constructor
    · intro i hi
      rw [r1 i (by omega), s2 i hi]
    · intro j hj
      cases j with
      | zero =>
        rw [Nat.add_zero, r1 _ (by omega)]
        exact ⟨s3, s4⟩
      | succ j =>
        have hj2 : j < rest.length := Nat.lt_of_succ_lt_succ hj
        have e : st.1.cur + (j + 1)
            = (pre_dma_sg data_rw block_mode bl_len bn_dma_buf st sg).1.cur + j := by omega
        rw [e]
        exact r2 j hj2

/-- The entries `aml_sd_emmc_pre_dma` writes for a non-empty scatter list, in
terms of its locals `block_mode` and `data_len`. -/
theorem pre_dma_entries (bn_dma_buf old_dma_sts : Nat) (data : MmcData) (c : Chain)
    (j : Nat) (hj : j < data.sg.length) :
    ((aml_sd_emmc_pre_dma bn_dma_buf old_dma_sts data c).chain.buf (c.cur + j)).block_mode
        = pre_dma_block_mode data
      ∧ ((aml_sd_emmc_pre_dma bn_dma_buf old_dma_sts data c).chain.buf (c.cur + j)).length
          = pre_dma_data_len data data.sg[j] % 512 := by
  have hz : ¬ (data.sg.length = 0) := by omega
  unfold aml_sd_emmc_pre_dma
  simp only [if_neg hz]
  exact (pre_dma_fold_entries _ _ _ _ data.sg (_, _)).2 j hj

/-- C19. Data parameters of `aml_sd_emmc_pre_dma`, for a block size from 1 to
2^32 - 1: the block-mode flag of each data entry is 1 exactly when
`blocks > 1` or `blksz >= 512`; in block mode the block-length exponent is
`log2i(blksz)`, the floor of the binary logarithm of `blksz`
(`2^bl_len <= blksz < 2^(bl_len+1)`, and `bl_len = k` when `blksz = 2^k`), and
the per-descriptor length is the segment length divided by `2^bl_len`; without
block mode `bl_len` is 0 and the per-descriptor length is the segment length in
bytes. The entry of each segment holds that length in its 9-bit field `length`:
the length itself when it is at most 0x1ff, the bound the builder checks. -/
theorem pre_dma_data_parameters (bn_dma_buf old_dma_sts : Nat) (data : MmcData) (c : Chain)
    (hb1 : 1 ≤ data.blksz) (hb2 : data.blksz < 4294967296) :
    pre_dma_bl_len data
        = (if data.blocks > 1 ∨ data.blksz ≥ 512 then log2i data.blksz else 0)
      ∧ (2 ^ log2i data.blksz ≤ data.blksz ∧ data.blksz < 2 ^ (log2i data.blksz + 1))
      ∧ (∀ k, data.blksz = 2 ^ k → log2i data.blksz = k)
      ∧ ∀ j (hj : j < data.sg.length),
          (((aml_sd_emmc_pre_dma bn_dma_buf old_dma_sts data c).chain.buf
              (c.cur + j)).block_mode = true ↔ (data.blocks > 1 ∨ data.blksz ≥ 512))
            ∧ pre_dma_data_len data data.sg[j]
                = (if data.blocks > 1 ∨ data.blksz ≥ 512 then
                    data.sg[j].length / 2 ^ log2i data.blksz
                  else data.sg[j].length)
            ∧ ((aml_sd_emmc_pre_dma bn_dma_buf old_dma_sts data c).chain.buf
                (c.cur + j)).length = pre_dma_data_len data data.sg[j] % 512
            ∧ (pre_dma_data_len data data.sg[j] ≤ 0x1ff →
                ((aml_sd_emmc_pre_dma bn_dma_buf old_dma_sts data c).chain.buf
                  (c.cur + j)).length = pre_dma_data_len data data.sg[j]) := by
  obtain ⟨hf1, hf2, hf3⟩ := log2i_floor data.blksz hb1 hb2
  have hbm : pre_dma_block_mode data = true ↔ (data.blocks > 1 ∨ data.blksz ≥ 512) := by
    unfold pre_dma_block_mode
    simp
  have hbl : pre_dma_bl_len data
      = (if data.blocks > 1 ∨ data.blksz ≥ 512 then log2i data.blksz else 0) := by
    unfold pre_dma_bl_len
    by_cases hc : data.blocks > 1 ∨ data.blksz ≥ 512
    · rw [if_pos (hbm.mpr hc), if_pos hc]
      exact Nat.mod_eq_of_lt (by omega)
    · rw [if_neg (fun hh => hc (hbm.mp hh)), if_neg hc]
  refine ⟨hbl, ⟨hf1, hf2⟩, ?_, ?_⟩
  · intro k hk
    have g1 : 2 ^ log2i data.blksz ≤ 2 ^ k := hf1.trans (le_of_eq hk)
    have g2 : 2 ^ k < 2 ^ (log2i data.blksz + 1) := lt_of_eq_of_lt hk.symm hf2
    have a : log2i data.blksz ≤ k := (Nat.pow_le_pow_iff_right (by decide)).mp g1
    have b : k < log2i data.blksz + 1 := (Nat.pow_lt_pow_iff_right (by decide)).mp g2
    omega
  · intro j hj
    obtain ⟨e1, e2⟩ := pre_dma_entries bn_dma_buf old_dma_sts data c j hj
    have hlen : pre_dma_data_len data data.sg[j]
        = (if data.blocks > 1 ∨ data.blksz ≥ 512 then data.sg[j].length / 2 ^ log2i data.blksz
          else data.sg[j].length) := by
      unfold pre_dma_data_len
      by_cases hc : data.blocks > 1 ∨ data.blksz ≥ 512
      · rw [if_pos (hbm.mpr hc), if_pos hc, hbl, if_pos hc, Nat.shiftRight_eq_div_pow]
      · rw [if_neg (fun hh => hc (hbm.mp hh)), if_neg hc]
    refine ⟨?_, hlen, e2, ?_⟩
    · rw [e1]
      exact hbm
    · intro hle
      rw [e2]
      exact Nat.mod_eq_of_lt (by omega)

/-- C19, evaluated on the data of the 8-block read (blocks of 512 bytes, two
segments of 2048 bytes): block mode, `bl_len = 9`, and both entries get the
length 4. -/
theorem pre_dma_data_parameters_witness :
    pre_dma_bl_len data_read8 = 9
      ∧ ((aml_sd_emmc_pre_dma 0 0 data_read8 chain_blank).chain.buf 0).block_mode = true
      ∧ ((aml_sd_emmc_pre_dma 0 0 data_read8 chain_blank).chain.buf 0).length = 4
      ∧ ((aml_sd_emmc_pre_dma 0 0 data_read8 chain_blank).chain.buf 1).length = 4 :=
  ⟨by decide,
   ((pre_dma_data_parameters 0 0 data_read8 chain_blank (by decide) (by decide)).2.2.2 0
      (by decide)).1.mpr (Or.inl (by decide)),
   (((pre_dma_data_parameters 0 0 data_read8 chain_blank (by decide) (by decide)).2.2.2 0
      (by decide)).2.2.2 (by decide)).trans (by decide),
   (((pre_dma_data_parameters 0 0 data_read8 chain_blank (by decide) (by decide)).2.2.2 1
      (by decide)).2.2.2 (by decide)).trans (by decide)⟩

/-! ### Error dispatch -/

/-- C20. Error dispatch in `aml_sd_emmc_data_thread`: when the dispatch runs for
a request with no synthesized STOP in flight and the latched status is one of
`HOST_RSP_TIMEOUT_ERR`, `HOST_DAT_TIMEOUT_ERR`, `HOST_RSP_CRC_ERR`,
`HOST_DAT_CRC_ERR`, exactly one of two things happens. If the request carries a
stop command, the card type is eMMC/MMC, the medium is present and the opcode is
neither 19 nor 21, the synthesized STOP is submitted: the call is
`aml_sd_emmc_send_stop`, no callback is made, `cmd_is_stop` is set, the error is
saved and the last register write starts the chain of the STOP. Otherwise the
request is completed at once, as it is (`cmd->error` unchanged), and no
register is written. -/
theorem data_thread_error_dispatch (cfg : BuildCfg) (h : Host) (m : MmcRequest)
    (hm : h.mrq = some m) (hns : h.cmd_is_stop = false)
    (hst : h.status = HostStatus.HOST_RSP_TIMEOUT_ERR ∨ h.status = HostStatus.HOST_DAT_TIMEOUT_ERR
      ∨ h.status = HostStatus.HOST_RSP_CRC_ERR ∨ h.status = HostStatus.HOST_DAT_CRC_ERR)
    (hx : h.xfer_step ≠ XferStep.XFER_FINISHED ∧ h.xfer_step ≠ XferStep.XFER_TIMER_TIMEOUT) :
    (thread_sends_stop h m = true
        ↔ (m.stop ≠ none ∧ h.card_type = CardType.CARD_TYPE_MMC ∧ h.is_in = true
            ∧ m.cmd.opcode ≠ MMC_SEND_TUNING_BLOCK
            ∧ m.cmd.opcode ≠ MMC_SEND_TUNING_BLOCK_HS200))
    ∧ (thread_sends_stop h m = true →
        aml_sd_emmc_data_thread cfg h = aml_sd_emmc_send_stop cfg h
          ∧ (aml_sd_emmc_data_thread cfg h).done = h.done
          ∧ (aml_sd_emmc_data_thread cfg h).cmd_is_stop = true
          ∧ (aml_sd_emmc_data_thread cfg h).mrq
              = some { m with cmd := { m.cmd with error := 0 } }
          ∧ (aml_sd_emmc_data_thread cfg h).sd_emmc_err_bak = to_u32 m.cmd.error
          ∧ (aml_sd_emmc_data_thread cfg h).writes.getLast?
              = some (RegWrite.gstart { init := false, busy := true,
                                        addr := (h.desc_dma_addr / 4) % 1073741824 }))
    ∧ (thread_sends_stop h m = false →
        aml_sd_emmc_data_thread cfg h = aml_sd_emmc_request_done h m
          ∧ (aml_sd_emmc_data_thread cfg h).done = h.done ++ [m]
          ∧ (aml_sd_emmc_data_thread cfg h).cmd_is_stop = false
          ∧ (aml_sd_emmc_data_thread cfg h).mrq = none
          ∧ (aml_sd_emmc_data_thread cfg h).writes = h.writes) := by
  have hgate : ¬ (h.xfer_step = XferStep.XFER_FINISHED
      ∨ h.xfer_step = XferStep.XFER_TIMER_TIMEOUT) := fun hh => hh.elim hx.1 hx.2
  have hdisp : aml_sd_emmc_data_thread cfg h
      = if thread_sends_stop h m = true then aml_sd_emmc_send_stop cfg h
        else aml_sd_emmc_request_done h m := by
    unfold aml_sd_emmc_data_thread
    rw [if_neg hgate]
    rcases hst with hs | hs | hs | hs <;> simp only [hm, hns, hs] <;> rfl
  refine ⟨?_, ?_, ?_⟩
  · unfold thread_sends_stop
    simp only [Bool.and_eq_true, bne_iff_ne, ne_eq, beq_iff_eq, Option.isSome_iff_ne_none]
    constructor
    · rintro ⟨⟨⟨⟨a, b⟩, c⟩, d⟩, e⟩
      exact ⟨a, b, c, d, e⟩
    · rintro ⟨a, b, c, d, e⟩
      exact ⟨⟨⟨⟨a, b⟩, c⟩, d⟩, e⟩
  · intro hc
    rw [hdisp, if_pos hc]
    obtain ⟨r, w, g, b, n, d, e⟩ := send_stop_frame cfg h m hm
    have hlast : (aml_sd_emmc_send_stop cfg h).writes.getLast?
        = some (RegWrite.gstart { init := false, busy := true,
                                  addr := (h.desc_dma_addr / 4) % 1073741824 }) := by
      unfold aml_sd_emmc_send_stop
      simp only [hm]
      exact (start_cmd_hands_over cfg _ aml_sd_emmc_stop).1
    refine ⟨rfl, ?_, ?_, ?_, ?_, hlast⟩
    · rw [e]
    · rw [e]
    · rw [e]
    · rw [e]
  · intro hc
    rw [hdisp, if_neg (by rw [hc]; exact Bool.false_ne_true)]
    exact ⟨rfl, rfl, hns, rfl, rfl⟩

/-- C20, evaluated on the eMMC port: after a data CRC error the 8-block read
(which carries a stop command) gets the synthesized STOP and no callback, and
the same failure of `req_cmd13`, which carries none, is completed at once with
`-EILSEQ`. -/
theorem data_thread_error_dispatch_witness :
    (aml_sd_emmc_data_thread cfg_sgmap host_emmc_read8_crc).done = host_emmc_read8_crc.done
      ∧ (aml_sd_emmc_data_thread cfg_sgmap host_emmc_read8_crc).cmd_is_stop = true
      ∧ (aml_sd_emmc_data_thread cfg_sgmap
          (run cfg_sgmap host_emmc_cmd13 [Event.irq irq_rxd_err])).done
          = (run cfg_sgmap host_emmc_cmd13 [Event.irq irq_rxd_err]).done
            ++ [{ req_cmd13 with cmd := { req_cmd13.cmd with error := -EILSEQ } }] :=
  ⟨((data_thread_error_dispatch cfg_sgmap host_emmc_read8_crc
      { req_read8 with cmd := { req_read8.cmd with error := -EILSEQ } } (by decide) (by decide)
      (Or.inr (Or.inr (Or.inr (by decide)))) ⟨by decide, by decide⟩).2.1 (by decide)).2.1,
   ((data_thread_error_dispatch cfg_sgmap host_emmc_read8_crc
      { req_read8 with cmd := { req_read8.cmd with error := -EILSEQ } } (by decide) (by decide)
      (Or.inr (Or.inr (Or.inr (by decide)))) ⟨by decide, by decide⟩).2.1 (by decide)).2.2.1,
   ((data_thread_error_dispatch cfg_sgmap
      (run cfg_sgmap host_emmc_cmd13 [Event.irq irq_rxd_err])
      { req_cmd13 with cmd := { req_cmd13.cmd with error := -EILSEQ } } (by decide) (by decide)
      (Or.inr (Or.inr (Or.inr (by decide)))) ⟨by decide, by decide⟩).2.2 (by decide)).2.1⟩

/-- A host without request, or with a synthesized STOP in flight, is
`dispatch_ready`. -/
theorem dispatch_ready_of_none_or_stop (h : Host)
    (hh : h.mrq = none ∨ h.cmd_is_stop = true) : dispatch_ready h := by
  intro m hm hns
  rcases hh with hn | hs
  · rw [hn] at hm
    exact Option.noConfusion hm
  · rw [hs] at hns
    exact Bool.noConfusion hns

/-- The property `dispatch_ready` depends on `host->mrq`, `cmd_is_stop` and
`xfer_step` only. -/
theorem dispatch_ready_frame (h h2 : Host) (e1 : h2.mrq = h.mrq)
    (e2 : h2.cmd_is_stop = h.cmd_is_stop) (e3 : h2.xfer_step = h.xfer_step)
    (hk : dispatch_ready h) : dispatch_ready h2 := by
  intro m hm hns
  rw [e3]
  exact hk m (e1 ▸ hm) (e2 ▸ hns)

/-- The status branches of the interrupt handler never store a request. -/
theorem irq_apply_no_request (h : Host) (vstat : Nat) (hm : h.mrq = none) :
    (irq_apply h vstat).mrq = none := by
  unfold irq_apply
  cases hcl : irq_classify vstat <;> simp [set_cmd_error, hm]

/-- The interrupt handler never stores a request in `host->mrq`. -/
theorem irq_keeps_no_request (h : Host) (i : IrqIn) (hm : h.mrq = none) :
    (aml_sd_emmc_irq h i).1.mrq = none := by
  unfold aml_sd_emmc_irq
  dsimp only
  split
  · exact hm
  · split
    · exact hm
    · rw [ite_pair_fst]
      apply irq_apply_no_request
      show (if h.mrq.isSome = true then _ else h).mrq = none
      split <;> exact hm

/-- Every event keeps `dispatch_ready`. -/
theorem step_dispatch_ready (cfg : BuildCfg) (h : Host) (ev : Event) (hk : dispatch_ready h) :
    dispatch_ready (step cfg h ev) := by
  have hdone : ∀ (h2 : Host) (m2 : MmcRequest), dispatch_ready (aml_sd_emmc_request_done h2 m2) :=
    fun h2 m2 => dispatch_ready_of_none_or_stop _ (Or.inl rfl)
  have hstop : ∀ (h2 : Host) (m2 : MmcRequest), h2.mrq = some m2 →
      dispatch_ready (aml_sd_emmc_send_stop cfg h2) := by
    intro h2 m2 hm2
    obtain ⟨r, w, g, b, n, d, e⟩ := send_stop_frame cfg h2 m2 hm2
    rw [e]
    exact dispatch_ready_of_none_or_stop _ (Or.inr rfl)
  cases ev with
  | irq i =>
    show dispatch_ready (aml_sd_emmc_irq h i).1
    by_cases he : irq_early_return i = true
    · unfold aml_sd_emmc_irq
      simp only [he, if_true]
      exact hk
    · have he2 : irq_early_return i = false := by simpa using he
      rcases Option.eq_none_or_eq_some h.mrq with hm | ⟨m, hm⟩
      · exact dispatch_ready_of_none_or_stop _ (Or.inl (irq_keeps_no_request h i hm))
      · obtain ⟨e, st, x, r, w, e2, hx⟩ := irq_frame_live h m i hm he2
        rw [e2]
        intro m2 _ hns
        have hns2 : h.cmd_is_stop = false := hns
        show x ≠ XferStep.XFER_FINISHED ∧ x ≠ XferStep.XFER_TIMER_TIMEOUT
        rcases hx with hx | hx
        · rw [hx, hns2]
          exact ⟨by decide, by decide⟩
        · rw [hx]
          exact ⟨by decide, by decide⟩
  | thread =>
    show dispatch_ready (aml_sd_emmc_data_thread cfg h)
    unfold aml_sd_emmc_data_thread
    split
    · exact hk
    · rcases Option.eq_none_or_eq_some h.mrq with hm | ⟨m, hm⟩
      · simp only [hm]
        exact dispatch_ready_of_none_or_stop _ (Or.inl rfl)
      · simp only [hm]
        split
        · exact hdone _ _
        · split <;> (try split) <;> (try split) <;>
            first
            | exact hdone _ _
            | exact hstop h m hm
            | exact hk
  | watchdog =>
    show dispatch_ready (aml_sd_emmc_timeout cfg h)
    unfold aml_sd_emmc_timeout
    rcases Option.eq_none_or_eq_some h.mrq with hm | ⟨m, hm⟩
    · simp only [hm]
      exact dispatch_ready_of_none_or_stop _ (Or.inl rfl)
    · have hth : ∀ h2 : Host, dispatch_ready (timeout_handle cfg h2 m) := by
        intro h2
        unfold timeout_handle
        dsimp only
        split
        · exact hstop _ _ rfl
        · exact hdone _ _
      simp only [hm]
      split
      · exact hk
      · split
        · split
          · exact hth _
          · exact dispatch_ready_frame h _ hm.symm rfl rfl hk
        · exact hth _

/-- After a request has been accepted, whatever events follow, the dispatcher
passes its entry test whenever it finds the request and no synthesized STOP in
flight. -/
theorem run_dispatch_ready (cfg : BuildCfg) (h : Host) (mrq : MmcRequest) (evs : List Event)
    (hacc : h.is_in = true ∧ (h.init_flag = true ∨ h.card_type ≠ CardType.CARD_TYPE_SD)) :
    dispatch_ready (run cfg (aml_sd_emmc_request cfg h mrq false) evs) := by
  have h0 : dispatch_ready (aml_sd_emmc_request cfg h mrq false) := by
    have hgate : (!h.is_in || (!h.init_flag && h.card_type == CardType.CARD_TYPE_SD)) = false := by
      rw [hacc.1]
      rcases hacc.2 with hi | hc
      · rw [hi]
        rfl
      · cases hf : h.init_flag
        · simp [hc]
        · rfl
    unfold aml_sd_emmc_request
    rw [hgate]
    intro m _ _
    exact ⟨fun hh => absurd (show XferStep.XFER_AFTER_START = XferStep.XFER_FINISHED from hh)
        (by decide),
      fun hh => absurd (show XferStep.XFER_AFTER_START = XferStep.XFER_TIMER_TIMEOUT from hh)
        (by decide)⟩
  have hgen : ∀ (evs : List Event) (h1 : Host), dispatch_ready h1 →
      dispatch_ready (run cfg h1 evs) := by
    intro evs
    induction evs with
    | nil => exact fun h1 hh => hh
    | cons ev rest ih => exact fun h1 hh => ih _ (step_dispatch_ready cfg h1 ev hh)
  exact hgen evs _ h0


/-! ### C21: timing mode -/

/-- C21. `aml_sd_emmc_set_timing` with old divisor `d` in the 6-bit field of the
clock register. For `MMC_TIMING_MMC_HS400`, `MMC_TIMING_MMC_DDR52` and
`MMC_TIMING_UHS_DDR50` the `ddr` flag of the configuration register is set and
the divisor field becomes `ceil(d / 2)`, which is `d` rounded up to even, then
halved; the clock register is stored once, before the configuration register.
For every other timing the `ddr` flag is cleared, the clock register keeps its
value and the only store is the one to the configuration register. -/
theorem set_timing_ddr_halves_divisor (h : Host) (timing : Nat)
    (hd : h.regs.gclock.div < 64) :
    ((timing = MMC_TIMING_MMC_HS400 ∨ timing = MMC_TIMING_MMC_DDR52
        ∨ timing = MMC_TIMING_UHS_DDR50) →
      (aml_sd_emmc_set_timing h timing).regs.gcfg.ddr = true
      ∧ (aml_sd_emmc_set_timing h timing).regs.gclock.div = (h.regs.gclock.div + 1) / 2
      ∧ (aml_sd_emmc_set_timing h timing).regs.gclock.div
          = (h.regs.gclock.div + h.regs.gclock.div % 2) / 2
      ∧ (aml_sd_emmc_set_timing h timing).writes
          = h.writes ++ [RegWrite.gclock (aml_sd_emmc_set_timing h timing).regs.gclock,
              RegWrite.gcfg (aml_sd_emmc_set_timing h timing).regs.gcfg])
    ∧ (¬ (timing = MMC_TIMING_MMC_HS400 ∨ timing = MMC_TIMING_MMC_DDR52
        ∨ timing = MMC_TIMING_UHS_DDR50) →
      (aml_sd_emmc_set_timing h timing).regs.gcfg.ddr = false
      ∧ (aml_sd_emmc_set_timing h timing).regs.gclock = h.regs.gclock
      ∧ (aml_sd_emmc_set_timing h timing).clkc = h.clkc
      ∧ (aml_sd_emmc_set_timing h timing).writes
          = h.writes ++ [RegWrite.gcfg { h.regs.gcfg with ddr := false }]) := by
  constructor
  · intro ht
    have hdiv : (aml_sd_emmc_set_timing h timing).regs.gclock.div
        = (h.regs.gclock.div + 1) / 2 := by
      simp only [aml_sd_emmc_set_timing, if_pos ht, write_gcfg, write_gclock]
      split <;> omega
    refine ⟨?_, hdiv, ?_, ?_⟩
    · simp only [aml_sd_emmc_set_timing, if_pos ht, write_gcfg, write_gclock]
    · rw [hdiv]; omega
    · simp only [aml_sd_emmc_set_timing, if_pos ht, write_gcfg, write_gclock,
        List.append_assoc, List.singleton_append]
  · intro ht
    simp only [aml_sd_emmc_set_timing, if_neg ht, write_gcfg, and_self]

/-- Witness for C21: the divisor 5 becomes 3 when the eMMC host is switched to
DDR52. -/
theorem set_timing_ddr_halves_divisor_witness :
    host_emmc_div5.regs.gclock.div < 64
    ∧ (aml_sd_emmc_set_timing host_emmc_div5 MMC_TIMING_MMC_DDR52).regs.gcfg.ddr = true
    ∧ (aml_sd_emmc_set_timing host_emmc_div5 MMC_TIMING_MMC_DDR52).regs.gclock.div = 3 :=
  ⟨by decide,
   ((set_timing_ddr_halves_divisor host_emmc_div5 MMC_TIMING_MMC_DDR52 (by decide)).1
      (Or.inr (Or.inl rfl))).1,
   ((set_timing_ddr_halves_divisor host_emmc_div5 MMC_TIMING_MMC_DDR52 (by decide)).1
      (Or.inr (Or.inl rfl))).2.1⟩


/-! ### C22: unknown interrupt -/

/-- A status word with a bit among its low 14 passes the entry tests of
`aml_sd_emmc_irq`. -/
theorem irq_low_bits_not_early (i : IrqIn) (hlow : (i.gstatus &&& 0xffff) &&& 0x3fff ≠ 0) :
    irq_early_return i = false := by
  unfold irq_early_return
  have hb : ((i.gstatus &&& 0xffff) &&& 0x3fff == 0) = false := by
    simpa using hlow
  simp only [hb, Bool.and_false, ite_self]

/-- A status word with none of the bits tested by the `if` chain is classified
as unknown. -/
theorem irq_classify_unknown (vstat : Nat)
    (hrxd : ista_rxd_err vstat = false) (htxd : ista_txd_err vstat = false)
    (hresp : ista_resp_err vstat = false) (hrto : ista_resp_timeout vstat = false)
    (hdto : ista_desc_timeout vstat = false) (heoc : ista_end_of_chain vstat = false)
    (hirq : ista_desc_irq vstat = false) :
    irq_classify vstat = IrqClass.unknown := by
  simp [irq_classify, hrxd, htxd, hresp, hrto, hdto, heoc, hirq]

/-- C22. Unknown interrupt. For a host that holds a request and a status word
with a bit among its low 14 but none of `rxd_err`, `txd_err`, `resp_err`,
`resp_timeout`, `desc_timeout`, `end_of_chain`, `desc_irq`, the handler
`aml_sd_emmc_irq` ends with `xfer_step = XFER_IRQ_UNKNOWN_IRQ` (neither
`XFER_IRQ_OCCUR` nor `XFER_IRQ_TASKLET_BUSY`), leaves `host->status` and the
request with its `cmd->error` as they were, calls no callback, and returns
`IRQ_HANDLED`, the value that does not start the deferred dispatch. -/
theorem irq_unknown_not_dispatched (h : Host) (m : MmcRequest) (i : IrqIn)
    (hm : h.mrq = some m)
    (hlow : (i.gstatus &&& 0xffff) &&& 0x3fff ≠ 0)
    (hrxd : ista_rxd_err (i.gstatus &&& 0xffff) = false)
    (htxd : ista_txd_err (i.gstatus &&& 0xffff) = false)
    (hresp : ista_resp_err (i.gstatus &&& 0xffff) = false)
    (hrto : ista_resp_timeout (i.gstatus &&& 0xffff) = false)
    (hdto : ista_desc_timeout (i.gstatus &&& 0xffff) = false)
    (heoc : ista_end_of_chain (i.gstatus &&& 0xffff) = false)
    (hirq : ista_desc_irq (i.gstatus &&& 0xffff) = false) :
    (aml_sd_emmc_irq h i).1.xfer_step = XferStep.XFER_IRQ_UNKNOWN_IRQ
      ∧ (aml_sd_emmc_irq h i).1.xfer_step ≠ XferStep.XFER_IRQ_OCCUR
      ∧ (aml_sd_emmc_irq h i).1.xfer_step ≠ XferStep.XFER_IRQ_TASKLET_BUSY
      ∧ (aml_sd_emmc_irq h i).1.status = h.status
      ∧ (aml_sd_emmc_irq h i).1.mrq = some m
      ∧ (aml_sd_emmc_irq h i).1.done = h.done
      ∧ (aml_sd_emmc_irq h i).2 = IrqReturn.IRQ_HANDLED := by
  have hcls := irq_classify_unknown (i.gstatus &&& 0xffff) hrxd htxd hresp hrto hdto heoc hirq
  have hearly := irq_low_bits_not_early i hlow
  have hrun : aml_sd_emmc_irq h i
      = ({ (write_gstatus
              { h with xfer_step := if h.cmd_is_stop then XferStep.XFER_IRQ_TASKLET_BUSY
                                    else XferStep.XFER_IRQ_OCCUR }
              (i.gstatus &&& 0xffff)) with
            xfer_step := XferStep.XFER_IRQ_UNKNOWN_IRQ }, IrqReturn.IRQ_HANDLED) := by
    unfold aml_sd_emmc_irq
    simp [hearly, hm, irq_apply, hcls]
  have hx : (aml_sd_emmc_irq h i).1.xfer_step = XferStep.XFER_IRQ_UNKNOWN_IRQ := by
    rw [hrun]
  refine ⟨hx, ?_, ?_, ?_, ?_, ?_, ?_⟩
  · rw [hx]; decide
  · rw [hx]; decide
  · rw [hrun]; rfl
  · rw [hrun]; exact hm
  · rw [hrun]; rfl
  · rw [hrun]

/-- Witness for C22: the eMMC port with CMD13 in flight takes an interrupt that
reports only a descriptor error. -/
theorem irq_unknown_not_dispatched_witness :
    host_emmc_cmd13.mrq = some req_cmd13
      ∧ (aml_sd_emmc_irq host_emmc_cmd13 irq_desc_err).1.xfer_step
          = XferStep.XFER_IRQ_UNKNOWN_IRQ
      ∧ (aml_sd_emmc_irq host_emmc_cmd13 irq_desc_err).1.status = host_emmc_cmd13.status
      ∧ (aml_sd_emmc_irq host_emmc_cmd13 irq_desc_err).1.mrq = some req_cmd13
      ∧ (aml_sd_emmc_irq host_emmc_cmd13 irq_desc_err).2 = IrqReturn.IRQ_HANDLED :=
  have hw := irq_unknown_not_dispatched host_emmc_cmd13 req_cmd13 irq_desc_err
    (by decide) (by decide) (by decide) (by decide) (by decide) (by decide) (by decide)
    (by decide) (by decide)
  ⟨by decide, hw.1, hw.2.2.2.1, hw.2.2.2.2.1, hw.2.2.2.2.2.2⟩


/-! ### C23: retry policy of the forced timeout -/

/-- A firing of the watchdog that does not return early (the transfer is not
finished, and the dispatch is not pending or the counter has reached 30) runs
the forced timeout, on the host as it is up to the two counters. -/
theorem watchdog_forced (cfg : BuildCfg) (h : Host) (m : MmcRequest)
    (hm : h.mrq = some m) (hfin : h.xfer_step ≠ XferStep.XFER_FINISHED)
    (hforce : (h.xfer_step = XferStep.XFER_IRQ_TASKLET_DATA
      ∨ h.xfer_step = XferStep.XFER_IRQ_TASKLET_CMD) → 30 ≤ h.timeout_cnt) :
    ∃ r n, aml_sd_emmc_timeout cfg h
      = timeout_handle cfg { h with timeout_rearmed := r, timeout_cnt := n } m := by
  by_cases hp : h.xfer_step = XferStep.XFER_IRQ_TASKLET_DATA
      ∨ h.xfer_step = XferStep.XFER_IRQ_TASKLET_CMD
  · exact ⟨_, _, watchdog_pending_fire cfg h m hm hp (hforce hp)⟩
  · refine ⟨h.timeout_rearmed, h.timeout_cnt, ?_⟩
    have hrun : aml_sd_emmc_timeout cfg h = timeout_handle cfg h m := by
      unfold aml_sd_emmc_timeout
      split
      · rename_i hn
        rw [hm] at hn
        exact Option.noConfusion hn
      · rename_i m2 hs
        have hmm : m2 = m := Option.some.inj (hs.symm.trans hm)
        rw [if_neg hfin, if_neg hp, hmm]
    exact hrun

/-- The retry count the forced timeout leaves in the command. -/
theorem timeout_cmd_retries (h : Host) (m : MmcRequest) :
    (h.card_type ≠ CardType.CARD_TYPE_MMC → (timeout_cmd h m).retries = 0)
    ∧ (h.card_type = CardType.CARD_TYPE_MMC →
        ((h.sd_emmc_error_flag &&& 8 = 0 ∧ m.data.isSome = true ∧ h.is_in = true) →
          (timeout_cmd h m).retries = AML_TIMEOUT_RETRY_COUNTER)
        ∧ (¬ (h.sd_emmc_error_flag &&& 8 = 0 ∧ m.data.isSome = true ∧ h.is_in = true) →
          (timeout_cmd h m).retries = m.cmd.retries)) := by
  unfold timeout_cmd timeout_first
  refine ⟨fun hc => ?_, fun hc => ⟨fun hf => ?_, fun hf => ?_⟩⟩
  · simp [hc]
  · simp [hc, hf.1, hf.2.1, hf.2.2]
  · have hb : (h.sd_emmc_error_flag &&& 8 == 0 && m.data.isSome && h.is_in) = false := by
      rw [Bool.eq_false_iff]
      intro hh
      simp only [Bool.and_eq_true, beq_iff_eq] at hh
      exact hf ⟨hh.1.1, hh.1.2, hh.2⟩
    simp [hc, hb]

/-- The shared error flag after the forced timeout on a card that is not
eMMC/MMC. -/
theorem timeout_flag_removable (h : Host) (m : MmcRequest)
    (hc : h.card_type ≠ CardType.CARD_TYPE_MMC) : timeout_flag h m = 0 := by
  unfold timeout_flag
  simp [hc]

/-- C23. Retry policy of the forced timeout. Let the watchdog
`aml_sd_emmc_timeout` fire on a host that holds the request `m` and not return
early, and let `c` be the command it leaves: `c` is `m`'s command with
`error = -ETIMEDOUT` and a retry count set by the policy. When the card type is
not eMMC/MMC (SD card or SDIO) the retry count is 0, the shared
`sd_emmc_error_flag` is cleared, and the request is completed at once: the
callback gets `m` with `c`. When the card type is eMMC/MMC the retry count is
`AML_TIMEOUT_RETRY_COUNTER` if bit 3 of `sd_emmc_error_flag` is clear, the
request has data and the medium is present, and is otherwise the one `m` came
with; the callback gets `m` with `c` unless the watchdog sends the synthesized
STOP, in which case the host keeps `m` with `c`, `-ETIMEDOUT` saved in
`sd_emmc_err_bak`. -/
theorem watchdog_retry_policy (cfg : BuildCfg) (h : Host) (m : MmcRequest)
    (hm : h.mrq = some m) (hfin : h.xfer_step ≠ XferStep.XFER_FINISHED)
    (hforce : (h.xfer_step = XferStep.XFER_IRQ_TASKLET_DATA
      ∨ h.xfer_step = XferStep.XFER_IRQ_TASKLET_CMD) → 30 ≤ h.timeout_cnt) :
    ∃ c : MmcCommand,
      c.error = -ETIMEDOUT ∧ c.opcode = m.cmd.opcode ∧ c.arg = m.cmd.arg
      ∧ c.flags = m.cmd.flags
      ∧ (h.card_type ≠ CardType.CARD_TYPE_MMC →
          c.retries = 0
          ∧ (aml_sd_emmc_timeout cfg h).sd_emmc_error_flag = 0
          ∧ (aml_sd_emmc_timeout cfg h).done = h.done ++ [{ m with cmd := c }])
      ∧ (h.card_type = CardType.CARD_TYPE_MMC →
          ((h.sd_emmc_error_flag &&& 8 = 0 ∧ m.data.isSome = true ∧ h.is_in = true) →
            c.retries = AML_TIMEOUT_RETRY_COUNTER)
          ∧ (¬ (h.sd_emmc_error_flag &&& 8 = 0 ∧ m.data.isSome = true ∧ h.is_in = true) →
            c.retries = m.cmd.retries))
      ∧ (timeout_sends_stop h m = false →
          (aml_sd_emmc_timeout cfg h).done = h.done ++ [{ m with cmd := c }]
          ∧ (aml_sd_emmc_timeout cfg h).mrq = none)
      ∧ (timeout_sends_stop h m = true →
          (aml_sd_emmc_timeout cfg h).done = h.done
          ∧ (aml_sd_emmc_timeout cfg h).mrq = some { m with cmd := { c with error := 0 } }
          ∧ (aml_sd_emmc_timeout cfg h).sd_emmc_err_bak = to_u32 (-ETIMEDOUT)) := by
  obtain ⟨r, n, hrun⟩ := watchdog_forced cfg h m hm hfin hforce
  have hdone : timeout_sends_stop h m = false →
      (aml_sd_emmc_timeout cfg h).done = h.done ++ [{ m with cmd := timeout_cmd h m }]
      ∧ (aml_sd_emmc_timeout cfg h).mrq = none
      ∧ (aml_sd_emmc_timeout cfg h).sd_emmc_error_flag = timeout_flag h m := by
    intro hc
    rw [hrun, timeout_handle_done cfg { h with timeout_rearmed := r, timeout_cnt := n } m hc]
    exact ⟨rfl, rfl, rfl⟩
  have hpol := timeout_cmd_retries h m
  refine ⟨timeout_cmd h m, timeout_cmd_error h m, (timeout_cmd_same h m).1,
    (timeout_cmd_same h m).2.1, (timeout_cmd_same h m).2.2, ?_, hpol.2, ?_, ?_⟩
  · intro hc
    have hns : timeout_sends_stop h m = false := by
      unfold timeout_sends_stop
      have : (h.card_type == CardType.CARD_TYPE_MMC) = false := by simpa using hc
      simp [this]
    have hd := hdone hns
    exact ⟨hpol.1 hc, hd.2.2.trans (timeout_flag_removable h m hc), hd.1⟩
  · intro hc
    exact ⟨(hdone hc).1, (hdone hc).2.1⟩
  · intro hc
    have hf := timeout_handle_stop_fields cfg { h with timeout_rearmed := r, timeout_cnt := n } m hc
    rw [hrun]
    exact ⟨hf.2.2.2.2.2.2, hf.2.2.2.2.2.1, hf.2.2.2.2.1⟩

/-- Witness for C23: the watchdog fires on the SDIO port while CMD13, which
came with 3 retries, is in flight: the callback gets it with `-ETIMEDOUT` and 0
retries. -/
theorem watchdog_retry_policy_witness :
    host_sdio_cmd13.mrq = some req_cmd13
      ∧ host_sdio_cmd13.xfer_step ≠ XferStep.XFER_FINISHED
      ∧ host_sdio_cmd13.card_type ≠ CardType.CARD_TYPE_MMC
      ∧ req_cmd13.cmd.retries = 3
      ∧ ∃ c : MmcCommand, c.error = -ETIMEDOUT ∧ c.retries = 0
          ∧ (aml_sd_emmc_timeout cfg_sgmap host_sdio_cmd13).sd_emmc_error_flag = 0
          ∧ (aml_sd_emmc_timeout cfg_sgmap host_sdio_cmd13).done
              = host_sdio_cmd13.done ++ [{ req_cmd13 with cmd := c }] :=
  ⟨by decide, by decide, by decide, rfl,
   (watchdog_retry_policy cfg_sgmap host_sdio_cmd13 req_cmd13 (by decide) (by decide)
      (fun hp => absurd hp (by decide))).elim
    (fun c hc => ⟨c, hc.1, (hc.2.2.2.2.1 (by decide)).1, (hc.2.2.2.2.1 (by decide)).2.1,
      (hc.2.2.2.2.1 (by decide)).2.2⟩)⟩


/-! ### C24: restarts of the tuning sweep -/

/-- Stores to other registers do not count as stores to the clock register. -/
theorem gclock_writes_append (a b : List RegWrite) :
    gclock_writes (a ++ b) = gclock_writes a + gclock_writes b := by
  induction a with
  | nil => simp [gclock_writes]
  | cons x a ih =>
    cases x <;> simp [gclock_writes, ih]
    omega

/-- One delay of the sweep: the window variables take one step with the sample
of the delay, the adjust register is stored, and the rest of the host stays. -/
theorem tune_delay_frame (env : TuneEnv) (ddr : Bool) (opcode : Nat) (blk_pattern : List Nat)
    (blksz blk_test sweep : Nat) (s : TuneState) (d : Nat) :
    (tune_delay env ddr opcode blk_pattern blksz blk_test sweep s d).win
        = tune_step s.win d (tune_pass env ddr opcode blk_pattern blksz blk_test sweep d)
      ∧ ∃ g, (tune_delay env ddr opcode blk_pattern blksz blk_test sweep s d).host
          = { s.host with regs := { s.host.regs with gadjust := g },
                          writes := s.host.writes ++ [RegWrite.gadjust g] }
        ∧ (tune_delay env ddr opcode blk_pattern blksz blk_test sweep s d).adjust = g :=
  ⟨rfl, _, rfl, rfl⟩

/-- The loop over the delays: the window variables are those of `tune_loop` on
the samples of the sweep. -/
theorem tune_sweep_win (env : TuneEnv) (ddr : Bool) (opcode : Nat) (blk_pattern : List Nat)
    (blksz blk_test sweep : Nat) (s : TuneState) (k : Nat) :
    (tune_sweep env ddr opcode blk_pattern blksz blk_test sweep s k).win
      = tune_loop s.win (tune_pass env ddr opcode blk_pattern blksz blk_test sweep) k := by
  induction k with
  | zero => rfl
  | succ k ih =>
    show tune_step (tune_sweep env ddr opcode blk_pattern blksz blk_test sweep s k).win k _ = _
    rw [ih]
    rfl

/-- The loop over the delays changes the adjust register and the log of writes
only, and stores to no other register. -/
theorem tune_sweep_frame (env : TuneEnv) (ddr : Bool) (opcode : Nat) (blk_pattern : List Nat)
    (blksz blk_test sweep : Nat) (s : TuneState) (k : Nat) :
    ∃ g w, (tune_sweep env ddr opcode blk_pattern blksz blk_test sweep s k).host
        = { s.host with regs := { s.host.regs with gadjust := g }, writes := w }
      ∧ gclock_writes w = gclock_writes s.host.writes := by
  induction k with
  | zero => exact ⟨s.host.regs.gadjust, s.host.writes, rfl, rfl⟩
  | succ k ih =>
    obtain ⟨g, w, e, hw⟩ := ih
    obtain ⟨_, g2, e2, _⟩ := tune_delay_frame env ddr opcode blk_pattern blksz blk_test sweep
      (tune_sweep env ddr opcode blk_pattern blksz blk_test sweep s k) k
    refine ⟨g2, w ++ [RegWrite.gadjust g2], ?_, ?_⟩
    · show (tune_delay env ddr opcode blk_pattern blksz blk_test sweep
        (tune_sweep env ddr opcode blk_pattern blksz blk_test sweep s k) k).host = _
      rw [e2, e]
    · rw [gclock_writes_append, hw]
      rfl

/-- One sweep: `is_tunning` is set, the adjust register and the log of writes
change, no other register is stored to, and the window variables are those of
`tune_loop` on the samples of the sweep. -/
theorem tune_one_sweep_frame (env : TuneEnv) (opcode : Nat) (blk_pattern : List Nat)
    (sweep blksz blk_test : Nat) (s : TuneState) :
    ∃ g w, (tune_one_sweep env opcode blk_pattern sweep blksz blk_test s).host
        = { s.host with is_tunning := true, regs := { s.host.regs with gadjust := g },
                        writes := w }
      ∧ gclock_writes w = gclock_writes s.host.writes
      ∧ (tune_one_sweep env opcode blk_pattern sweep blksz blk_test s).win
          = tune_loop s.win
              (tune_pass env s.host.regs.gcfg.ddr opcode blk_pattern blksz blk_test sweep)
              s.host.regs.gclock.div
      ∧ (tune_one_sweep env opcode blk_pattern sweep blksz blk_test s).adjust.other
          = s.adjust.other := by
  unfold tune_one_sweep
  obtain ⟨g, w, e, hwc⟩ := tune_sweep_frame env s.host.regs.gcfg.ddr opcode blk_pattern blksz
    blk_test sweep { s with host := { s.host with is_tunning := true } } s.host.regs.gclock.div
  refine ⟨g, w, e, hwc, tune_sweep_win _ _ _ _ _ _ _ _ _, ?_⟩
  generalize s.host.regs.gclock.div = k
  induction k with
  | zero => rfl
  | succ k ih => exact ih

/-- A sweep whose samples all fail leaves window variables without an open
window as they are. -/
theorem tune_loop_all_fail (w : TuneWin) (pass : Nat → Bool) (k : Nat)
    (hw : w.curr_win_start < 0) (hfail : ∀ d, d < k → pass d = false) :
    tune_loop w pass k = w := by
  induction k with
  | zero => rfl
  | succ k ih =>
    show tune_step (tune_loop w pass k) k (pass k) = w
    rw [ih (fun d hd => hfail d (by omega)), hfail k (by omega)]
    unfold tune_step
    rw [if_neg (by decide), if_neg (by omega)]

/-- A probe that fails on the first try makes the sample of its delay fail. -/
theorem tune_pass_of_probe_fail (env : TuneEnv) (ddr : Bool) (opcode : Nat)
    (blk_pattern : List Nat) (blksz blk_test sweep d : Nat)
    (hfail : ∀ sw dl n r, env.wait_for_req sw dl n r = none) :
    tune_pass env ddr opcode blk_pattern blksz blk_test sweep d = false := by
  unfold tune_pass tune_sample tune_tries
  simp only [hfail]
  rfl

/-- A pass through the label `tunning` whose samples all fail, started without
a window: the divisor field is raised by one in its 6 bits, the clock register
is stored and copied to `pdata->clkc`, and the next pass starts, again without
a window, with the new divisor. -/
theorem tune_rounds_restart (env : TuneEnv) (opcode : Nat) (blk_pattern : List Nat)
    (sweep blksz blk_test : Nat) (s : TuneState)
    (hk : env.kmalloc sweep (tune_blksz s.host blksz) = some blk_test)
    (hw : s.win = tune_init)
    (hfail : ∀ d, d < s.host.regs.gclock.div →
      tune_pass env s.host.regs.gcfg.ddr opcode blk_pattern (tune_blksz s.host blksz)
        blk_test sweep d = false) :
    ∃ s2 : TuneState,
      (∀ fuel, tune_rounds env opcode blk_pattern (fuel + 1) sweep blksz s
        = tune_rounds env opcode blk_pattern fuel (sweep + 1) (tune_blksz s.host blksz) s2)
      ∧ s2.win = tune_init
      ∧ s2.host.regs.gclock
          = { s.host.regs.gclock with div := (s.host.regs.gclock.div + 1) % 64 }
      ∧ s2.host.clkc = s2.host.regs.gclock
      ∧ s2.host.regs.gcfg = s.host.regs.gcfg
      ∧ (∃ w, s2.host.writes = w ++ [RegWrite.gclock s2.host.regs.gclock])
      ∧ gclock_writes s2.host.writes = gclock_writes s.host.writes + 1 := by
  obtain ⟨g, w, e, hwc, hwin, _⟩ := tune_one_sweep_frame env opcode blk_pattern sweep
    (tune_blksz s.host blksz) blk_test { s with host := tune_clock s.host }
  have hs2 : (tune_one_sweep env opcode blk_pattern sweep (tune_blksz s.host blksz) blk_test
      { s with host := tune_clock s.host }).win = tune_init := by
    rw [hwin]
    show tune_loop s.win _ _ = _
    rw [hw]
    exact tune_loop_all_fail _ _ _ (by decide) hfail
  have hgcfg : (tune_one_sweep env opcode blk_pattern sweep (tune_blksz s.host blksz) blk_test
      { s with host := tune_clock s.host }).host.regs.gcfg = s.host.regs.gcfg := by
    rw [e]
    rfl
  have hcount : gclock_writes (tune_one_sweep env opcode blk_pattern sweep
      (tune_blksz s.host blksz) blk_test { s with host := tune_clock s.host }).host.writes
      = gclock_writes s.host.writes := by
    rw [e]
    exact hwc
  refine ⟨tune_restart s.host.regs.gclock
    (tune_one_sweep env opcode blk_pattern sweep (tune_blksz s.host blksz) blk_test
      { s with host := tune_clock s.host }), ?_, ?_, rfl, rfl, hgcfg, ⟨_, rfl⟩, ?_⟩
  · intro fuel
    rw [tune_rounds]
    simp only [hk]
    rw [if_pos]
    rw [hs2]
    decide
  · show tune_close _ = tune_init
    rw [hs2]
    rfl
  · show gclock_writes ((tune_one_sweep env opcode blk_pattern sweep (tune_blksz s.host blksz)
      blk_test { s with host := tune_clock s.host }).host.writes ++ [_]) = _
    rw [gclock_writes_append, hcount]
    rfl

/-- With probes that always fail, `k` passes through the label `tunning` follow
one another, each raising the divisor field by one in its 6 bits. -/
theorem tune_rounds_all_fail_steps (env : TuneEnv) (opcode : Nat) (blk_pattern : List Nat)
    (hfail : ∀ sw dl n r, env.wait_for_req sw dl n r = none)
    (hk : ∀ sw sz, (env.kmalloc sw sz).isSome = true) :
    ∀ (k sweep blksz : Nat) (s : TuneState), s.win = tune_init →
      s.host.regs.gclock.div < 64 →
      ∃ (s2 : TuneState) (b : Nat),
        (∀ fuel, tune_rounds env opcode blk_pattern (fuel + k) sweep blksz s
          = tune_rounds env opcode blk_pattern fuel (sweep + k) b s2)
        ∧ s2.win = tune_init
        ∧ s2.host.regs.gclock.div = (s.host.regs.gclock.div + k) % 64
        ∧ gclock_writes s2.host.writes = gclock_writes s.host.writes + k := by
  intro k
  induction k with
  | zero =>
    intro sweep blksz s hw hd
    exact ⟨s, blksz, fun _ => rfl, hw, (Nat.mod_eq_of_lt hd).symm, rfl⟩
  | succ k ih =>
    intro sweep blksz s hw hd
    obtain ⟨bt, hbt⟩ := Option.isSome_iff_exists.mp (hk sweep (tune_blksz s.host blksz))
    obtain ⟨s1, hrun, hw1, hclk, _, _, _, hcnt⟩ := tune_rounds_restart env opcode blk_pattern
      sweep blksz bt s hbt hw
      (fun d _ => tune_pass_of_probe_fail env _ opcode blk_pattern _ bt sweep d hfail)
    have hdiv1 : s1.host.regs.gclock.div = (s.host.regs.gclock.div + 1) % 64 := by
      rw [hclk]
    obtain ⟨s2, b, hrun2, hw2, hdiv2, hcnt2⟩ := ih (sweep + 1) (tune_blksz s.host blksz) s1
      hw1 (by rw [hdiv1]; omega)
    refine ⟨s2, b, ?_, hw2, ?_, ?_⟩
    · intro fuel
      have e1 := hrun (fuel + k)
      have e2 := hrun2 fuel
      rw [show sweep + (k + 1) = sweep + 1 + k by omega]
      exact e1.trans e2
    · rw [hdiv2, hdiv1]
      omega
    · rw [hcnt2, hcnt]
      omega

/-- With probes that always fail, no number of sweeps makes the function
return. -/
theorem tune_rounds_all_fail (env : TuneEnv) (opcode : Nat) (blk_pattern : List Nat)
    (hfail : ∀ sw dl n r, env.wait_for_req sw dl n r = none)
    (hk : ∀ sw sz, (env.kmalloc sw sz).isSome = true) :
    ∀ (fuel sweep blksz : Nat) (s : TuneState), s.win = tune_init →
      tune_rounds env opcode blk_pattern fuel sweep blksz s = none := by
  intro fuel
  induction fuel with
  | zero =>
    intro sweep blksz s _
    rfl
  | succ fuel ih =>
    intro sweep blksz s hw
    obtain ⟨bt, hbt⟩ := Option.isSome_iff_exists.mp (hk sweep (tune_blksz s.host blksz))
    obtain ⟨s1, hrun, hw1, _⟩ := tune_rounds_restart env opcode blk_pattern
      sweep blksz bt s hbt hw
      (fun d _ => tune_pass_of_probe_fail env _ opcode blk_pattern _ bt sweep d hfail)
    rw [hrun fuel]
    exact ih _ _ s1 hw1

/-- C24, evaluated on probes that always fail. The restarts of
`aml_sd_emmc_execute_tuning_` are not counted and the divisor is not checked
against the top of its field. With every allocation granted and every probe
failing, each sweep ends without a window, the divisor field is raised by one
in its 6 bits (63 is followed by 0, then 1) and the clock register stored, and
the sweep starts again: after `k` sweeps the function is back at the label
`tunning` with the divisor `(d + k) mod 64`, having stored the clock register
`k` times, for every `k`; no number of sweeps makes it return. -/
theorem tuning_restarts_unbounded (env : TuneEnv) (h : Host) (opcode : Nat)
    (tuning_data : aml_tuning_data)
    (hfail : ∀ sw dl n r, env.wait_for_req sw dl n r = none)
    (hk : ∀ sw sz, (env.kmalloc sw sz).isSome = true)
    (hd : h.regs.gclock.div < 64) :
    (∀ fuel, aml_sd_emmc_execute_tuning_ env h opcode tuning_data fuel = none)
    ∧ ∀ k, ∃ (s : TuneState) (b : Nat),
        (∀ fuel, aml_sd_emmc_execute_tuning_ env h opcode tuning_data (fuel + k)
          = tune_rounds env opcode tuning_data.blk_pattern fuel k b s)
        ∧ s.win = tune_init
        ∧ s.host.regs.gclock.div = (h.regs.gclock.div + k) % 64
        ∧ gclock_writes s.host.writes = gclock_writes h.writes + k := by
  constructor
  · intro fuel
    unfold aml_sd_emmc_execute_tuning_
    exact tune_rounds_all_fail env opcode _ hfail hk fuel 0 _ _ rfl
  · intro k
    obtain ⟨s, b, hrun, hw, hdiv, hcnt⟩ := tune_rounds_all_fail_steps env opcode
      tuning_data.blk_pattern hfail hk k 0 tuning_data.blksz
      { host := { h with regs := { h.regs with gadjust := adjust_zero },
                         writes := h.writes ++ [RegWrite.gadjust adjust_zero] },
        win := tune_init, adjust := h.regs.gadjust, probes := 0 } rfl hd
    refine ⟨s, b, ?_, hw, hdiv, ?_⟩
    · intro fuel
      unfold aml_sd_emmc_execute_tuning_
      rw [hrun fuel, Nat.zero_add]
    · rw [hcnt]
      show gclock_writes (h.writes ++ [RegWrite.gadjust adjust_zero]) + k = _
      rw [gclock_writes_append]
      rfl

/-- Witness for C24: the eMMC port at divisor 5 (HS200 at 200 MHz) tuned with
probes that always fail never returns; after 59 sweeps the divisor field has
wrapped to 0, after 60 it is 1. -/
theorem tuning_restarts_unbounded_witness :
    host_emmc_div5.regs.gclock.div = 5
      ∧ (∀ fuel, aml_sd_emmc_execute_tuning_ env_fail host_emmc_div5
          MMC_SEND_TUNING_BLOCK_HS200
          { blk_pattern := env_fail.tuning_blk_pattern_8bit, blksz := 8 } fuel = none)
      ∧ (∃ (s : TuneState) (b : Nat),
          (∀ fuel, aml_sd_emmc_execute_tuning_ env_fail host_emmc_div5
              MMC_SEND_TUNING_BLOCK_HS200
              { blk_pattern := env_fail.tuning_blk_pattern_8bit, blksz := 8 } (fuel + 59)
            = tune_rounds env_fail MMC_SEND_TUNING_BLOCK_HS200
                env_fail.tuning_blk_pattern_8bit fuel 59 b s)
          ∧ s.win = tune_init
          ∧ s.host.regs.gclock.div = (host_emmc_div5.regs.gclock.div + 59) % 64
          ∧ gclock_writes s.host.writes = gclock_writes host_emmc_div5.writes + 59)
      ∧ (host_emmc_div5.regs.gclock.div + 59) % 64 = 0 :=
  ⟨rfl,
   (tuning_restarts_unbounded env_fail host_emmc_div5 MMC_SEND_TUNING_BLOCK_HS200
      { blk_pattern := env_fail.tuning_blk_pattern_8bit, blksz := 8 }
      (fun _ _ _ _ => rfl) (fun _ _ => rfl) (by decide)).1,
   (tuning_restarts_unbounded env_fail host_emmc_div5 MMC_SEND_TUNING_BLOCK_HS200
      { blk_pattern := env_fail.tuning_blk_pattern_8bit, blksz := 8 }
      (fun _ _ _ _ => rfl) (fun _ _ => rfl) (by decide)).2 59,
   by decide⟩

/-! ### C25: the chosen delay is a passing delay -/

/-- The delay computed for a window of positive size inside the phase range. -/
theorem adj_delay_find_window (start size clk_div : Nat) (hpos : 0 < size)
    (hs : start < clk_div) (hz : size ≤ clk_div) (hdiv : clk_div ≤ 63) :
    adj_delay_find (start : Int) (size : Int) clk_div
      = (if size = clk_div then 0 else (start + (size - 1) / 2) % clk_div) := by
  unfold adj_delay_find
  by_cases he : size = clk_div
  · simp [he]
  · have he2 : ¬ ((size : Int) = (clk_div : Int)) := by exact_mod_cast he
    rw [if_neg he2, if_neg he]
    have h1 : ((size : Int) - 1) = ((size - 1 : Nat) : Int) := by omega
    have h2 : Int.tdiv ((size - 1 : Nat) : Int) 2 = (((size - 1) / 2 : Nat) : Int) := by
      rw [Int.tdiv_eq_ediv (by omega) (by omega)]
      norm_cast
    rw [h1, h2]
    have h3 : ((start : Int) + (((size - 1) / 2 : Nat) : Int)) % 4294967296
        = ((start + (size - 1) / 2 : Nat) : Int) := by
      have : start + (size - 1) / 2 < 4294967296 := by omega
      omega
    rw [h3, Int.toNat_ofNat]

/-- The delay computed for a circular run of passing delays is one of the
delays of the range, and it passes. -/
theorem adj_delay_find_passes (pass : Nat → Bool) (start size clk_div : Nat) (hpos : 0 < size)
    (hs : start < clk_div) (hz : size ≤ clk_div) (hdiv : clk_div ≤ 63)
    (hrun : circ_run pass clk_div start size) :
    adj_delay_find (start : Int) (size : Int) clk_div < clk_div
      ∧ pass (adj_delay_find (start : Int) (size : Int) clk_div) = true := by
  rw [adj_delay_find_window start size clk_div hpos hs hz hdiv]
  by_cases he : size = clk_div
  · rw [if_pos he]
    refine ⟨by omega, ?_⟩
    rcases Nat.eq_zero_or_pos start with h0 | hp
    · have h1 := hrun 0 hpos
      rw [h0, Nat.add_zero, Nat.zero_mod] at h1
      exact h1
    · have h1 := hrun (clk_div - start) (by omega)
      have e : start + (clk_div - start) = clk_div := by omega
      rw [e, Nat.mod_self] at h1
      exact h1
  · rw [if_neg he]
    exact ⟨Nat.mod_lt _ (by omega), hrun ((size - 1) / 2) (by omega)⟩

/-- The delay programmed after a sweep from the initial window variables over
samples with at least one pass is a delay of the range whose sample passed. -/
theorem tune_program_delay_passes (h : Host) (adjust : sd_emmc_adjust) (pass : Nat → Bool)
    (clk_div : Nat) (hdiv : clk_div ≤ 63) (hpass : ∃ d, d < clk_div ∧ pass d = true) :
    (tune_program h adjust (tune_select pass clk_div) clk_div).regs.gadjust.adj_delay < clk_div
      ∧ pass (tune_program h adjust (tune_select pass clk_div) clk_div).regs.gadjust.adj_delay
          = true
      ∧ 0 < (tune_select pass clk_div).best_win_size := by
  have hn : 0 < clk_div := by
    obtain ⟨d, hd, _⟩ := hpass
    omega
  obtain ⟨start, size, h1, h2, h3, h4, h5, h6, _⟩ :=
    tune_close_spec pass clk_div (tune_loop tune_init pass clk_div) hn
      (tune_inv_loop pass clk_div) hpass
  have e1 : (tune_select pass clk_div).best_win_start = (start : Int) := h1
  have e2 : (tune_select pass clk_div).best_win_size = (size : Int) := h2
  have hp := adj_delay_find_passes pass start size clk_div h4 h3 h5 hdiv h6
  have hv : (tune_program h adjust (tune_select pass clk_div) clk_div).regs.gadjust.adj_delay
      = adj_delay_find (start : Int) (size : Int) clk_div := by
    show adj_delay_find _ _ clk_div % 64 = _
    rw [e1, e2]
    exact Nat.mod_eq_of_lt (by omega)
  rw [hv, e2]
  exact ⟨hp.1, hp.2, by exact_mod_cast h4⟩

/-- A pass through the label `tunning` started without a window, in which at
least one delay passes: the function returns 0 after the sweep, and the delay
it stores in the adjust register is a delay of the range whose sample
passed. -/
theorem tune_rounds_pass_sweep (env : TuneEnv) (opcode : Nat) (blk_pattern : List Nat)
    (fuel sweep blksz blk_test : Nat) (s : TuneState)
    (hw : s.win = tune_init) (hd2 : s.host.regs.gclock.div ≤ 63)
    (hk : env.kmalloc sweep (tune_blksz s.host blksz) = some blk_test)
    (hpass : ∃ d, d < s.host.regs.gclock.div
      ∧ tune_pass env s.host.regs.gcfg.ddr opcode blk_pattern (tune_blksz s.host blksz)
          blk_test sweep d = true) :
    ∃ out, tune_rounds env opcode blk_pattern (fuel + 1) sweep blksz s = some out
      ∧ out.ret = 0
      ∧ out.host.regs.gadjust.adj_delay < s.host.regs.gclock.div
      ∧ tune_pass env s.host.regs.gcfg.ddr opcode blk_pattern (tune_blksz s.host blksz)
          blk_test sweep out.host.regs.gadjust.adj_delay = true
      ∧ out.host.regs.gadjust.adj_enable = true
      ∧ out.host.regs.gclock = s.host.regs.gclock
      ∧ (∃ w, out.host.writes = w ++ [RegWrite.gadjust out.host.regs.gadjust]) := by
  obtain ⟨g, w, e, _, hwin, _⟩ := tune_one_sweep_frame env opcode blk_pattern sweep
    (tune_blksz s.host blksz) blk_test { s with host := tune_clock s.host }
  have hsel : tune_close (tune_one_sweep env opcode blk_pattern sweep
      (tune_blksz s.host blksz) blk_test { s with host := tune_clock s.host }).win
      = tune_select (tune_pass env s.host.regs.gcfg.ddr opcode blk_pattern
          (tune_blksz s.host blksz) blk_test sweep) s.host.regs.gclock.div := by
    rw [hwin]
    show tune_close (tune_loop s.win _ _) = _
    rw [hw]
    rfl
  obtain ⟨hlt, hps, hsz⟩ := tune_program_delay_passes
    (tune_one_sweep env opcode blk_pattern sweep
      (tune_blksz s.host blksz) blk_test { s with host := tune_clock s.host }).host
    (tune_one_sweep env opcode blk_pattern sweep
      (tune_blksz s.host blksz) blk_test { s with host := tune_clock s.host }).adjust
    (tune_pass env s.host.regs.gcfg.ddr opcode blk_pattern
      (tune_blksz s.host blksz) blk_test sweep) s.host.regs.gclock.div hd2 hpass
  have hrun : tune_rounds env opcode blk_pattern (fuel + 1) sweep blksz s
      = some (tune_finish s.host.regs.gclock.div
          (tune_one_sweep env opcode blk_pattern sweep
            (tune_blksz s.host blksz) blk_test { s with host := tune_clock s.host })) := by
    rw [tune_rounds]
    simp only [hk]
    rw [if_neg]
    rw [hsel]
    omega
  refine ⟨_, hrun, rfl, ?_, ?_, rfl, ?_, ⟨_, rfl⟩⟩
  · show (tune_program _ _ (tune_close _) s.host.regs.gclock.div).regs.gadjust.adj_delay < _
    rw [hsel]
    exact hlt
  · show tune_pass _ _ _ _ _ _ _
      (tune_program _ _ (tune_close _) s.host.regs.gclock.div).regs.gadjust.adj_delay = true
    rw [hsel]
    exact hps
  · show (tune_one_sweep env opcode blk_pattern sweep
      (tune_blksz s.host blksz) blk_test _).host.regs.gclock = s.host.regs.gclock
    rw [e]
    rfl

/-- C25. The delay chosen by the tuning engine is a delay that passed. Let
`aml_sd_emmc_execute_tuning_` run with a divisor `clk_div` of at most 63 in the
clock register, the allocation of the first sweep granted, and at least one of
the delays below `clk_div` passing in that sweep (so `clk_div >= 1`). Then the
function returns 0 after this one sweep, and the `adj_delay` it stores in the
adjust register (with `adj_enable` set, as the last register write) is below
`clk_div` and is a delay whose sample passed, whether the best window is a
plain one, one merged across the wraparound, or the whole range. -/
theorem tuned_delay_is_passing_sample (env : TuneEnv) (h : Host) (opcode : Nat)
    (tuning_data : aml_tuning_data) (fuel blk_test : Nat)
    (hd2 : h.regs.gclock.div ≤ 63)
    (hk : env.kmalloc 0 (tune_blksz h tuning_data.blksz) = some blk_test)
    (hpass : ∃ d, d < h.regs.gclock.div
      ∧ tune_pass env h.regs.gcfg.ddr opcode tuning_data.blk_pattern
          (tune_blksz h tuning_data.blksz) blk_test 0 d = true) :
    ∃ out, aml_sd_emmc_execute_tuning_ env h opcode tuning_data (fuel + 1) = some out
      ∧ out.ret = 0
      ∧ out.host.regs.gadjust.adj_delay < h.regs.gclock.div
      ∧ tune_pass env h.regs.gcfg.ddr opcode tuning_data.blk_pattern
          (tune_blksz h tuning_data.blksz) blk_test 0 out.host.regs.gadjust.adj_delay = true
      ∧ out.host.regs.gadjust.adj_enable = true
      ∧ out.host.regs.gclock = h.regs.gclock
      ∧ (∃ w, out.host.writes = w ++ [RegWrite.gadjust out.host.regs.gadjust]) :=
  tune_rounds_pass_sweep env opcode tuning_data.blk_pattern fuel 0 tuning_data.blksz blk_test
    { host := { h with regs := { h.regs with gadjust := adjust_zero },
                       writes := h.writes ++ [RegWrite.gadjust adjust_zero] },
      win := tune_init, adjust := h.regs.gadjust, probes := 0 }
    rfl hd2 hk hpass

/-- Witness for C25: the eMMC port at divisor 4 tuned with probes that pass at
the delays 3 and 0 only. -/
theorem tuned_delay_is_passing_sample_witness :
    host_emmc_div4.regs.gclock.div ≤ 63
      ∧ tune_pass env_wrap host_emmc_div4.regs.gcfg.ddr MMC_SEND_TUNING_BLOCK
          env_wrap.tuning_blk_pattern_4bit 4 0x2000 0 3 = true
      ∧ ∃ out, aml_sd_emmc_execute_tuning_ env_wrap host_emmc_div4 MMC_SEND_TUNING_BLOCK
            { blk_pattern := env_wrap.tuning_blk_pattern_4bit, blksz := 4 } 1 = some out
          ∧ out.ret = 0
          ∧ out.host.regs.gadjust.adj_delay < host_emmc_div4.regs.gclock.div
          ∧ tune_pass env_wrap host_emmc_div4.regs.gcfg.ddr MMC_SEND_TUNING_BLOCK
              env_wrap.tuning_blk_pattern_4bit
              (tune_blksz host_emmc_div4 4) 0x2000 0 out.host.regs.gadjust.adj_delay = true :=
  ⟨by decide, by decide,
   (tuned_delay_is_passing_sample env_wrap host_emmc_div4 MMC_SEND_TUNING_BLOCK
      { blk_pattern := env_wrap.tuning_blk_pattern_4bit, blksz := 4 } 0 0x2000
      (by decide) rfl ⟨3, by decide, by decide⟩).imp
    (fun _ ho => ⟨ho.1, ho.2.1, ho.2.2.1, ho.2.2.2.1⟩)⟩


/-! ### C26: the clock is not above the target -/

/-- The clock register after `aml_sd_emmc_clk_switch`: the divisor field holds
the divisor asked for, or its low 6 bits; the source field holds the source
asked for, or its low 2 bits. -/
theorem clk_switch_gclock (h : Host) (clk_div clk_src_sel : Nat) :
    ((aml_sd_emmc_clk_switch h clk_div clk_src_sel).regs.gclock.div = clk_div
        ∧ (aml_sd_emmc_clk_switch h clk_div clk_src_sel).regs.gclock.src = clk_src_sel)
      ∨ ((aml_sd_emmc_clk_switch h clk_div clk_src_sel).regs.gclock.div = clk_div % 64
        ∧ (aml_sd_emmc_clk_switch h clk_div clk_src_sel).regs.gclock.src = clk_src_sel % 4) := by
  unfold aml_sd_emmc_clk_switch
  split
  · rename_i hc
    simp only [Bool.and_eq_true, beq_iff_eq] at hc
    exact Or.inl ⟨hc.1.2, hc.2⟩
  · exact Or.inr ⟨rfl, rfl⟩

/-- C26, counterexample. On the eMMC port (`f_min` 400 kHz, `f_max` 200 MHz) a
request for 142,857,142 Hz uses the 1 GHz source and is its own target; the
divisor computed is 8 and `actual_clock` is 125,000,000, although the smaller
divisor 7 already has its integer quotient `1000000000 / 7 = 142857142` at or
below the target. On an SD port with `f_min` 300 kHz a request for 300 kHz
uses the 24 MHz source, the divisor computed is 80 and `actual_clock` is
300,000; the 6-bit register field keeps 16, and the clock programmed is
`24000000 / 16 = 1500000`, above the target. -/
theorem set_clk_rate_divisor_not_least_and_truncated :
    (clk_clamp host_emmc.f_min host_emmc.f_max 142857142 = 142857142
      ∧ clk_rate_of (clk_src_sel_of 142857142) = 1000000000
      ∧ clk_div_of (clk_rate_of (clk_src_sel_of 142857142))
          (clk_clamp host_emmc.f_min host_emmc.f_max 142857142) = 8
      ∧ (aml_sd_emmc_set_clk_rate host_emmc 142857142).actual_clock = 125000000
      ∧ 7 < 8 ∧ clk_rate_of (clk_src_sel_of 142857142) / 7 ≤ 142857142)
    ∧ (clk_clamp host_sd_300khz.f_min host_sd_300khz.f_max 300000 = 300000
      ∧ clk_rate_of (clk_src_sel_of 300000) = 24000000
      ∧ clk_div_of (clk_rate_of (clk_src_sel_of 300000))
          (clk_clamp host_sd_300khz.f_min host_sd_300khz.f_max 300000) = 80
      ∧ (aml_sd_emmc_set_clk_rate host_sd_300khz 300000).actual_clock = 300000
      ∧ (aml_sd_emmc_set_clk_rate host_sd_300khz 300000).regs.gclock.div = 16
      ∧ (aml_sd_emmc_set_clk_rate host_sd_300khz 300000).regs.gclock.src
          = SD_EMMC_CLOCK_SRC_OSC
      ∧ clk_rate_of (aml_sd_emmc_set_clk_rate host_sd_300khz 300000).regs.gclock.src
          / (aml_sd_emmc_set_clk_rate host_sd_300khz 300000).regs.gclock.div = 1500000
      ∧ 300000 < 1500000) := by
  refine ⟨⟨by decide, by decide, by decide, by decide, by decide, by decide⟩,
    by decide, by decide, by decide, by decide, by decide, by decide, by decide, by decide⟩

/-- The divisor `clk_div_of rate t` is at least 1, its integer quotient is at
most `t`, and it is the least `d` with `rate ≤ d * t`. -/
theorem clk_div_of_least (rate t : Nat) (hr : 0 < rate) (ht : 0 < t) :
    1 ≤ clk_div_of rate t ∧ rate / clk_div_of rate t ≤ t ∧ rate ≤ clk_div_of rate t * t
      ∧ ∀ d, 1 ≤ d → rate ≤ d * t → clk_div_of rate t ≤ d := by
  rw [clk_div_of_eq_ceil rate t ht]
  obtain ⟨h1, h2⟩ := ceil_div_bounds rate t hr ht
  have hD : 1 ≤ (rate + t - 1) / t := by
    rcases Nat.eq_zero_or_pos ((rate + t - 1) / t) with h0 | h0
    · rw [h0] at h1
      omega
    · exact h0
  refine ⟨hD, Nat.div_le_of_le_mul h1, h1, ?_⟩
  intro d _ hd
  by_contra hcon
  have hle : d ≤ (rate + t - 1) / t - 1 := by omega
  have := Nat.mul_le_mul_right t hle
  omega

/-- C26, amended. For a requested clock `clk_ios > 0` whose target `t`, the
request clamped by `f_max` and then `f_min`, is not 0: the divisor `d` that
`aml_sd_emmc_set_clk_rate` computes and hands to `aml_sd_emmc_clk_switch` is at
least 1, `actual_clock` is the integer quotient `rate / d` and is at most `t`,
and `d` is the smallest positive integer with `rate <= d * t`, that is, whose
exact quotient is at most `t`. When `d` fits the 6-bit divisor field
(`d <= 63`, which holds whenever `f_min >= 380953` and `f_max >= 15873016`),
the clock register holds `d` and the source selected, it is the value saved in
`pdata->clkc`, and the clock programmed, the rate of the register's source
divided by the register's divisor, is `actual_clock` and is at most `t`. -/
theorem set_clk_rate_programmed_clock_not_above_target (h : Host) (clk_ios : Nat)
    (hpos : 0 < clk_ios) (ht : 0 < clk_clamp h.f_min h.f_max clk_ios) :
    aml_sd_emmc_set_clk_rate h clk_ios
        = { aml_sd_emmc_clk_switch h
              (clk_div_of (clk_rate_of (clk_src_sel_of clk_ios))
                (clk_clamp h.f_min h.f_max clk_ios))
              (clk_src_sel_of clk_ios) with
            clkc := (aml_sd_emmc_clk_switch h
              (clk_div_of (clk_rate_of (clk_src_sel_of clk_ios))
                (clk_clamp h.f_min h.f_max clk_ios))
              (clk_src_sel_of clk_ios)).regs.gclock,
            actual_clock := clk_rate_of (clk_src_sel_of clk_ios)
              / clk_div_of (clk_rate_of (clk_src_sel_of clk_ios))
                  (clk_clamp h.f_min h.f_max clk_ios) }
      ∧ 1 ≤ clk_div_of (clk_rate_of (clk_src_sel_of clk_ios))
              (clk_clamp h.f_min h.f_max clk_ios)
      ∧ (aml_sd_emmc_set_clk_rate h clk_ios).actual_clock
          = clk_rate_of (clk_src_sel_of clk_ios)
              / clk_div_of (clk_rate_of (clk_src_sel_of clk_ios))
                  (clk_clamp h.f_min h.f_max clk_ios)
      ∧ (aml_sd_emmc_set_clk_rate h clk_ios).actual_clock ≤ clk_clamp h.f_min h.f_max clk_ios
      ∧ clk_rate_of (clk_src_sel_of clk_ios)
          ≤ clk_div_of (clk_rate_of (clk_src_sel_of clk_ios))
              (clk_clamp h.f_min h.f_max clk_ios) * clk_clamp h.f_min h.f_max clk_ios
      ∧ (∀ d, 1 ≤ d → clk_rate_of (clk_src_sel_of clk_ios)
            ≤ d * clk_clamp h.f_min h.f_max clk_ios →
          clk_div_of (clk_rate_of (clk_src_sel_of clk_ios))
            (clk_clamp h.f_min h.f_max clk_ios) ≤ d)
      ∧ (380953 ≤ h.f_min → 15873016 ≤ h.f_max →
          clk_div_of (clk_rate_of (clk_src_sel_of clk_ios))
            (clk_clamp h.f_min h.f_max clk_ios) ≤ 63)
      ∧ (clk_div_of (clk_rate_of (clk_src_sel_of clk_ios))
            (clk_clamp h.f_min h.f_max clk_ios) ≤ 63 →
          (aml_sd_emmc_set_clk_rate h clk_ios).regs.gclock.div
              = clk_div_of (clk_rate_of (clk_src_sel_of clk_ios))
                  (clk_clamp h.f_min h.f_max clk_ios)
          ∧ (aml_sd_emmc_set_clk_rate h clk_ios).regs.gclock.src = clk_src_sel_of clk_ios
          ∧ (aml_sd_emmc_set_clk_rate h clk_ios).clkc
              = (aml_sd_emmc_set_clk_rate h clk_ios).regs.gclock
          ∧ clk_rate_of (aml_sd_emmc_set_clk_rate h clk_ios).regs.gclock.src
              / (aml_sd_emmc_set_clk_rate h clk_ios).regs.gclock.div
              = (aml_sd_emmc_set_clk_rate h clk_ios).actual_clock
          ∧ clk_rate_of (aml_sd_emmc_set_clk_rate h clk_ios).regs.gclock.src
              / (aml_sd_emmc_set_clk_rate h clk_ios).regs.gclock.div
              ≤ clk_clamp h.f_min h.f_max clk_ios) := by
  have hne : clk_ios ≠ 0 := by omega
  have hrpos : 0 < clk_rate_of (clk_src_sel_of clk_ios) := by
    unfold clk_rate_of
    split <;> omega
  obtain ⟨h1, h2, h3, h4⟩ := clk_div_of_least (clk_rate_of (clk_src_sel_of clk_ios))
    (clk_clamp h.f_min h.f_max clk_ios) hrpos ht
  have hrun : aml_sd_emmc_set_clk_rate h clk_ios
      = { aml_sd_emmc_clk_switch h
            (clk_div_of (clk_rate_of (clk_src_sel_of clk_ios))
              (clk_clamp h.f_min h.f_max clk_ios))
            (clk_src_sel_of clk_ios) with
          clkc := (aml_sd_emmc_clk_switch h
            (clk_div_of (clk_rate_of (clk_src_sel_of clk_ios))
              (clk_clamp h.f_min h.f_max clk_ios))
            (clk_src_sel_of clk_ios)).regs.gclock,
          actual_clock := clk_rate_of (clk_src_sel_of clk_ios)
            / clk_div_of (clk_rate_of (clk_src_sel_of clk_ios))
                (clk_clamp h.f_min h.f_max clk_ios) } := by
    unfold aml_sd_emmc_set_clk_rate
    rw [if_neg hne]
  have hact : (aml_sd_emmc_set_clk_rate h clk_ios).actual_clock
      = clk_rate_of (clk_src_sel_of clk_ios)
          / clk_div_of (clk_rate_of (clk_src_sel_of clk_ios))
              (clk_clamp h.f_min h.f_max clk_ios) := by
    rw [hrun]
  have hregs : (aml_sd_emmc_set_clk_rate h clk_ios).regs
      = (aml_sd_emmc_clk_switch h
          (clk_div_of (clk_rate_of (clk_src_sel_of clk_ios))
            (clk_clamp h.f_min h.f_max clk_ios))
          (clk_src_sel_of clk_ios)).regs := by
    rw [hrun]
  have hclkc : (aml_sd_emmc_set_clk_rate h clk_ios).clkc
      = (aml_sd_emmc_set_clk_rate h clk_ios).regs.gclock := by
    rw [hregs, hrun]
  have hsrc : clk_src_sel_of clk_ios ≤ 3 := by
    unfold clk_src_sel_of SD_EMMC_CLOCK_SRC_OSC SD_EMMC_CLOCK_SRC_FCLK_DIV2
    split <;> omega
  refine ⟨hrun, h1, hact, hact.trans_le h2, h3, h4, ?_, ?_⟩
  · intro hmin hmax
    apply h4 63 (by omega)
    unfold clk_rate_of clk_src_sel_of clk_clamp SD_EMMC_CLOCK_SRC_OSC
      SD_EMMC_CLOCK_SRC_FCLK_DIV2
    dsimp only
    split_ifs <;> omega
  · intro h63
    have hreg : (aml_sd_emmc_set_clk_rate h clk_ios).regs.gclock.div
          = clk_div_of (clk_rate_of (clk_src_sel_of clk_ios))
              (clk_clamp h.f_min h.f_max clk_ios)
        ∧ (aml_sd_emmc_set_clk_rate h clk_ios).regs.gclock.src = clk_src_sel_of clk_ios := by
      rw [hregs]
      rcases clk_switch_gclock h
        (clk_div_of (clk_rate_of (clk_src_sel_of clk_ios))
          (clk_clamp h.f_min h.f_max clk_ios))
        (clk_src_sel_of clk_ios) with e | e
      · exact e
      · rw [Nat.mod_eq_of_lt (by omega), Nat.mod_eq_of_lt (by omega)] at e
        exact e
    refine ⟨hreg.1, hreg.2, hclkc, ?_, ?_⟩
    · rw [hreg.1, hreg.2, hact]
    · rw [hreg.1, hreg.2]
      exact h2

/-- Witness for C26: 30 MHz on the eMMC port gives divisor 34, which the clock
register holds, and 29,411,764 Hz. -/
theorem set_clk_rate_programmed_clock_not_above_target_witness :
    0 < clk_clamp host_emmc.f_min host_emmc.f_max 30000000
      ∧ clk_div_of (clk_rate_of (clk_src_sel_of 30000000))
          (clk_clamp host_emmc.f_min host_emmc.f_max 30000000) = 34
      ∧ (aml_sd_emmc_set_clk_rate host_emmc 30000000).actual_clock
          ≤ clk_clamp host_emmc.f_min host_emmc.f_max 30000000
      ∧ (aml_sd_emmc_set_clk_rate host_emmc 30000000).regs.gclock.div = 34
      ∧ clk_rate_of (aml_sd_emmc_set_clk_rate host_emmc 30000000).regs.gclock.src
          / (aml_sd_emmc_set_clk_rate host_emmc 30000000).regs.gclock.div
          ≤ clk_clamp host_emmc.f_min host_emmc.f_max 30000000 :=
  ⟨by decide, by decide,
   (set_clk_rate_programmed_clock_not_above_target host_emmc 30000000 (by decide)
      (by decide)).2.2.2.1,
   by decide,
   ((set_clk_rate_programmed_clock_not_above_target host_emmc 30000000 (by decide)
      (by decide)).2.2.2.2.2.2.2 (by decide)).2.2.2.2⟩


/-! ### C27: interrupt without a request -/

/-- C27, the guard as coded. On a host without a request
(`host->mrq = NULL`), `aml_sd_emmc_irq` returns with the host untouched when
the interrupt stops at the entry tests or the SDIO interrupt is disabled in the
interrupt-enable register: the guard is `!mrq && !irqc->irq_sdio`. With the SDIO
interrupt enabled an interrupt that passes the entry tests reaches the status
tests with `mrq = NULL`: a status of one of the classified kinds makes the
handler store through the NULL request (`mrq->cmd->error`, and `mrq->data` is
read for end of chain), and any other status changes `xfer_step` to
`XFER_IRQ_UNKNOWN_IRQ`. -/
theorem irq_null_request_guard_skipped_for_sdio (h : Host) (i : IrqIn) (hm : h.mrq = none) :
    ((irq_early_return i = true ∨ ista_irq_sdio (i.girq_en &&& 0xffff) = false) →
        aml_sd_emmc_irq h i = (h, IrqReturn.IRQ_HANDLED))
    ∧ (irq_reaches_null_request h i = true →
        (irq_classify (i.gstatus &&& 0xffff) ≠ IrqClass.unknown →
          (aml_sd_emmc_irq h i).1.oops = true)
        ∧ (irq_classify (i.gstatus &&& 0xffff) = IrqClass.unknown →
          (aml_sd_emmc_irq h i).1.xfer_step = XferStep.XFER_IRQ_UNKNOWN_IRQ
          ∧ (aml_sd_emmc_irq h i).2 = IrqReturn.IRQ_HANDLED)) := by
  constructor
  · intro hg
    unfold aml_sd_emmc_irq
    rcases hg with hg | hg
    · simp [hg]
    · simp [hg, hm]
  · intro hr
    unfold irq_reaches_null_request at hr
    simp only [Bool.and_eq_true, Bool.not_eq_true', hm, Option.isNone_none, true_and] at hr
    obtain ⟨he, hs⟩ := hr
    have hrun : aml_sd_emmc_irq h i
        = (if (irq_apply (write_gstatus h (i.gstatus &&& 0xffff))
                (i.gstatus &&& 0xffff)).xfer_step != XferStep.XFER_IRQ_UNKNOWN_IRQ
            then (irq_apply (write_gstatus h (i.gstatus &&& 0xffff)) (i.gstatus &&& 0xffff),
                    IrqReturn.IRQ_WAKE_THREAD)
            else (irq_apply (write_gstatus h (i.gstatus &&& 0xffff)) (i.gstatus &&& 0xffff),
                    IrqReturn.IRQ_HANDLED)) := by
      unfold aml_sd_emmc_irq
      simp [he, hs, hm]
    constructor
    · intro hc
      rw [hrun, ite_pair_fst]
      unfold irq_apply
      cases hcl : irq_classify (i.gstatus &&& 0xffff) with
      | unknown => exact absurd hcl hc
      | dat_crc => simp [set_cmd_error, write_gstatus, hm]
      | rsp_crc => simp [set_cmd_error, write_gstatus, hm]
      | rsp_timeout => simp [set_cmd_error, write_gstatus, hm]
      | dat_timeout => simp [set_cmd_error, write_gstatus, hm]
      | done => simp [write_gstatus, hm]
    · intro hc
      rw [hrun]
      simp [irq_apply, hc]

/-- Witness for C27: the late end-of-chain interrupt of a command the watchdog
has completed on the SDIO port, with the SDIO interrupt enabled. -/
theorem irq_null_request_guard_skipped_for_sdio_witness :
    host_sdio_timed_out.mrq = none
      ∧ host_sdio_timed_out.xfer_step = XferStep.XFER_FINISHED
      ∧ host_sdio_timed_out.oops = false
      ∧ irq_reaches_null_request host_sdio_timed_out irq_sdio_end_of_chain = true
      ∧ (aml_sd_emmc_irq host_sdio_timed_out irq_sdio_end_of_chain).1.oops = true :=
  ⟨by decide, by decide, by decide, by decide,
   ((irq_null_request_guard_skipped_for_sdio host_sdio_timed_out irq_sdio_end_of_chain
      (by decide)).2 (by decide)).1 (by decide)⟩


/-! ### C28: watchdog after completion -/

/-- After the two storing blocks of `emmc_debug` the clock and line-delay
registers hold the local copies. -/
theorem emmc_debug_store_regs (h : Host) (l : DebugLocals) :
    (emmc_debug_store h l).regs.gclock = l.vclkc
      ∧ (emmc_debug_store h l).regs.gdelay = l.line_delay := by
  have hc : (emmc_debug_store_clock h l.vclkc).regs.gclock = l.vclkc := by
    unfold emmc_debug_store_clock
    by_cases hc : l.vclkc = h.regs.gclock
    · rw [if_neg (not_not.mpr hc)]
      exact hc.symm
    · rw [if_pos hc]
      rfl
  unfold emmc_debug_store emmc_debug_store_delay
  by_cases hd : l.line_delay = (emmc_debug_store_clock h l.vclkc).regs.gdelay
  · rw [if_neg (not_not.mpr hd)]
    exact ⟨hc, hd.symm⟩
  · rw [if_pos hd]
    exact ⟨hc, rfl⟩

/-- C29. The store of the eMMC debug attribute never reports success. For
every input buffer, every result of `sscanf` and every content of the
uninitialised locals, `emmc_debug` returns `-EINVAL` and not `count`: its final
test `ret != 1 || ret != 2` holds for every value of `ret`. This is so also
after a successful parse: when `sscanf` has returned 1 for `clock`, the clock
register holds the new divisor on return. -/
theorem emmc_debug_never_succeeds (env : DebugEnv) (h : Host) (buf : List Char) (count : Nat) :
    (emmc_debug env h buf count).ret = -EINVAL
      ∧ (emmc_debug env h buf count).ret ≠ (count : Int)
      ∧ (∀ ret : Nat, ret ≠ 1 ∨ ret ≠ 2)
      ∧ (emmc_debug env h buf count).host = emmc_debug_store h (emmc_debug_switch env h buf)
      ∧ (∀ v, buf.getD 0 (Char.ofNat 0) = 'c' → buf.getD 1 (Char.ofNat 0) = 'l' →
          env.sscanf buf DebugFmt.clock = (1, some v) →
          (emmc_debug_switch env h buf).ret = 1
          ∧ (emmc_debug env h buf count).host.regs.gclock.div
              = (if v < 50 then v
                  else 1000000000 / v + (if 1000000000 % v != 0 then 1 else 0)) % 64) := by
  have htaut : ∀ ret : Nat, ret ≠ 1 ∨ ret ≠ 2 := by
    intro ret
    omega
  have hret : (emmc_debug env h buf count).ret = -EINVAL := by
    unfold emmc_debug
    simp only [if_pos (htaut _)]
  have hhost : (emmc_debug env h buf count).host
      = emmc_debug_store h (emmc_debug_switch env h buf) := by
    unfold emmc_debug
    simp only [if_pos (htaut _)]
  refine ⟨hret, ?_, htaut, hhost, ?_⟩
  · rw [hret]
    unfold EINVAL
    omega
  · intro v h0 h1 hs
    have hl : emmc_debug_switch env h buf
        = { ret := 1,
            vclkc := { h.regs.gclock with
              div := (if v < 50 then v
                else 1000000000 / v + (if 1000000000 % v != 0 then 1 else 0)) % 64 },
            line_delay := h.regs.gdelay, adjust := h.regs.gadjust } := by
      unfold emmc_debug_switch
      simp only [h0, h1, hs, if_true, Option.getD_some]
    refine ⟨by rw [hl], ?_⟩
    rw [hhost, (emmc_debug_store_regs h _).1, hl]

/-- C29, evaluated: `clock 50000000` written to the attribute of the idle eMMC
port. The parse succeeds, the divisor 20 replaces 60 in the clock register, and
the value returned is `-EINVAL`, not the count 15. -/
theorem emmc_debug_never_succeeds_witness :
    env_clock_50mhz.sscanf ['c', 'l', 'o', 'c', 'k', ' ', '5', '0', '0', '0', '0', '0', '0', '0']
        DebugFmt.clock = (1, some 50000000)
      ∧ host_emmc.regs.gclock.div = 60
      ∧ (emmc_debug env_clock_50mhz host_emmc
          ['c', 'l', 'o', 'c', 'k', ' ', '5', '0', '0', '0', '0', '0', '0', '0']
          15).host.regs.gclock.div = 20
      ∧ (emmc_debug env_clock_50mhz host_emmc
          ['c', 'l', 'o', 'c', 'k', ' ', '5', '0', '0', '0', '0', '0', '0', '0'] 15).ret
          = -EINVAL :=
  ⟨rfl, rfl, by decide,
   (emmc_debug_never_succeeds env_clock_50mhz host_emmc
      ['c', 'l', 'o', 'c', 'k', ' ', '5', '0', '0', '0', '0', '0', '0', '0'] 15).1⟩


/-! ### C30: sleep state machine of the demodulator -/

/-- A transfer changes neither the state nor the delivery system. -/
theorem cxd2837er_transfer_state (env : I2cEnv) (priv : cxd2837er_priv) (msg : i2c_msg) :
    (cxd2837er_transfer env priv msg).1.state = priv.state
      ∧ (cxd2837er_transfer env priv msg).1.system = priv.system :=
  ⟨rfl, rfl⟩

/-- A register write changes neither the state nor the delivery system. -/
theorem cxd2837er_write_regs_state (env : I2cEnv) (priv : cxd2837er_priv) (addr reg : Nat)
    (data : List Nat) :
    (cxd2837er_write_regs env priv addr reg data).1.state = priv.state
      ∧ (cxd2837er_write_regs env priv addr reg data).1.system = priv.system := by
  unfold cxd2837er_write_regs
  split
  · exact ⟨rfl, rfl⟩
  · exact cxd2837er_transfer_state env priv _

/-- A register read changes neither the state nor the delivery system. -/
theorem cxd2837er_read_reg_state (env : I2cEnv) (priv : cxd2837er_priv) (addr reg : Nat) :
    (cxd2837er_read_reg env priv addr reg).1.state = priv.state
      ∧ (cxd2837er_read_reg env priv addr reg).1.system = priv.system := by
  unfold cxd2837er_read_reg
  dsimp only
  split
  · exact cxd2837er_transfer_state env priv _
  · split <;> exact ⟨rfl, rfl⟩

/-- A read-modify-write of a register changes neither the state nor the
delivery system. -/
theorem cxd2837er_set_reg_bits_state (env : I2cEnv) (priv : cxd2837er_priv)
    (addr reg data mask : Nat) :
    (cxd2837er_set_reg_bits env priv addr reg data mask).1.state = priv.state
      ∧ (cxd2837er_set_reg_bits env priv addr reg data mask).1.system = priv.system := by
  have hr := cxd2837er_read_reg_state env priv addr reg
  unfold cxd2837er_set_reg_bits
  split
  · dsimp only
    split
    · exact hr
    · have hw := cxd2837er_write_regs_state env (cxd2837er_read_reg env priv addr reg).1 addr reg
        [(data &&& mask) ||| ((cxd2837er_read_reg env priv addr reg).2.2 &&& (mask ^^^ 0xff))]
      exact ⟨hw.1.trans hr.1, hw.2.trans hr.2⟩
  · exact cxd2837er_write_regs_state env priv addr reg [data]

/-- The four guarded transitions: from a state other than the source state the
function returns `-EINVAL` and leaves the demodulator as it is; from the source
state it returns 0 and leaves the target state. -/
theorem cxd2837er_guarded_transitions (env : I2cEnv) (priv : cxd2837er_priv) :
    (priv.state ≠ cxd2837er_state.STATE_SLEEP_TC →
        cxd2837er_sleep_tc_to_shutdown env priv = (priv, -EINVAL))
    ∧ (priv.state = cxd2837er_state.STATE_SLEEP_TC →
        (cxd2837er_sleep_tc_to_shutdown env priv).2 = 0
        ∧ (cxd2837er_sleep_tc_to_shutdown env priv).1.state = cxd2837er_state.STATE_SHUTDOWN)
    ∧ (priv.state ≠ cxd2837er_state.STATE_ACTIVE_TC →
        cxd2837er_active_t_to_sleep_tc env priv = (priv, -EINVAL)
        ∧ cxd2837er_active_t2_to_sleep_tc env priv = (priv, -EINVAL)
        ∧ cxd2837er_active_c_to_sleep_tc env priv = (priv, -EINVAL))
    ∧ (priv.state = cxd2837er_state.STATE_ACTIVE_TC →
        ((cxd2837er_active_t_to_sleep_tc env priv).2 = 0
          ∧ (cxd2837er_active_t_to_sleep_tc env priv).1.state = cxd2837er_state.STATE_SLEEP_TC)
        ∧ ((cxd2837er_active_t2_to_sleep_tc env priv).2 = 0
          ∧ (cxd2837er_active_t2_to_sleep_tc env priv).1.state = cxd2837er_state.STATE_SLEEP_TC)
        ∧ ((cxd2837er_active_c_to_sleep_tc env priv).2 = 0
          ∧ (cxd2837er_active_c_to_sleep_tc env priv).1.state = cxd2837er_state.STATE_SLEEP_TC))
    ∧ (priv.state ≠ cxd2837er_state.STATE_SHUTDOWN →
        cxd2837er_shutdown_to_sleep_tc env priv = (priv, -EINVAL))
    ∧ (priv.state = cxd2837er_state.STATE_SHUTDOWN →
        (cxd2837er_shutdown_to_sleep_tc env priv).2 = 0
        ∧ (cxd2837er_shutdown_to_sleep_tc env priv).1.state = cxd2837er_state.STATE_SLEEP_TC) := by
  refine ⟨?_, ?_, ?_, ?_, ?_, ?_⟩
  · intro hs
    unfold cxd2837er_sleep_tc_to_shutdown
    rw [if_pos hs]
  · intro hs
    unfold cxd2837er_sleep_tc_to_shutdown
    rw [if_neg (not_not.mpr hs)]
    exact ⟨rfl, rfl⟩
  · intro hs
    refine ⟨?_, ?_, ?_⟩
    · unfold cxd2837er_active_t_to_sleep_tc
      rw [if_pos hs]
    · unfold cxd2837er_active_t2_to_sleep_tc
      rw [if_pos hs]
    · unfold cxd2837er_active_c_to_sleep_tc
      rw [if_pos hs]
  · intro hs
    refine ⟨?_, ?_, ?_⟩
    · unfold cxd2837er_active_t_to_sleep_tc
      rw [if_neg (not_not.mpr hs)]
      exact ⟨rfl, rfl⟩
    · unfold cxd2837er_active_t2_to_sleep_tc
      rw [if_neg (not_not.mpr hs)]
      exact ⟨rfl, rfl⟩
    · unfold cxd2837er_active_c_to_sleep_tc
      rw [if_neg (not_not.mpr hs)]
      exact ⟨rfl, rfl⟩
  · intro hs
    unfold cxd2837er_shutdown_to_sleep_tc
    rw [if_pos hs]
  · intro hs
    unfold cxd2837er_shutdown_to_sleep_tc
    rw [if_neg (not_not.mpr hs)]
    exact ⟨rfl, rfl⟩

/-- C30. Sleep state machine of the demodulator, for every state, delivery
system and behaviour of the I2C bus. `cxd2837er_sleep_tc` returns 0 and leaves
`STATE_SHUTDOWN` when called in `STATE_SLEEP_TC`, or in `STATE_ACTIVE_TC` with
the system DVB-T, DVB-T2 or DVB-C annex A; it returns `-EINVAL` and leaves the
demodulator untouched (state unchanged, no register written) when called in
`STATE_SHUTDOWN`, or in `STATE_ACTIVE_TC` with any other system. Each guarded
transition (`cxd2837er_sleep_tc_to_shutdown`, `cxd2837er_active_t_to_sleep_tc`,
`cxd2837er_active_t2_to_sleep_tc`, `cxd2837er_active_c_to_sleep_tc`,
`cxd2837er_shutdown_to_sleep_tc`) called from a state other than its source
state returns `-EINVAL` and changes nothing. -/
theorem cxd2837er_sleep_state_machine (env : I2cEnv) (priv : cxd2837er_priv) :
    ((priv.state = cxd2837er_state.STATE_SLEEP_TC
        ∨ (priv.state = cxd2837er_state.STATE_ACTIVE_TC
            ∧ (priv.system = SYS_DVBT ∨ priv.system = SYS_DVBT2
                ∨ priv.system = SYS_DVBC_ANNEX_A))) →
      (cxd2837er_sleep_tc env priv).2 = 0
      ∧ (cxd2837er_sleep_tc env priv).1.state = cxd2837er_state.STATE_SHUTDOWN)
    ∧ ((priv.state = cxd2837er_state.STATE_SHUTDOWN
        ∨ (priv.state = cxd2837er_state.STATE_ACTIVE_TC
            ∧ priv.system ≠ SYS_DVBT ∧ priv.system ≠ SYS_DVBT2
            ∧ priv.system ≠ SYS_DVBC_ANNEX_A)) →
      cxd2837er_sleep_tc env priv = (priv, -EINVAL))
    ∧ (priv.state ≠ cxd2837er_state.STATE_SLEEP_TC →
        cxd2837er_sleep_tc_to_shutdown env priv = (priv, -EINVAL))
    ∧ (priv.state ≠ cxd2837er_state.STATE_ACTIVE_TC →
        cxd2837er_active_t_to_sleep_tc env priv = (priv, -EINVAL)
        ∧ cxd2837er_active_t2_to_sleep_tc env priv = (priv, -EINVAL)
        ∧ cxd2837er_active_c_to_sleep_tc env priv = (priv, -EINVAL))
    ∧ (priv.state ≠ cxd2837er_state.STATE_SHUTDOWN →
        cxd2837er_shutdown_to_sleep_tc env priv = (priv, -EINVAL)) := by
  obtain ⟨g1, _, g3, g4, g5, _⟩ := cxd2837er_guarded_transitions env priv
  refine ⟨?_, ?_, g1, g3, g5⟩
  · intro hs
    have hp : ∃ p : cxd2837er_priv, p.state = cxd2837er_state.STATE_SLEEP_TC
        ∧ cxd2837er_sleep_tc env priv
          = (if p.state ≠ cxd2837er_state.STATE_SLEEP_TC then (p, -EINVAL)
              else ((cxd2837er_sleep_tc_to_shutdown env p).1, 0)) := by
      rcases hs with hs | ⟨hs, hsys⟩
      · refine ⟨priv, hs, ?_⟩
        unfold cxd2837er_sleep_tc
        have hna : priv.state ≠ cxd2837er_state.STATE_ACTIVE_TC := by
          rw [hs]
          decide
        simp only [if_neg hna]
      · by_cases h1 : priv.system = SYS_DVBT
        · refine ⟨(cxd2837er_active_t_to_sleep_tc env priv).1, (g4 hs).1.2, ?_⟩
          unfold cxd2837er_sleep_tc
          simp only [if_pos hs, if_pos h1]
        · by_cases h2 : priv.system = SYS_DVBT2
          · refine ⟨(cxd2837er_active_t2_to_sleep_tc env priv).1, (g4 hs).2.1.2, ?_⟩
            unfold cxd2837er_sleep_tc
            simp only [if_pos hs, if_neg h1, if_pos h2]
          · have h3 : priv.system = SYS_DVBC_ANNEX_A := by
              rcases hsys with h | h | h
              · exact absurd h h1
              · exact absurd h h2
              · exact h
            refine ⟨(cxd2837er_active_c_to_sleep_tc env priv).1, (g4 hs).2.2.2, ?_⟩
            unfold cxd2837er_sleep_tc
            simp only [if_pos hs, if_neg h1, if_neg h2, if_pos h3]
    obtain ⟨p, hps, hrun⟩ := hp
    rw [hrun, if_neg (not_not.mpr hps)]
    exact ⟨rfl, ((cxd2837er_guarded_transitions env p).2.1 hps).2⟩
  · intro hs
    unfold cxd2837er_sleep_tc
    rcases hs with hs | ⟨hs, h1, h2, h3⟩
    · have hna : priv.state ≠ cxd2837er_state.STATE_ACTIVE_TC := by
        rw [hs]
        decide
      have hns : priv.state ≠ cxd2837er_state.STATE_SLEEP_TC := by
        rw [hs]
        decide
      simp only [if_neg hna, if_pos hns]
    · have hns : priv.state ≠ cxd2837er_state.STATE_SLEEP_TC := by
        rw [hs]
        decide
      simp only [if_pos hs, if_neg h1, if_neg h2, if_neg h3, if_pos hns]

/-- C30, evaluated: the demodulator active on DVB-T2, on a bus where every
transfer succeeds, goes to `STATE_SHUTDOWN` through `cxd2837er_sleep_tc`, which
returns 0 and hands 30 messages to the bus on the way. -/
theorem cxd2837er_sleep_state_machine_witness :
    priv_active_t2.state = cxd2837er_state.STATE_ACTIVE_TC
      ∧ (cxd2837er_sleep_tc i2c_ok priv_active_t2).2 = 0
      ∧ (cxd2837er_sleep_tc i2c_ok priv_active_t2).1.state = cxd2837er_state.STATE_SHUTDOWN
      ∧ (cxd2837er_sleep_tc i2c_ok priv_active_t2).1.msgs.length = 30 :=
  ⟨rfl,
   ((cxd2837er_sleep_state_machine i2c_ok priv_active_t2).1
      (Or.inr ⟨rfl, Or.inr (Or.inl rfl)⟩)).1,
   ((cxd2837er_sleep_state_machine i2c_ok priv_active_t2).1
      (Or.inr ⟨rfl, Or.inr (Or.inl rfl)⟩)).2,
   by decide⟩


/-! ### C2: the paths that complete a request -/

/-- The status branches of the interrupt handler on a host that holds a
request, for a classified status: the transfer state and `cmd_is_stop` stay,
and the status latched is not `HOST_INVALID`. -/
theorem irq_apply_classified (g : Host) (m : MmcRequest) (v : Nat) (hm : g.mrq = some m)
    (hc : irq_classify v ≠ IrqClass.unknown) :
    (irq_apply g v).xfer_step = g.xfer_step
      ∧ (irq_apply g v).status ≠ HostStatus.HOST_INVALID
      ∧ (irq_apply g v).cmd_is_stop = g.cmd_is_stop := by
  unfold irq_apply
  cases hcl : irq_classify v with
  | unknown => exact absurd hcl hc
  | dat_crc => simp [set_cmd_error, hm]
  | rsp_crc => simp [set_cmd_error, hm]
  | rsp_timeout => simp [set_cmd_error, hm]
  | dat_timeout => simp [set_cmd_error, hm]
  | done =>
    simp only [hm, set_cmd_error]
    refine ⟨trivial, ?_, trivial⟩
    split <;> decide

/-- An interrupt with a classified status on a host that holds a request wakes
the deferred dispatch: it returns `IRQ_WAKE_THREAD`, leaves the transfer state
it set on entry, and has latched a status. -/
theorem irq_classified_live (h : Host) (m : MmcRequest) (i : IrqIn) (hm : h.mrq = some m)
    (hi : irq_early_return i = false)
    (hc : irq_classify (i.gstatus &&& 0xffff) ≠ IrqClass.unknown) :
    (aml_sd_emmc_irq h i).2 = IrqReturn.IRQ_WAKE_THREAD
      ∧ (aml_sd_emmc_irq h i).1.xfer_step
          = (if h.cmd_is_stop then XferStep.XFER_IRQ_TASKLET_BUSY else XferStep.XFER_IRQ_OCCUR)
      ∧ (aml_sd_emmc_irq h i).1.status ≠ HostStatus.HOST_INVALID
      ∧ (aml_sd_emmc_irq h i).1.cmd_is_stop = h.cmd_is_stop := by
  obtain ⟨h1, h2, h3⟩ := irq_apply_classified
    (write_gstatus
      { h with xfer_step := if h.cmd_is_stop then XferStep.XFER_IRQ_TASKLET_BUSY
                            else XferStep.XFER_IRQ_OCCUR }
      (i.gstatus &&& 0xffff))
    m (i.gstatus &&& 0xffff) hm hc
  have hx : (irq_apply (write_gstatus
      { h with xfer_step := if h.cmd_is_stop then XferStep.XFER_IRQ_TASKLET_BUSY
                            else XferStep.XFER_IRQ_OCCUR }
      (i.gstatus &&& 0xffff)) (i.gstatus &&& 0xffff)).xfer_step
      = (if h.cmd_is_stop then XferStep.XFER_IRQ_TASKLET_BUSY else XferStep.XFER_IRQ_OCCUR) :=
    h1
  have hne : ((irq_apply (write_gstatus
      { h with xfer_step := if h.cmd_is_stop then XferStep.XFER_IRQ_TASKLET_BUSY
                            else XferStep.XFER_IRQ_OCCUR }
      (i.gstatus &&& 0xffff)) (i.gstatus &&& 0xffff)).xfer_step
      != XferStep.XFER_IRQ_UNKNOWN_IRQ) = true := by
    rw [hx]
    split <;> decide
  have hrun : aml_sd_emmc_irq h i
      = (irq_apply (write_gstatus
          { h with xfer_step := if h.cmd_is_stop then XferStep.XFER_IRQ_TASKLET_BUSY
                                else XferStep.XFER_IRQ_OCCUR }
          (i.gstatus &&& 0xffff)) (i.gstatus &&& 0xffff), IrqReturn.IRQ_WAKE_THREAD) := by
    unfold aml_sd_emmc_irq
    simp only [hi, hm, Option.isNone_some, Option.isSome_some, Bool.false_and, if_true,
      Bool.false_eq_true, if_false]
    rw [hm] at hne
    rw [if_pos hne]
  rw [hrun]
  exact ⟨rfl, hx, h2, h3⟩

/-- The deferred dispatch on a live request whose interrupt latched a status:
it completes the request (with `cmd_is_stop` raised, or on success, or on an
error without STOP), or it sends the synthesized STOP. -/
theorem thread_dispatch_completes (cfg : BuildCfg) (D : List MmcRequest) (r : MmcRequest)
    (g : Host) (hf : InFlight D r g)
    (hx : g.xfer_step ≠ XferStep.XFER_TIMER_TIMEOUT)
    (hs : g.cmd_is_stop = true ∨ g.status ≠ HostStatus.HOST_INVALID) :
    Completed D r (aml_sd_emmc_data_thread cfg g)
      ∨ (g.cmd_is_stop = false
          ∧ aml_sd_emmc_data_thread cfg g = aml_sd_emmc_send_stop cfg g) := by
  obtain ⟨m, hm, hid, hd, hst⟩ := hf
  have hnf : ¬ (g.xfer_step = XferStep.XFER_FINISHED
      ∨ g.xfer_step = XferStep.XFER_TIMER_TIMEOUT) := by
    rintro (hc | hc)
    · rw [hc] at hst
      simp at hst
    · exact hx hc
  unfold aml_sd_emmc_data_thread
  rw [if_neg hnf]
  simp only [hm]
  by_cases hcs : g.cmd_is_stop = true
  · rw [if_pos hcs]
    exact Or.inl (request_done_completed D r _ _ hd ((req_id_error _ _).trans hid))
  · rw [if_neg hcs]
    have hcs2 : g.cmd_is_stop = false := by simpa using hcs
    have hs2 : g.status ≠ HostStatus.HOST_INVALID := by
      rcases hs with h1 | h1
      · exact absurd h1 hcs
      · exact h1
    split
    · split
      · rename_i data hdata
        split
        · exact Or.inl (request_done_completed D r _ _ hd
            ((req_id_bytes _ data _ _ hdata).trans hid))
        · exact Or.inl (request_done_completed D r _ _ hd ((req_id_error _ _).trans hid))
      · exact Or.inl (request_done_completed D r _ _ hd ((req_id_error _ _).trans hid))
    · split
      · rename_i data hdata
        split
        · exact Or.inl (request_done_completed D r _ _ hd
            ((req_id_bytes _ data _ _ hdata).trans hid))
        · exact Or.inl (request_done_completed D r _ _ hd ((req_id_error _ _).trans hid))
      · exact Or.inl (request_done_completed D r _ _ hd ((req_id_error _ _).trans hid))
    · split
      · exact Or.inr ⟨hcs2, rfl⟩
      · exact Or.inl (request_done_completed D r _ _ hd hid)
    · split
      · exact Or.inr ⟨hcs2, rfl⟩
      · exact Or.inl (request_done_completed D r _ _ hd hid)
    · split
      · exact Or.inr ⟨hcs2, rfl⟩
      · exact Or.inl (request_done_completed D r _ _ hd hid)
    · split
      · exact Or.inr ⟨hcs2, rfl⟩
      · exact Or.inl (request_done_completed D r _ _ hd hid)
    · rename_i hinv
      exact absurd hinv hs2

/-- With the synthesized STOP in flight, an interrupt that passes the entry
tests followed by the deferred dispatch completes the request. -/
theorem stop_irq_dispatch_completes (cfg : BuildCfg) (D : List MmcRequest) (r : MmcRequest)
    (g : Host) (i : IrqIn) (hf : InFlight D r g) (hcs : g.cmd_is_stop = true)
    (hi : irq_early_return i = false) :
    Completed D r (aml_sd_emmc_data_thread cfg (aml_sd_emmc_irq g i).1) := by
  have hf1 := irq_in_flight D r g i hf
  obtain ⟨m, hm, _, _, _⟩ := hf
  obtain ⟨e, st, x, rg, w, heq, hx⟩ := irq_frame_live g m i hm hi
  have hc1 : (aml_sd_emmc_irq g i).1.cmd_is_stop = true := by
    rw [heq]
    exact hcs
  have hx1 : (aml_sd_emmc_irq g i).1.xfer_step ≠ XferStep.XFER_TIMER_TIMEOUT := by
    rw [heq]
    show x ≠ _
    rcases hx with hx | hx
    · rw [hx, hcs]
      decide
    · rw [hx]
      decide
  rcases thread_dispatch_completes cfg D r _ hf1 hx1 (Or.inl hc1) with h1 | h1
  · exact h1
  · rw [hc1] at h1
    exact absurd h1.1 (by decide)

/-- An interrupt that passes the entry tests with a status outside the
classification chain, on a host that holds a request: it returns `IRQ_HANDLED`,
which does not wake the deferred dispatch, and keeps the request. -/
theorem irq_unclassified_live (h : Host) (m : MmcRequest) (i : IrqIn) (hm : h.mrq = some m)
    (hi : irq_early_return i = false)
    (hc : irq_classify (i.gstatus &&& 0xffff) = IrqClass.unknown) :
    (aml_sd_emmc_irq h i).2 = IrqReturn.IRQ_HANDLED
      ∧ (aml_sd_emmc_irq h i).1.xfer_step = XferStep.XFER_IRQ_UNKNOWN_IRQ
      ∧ (aml_sd_emmc_irq h i).1.mrq = some m
      ∧ (aml_sd_emmc_irq h i).1.done = h.done := by
  have hrun : aml_sd_emmc_irq h i
      = ({ (write_gstatus
              { h with xfer_step := if h.cmd_is_stop then XferStep.XFER_IRQ_TASKLET_BUSY
                                    else XferStep.XFER_IRQ_OCCUR }
              (i.gstatus &&& 0xffff)) with
            xfer_step := XferStep.XFER_IRQ_UNKNOWN_IRQ }, IrqReturn.IRQ_HANDLED) := by
    unfold aml_sd_emmc_irq
    simp [hi, hm, irq_apply, hc]
  rw [hrun]
  exact ⟨rfl, rfl, hm, rfl⟩

/-- The status latched by the status branches of the interrupt handler on a
host that holds a request: `HOST_TASKLET_DATA` or `HOST_TASKLET_CMD` for the end
of the chain, one of the four error statuses for the error classes. -/
theorem irq_apply_status (g : Host) (m : MmcRequest) (v : Nat) (hm : g.mrq = some m)
    (hc : irq_classify v ≠ IrqClass.unknown) :
    (irq_classify v = IrqClass.done →
        (irq_apply g v).status = HostStatus.HOST_TASKLET_DATA
          ∨ (irq_apply g v).status = HostStatus.HOST_TASKLET_CMD)
      ∧ (irq_classify v ≠ IrqClass.done →
        (irq_apply g v).status = HostStatus.HOST_RSP_TIMEOUT_ERR
          ∨ (irq_apply g v).status = HostStatus.HOST_DAT_TIMEOUT_ERR
          ∨ (irq_apply g v).status = HostStatus.HOST_RSP_CRC_ERR
          ∨ (irq_apply g v).status = HostStatus.HOST_DAT_CRC_ERR) := by
  unfold irq_apply
  cases hcl : irq_classify v with
  | unknown => exact absurd hcl hc
  | dat_crc => simp [set_cmd_error, hm]
  | rsp_crc => simp [set_cmd_error, hm]
  | rsp_timeout => simp [set_cmd_error, hm]
  | dat_timeout => simp [set_cmd_error, hm]
  | done =>
    simp only [hm, set_cmd_error]
    refine ⟨fun _ => ?_, fun hn => absurd rfl hn⟩
    by_cases hd : m.data.isSome = true
    · exact Or.inl (if_pos hd)
    · exact Or.inr (if_neg hd)

/-- The status latched by a classified interrupt on a host that holds a
request. -/
theorem irq_classified_status (h : Host) (m : MmcRequest) (i : IrqIn) (hm : h.mrq = some m)
    (hi : irq_early_return i = false)
    (hc : irq_classify (i.gstatus &&& 0xffff) ≠ IrqClass.unknown) :
    (irq_classify (i.gstatus &&& 0xffff) = IrqClass.done →
        (aml_sd_emmc_irq h i).1.status = HostStatus.HOST_TASKLET_DATA
          ∨ (aml_sd_emmc_irq h i).1.status = HostStatus.HOST_TASKLET_CMD)
      ∧ (irq_classify (i.gstatus &&& 0xffff) ≠ IrqClass.done →
        (aml_sd_emmc_irq h i).1.status = HostStatus.HOST_RSP_TIMEOUT_ERR
          ∨ (aml_sd_emmc_irq h i).1.status = HostStatus.HOST_DAT_TIMEOUT_ERR
          ∨ (aml_sd_emmc_irq h i).1.status = HostStatus.HOST_RSP_CRC_ERR
          ∨ (aml_sd_emmc_irq h i).1.status = HostStatus.HOST_DAT_CRC_ERR) := by
  have hs := irq_apply_status
    (write_gstatus
      { h with xfer_step := if h.cmd_is_stop then XferStep.XFER_IRQ_TASKLET_BUSY
                            else XferStep.XFER_IRQ_OCCUR }
      (i.gstatus &&& 0xffff))
    m (i.gstatus &&& 0xffff) hm hc
  have hfst : (aml_sd_emmc_irq h i).1
      = irq_apply (write_gstatus
          { h with xfer_step := if h.cmd_is_stop then XferStep.XFER_IRQ_TASKLET_BUSY
                                else XferStep.XFER_IRQ_OCCUR }
          (i.gstatus &&& 0xffff)) (i.gstatus &&& 0xffff) := by
    have hn : h.mrq.isNone = false := by
      rw [hm]
      rfl
    have hsm : h.mrq.isSome = true := by
      rw [hm]
      rfl
    unfold aml_sd_emmc_irq
    simp only [hi, hn, hsm, Bool.false_and, if_true, Bool.false_eq_true, if_false,
      ite_pair_fst]
  rw [hfst]
  exact hs

/-- The branches of the deferred dispatch on a live request with no STOP in
flight: a success status completes the request, an error status completes it
when the test for a STOP fails and sends the synthesized STOP when it holds. -/
theorem thread_dispatch_paths (cfg : BuildCfg) (D : List MmcRequest) (r : MmcRequest)
    (g : Host) (m : MmcRequest) (hf : InFlight D r g) (hm : g.mrq = some m)
    (hx : g.xfer_step ≠ XferStep.XFER_TIMER_TIMEOUT) (hcs : g.cmd_is_stop = false) :
    ((g.status = HostStatus.HOST_TASKLET_DATA ∨ g.status = HostStatus.HOST_TASKLET_CMD) →
        Completed D r (aml_sd_emmc_data_thread cfg g))
      ∧ ((g.status = HostStatus.HOST_RSP_TIMEOUT_ERR ∨ g.status = HostStatus.HOST_DAT_TIMEOUT_ERR
            ∨ g.status = HostStatus.HOST_RSP_CRC_ERR ∨ g.status = HostStatus.HOST_DAT_CRC_ERR) →
          (thread_sends_stop g m = false → Completed D r (aml_sd_emmc_data_thread cfg g))
          ∧ (thread_sends_stop g m = true →
              aml_sd_emmc_data_thread cfg g = aml_sd_emmc_send_stop cfg g)) := by
  obtain ⟨m0, hm0, hid, hd, hst⟩ := hf
  have hmm : m0 = m := Option.some.inj (hm0.symm.trans hm)
  subst hmm
  have hnf : ¬ (g.xfer_step = XferStep.XFER_FINISHED
      ∨ g.xfer_step = XferStep.XFER_TIMER_TIMEOUT) := by
    rintro (hc | hc)
    · rw [hc] at hst
      simp at hst
    · exact hx hc
  have hrun : aml_sd_emmc_data_thread cfg g
      = (match g.status with
        | HostStatus.HOST_TASKLET_DATA | HostStatus.HOST_TASKLET_CMD =>
          match m0.data with
          | some data =>
            if m0.cmd.opcode ≠ 0 then
              aml_sd_emmc_request_done
                { g with sd_emmc_error_flag := 0, xfer_step := XferStep.XFER_TASKLET_DATA }
                { m0 with data := some { data with
                            bytes_xfered := (data.blksz * data.blocks) % 4294967296 },
                          cmd := { m0.cmd with error := 0 } }
            else
              aml_sd_emmc_request_done
                { g with sd_emmc_error_flag := 0, xfer_step := XferStep.XFER_TASKLET_CMD }
                { m0 with cmd := { m0.cmd with error := 0 } }
          | none =>
            aml_sd_emmc_request_done
              { g with sd_emmc_error_flag := 0, xfer_step := XferStep.XFER_TASKLET_CMD }
              { m0 with cmd := { m0.cmd with error := 0 } }
        | HostStatus.HOST_RSP_TIMEOUT_ERR | HostStatus.HOST_DAT_TIMEOUT_ERR
        | HostStatus.HOST_RSP_CRC_ERR | HostStatus.HOST_DAT_CRC_ERR =>
          if thread_sends_stop g m0 then aml_sd_emmc_send_stop cfg g
          else aml_sd_emmc_request_done g m0
        | HostStatus.HOST_INVALID => g) := by
    unfold aml_sd_emmc_data_thread
    rw [if_neg hnf]
    simp only [hm0, hcs, Bool.false_eq_true, if_false]
    rfl
  rw [hrun]
  have hok : ∀ data, m0.data = some data →
      Completed D r
        (if m0.cmd.opcode ≠ 0 then
          aml_sd_emmc_request_done
            { g with sd_emmc_error_flag := 0, xfer_step := XferStep.XFER_TASKLET_DATA }
            { m0 with data := some { data with
                        bytes_xfered := (data.blksz * data.blocks) % 4294967296 },
                      cmd := { m0.cmd with error := 0 } }
        else
          aml_sd_emmc_request_done
            { g with sd_emmc_error_flag := 0, xfer_step := XferStep.XFER_TASKLET_CMD }
            { m0 with cmd := { m0.cmd with error := 0 } }) := by
    intro data hdata
    split
    · exact request_done_completed D r _ _ hd ((req_id_bytes _ data _ _ hdata).trans hid)
    · exact request_done_completed D r _ _ hd ((req_id_error _ _).trans hid)
  have hsucc : Completed D r
      (match m0.data with
        | some data =>
          if m0.cmd.opcode ≠ 0 then
            aml_sd_emmc_request_done
              { g with sd_emmc_error_flag := 0, xfer_step := XferStep.XFER_TASKLET_DATA }
              { m0 with data := some { data with
                          bytes_xfered := (data.blksz * data.blocks) % 4294967296 },
                        cmd := { m0.cmd with error := 0 } }
          else
            aml_sd_emmc_request_done
              { g with sd_emmc_error_flag := 0, xfer_step := XferStep.XFER_TASKLET_CMD }
              { m0 with cmd := { m0.cmd with error := 0 } }
        | none =>
          aml_sd_emmc_request_done
            { g with sd_emmc_error_flag := 0, xfer_step := XferStep.XFER_TASKLET_CMD }
            { m0 with cmd := { m0.cmd with error := 0 } }) := by
    split
    · rename_i data hdata
      exact hok data hdata
    · exact request_done_completed D r _ _ hd ((req_id_error _ _).trans hid)
  have herr : (thread_sends_stop g m0 = false →
        Completed D r (if thread_sends_stop g m0 then aml_sd_emmc_send_stop cfg g
          else aml_sd_emmc_request_done g m0))
      ∧ (thread_sends_stop g m0 = true →
        (if thread_sends_stop g m0 then aml_sd_emmc_send_stop cfg g
          else aml_sd_emmc_request_done g m0) = aml_sd_emmc_send_stop cfg g) := by
    constructor
    · intro hs
      rw [hs]
      exact request_done_completed D r _ _ hd hid
    · intro hs
      rw [hs]
      rfl
  constructor
  · rintro (hs | hs)
    · rw [hs]
      exact hsucc
    · rw [hs]
      exact hsucc
  · rintro (hs | hs | hs | hs)
    · rw [hs]
      exact herr
    · rw [hs]
      exact herr
    · rw [hs]
      exact herr
    · rw [hs]
      exact herr

/-- An accepted request is the one the host holds when `aml_sd_emmc_request`
returns. -/
theorem request_accepted_mrq (cfg : BuildCfg) (h : Host) (mrq : MmcRequest)
    (hacc : h.is_in = true ∧ (h.init_flag = true ∨ h.card_type ≠ CardType.CARD_TYPE_SD)) :
    (aml_sd_emmc_request cfg h mrq false).mrq = some mrq := by
  have hg : (!h.is_in || (!h.init_flag && h.card_type == CardType.CARD_TYPE_SD)) = false := by
    rcases hacc with ⟨h1, h2 | h2⟩
    · simp [h1, h2]
    · simp [h1, h2]
  unfold aml_sd_emmc_request
  simp only [Bool.false_eq_true, if_false, hg]
  obtain ⟨rg, w, gt, b, n, d, e⟩ := start_cmd_frame cfg
    { (if mrq.cmd.opcode = 0 then { h with init_flag := true } else h) with
        mrq := some mrq, xfer_step := XferStep.XFER_START,
        opcode := mrq.cmd.opcode, arg := mrq.cmd.arg } mrq
  rw [e]

/-- A watchdog firing on a host that holds a request, in a transfer state other
than `XFER_FINISHED`, `XFER_IRQ_TASKLET_DATA` and `XFER_IRQ_TASKLET_CMD`, runs
the forced timeout. -/
theorem watchdog_live_forced (cfg : BuildCfg) (g : Host) (m : MmcRequest)
    (hm : g.mrq = some m) (hfin : g.xfer_step ≠ XferStep.XFER_FINISHED)
    (hp : g.xfer_step ≠ XferStep.XFER_IRQ_TASKLET_DATA
      ∧ g.xfer_step ≠ XferStep.XFER_IRQ_TASKLET_CMD) :
    aml_sd_emmc_timeout cfg g = timeout_handle cfg g m := by
  have hnp : ¬ (g.xfer_step = XferStep.XFER_IRQ_TASKLET_DATA
      ∨ g.xfer_step = XferStep.XFER_IRQ_TASKLET_CMD) := by
    rintro (hc | hc)
    · exact hp.1 hc
    · exact hp.2 hc
  unfold aml_sd_emmc_timeout
  split
  · rename_i hn
    rw [hm] at hn
    exact Option.noConfusion hn
  · rename_i m2 hs
    have hmm : m2 = m := Option.some.inj (hs.symm.trans hm)
    rw [if_neg hfin, if_neg hnp, hmm]

/-- With the synthesized STOP in flight, a classified interrupt wakes the
dispatch and the dispatch completes the request. -/
theorem stop_round_completes (cfg : BuildCfg) (D : List MmcRequest) (r : MmcRequest)
    (g : Host) (hf : InFlight D r g) (hcs : g.cmd_is_stop = true) :
    g.cmd_is_stop = true ∧ g.done = D
      ∧ ∀ i2 : IrqIn, irq_early_return i2 = false →
          irq_classify (i2.gstatus &&& 0xffff) ≠ IrqClass.unknown →
          (aml_sd_emmc_irq g i2).2 = IrqReturn.IRQ_WAKE_THREAD
          ∧ Completed D r (aml_sd_emmc_data_thread cfg (aml_sd_emmc_irq g i2).1) := by
  have hk := hf
  obtain ⟨m, hm, _, hd, _⟩ := hk
  refine ⟨hcs, hd, ?_⟩
  intro i2 hi2 hc2
  exact ⟨(irq_classified_live g m i2 hm hi2 hc2).1,
    stop_irq_dispatch_completes cfg D r g i2 hf hcs hi2⟩

/-- C2, counterexample. CMD13 is accepted, then an interrupt reports only a
descriptor error (a status bit outside the classification chain) and the
deferred dispatch runs: the callback has not been called, the host still holds
the request, and the transfer state is `XFER_IRQ_UNKNOWN_IRQ`. -/
theorem unknown_irq_leaves_request_uncompleted :
    host_emmc.is_in = true
      ∧ (run cfg_sgmap host_emmc_cmd13
          [Event.irq { girq_en := 0x3fff, gstatus := 0x200, sdio_irq_thread := false },
           Event.thread]).done = []
      ∧ (run cfg_sgmap host_emmc_cmd13
          [Event.irq { girq_en := 0x3fff, gstatus := 0x200, sdio_irq_thread := false },
           Event.thread]).mrq = some req_cmd13
      ∧ (run cfg_sgmap host_emmc_cmd13
          [Event.irq { girq_en := 0x3fff, gstatus := 0x200, sdio_irq_thread := false },
           Event.thread]).xfer_step = XferStep.XFER_IRQ_UNKNOWN_IRQ := by
  refine ⟨rfl, by decide, by decide, by decide⟩

/-- C2, amended. Completion callback of an accepted request, each handler taken
as one event. For every accepted request and every following sequence of
interrupt, deferred dispatch and watchdog events, `mmc_request_done` has been
called at most once, and for that request; it has been called exactly when the
host has released the request (`host->mrq = NULL`), in particular whenever
`xfer_step` is `XFER_FINISHED`, and from then on no event calls it again. Every
completing path calls it exactly once. A classified interrupt (one that passes
the entry tests with a status bit of the classification chain) returns
`IRQ_WAKE_THREAD`, and the deferred dispatch that follows completes the request
on the end of the chain (success) and on an error for which the test for a STOP
fails (error without STOP); on an error for which the test holds it sends the
synthesized STOP without a callback, and the next classified interrupt and
dispatch complete the request (STOP completion). A watchdog firing on the
accepted request completes it when its test for a STOP fails (forced timeout),
and otherwise sends the STOP, which completes likewise. An interrupt that
passes the entry tests with no status bit of the classification chain returns
`IRQ_HANDLED`, which does not wake the dispatch, and calls no callback: the
host keeps the request in the state `XFER_IRQ_UNKNOWN_IRQ`. -/
theorem completion_callback_once_on_completing_paths (cfg : BuildCfg) (h : Host)
    (mrq : MmcRequest)
    (hacc : h.is_in = true ∧ (h.init_flag = true ∨ h.card_type ≠ CardType.CARD_TYPE_SD))
    (evs more : List Event) :
    ((run cfg (aml_sd_emmc_request cfg h mrq false) evs).done = h.done
        ∨ ∃ m, (run cfg (aml_sd_emmc_request cfg h mrq false) evs).done = h.done ++ [m]
            ∧ req_id m = req_id mrq)
    ∧ ((run cfg (aml_sd_emmc_request cfg h mrq false) evs).mrq = none
        ↔ ∃ m, (run cfg (aml_sd_emmc_request cfg h mrq false) evs).done = h.done ++ [m])
    ∧ ((run cfg (aml_sd_emmc_request cfg h mrq false) evs).xfer_step = XferStep.XFER_FINISHED →
        (∃ m, (run cfg (aml_sd_emmc_request cfg h mrq false) evs).done = h.done ++ [m]
          ∧ req_id m = req_id mrq)
        ∧ (run cfg (aml_sd_emmc_request cfg h mrq false) (evs ++ more)).done
            = (run cfg (aml_sd_emmc_request cfg h mrq false) evs).done)
    ∧ ((run cfg (aml_sd_emmc_request cfg h mrq false) evs).mrq = none →
        (run cfg (aml_sd_emmc_request cfg h mrq false) (evs ++ more)).done
          = (run cfg (aml_sd_emmc_request cfg h mrq false) evs).done)
    ∧ (∀ i : IrqIn, irq_early_return i = false →
        irq_classify (i.gstatus &&& 0xffff) ≠ IrqClass.unknown →
        (aml_sd_emmc_irq (aml_sd_emmc_request cfg h mrq false) i).2 = IrqReturn.IRQ_WAKE_THREAD
        ∧ (((aml_sd_emmc_request cfg h mrq false).cmd_is_stop = true
              ∨ irq_classify (i.gstatus &&& 0xffff) = IrqClass.done
              ∨ thread_sends_stop (aml_sd_emmc_request cfg h mrq false) mrq = false) →
            Completed h.done mrq
              (run cfg (aml_sd_emmc_request cfg h mrq false) [Event.irq i, Event.thread]))
        ∧ (((aml_sd_emmc_request cfg h mrq false).cmd_is_stop = false
              ∧ irq_classify (i.gstatus &&& 0xffff) ≠ IrqClass.done
              ∧ thread_sends_stop (aml_sd_emmc_request cfg h mrq false) mrq = true) →
            (run cfg (aml_sd_emmc_request cfg h mrq false)
                [Event.irq i, Event.thread]).cmd_is_stop = true
            ∧ (run cfg (aml_sd_emmc_request cfg h mrq false)
                [Event.irq i, Event.thread]).done = h.done
            ∧ ∀ i2 : IrqIn, irq_early_return i2 = false →
                irq_classify (i2.gstatus &&& 0xffff) ≠ IrqClass.unknown →
                (aml_sd_emmc_irq (run cfg (aml_sd_emmc_request cfg h mrq false)
                    [Event.irq i, Event.thread]) i2).2 = IrqReturn.IRQ_WAKE_THREAD
                ∧ Completed h.done mrq
                    (run cfg (aml_sd_emmc_request cfg h mrq false)
                      [Event.irq i, Event.thread, Event.irq i2, Event.thread])))
    ∧ ((timeout_sends_stop (aml_sd_emmc_request cfg h mrq false) mrq = false →
          Completed h.done mrq
            (run cfg (aml_sd_emmc_request cfg h mrq false) [Event.watchdog]))
        ∧ (timeout_sends_stop (aml_sd_emmc_request cfg h mrq false) mrq = true →
            (run cfg (aml_sd_emmc_request cfg h mrq false) [Event.watchdog]).cmd_is_stop = true
            ∧ (run cfg (aml_sd_emmc_request cfg h mrq false) [Event.watchdog]).done = h.done
            ∧ ∀ i2 : IrqIn, irq_early_return i2 = false →
                irq_classify (i2.gstatus &&& 0xffff) ≠ IrqClass.unknown →
                (aml_sd_emmc_irq (run cfg (aml_sd_emmc_request cfg h mrq false)
                    [Event.watchdog]) i2).2 = IrqReturn.IRQ_WAKE_THREAD
                ∧ Completed h.done mrq
                    (run cfg (aml_sd_emmc_request cfg h mrq false)
                      [Event.watchdog, Event.irq i2, Event.thread])))
    ∧ (∀ i : IrqIn, irq_early_return i = false →
        irq_classify (i.gstatus &&& 0xffff) = IrqClass.unknown →
        (aml_sd_emmc_irq (aml_sd_emmc_request cfg h mrq false) i).2 = IrqReturn.IRQ_HANDLED
        ∧ (run cfg (aml_sd_emmc_request cfg h mrq false) [Event.irq i]).xfer_step
            = XferStep.XFER_IRQ_UNKNOWN_IRQ
        ∧ (run cfg (aml_sd_emmc_request cfg h mrq false) [Event.irq i]).mrq.isSome = true
        ∧ (run cfg (aml_sd_emmc_request cfg h mrq false) [Event.irq i]).done = h.done) := by
  have h0 := request_accepted_in_flight cfg h mrq hacc
  have hmA := request_accepted_mrq cfg h mrq hacc
  have hl := run_life cfg h.done mrq evs _ (Or.inl h0)
  refine ⟨?_, ?_, ?_, ?_, ?_, ?_, ?_⟩
  · rcases hl with ⟨m, _, _, hd, _⟩ | ⟨m, _, hid, hd⟩
    · exact Or.inl hd
    · exact Or.inr ⟨m, hd, hid⟩
  · rcases hl with ⟨m, hm, _, hd, _⟩ | ⟨m, hm, _, hd⟩
    · constructor
      · intro hn
        rw [hm] at hn
        exact Option.noConfusion hn
      · rintro ⟨m2, hd2⟩
        rw [hd] at hd2
        have := congrArg List.length hd2
        simp at this
    · exact ⟨fun _ => ⟨m, hd⟩, fun _ => hm⟩
  · intro hfin
    rcases hl with ⟨m, _, _, _, hx⟩ | ⟨m, hm, hid, hd⟩
    · rw [hfin] at hx
      simp at hx
    · refine ⟨⟨m, hd, hid⟩, ?_⟩
      rw [run_append]
      exact run_done_released cfg more _ hm
  · intro hm
    rw [run_append]
    exact run_done_released cfg more _ hm
  · intro i hi hc
    have hf1 := irq_in_flight h.done mrq _ i h0
    obtain ⟨hw, hx, _, hcs1⟩ := irq_classified_live _ mrq i hmA hi hc
    obtain ⟨hsd, hse⟩ := irq_classified_status _ mrq i hmA hi hc
    obtain ⟨e, st, x, rg, w, heq, _⟩ := irq_frame_live _ mrq i hmA hi
    have hm1 : (aml_sd_emmc_irq (aml_sd_emmc_request cfg h mrq false) i).1.mrq
        = some { mrq with cmd := { mrq.cmd with error := e } } := by
      rw [heq]
    have hts : thread_sends_stop (aml_sd_emmc_irq (aml_sd_emmc_request cfg h mrq false) i).1
          { mrq with cmd := { mrq.cmd with error := e } }
        = thread_sends_stop (aml_sd_emmc_request cfg h mrq false) mrq := by
      rw [heq]
      rfl
    have hx1 : (aml_sd_emmc_irq (aml_sd_emmc_request cfg h mrq false) i).1.xfer_step
        ≠ XferStep.XFER_TIMER_TIMEOUT := by
      rw [hx]
      split <;> decide
    refine ⟨hw, ?_, ?_⟩
    · intro hcase
      by_cases hcs : (aml_sd_emmc_request cfg h mrq false).cmd_is_stop = true
      · exact stop_irq_dispatch_completes cfg h.done mrq _ i h0 hcs hi
      · have hcs0 : (aml_sd_emmc_irq (aml_sd_emmc_request cfg h mrq false) i).1.cmd_is_stop
            = false := by
          rw [hcs1]
          simpa using hcs
        obtain ⟨hp1, hp2⟩ := thread_dispatch_paths cfg h.done mrq _ _ hf1 hm1 hx1 hcs0
        by_cases hdone : irq_classify (i.gstatus &&& 0xffff) = IrqClass.done
        · exact hp1 (hsd hdone)
        · rcases hcase with h1 | h1 | h1
          · exact absurd h1 hcs
          · exact absurd h1 hdone
          · exact (hp2 (hse hdone)).1 (hts.trans h1)
    · rintro ⟨hcs, hdone, hstop⟩
      have hcs0 : (aml_sd_emmc_irq (aml_sd_emmc_request cfg h mrq false) i).1.cmd_is_stop
          = false := by
        rw [hcs1]
        exact hcs
      obtain ⟨_, hp2⟩ := thread_dispatch_paths cfg h.done mrq _ _ hf1 hm1 hx1 hcs0
      have hsend := (hp2 (hse hdone)).2 (hts.trans hstop)
      have hss := send_stop_in_flight cfg h.done mrq _ hf1
      rw [← hsend] at hss
      exact stop_round_completes cfg h.done mrq _ hss.1 hss.2
  · have hxA : (aml_sd_emmc_request cfg h mrq false).xfer_step ≠ XferStep.XFER_FINISHED
        ∧ (aml_sd_emmc_request cfg h mrq false).xfer_step ≠ XferStep.XFER_IRQ_TASKLET_DATA
        ∧ (aml_sd_emmc_request cfg h mrq false).xfer_step ≠ XferStep.XFER_IRQ_TASKLET_CMD := by
      have hk := h0
      obtain ⟨_, _, _, _, hst⟩ := hk
      rcases hst with e | e | e | e | e <;> rw [e] <;> exact ⟨by decide, by decide, by decide⟩
    have hrun : run cfg (aml_sd_emmc_request cfg h mrq false) [Event.watchdog]
        = timeout_handle cfg (aml_sd_emmc_request cfg h mrq false) mrq :=
      watchdog_live_forced cfg _ mrq hmA hxA.1 hxA.2
    have hdisj := (watchdog_in_flight cfg h.done mrq _ h0).1
    constructor
    · intro hc
      have hnone := (timeout_handle_done_fields cfg _ mrq hc).2.2.2.2.1
      rcases hdisj with h1 | ⟨⟨m, hm, _⟩, _⟩
      · exact h1
      · have hm2 : (timeout_handle cfg (aml_sd_emmc_request cfg h mrq false) mrq).mrq
            = some m := hrun ▸ hm
        rw [hnone] at hm2
        exact Option.noConfusion hm2
    · intro hc
      have hsome := (timeout_handle_stop_fields cfg _ mrq hc).2.2.2.2.2.1
      rcases hdisj with ⟨m, hm, _⟩ | ⟨h1, h2⟩
      · have hm2 : (timeout_handle cfg (aml_sd_emmc_request cfg h mrq false) mrq).mrq
            = none := hrun ▸ hm
        rw [hsome] at hm2
        exact Option.noConfusion hm2
      · exact stop_round_completes cfg h.done mrq _ h1 h2
  · intro i hi hc
    obtain ⟨h1, h2, h3, h4⟩ := irq_unclassified_live _ mrq i hmA hi hc
    have hk := h0
    obtain ⟨_, _, _, hd, _⟩ := hk
    refine ⟨h1, h2, ?_, h4.trans hd⟩
    show (aml_sd_emmc_irq _ i).1.mrq.isSome = true
    rw [h3]
    rfl

/-- C2, amended, evaluated on the eMMC port. CMD13, its end-of-chain interrupt
and the dispatch: the interrupt wakes the dispatch, the state is
`XFER_FINISHED` and the callback has been called once, for CMD13. The 8-block
read with a data CRC error: the dispatch sends the STOP without calling the
callback, and the end-of-chain interrupt of the STOP with its dispatch calls
it once. -/
theorem completion_callback_once_on_completing_paths_witness :
    host_emmc.is_in = true
      ∧ (aml_sd_emmc_irq host_emmc_cmd13 irq_end_of_chain).2 = IrqReturn.IRQ_WAKE_THREAD
      ∧ (run cfg_sgmap host_emmc_cmd13 [Event.irq irq_end_of_chain, Event.thread]).xfer_step
          = XferStep.XFER_FINISHED
      ∧ Completed host_emmc.done req_cmd13
          (run cfg_sgmap host_emmc_cmd13 [Event.irq irq_end_of_chain, Event.thread])
      ∧ (run cfg_sgmap host_emmc_read8 [Event.irq irq_rxd_err, Event.thread]).done
          = host_emmc.done
      ∧ Completed host_emmc.done req_read8
          (run cfg_sgmap host_emmc_read8
            [Event.irq irq_rxd_err, Event.thread, Event.irq irq_end_of_chain, Event.thread]) :=
  ⟨rfl,
   ((completion_callback_once_on_completing_paths cfg_sgmap host_emmc req_cmd13
      ⟨rfl, Or.inl rfl⟩ [] []).2.2.2.2.1 irq_end_of_chain (by decide) (by decide)).1,
   by decide,
   ((completion_callback_once_on_completing_paths cfg_sgmap host_emmc req_cmd13
      ⟨rfl, Or.inl rfl⟩ [] []).2.2.2.2.1 irq_end_of_chain (by decide) (by decide)).2.1
        (Or.inr (Or.inl (by decide))),
   (((completion_callback_once_on_completing_paths cfg_sgmap host_emmc req_read8
      ⟨rfl, Or.inl rfl⟩ [] []).2.2.2.2.1 irq_rxd_err (by decide) (by decide)).2.2
        ⟨by decide, by decide, by decide⟩).2.1,
   ((((completion_callback_once_on_completing_paths cfg_sgmap host_emmc req_read8
      ⟨rfl, Or.inl rfl⟩ [] []).2.2.2.2.1 irq_rxd_err (by decide) (by decide)).2.2
        ⟨by decide, by decide, by decide⟩).2.2
      irq_end_of_chain (by decide) (by decide)).2⟩


/-! ### C11: the re-arm branch of the watchdog is never taken -/

end AmlSdEmmc
